import Mathlib

/-!
Asynchronous MQTT client engine

A shallow embedding of `MQTTAsync.c` and `MQTTProtocolClient.c`: the command
queue, the dispatch done by the sending thread, message-id allocation, the
connect fallback, the completion of a connection with the retry of outbound
publications, the acknowledgement routing and message delivery of the
receiving thread, the persistence of commands with their restoration, the
intake of inbound publications, the keepalive scan, the completion queries
and the string copies of the protocol module.

Conventions of the embedding.

* C `int` values are `Int`; flags that only ever hold 0 or 1 (`connected`,
  `good`, `ping_outstanding`, `cleansession`) are `Bool`.
* A pointer to a heap structure is a `Nat`. The client structures live in a
  heap `Nat → MQTTAsyncs`; a queued command carries the address of its own
  allocation in `ptr`, because the command list stores pointers.
* NULL-able function pointers are `Option Nat` (`none` is NULL); calling one
  appends an `Event` to the trace of the engine.
* Results of calls into code that is not part of the tree (the socket layer,
  the packet codec, the clock, `malloc`) are passed in as an `ExtCalls` record.
* The list library (LinkedList.c) is not part of the tree. A `List*` is a Lean
  list: `ListAppend` adds at the end, `ListInsert` before the first element adds
  in front, `ListDetach` and `ListRemove` unlink the element passed (a position
  of the Lean list), `ListFindItem` yields the first element its callback accepts;
  `ListInsert` with a NULL position adds at the end.
* A read outside an array is undefined behaviour; the embedding returns
  `none` there.
* An `int` has 32 bits; persisted records are sequences of bytes, least
  significant byte first. The size of `size_t` is a parameter where it matters.
* The lists `state.publications` and `state.pending_writes` of the protocol
  module, the reference counts kept in them and the locking are outside the model.
-/

/-! ## Constants -/

/-- Modelled from the spec: the MQTT control packet types of section 6, with the wire codes of `enum msgTypes` (MQTTPacket.h is not part of the tree). -/
abbrev CONNECT : Int := 1
/-- Modelled from the spec: packet type CONNACK. -/
abbrev CONNACK : Int := 2
/-- Modelled from the spec: packet type PUBLISH. -/
abbrev PUBLISH : Int := 3
/-- Modelled from the spec: packet type PUBACK. -/
abbrev PUBACK : Int := 4
/-- Modelled from the spec: packet type PUBREC. -/
abbrev PUBREC : Int := 5
/-- Modelled from the spec: packet type PUBREL. -/
abbrev PUBREL : Int := 6
/-- Modelled from the spec: packet type PUBCOMP. -/
abbrev PUBCOMP : Int := 7
/-- Modelled from the spec: packet type SUBSCRIBE. -/
abbrev SUBSCRIBE : Int := 8
/-- Modelled from the spec: packet type SUBACK. -/
abbrev SUBACK : Int := 9
/-- Modelled from the spec: packet type UNSUBSCRIBE. -/
abbrev UNSUBSCRIBE : Int := 10
/-- Modelled from the spec: packet type UNSUBACK. -/
abbrev UNSUBACK : Int := 11
/-- Modelled from the spec: packet type PINGREQ. -/
abbrev PINGREQ : Int := 12
/-- Modelled from the spec: packet type PINGRESP. -/
abbrev PINGRESP : Int := 13
/-- Modelled from the spec: packet type DISCONNECT. -/
abbrev DISCONNECT : Int := 14

/-- The constant `MAX_MSG_ID` of MQTTProtocolClient.h. -/
abbrev MAX_MSG_ID : Int := 65535

/-- The constant `TCPSOCKET_COMPLETE` of Socket.h. -/
abbrev TCPSOCKET_COMPLETE : Int := 0
/-- The constant `SOCKET_ERROR` of Socket.h. -/
abbrev SOCKET_ERROR : Int := -1
/-- The constant `TCPSOCKET_INTERRUPTED` of Socket.h. -/
abbrev TCPSOCKET_INTERRUPTED : Int := -22

/-- Modelled from the spec: status code `Success` (MQTTAsync.h is not part of the tree). -/
abbrev MQTTCODE_SUCCESS : Int := 0
/-- Modelled from the spec: status code `Failure`. -/
abbrev MQTTCODE_FAILURE : Int := -1
/-- Modelled from the spec: status code `PersistenceError`. -/
abbrev MQTTCODE_PERSISTANCE_ERROR : Int := -2
/-- Modelled from the spec: status code `Disconnected`. -/
abbrev MQTTCODE_DISCONNECT : Int := -3
/-- Modelled from the spec: status code `BadUtf8String`. -/
abbrev MQTTCODE_BAD_UTF8_STRING : Int := -5
/-- Modelled from the spec: status code `NullParameter`. -/
abbrev MQTTCODE_NULL_PARAMETER : Int := -6
/-- Modelled from the spec: status code `BadStructure`. -/
abbrev MQTTCODE_BAD_STRUCTURE : Int := -8
/-- Modelled from the spec: status code `BadQoS`. -/
abbrev MQTTCODE_BAD_QOS : Int := -9
/-- Modelled from the spec: status code `NoMoreMsgIds`. -/
abbrev MQTTCODE_NO_MORE_MSGIDS : Int := -10

/-- Modelled from the spec: `mqtt_version = Default` (MQTTAsync.h is not part of the tree; the source compares against the literals 0, 3 and 4). -/
abbrev MQTTVERSION_DEFAULT : Int := 0
/-- Modelled from the spec: `mqtt_version = v3_1`. -/
abbrev MQTTVERSION_3_1 : Int := 3
/-- Modelled from the spec: `mqtt_version = v3_1_1`. -/
abbrev MQTTVERSION_3_1_1 : Int := 4

/-- Modelled from the spec: the granted qos 0x80 of a SUBACK, which reports a failed subscription (the macro `MQTT_BAD_SUBSCRIBE` is in MQTTAsync.h, not part of the tree). -/
abbrev MQTT_BAD_SUBSCRIBE : Int := 0x80

/-- The errno value `EINPROGRESS` of the platform (a system header). -/
abbrev EINPROGRESS : Int := 36

/-- The macro `URI_TCP` of MQTTAsync.c. -/
def URI_TCP : String := "tcp://"

/-- The test `strncmp(a, b, n) == 0` on two NUL-terminated strings given as their characters. -/
def strncmp_eq : List Char → List Char → Nat → Bool
  | _, _, 0 => true
  | [], [], _ => true
  | a :: as, b :: bs, n + 1 => a == b && strncmp_eq as bs n
  | _, _, _ => false

/-! ## Data model -/

/-- The union `details` of `MQTTAsync_command`; a member is read only under the matching command type. -/
inductive MQTTAsync_details where
  | sub (count : Int) (topics : List String) (qoss : List Int)
  | unsub (count : Int) (topics : List String)
  | pub (destinationName : Option String) (payloadlen : Nat) (payload : List Nat) (qos : Int) (retained : Int)
  | dis (internal : Int) (timeout : Int)
  | conn (timeout : Int) (serverURIcount : Int) (serverURIs : List String) (currentURI : Int) (MQTTVersion : Int)
deriving DecidableEq, Repr

/-- The member `details.dis.internal`. -/
def MQTTAsync_details.dis_internal : MQTTAsync_details → Int
  | .dis internal _ => internal
  | _ => 0

/-- The member `details.dis.timeout`. -/
def MQTTAsync_details.dis_timeout : MQTTAsync_details → Int
  | .dis _ timeout => timeout
  | _ => 0

/-- The member `details.pub.qos`. -/
def MQTTAsync_details.pub_qos : MQTTAsync_details → Int
  | .pub _ _ _ qos _ => qos
  | _ => 0

/-- The member `details.pub.retained`. -/
def MQTTAsync_details.pub_retained : MQTTAsync_details → Int
  | .pub _ _ _ _ retained => retained
  | _ => 0

/-- The member `details.pub.destinationName`. -/
def MQTTAsync_details.pub_destinationName : MQTTAsync_details → Option String
  | .pub d _ _ _ _ => d
  | _ => none

/-- The member `details.pub.payloadlen`. -/
def MQTTAsync_details.pub_payloadlen : MQTTAsync_details → Nat
  | .pub _ len _ _ _ => len
  | _ => 0

/-- The member `details.pub.payload`. -/
def MQTTAsync_details.pub_payload : MQTTAsync_details → List Nat
  | .pub _ _ p _ _ => p
  | _ => []

/-- The assignment `details.pub.destinationName = NULL`. -/
def MQTTAsync_details.clear_destinationName : MQTTAsync_details → MQTTAsync_details
  | .pub _ len p qos retained => .pub none len p qos retained
  | d => d

/-- The member `details.conn.timeout`. -/
def MQTTAsync_details.conn_timeout : MQTTAsync_details → Int
  | .conn timeout _ _ _ _ => timeout
  | _ => 0

/-- The member `details.conn.serverURIcount`. -/
def MQTTAsync_details.serverURIcount : MQTTAsync_details → Int
  | .conn _ n _ _ _ => n
  | _ => 0

/-- The member `details.conn.serverURIs`. -/
def MQTTAsync_details.serverURIs : MQTTAsync_details → List String
  | .conn _ _ uris _ _ => uris
  | _ => []

/-- The member `details.conn.currentURI`. -/
def MQTTAsync_details.currentURI : MQTTAsync_details → Int
  | .conn _ _ _ cur _ => cur
  | _ => 0

/-- The member `details.conn.MQTTVersion`. -/
def MQTTAsync_details.MQTTVersion : MQTTAsync_details → Int
  | .conn _ _ _ _ v => v
  | _ => 0

/-- The assignment to `details.conn.currentURI`. -/
def MQTTAsync_details.set_currentURI (cur : Int) : MQTTAsync_details → MQTTAsync_details
  | .conn timeout n uris _ v => .conn timeout n uris cur v
  | d => d

/-- The assignment to `details.conn.MQTTVersion`. -/
def MQTTAsync_details.set_MQTTVersion (v : Int) : MQTTAsync_details → MQTTAsync_details
  | .conn timeout n uris cur _ => .conn timeout n uris cur v
  | d => d

/-- The struct `MQTTAsync_command`. -/
structure MQTTAsync_command where
  type : Int := 0
  onSuccess : Option Nat := none
  onFailure : Option Nat := none
  token : Int := 0
  context : Nat := 0
  start_time : Nat := 0
  details : MQTTAsync_details := .conn 0 0 [] 0 0
deriving DecidableEq, Repr

/-- The struct `MQTTAsync_queuedCommand`; `client` is the `MQTTAsyncs*` and `ptr` the address of the allocation itself. -/
structure MQTTAsync_queuedCommand where
  command : MQTTAsync_command := {}
  client : Nat := 0
  seqno : Nat := 0
  ptr : Nat := 0
deriving DecidableEq, Repr

/-- The struct `Publications` (a stored topic and payload with its reference count). -/
structure Publications where
  topic : Option String := none
  topiclen : Nat := 0
  payload : List Nat := []
  payloadlen : Nat := 0
  refcount : Int := 0
deriving DecidableEq, Repr

/-- The struct `Messages`: one entry of `outboundMsgs` or `inboundMsgs`. -/
structure Messages where
  msgid : Int := 0
  qos : Int := 0
  retain : Int := 0
  publish : Publications := {}
  lastTouch : Nat := 0
  nextMessageType : Int := 0
deriving DecidableEq, Repr

/-- A typed buffer handed to the persistence backend (`bufs[i]` with `lens[i]`). -/
inductive PersistBuf where
  | int (v : Int)
  | size (n : Nat)
  | str (s : String)
  | bytes (b : List Nat)
deriving DecidableEq, Repr

/-- One entry of a client's delivery backlog (`qEntry` with its `MQTTAsync_message`). -/
structure qEntry where
  topicName : Option String := none
  topicLen : Nat := 0
  payload : List Nat := []
  qos : Int := 0
  retained : Int := 0
  dup : Int := 0
  msgid : Int := 0
  seqno : Nat := 0
deriving DecidableEq, Repr

/-- The struct `willMessages`. -/
structure willMessages where
  topic : String := ""
  msg : String := ""
  retained : Int := 0
  qos : Int := 0
deriving DecidableEq, Repr

/-- The struct `Clients` as far as the modelled functions use it; `store` is the content reachable through `phandle`, `socket`, `lastSent` and `lastReceived` are the members of `net`. -/
structure Clients where
  clientID : String := ""
  connected : Bool := false
  good : Bool := false
  ping_outstanding : Bool := false
  connect_state : Int := 0
  socket : Int := 0
  msgID : Int := 0
  keepAliveInterval : Int := 0
  retryInterval : Int := 0
  maxInflightMessages : Int := 0
  cleansession : Bool := false
  MQTTVersion : Int := 0
  will : Option willMessages := none
  username : Option String := none
  password : Option String := none
  inboundMsgs : List Messages := []
  outboundMsgs : List Messages := []
  messageQueue : List qEntry := []
  persistence : Bool := false
  store : List (String × List PersistBuf) := []
  lastSent : Nat := 0
  lastReceived : Nat := 0
deriving DecidableEq, Repr

/-- The struct `MQTTAsyncs`: one client handle. -/
structure MQTTAsyncs where
  serverURI : String := ""
  ssl : Int := 0
  c : Clients := {}
  cl : Option Nat := none
  ma : Option Nat := none
  dc : Option Nat := none
  context : Nat := 0
  connect : MQTTAsync_command := {}
  disconnect : MQTTAsync_command := {}
  pending_write : Option Nat := none
  responses : List MQTTAsync_queuedCommand := []
  command_seqno : Nat := 0
deriving DecidableEq, Repr

/-- What `data.alt` of the `MQTTAsync_successData` holds when the success callback of a SUBSCRIBE is called: `alt.qos` after a SUBACK with one granted qos, the array `alt.qosList` after one with several, and nothing written after one with none. -/
inductive SubscribeData where
  | qos (q : Int)
  | qosList (l : List Int)
  | unset
deriving DecidableEq, Repr

/-- The granted qos values a success callback of a SUBSCRIBE can read, in order. -/
def SubscribeData.values : SubscribeData → List Int
  | .qos q => [q]
  | .qosList l => l
  | .unset => []

/-- What the engine does towards the application and the network, in order; `onSuccess` and `onFailure` are calls of a command callback with the data the publish and disconnect paths pass, `subscribeSuccess` the success callback of a SUBSCRIBE with its `MQTTAsync_successData`, `failureData` a failure callback with an `MQTTAsync_failureData` of the given token and code, `messageArrived` the message-arrived callback with the topic, the topic length passed and the message of a queue entry; `sendPuback`, `sendPubrec`, `sendPubcomp` and `sendPingreq` are calls of the packet codec for the acknowledgements of inbound publications and for the keepalive. -/
inductive Event where
  | connectionLost (client : Nat)
  | deliveryComplete (client : Nat) (msgid : Int)
  | onSuccess (client : Nat) (callback : Nat) (command : MQTTAsync_command)
  | onFailure (client : Nat) (callback : Nat) (command : MQTTAsync_command)
  | connectAttempt (client : Nat) (serverURI : String) (MQTTVersion : Int)
  | sendSubscribe (client : Nat) (msgid : Int)
  | sendUnsubscribe (client : Nat) (msgid : Int)
  | sendPublish (client : Nat) (msgid : Int) (dup : Int) (qos : Int)
  | sendPubrel (client : Nat) (msgid : Int)
  | sendDisconnect (client : Nat)
  | socketClose (socket : Int)
  | addPendingWrite (socket : Int)
  | subscribeSuccess (client : Nat) (callback : Nat) (token : Int) (alt : SubscribeData)
  | failureData (client : Nat) (callback : Nat) (token : Int) (code : Int)
  | messageArrived (client : Nat) (callback : Nat) (topicName : Option String) (topicLen : Nat)
      (msg : qEntry)
  | sendPuback (client : Nat) (msgid : Int)
  | sendPubrec (client : Nat) (msgid : Int)
  | sendPubcomp (client : Nat) (msgid : Int)
  | sendPingreq (client : Nat)
deriving DecidableEq, Repr

/-- The file-scope state of MQTTAsync.c: the client structures, the list `commands`, and the trace of what was emitted; `noPendingWrites` is the answer of `Socket_noPendingWrites` per socket. -/
structure Engine where
  clients : Nat → MQTTAsyncs := fun _ => {}
  commands : List MQTTAsync_queuedCommand := []
  noPendingWrites : Int → Bool := fun _ => true
  trace : List Event := []

/-- Results of the calls one engine step makes into code outside the tree: `now` is the millisecond clock of `MQTTAsync_start_clock`, `time` the value of `time()`, `rc` a completion code, `connect_state` and `socket` what `MQTTProtocol_connect` leaves in the client, `uninit` the content of memory `malloc` returned and nobody wrote, `ptr` the address `malloc` returns, `remove_rc` the result of `MQTTPersistence_remove` where a step also sends a packet. -/
structure ExtCalls where
  now : Nat := 0
  time : Nat := 0
  rc : Int := 0
  connect_state : Int := 0
  socket : Int := 0
  uninit : Int := 0
  ptr : Nat := 0
  remove_rc : Int := 0
deriving DecidableEq, Repr

/-! ## Small helpers on the engine state -/

/-- Store `m` at address `h` of the client heap. -/
def Engine.setClient (e : Engine) (h : Nat) (m : MQTTAsyncs) : Engine :=
  { e with clients := Function.update e.clients h m }

/-- Store `c` as the `Clients` structure of the client at `h`. -/
def Engine.setC (e : Engine) (h : Nat) (c : Clients) : Engine :=
  e.setClient h { e.clients h with c := c }

/-- Record an emitted event. -/
def Engine.emit (e : Engine) (ev : Event) : Engine :=
  { e with trace := e.trace ++ [ev] }

/-- Calling a NULL-able callback of a command: nothing when the pointer is NULL. -/
def Engine.call (e : Engine) (callback : Option Nat) (ev : Nat → Event) : Engine :=
  match callback with
  | some f => e.emit (ev f)
  | none => e

/-! ## Persistence of commands -/

/-- Modelled from the spec: the key `"c-<seqno>"` built by `sprintf(key, "%s%d", PERSISTENCE_COMMAND_KEY, seqno)` (the macro is in MQTTPersistence.h, not part of the tree); `%d` prints the `unsigned int` as an `int`. -/
def commandKey (seqno : Nat) : String :=
  "c-" ++ toString (if seqno < 2147483648 then (seqno : Int) else (seqno : Int) - 4294967296)

/-- The buffers `bufs[0..nbufs)` that `MQTTAsync_persistCommand` builds for a command; empty when `nbufs` stays 0. -/
def MQTTAsync_persistCommand_bufs (command : MQTTAsync_command) : List PersistBuf :=
  if command.type = SUBSCRIBE then
    match command.details with
    | .sub count topics qoss =>
      [.int command.type, .int command.token, .int count] ++
        (List.range count.toNat).flatMap (fun i => [.str (topics.getD i ""), .int (qoss.getD i 0)])
    | _ => [.int command.type, .int command.token]
  else if command.type = UNSUBSCRIBE then
    match command.details with
    | .unsub count topics =>
      [.int command.type, .int command.token, .int count] ++
        (List.range count.toNat).map (fun i => .str (topics.getD i ""))
    | _ => [.int command.type, .int command.token]
  else if command.type = PUBLISH then
    match command.details with
    | .pub destinationName payloadlen payload qos retained =>
      [.int command.type, .int command.token, .str (destinationName.getD ""), .size payloadlen,
        .bytes (payload.take payloadlen), .int qos, .int retained]
    | _ => [.int command.type, .int command.token]
  else []

/-- The function `MQTTAsync_persistCommand`: for SUBSCRIBE, UNSUBSCRIBE and PUBLISH the client's `command_seqno` (an `unsigned int` of 32 bits) is incremented, the record is put under the key of the new seqno and the queued command remembers it. -/
def MQTTAsync_persistCommand (qcmd : MQTTAsync_queuedCommand) (aclient : MQTTAsyncs) :
    MQTTAsyncs × MQTTAsync_queuedCommand :=
  let bufs := MQTTAsync_persistCommand_bufs qcmd.command
  if qcmd.command.type = SUBSCRIBE ∨ qcmd.command.type = UNSUBSCRIBE ∨ qcmd.command.type = PUBLISH then
    let seqno := (aclient.command_seqno + 1) % 4294967296
    let key := commandKey seqno
    ({ aclient with
        command_seqno := seqno,
        c := { aclient.c with store := aclient.c.store.filter (fun r => r.1 ≠ key) ++ [(key, bufs)] } },
      { qcmd with seqno := seqno })
  else (aclient, qcmd)

/-- The function `MQTTAsync_unpersistCommand`: the record under the key of the command's seqno is removed. -/
def MQTTAsync_unpersistCommand (qcmd : MQTTAsync_queuedCommand) (aclient : MQTTAsyncs) : MQTTAsyncs :=
  { aclient with c := { aclient.c with store := aclient.c.store.filter (fun r => r.1 ≠ commandKey qcmd.seqno) } }

/-! ## The command queue -/

/-- The function `MQTTAsync_addCommand`; `now` is the value of `MQTTAsync_start_clock()`. -/
def MQTTAsync_addCommand (now : Nat) (command : MQTTAsync_queuedCommand) (e : Engine) : Engine :=
  let command := { command with command := { command.command with start_time := now } }
  if command.command.type = CONNECT ∨
      (command.command.type = DISCONNECT ∧ command.command.details.dis_internal ≠ 0) then
    match e.commands.head? with
    | some head =>
      if head.client = command.client ∧ head.command.type = command.command.type then e
      else { e with commands := command :: e.commands }
    | none => { e with commands := command :: e.commands }
  else if (e.clients command.client).c.persistence then
    let r := MQTTAsync_persistCommand command (e.clients command.client)
    { e.setClient command.client r.1 with commands := e.commands ++ [r.2] }
  else { e with commands := e.commands ++ [command] }

/-- The scan loop of `MQTTAsync_processCommand` over the rest of the list: `ignored` is `ignored_clients`, `i` the position of the head of the rest. The result is the position of the command the loop breaks on. -/
def MQTTAsync_processCommand_scan (e : Engine) :
    List Nat → Nat → List MQTTAsync_queuedCommand → Option Nat
  | _, _, [] => none
  | ignored, i, cmd :: rest =>
    if cmd.client ∈ ignored then MQTTAsync_processCommand_scan e ignored (i + 1) rest
    else if cmd.command.type = CONNECT ∨ cmd.command.type = DISCONNECT ∨
        ((e.clients cmd.client).c.connected = true ∧ (e.clients cmd.client).c.connect_state = 0 ∧
          e.noPendingWrites (e.clients cmd.client).c.socket = true) then
      if (cmd.command.type = PUBLISH ∨ cmd.command.type = SUBSCRIBE ∨ cmd.command.type = UNSUBSCRIBE) ∧
          ((e.clients cmd.client).c.outboundMsgs.length : Int) ≥ MAX_MSG_ID - 1 then
        MQTTAsync_processCommand_scan e (ignored ++ [cmd.client]) (i + 1) rest
      else some i
    else MQTTAsync_processCommand_scan e (ignored ++ [cmd.client]) (i + 1) rest

/-- The first part of `MQTTAsync_processCommand` (up to the release of the command mutex): the scan, `ListDetach` of the command found and the removal of its persisted record. -/
def MQTTAsync_processCommand_dequeue (e : Engine) : Option MQTTAsync_queuedCommand × Engine :=
  match MQTTAsync_processCommand_scan e [] 0 e.commands with
  | none => (none, e)
  | some i =>
    match e.commands.get? i with
    | none => (none, e)
    | some command =>
      let e := { e with commands := e.commands.eraseIdx i }
      if (e.clients command.client).c.persistence then
        (some command, e.setClient command.client (MQTTAsync_unpersistCommand command (e.clients command.client)))
      else (some command, e)

/-! ## Closing a connection -/

/-- The function `MQTTAsync_closeOnly` for the client at `h`. -/
def MQTTAsync_closeOnly (h : Nat) (e : Engine) : Engine :=
  let c := { (e.clients h).c with good := false, ping_outstanding := false }
  if c.socket > 0 then
    let e := if c.connected then e.emit (.sendDisconnect h) else e
    let e := e.emit (.socketClose c.socket)
    e.setC h { c with socket := 0, connected := false, connect_state := 0 }
  else
    e.setC h { c with connected := false, connect_state := 0 }

/-- The function `MQTTAsync_removeResponsesAndCommands`: the responses of the client are emptied and its commands leave the queue. -/
def MQTTAsync_removeResponsesAndCommands (h : Nat) (e : Engine) : Engine :=
  let e := e.setClient h { e.clients h with responses := [] }
  { e with commands := e.commands.filter (fun cmd => cmd.client ≠ h) }

/-- The function `MQTTAsync_cleanSession` for the client at `h`. -/
def MQTTAsync_cleanSession (h : Nat) (e : Engine) : Engine :=
  let c := (e.clients h).c
  let e := e.setC h { c with store := [], inboundMsgs := [], outboundMsgs := [], messageQueue := [], msgID := 0 }
  MQTTAsync_removeResponsesAndCommands h e

/-- The function `MQTTAsync_closeSession` for the client at `h`. -/
def MQTTAsync_closeSession (h : Nat) (e : Engine) : Engine :=
  let e := MQTTAsync_closeOnly h e
  if (e.clients h).c.cleansession then MQTTAsync_cleanSession h e else e

/-- The function `MQTTAsync_checkDisconnect`; `now` is the clock read by `MQTTAsync_elapsed`. -/
def MQTTAsync_checkDisconnect (now : Nat) (h : Nat) (command : MQTTAsync_command) (e : Engine) : Engine :=
  if (e.clients h).c.outboundMsgs.length = 0 ∨
      (now : Int) - (command.start_time : Int) ≥ command.details.dis_timeout then
    let was_connected := (e.clients h).c.connected
    let e := MQTTAsync_closeSession h e
    if command.details.dis_internal ≠ 0 ∧ (e.clients h).cl.isSome ∧ was_connected = true then
      e.emit (.connectionLost h)
    else if command.details.dis_internal = 0 then
      e.call command.onSuccess (fun f => .onSuccess h f command)
    else e
  else e

/-- The function `MQTTAsync_checkConn`. -/
def MQTTAsync_checkConn (command : MQTTAsync_command) (client : MQTTAsyncs) : Bool :=
  decide (command.details.currentURI < command.details.serverURIcount) ||
    (decide (command.details.MQTTVersion = 4) && decide (client.c.MQTTVersion = MQTTVERSION_DEFAULT))

/-- The function `MQTTAsync_disconnect1`; `options` carries the callbacks and the timeout, `x.ptr` is the address returned by `malloc`. -/
def MQTTAsync_disconnect1 (x : ExtCalls) (h : Nat) (options : Option MQTTAsync_command) (internal : Int)
    (e : Engine) : Int × Engine :=
  if (e.clients h).c.connected = false then (MQTTCODE_DISCONNECT, e)
  else
    let o := options.getD {}
    let dis : MQTTAsync_queuedCommand :=
      { client := h, ptr := x.ptr,
        command := { type := DISCONNECT, onSuccess := o.onSuccess, onFailure := o.onFailure,
                     context := o.context, details := .dis internal o.details.dis_timeout } }
    (0, MQTTAsync_addCommand x.now dis e)

/-- The function `MQTTAsync_disconnect`. -/
def MQTTAsync_disconnect (x : ExtCalls) (h : Nat) (options : Option MQTTAsync_command) (e : Engine) :
    Int × Engine :=
  MQTTAsync_disconnect1 x h options 0 e

/-- The function `MQTTAsync_disconnect_internal`. -/
def MQTTAsync_disconnect_internal (x : ExtCalls) (h : Nat) (timeout : Int) (e : Engine) : Int × Engine :=
  MQTTAsync_disconnect1 x h (some { details := .dis 0 timeout }) 1 e

/-! ## Starting a publish -/

/-- The struct `Publish` as far as the dispatch and the handlers of inbound packets use it; `qos`, `retain` and `dup` are the bits of `header`. -/
structure Publish where
  topic : Option String := none
  topiclen : Nat := 0
  payload : List Nat := []
  payloadlen : Nat := 0
  msgId : Int := 0
  qos : Int := 0
  retain : Int := 0
  dup : Int := 0
deriving DecidableEq, Repr

/-- The function `MQTTProtocol_storePublication`: a stored copy with reference count 1. -/
def MQTTProtocol_storePublication (publish : Publish) : Publications :=
  { topic := publish.topic, topiclen := publish.topiclen,
    payload := publish.payload.take publish.payloadlen, payloadlen := publish.payloadlen, refcount := 1 }

/-- The function `MQTTProtocol_createMessage` called with `*mm == NULL`; `nextMessageType` is written only for qos 2 and is otherwise whatever `malloc` returned (`x.uninit`). -/
def MQTTProtocol_createMessage (x : ExtCalls) (publish : Publish) (qos retained : Int) : Messages :=
  { msgid := publish.msgId, qos := qos, retain := retained,
    publish := MQTTProtocol_storePublication publish, lastTouch := x.time,
    nextMessageType := if qos = 2 then PUBREC else x.uninit }

/-- The function `MQTTProtocol_startPublish` (with `MQTTProtocol_startPublishCommon`) for the client at `h`; `x.rc` is the completion code of `MQTTPacket_send_publish`. The record that `MQTTProtocol_storeQoS0` adds to `state.pending_writes` for an interrupted qos 0 write is outside the model. -/
def MQTTProtocol_startPublish (x : ExtCalls) (h : Nat) (publish : Publish) (qos retained : Int)
    (e : Engine) : Int × Engine :=
  let e :=
    if qos > 0 then
      let c := (e.clients h).c
      e.setC h { c with outboundMsgs := c.outboundMsgs ++ [MQTTProtocol_createMessage x publish qos retained] }
    else e
  (x.rc, e.emit (.sendPublish h publish.msgId 0 qos))

/-! ## Dispatch of a dequeued command -/

/-- The choice of the server URI in the CONNECT branch of `MQTTAsync_processCommand` (the block under `serverURIcount > 0`, where `currentURI` may be incremented and the version reset to 4): the details as updated and the URI to connect to; `none` when `serverURIs[currentURI]` is read outside the array. -/
def MQTTAsync_processCommand_serverURI (command : MQTTAsync_queuedCommand) (e : Engine) :
    Option (MQTTAsync_details × String) :=
  let h := command.client
  let c := (e.clients h).c
  let d := command.command.details
  if d.serverURIcount > 0 then
    let d :=
      if c.MQTTVersion = MQTTVERSION_DEFAULT then
        if d.MQTTVersion = 3 then (d.set_currentURI (d.currentURI + 1)).set_MQTTVersion 4 else d
      else d.set_currentURI (d.currentURI + 1)
    if d.currentURI < 0 then none
    else
      match d.serverURIs.get? d.currentURI.toNat with
      | none => none
      | some uri =>
        some (d, if strncmp_eq URI_TCP.data uri.data URI_TCP.length = true
                 then String.mk (uri.data.drop URI_TCP.length) else uri)
  else some (d, (e.clients h).serverURI)

/-- The CONNECT branch of `MQTTAsync_processCommand`: the choice of server URI and MQTT version and the call of `MQTTProtocol_connect`, which leaves `x.connect_state` and `x.socket` in the client and returns `x.rc`. The result is `rc`, the command as updated and the engine; `none` when `serverURIs[currentURI]` is read outside the array. -/
def MQTTAsync_processCommand_connect (x : ExtCalls) (command : MQTTAsync_queuedCommand) (e : Engine) :
    Option (Int × MQTTAsync_queuedCommand × Engine) :=
  let h := command.client
  let c := (e.clients h).c
  if c.connect_state ≠ 0 ∨ c.connected = true then some (0, command, e)
  else
    match MQTTAsync_processCommand_serverURI command e with
    | none => none
    | some (d, serverURI) =>
      let d :=
        if c.MQTTVersion = MQTTVERSION_DEFAULT then
          if d.MQTTVersion = 0 then d.set_MQTTVersion MQTTVERSION_3_1_1
          else if d.MQTTVersion = MQTTVERSION_3_1_1 then d.set_MQTTVersion MQTTVERSION_3_1
          else d
        else d.set_MQTTVersion c.MQTTVersion
      let e := e.emit (.connectAttempt h serverURI d.MQTTVersion)
      let e := e.setC h { c with connect_state := x.connect_state, socket := x.socket }
      let rc := if x.connect_state = 0 then SOCKET_ERROR else x.rc
      let e := if rc = EINPROGRESS then e.emit (.addPendingWrite x.socket) else e
      some (rc, { command with command := { command.command with details := d } }, e)

/-- The PUBLISH branch of `MQTTAsync_processCommand`. -/
def MQTTAsync_processCommand_publish (x : ExtCalls) (command : MQTTAsync_queuedCommand) (e : Engine) :
    Int × MQTTAsync_queuedCommand × Engine :=
  let h := command.client
  let d := command.command.details
  let p : Publish :=
    { payload := d.pub_payload, payloadlen := d.pub_payloadlen, topic := d.pub_destinationName,
      msgId := command.command.token }
  let r := MQTTProtocol_startPublish x h p d.pub_qos d.pub_retained e
  let cleared := { command with command := { command.command with details := d.clear_destinationName } }
  if d.pub_qos = 0 then
    if r.1 = TCPSOCKET_COMPLETE then
      (r.1, command, r.2.call command.command.onSuccess (fun f => .onSuccess h f command.command))
    else
      (r.1, cleared, r.2.setClient h { r.2.clients h with pending_write := some command.ptr })
  else (r.1, cleared, r.2)

/-- The DISCONNECT branch of `MQTTAsync_processCommand`. -/
def MQTTAsync_processCommand_disconnect (x : ExtCalls) (command : MQTTAsync_queuedCommand) (e : Engine) :
    Engine :=
  let h := command.client
  if (e.clients h).c.connect_state ≠ 0 ∨ (e.clients h).c.connected ≠ false then
    let e := e.setC h { (e.clients h).c with connect_state := -2 }
    MQTTAsync_checkDisconnect x.now h command.command e
  else e

/-- The last part of `MQTTAsync_processCommand`: what becomes of the command once its packet was attempted with completion code `rc`. -/
def MQTTAsync_processCommand_finish (x : ExtCalls) (rc : Int) (command : MQTTAsync_queuedCommand)
    (e : Engine) : Engine :=
  let h := command.client
  if command.command.type = CONNECT ∧ rc ≠ SOCKET_ERROR ∧ rc ≠ MQTTCODE_PERSISTANCE_ERROR then
    e.setClient h { e.clients h with connect := command.command }
  else if command.command.type = DISCONNECT then
    e.setClient h { e.clients h with disconnect := command.command }
  else if command.command.type = PUBLISH ∧ command.command.details.pub_qos = 0 then
    if rc = TCPSOCKET_INTERRUPTED then
      e.setClient h { e.clients h with responses := (e.clients h).responses ++ [command] }
    else e
  else if rc = SOCKET_ERROR ∨ rc = MQTTCODE_PERSISTANCE_ERROR then
    let e :=
      if command.command.type = CONNECT then (MQTTAsync_disconnect x h (some { details := .dis 0 0 }) e).2
      else (MQTTAsync_disconnect_internal x h 0 e).2
    if command.command.type = CONNECT ∧ MQTTAsync_checkConn command.command (e.clients h) = true then
      MQTTAsync_addCommand x.now command e
    else
      e.call command.command.onFailure (fun f => .onFailure h f command.command)
  else
    e.setClient h { e.clients h with responses := (e.clients h).responses ++ [command] }

/-- The function `MQTTAsync_processCommand`. `x.rc` is the completion code of the one protocol call the dispatch makes (`MQTTProtocol_connect`, `MQTTProtocol_subscribe`, `MQTTProtocol_unsubscribe` or `MQTTPacket_send_publish`). The result is `none` when the dispatch reads outside `serverURIs`. -/
def MQTTAsync_processCommand (x : ExtCalls) (e : Engine) : Option Engine :=
  match MQTTAsync_processCommand_dequeue e with
  | (none, e) => some e
  | (some command, e) =>
    let h := command.client
    if command.command.type = CONNECT then
      match MQTTAsync_processCommand_connect x command e with
      | none => none
      | some (rc, command, e) => some (MQTTAsync_processCommand_finish x rc command e)
    else if command.command.type = SUBSCRIBE then
      some (MQTTAsync_processCommand_finish x x.rc command (e.emit (.sendSubscribe h command.command.token)))
    else if command.command.type = UNSUBSCRIBE then
      some (MQTTAsync_processCommand_finish x x.rc command (e.emit (.sendUnsubscribe h command.command.token)))
    else if command.command.type = PUBLISH then
      let r := MQTTAsync_processCommand_publish x command e
      some (MQTTAsync_processCommand_finish x r.1 r.2.1 r.2.2)
    else if command.command.type = DISCONNECT then
      some (MQTTAsync_processCommand_finish x 0 command (MQTTAsync_processCommand_disconnect x command e))
    else some (MQTTAsync_processCommand_finish x 0 command e)

/-! ## Message ids -/

/-- The loop condition of `MQTTAsync_assignMsgId`: `msgid` is the token of a command in the list `commands` or of a response of the client at `h` (`cmdMessageIDCompare`). -/
def MQTTAsync_assignMsgId_inUse (e : Engine) (h : Nat) (msgid : Int) : Bool :=
  e.commands.any (fun cmd => decide (cmd.command.token = msgid)) ||
    (e.clients h).responses.any (fun cmd => decide (cmd.command.token = msgid))

/-- The `while` loop of `MQTTAsync_assignMsgId`, entered with the candidate `msgid`; each evaluation of the loop condition costs one unit of fuel and `none` means the fuel ran out. -/
def MQTTAsync_assignMsgId_loop (e : Engine) (h : Nat) (start_msgid : Int) : Nat → Int → Option Int
  | 0, _ => none
  | fuel + 1, msgid =>
    if MQTTAsync_assignMsgId_inUse e h msgid = true then
      let msgid := if msgid = MAX_MSG_ID then 1 else msgid + 1
      if msgid = start_msgid then some 0
      else MQTTAsync_assignMsgId_loop e h start_msgid fuel msgid
    else some msgid

/-- The function `MQTTAsync_assignMsgId` for the client at `h`: the id returned and the engine, or `none` when the loop has not ended within `fuel` probes. -/
def MQTTAsync_assignMsgId (fuel : Nat) (h : Nat) (e : Engine) : Option (Int × Engine) :=
  let start_msgid := (e.clients h).c.msgID
  match MQTTAsync_assignMsgId_loop e h start_msgid fuel
      (if start_msgid = MAX_MSG_ID then 1 else start_msgid + 1) with
  | none => none
  | some msgid =>
    if msgid ≠ 0 then some (msgid, e.setC h { (e.clients h).c with msgID := msgid })
    else some (msgid, e)

/-! ## The public calls that queue a command -/

/-- The struct `MQTTAsync_responseOptions`: the callbacks and context the caller passes in, and `token`, which the call writes. -/
structure MQTTAsync_responseOptions where
  onSuccess : Option Nat := none
  onFailure : Option Nat := none
  context : Nat := 0
  token : Int := 0
deriving DecidableEq, Repr

/-- The function `MQTTAsync_send` on a non-NULL handle. `utf8` stands for `UTF8_validateString`, `x.ptr` is the address returned by `malloc`; the result is the return code, the structure `response` points to as the call leaves it (`none` for a NULL pointer) and the engine; `none` when the id allocation does not return within `fuel` probes. -/
def MQTTAsync_send (fuel : Nat) (utf8 : String → Bool) (x : ExtCalls) (h : Nat) (destinationName : String)
    (payloadlen : Nat) (payload : List Nat) (qos retained : Int)
    (response : Option MQTTAsync_responseOptions) (e : Engine) :
    Option (Int × Option MQTTAsync_responseOptions × Engine) :=
  if (e.clients h).c.connected = false then some (MQTTCODE_DISCONNECT, response, e)
  else if utf8 destinationName = false then some (MQTTCODE_BAD_UTF8_STRING, response, e)
  else if qos < 0 ∨ qos > 2 then some (MQTTCODE_BAD_QOS, response, e)
  else
    let assigned : Option (Int × Engine) := if qos > 0 then MQTTAsync_assignMsgId fuel h e else some (0, e)
    match assigned with
    | none => none
    | some (msgid, e) =>
      if qos > 0 ∧ msgid = 0 then some (MQTTCODE_NO_MORE_MSGIDS, response, e)
      else
        let r := response.getD {}
        let pub : MQTTAsync_queuedCommand :=
          { client := h, ptr := x.ptr,
            command := { type := PUBLISH, token := msgid, onSuccess := r.onSuccess, onFailure := r.onFailure,
                         context := r.context,
                         details := .pub (some destinationName) payloadlen (payload.take payloadlen) qos retained } }
        some (0, response.map (fun r => { r with token := msgid }), MQTTAsync_addCommand x.now pub e)

/-- The validation loop of `MQTTAsync_subscribeMany` over the `count` topics and requested qos values. -/
def MQTTAsync_subscribeMany_validate (utf8 : String → Bool) : List String → List Int → Int
  | t :: topic, q :: qos =>
    if utf8 t = false then MQTTCODE_BAD_UTF8_STRING
    else if q < 0 ∨ q > 2 then MQTTCODE_BAD_QOS
    else MQTTAsync_subscribeMany_validate utf8 topic qos
  | _, _ => MQTTCODE_SUCCESS

/-- The function `MQTTAsync_subscribeMany` on a non-NULL handle; `topic` and `qos` are the two arrays of `count` entries; the result is as for `MQTTAsync_send`. -/
def MQTTAsync_subscribeMany (fuel : Nat) (utf8 : String → Bool) (x : ExtCalls) (h : Nat)
    (topic : List String) (qos : List Int) (response : Option MQTTAsync_responseOptions) (e : Engine) :
    Option (Int × Option MQTTAsync_responseOptions × Engine) :=
  if (e.clients h).c.connected = false then some (MQTTCODE_DISCONNECT, response, e)
  else if MQTTAsync_subscribeMany_validate utf8 topic qos ≠ MQTTCODE_SUCCESS then
    some (MQTTAsync_subscribeMany_validate utf8 topic qos, response, e)
  else
    match MQTTAsync_assignMsgId fuel h e with
    | none => none
    | some (msgid, e) =>
      if msgid = 0 then some (MQTTCODE_NO_MORE_MSGIDS, response, e)
      else
        let r := response.getD {}
        let sub : MQTTAsync_queuedCommand :=
          { client := h, ptr := x.ptr,
            command := { type := SUBSCRIBE, token := msgid, onSuccess := r.onSuccess, onFailure := r.onFailure,
                         context := r.context, details := .sub topic.length topic qos } }
        some (0, response.map (fun r => { r with token := msgid }), MQTTAsync_addCommand x.now sub e)

/-- The function `MQTTAsync_unsubscribeMany` on a non-NULL handle; `topic` is the array of `count` entries; the result is as for `MQTTAsync_send`. -/
def MQTTAsync_unsubscribeMany (fuel : Nat) (utf8 : String → Bool) (x : ExtCalls) (h : Nat)
    (topic : List String) (response : Option MQTTAsync_responseOptions) (e : Engine) :
    Option (Int × Option MQTTAsync_responseOptions × Engine) :=
  if (e.clients h).c.connected = false then some (MQTTCODE_DISCONNECT, response, e)
  else if topic.any (fun t => utf8 t = false) = true then some (MQTTCODE_BAD_UTF8_STRING, response, e)
  else
    match MQTTAsync_assignMsgId fuel h e with
    | none => none
    | some (msgid, e) =>
      if msgid = 0 then some (MQTTCODE_NO_MORE_MSGIDS, response, e)
      else
        let r := response.getD {}
        let unsub : MQTTAsync_queuedCommand :=
          { client := h, ptr := x.ptr,
            command := { type := UNSUBSCRIBE, token := msgid, onSuccess := r.onSuccess, onFailure := r.onFailure,
                         context := r.context, details := .unsub topic.length topic } }
        some (0, response.map (fun r => { r with token := msgid }), MQTTAsync_addCommand x.now unsub e)

/-- The struct `MQTTAsync_willOptions`. -/
structure MQTTAsync_willOptions where
  struct_id : String := "MQTW"
  struct_version : Int := 0
  topicName : String := ""
  message : String := ""
  retained : Int := 0
  qos : Int := 0
deriving DecidableEq, Repr

/-- The struct `MQTTAsync_SSLOptions` as far as `MQTTAsync_connect` validates it. -/
structure MQTTAsync_SSLOptions where
  struct_id : String := "MQTS"
  struct_version : Int := 0
deriving DecidableEq, Repr

/-- The struct `MQTTAsync_connectOptions`. -/
structure MQTTAsync_connectOptions where
  struct_id : String := "MQTC"
  struct_version : Int := 3
  keepAliveInterval : Int := 60
  cleansession : Bool := true
  maxInflight : Int := 10
  will : Option MQTTAsync_willOptions := none
  username : Option String := none
  password : Option String := none
  connectTimeout : Int := 30
  retryInterval : Int := 0
  ssl : Option MQTTAsync_SSLOptions := none
  onSuccess : Option Nat := none
  onFailure : Option Nat := none
  context : Nat := 0
  serverURIcount : Int := 0
  serverURIs : List String := []
  MQTTVersion : Int := 0
deriving DecidableEq, Repr

/-- The function `MQTTAsync_connect` with non-NULL options (the start of the two threads is outside the model). -/
def MQTTAsync_connect (utf8 : String → Bool) (x : ExtCalls) (h : Nat) (options : MQTTAsync_connectOptions)
    (e : Engine) : Int × Engine :=
  if strncmp_eq options.struct_id.data "MQTC".data 4 = false ∨ (options.struct_version ≠ 0 ∧ options.struct_version ≠ 1 ∧
      options.struct_version ≠ 2 ∧ options.struct_version ≠ 3) then (MQTTCODE_BAD_STRUCTURE, e)
  else if options.will.any (fun w => decide (strncmp_eq w.struct_id.data "MQTW".data 4 = false ∨
      w.struct_version ≠ 0)) = true then
    (MQTTCODE_BAD_STRUCTURE, e)
  else if options.will.any (fun w => decide (w.qos < 0 ∨ w.qos > 2)) = true then (MQTTCODE_BAD_QOS, e)
  else if options.struct_version ≠ 0 ∧
      options.ssl.any (fun s => decide (strncmp_eq s.struct_id.data "MQTS".data 4 = false ∨
        s.struct_version ≠ 0)) = true then
    (MQTTCODE_BAD_STRUCTURE, e)
  else if options.username.any (fun u => utf8 u = false) = true ∨
      options.password.any (fun p => utf8 p = false) = true then (MQTTCODE_BAD_UTF8_STRING, e)
  else
    let m := e.clients h
    let m := { m with connect := { m.connect with onSuccess := options.onSuccess,
                                                  onFailure := options.onFailure,
                                                  context := options.context } }
    let c := { m.c with
      keepAliveInterval := options.keepAliveInterval,
      cleansession := options.cleansession,
      maxInflightMessages := options.maxInflight,
      MQTTVersion := if options.struct_version = 3 then options.MQTTVersion else 0,
      will := options.will.map (fun w => { msg := w.message, qos := w.qos, retained := w.retained, topic := w.topicName }),
      username := options.username,
      password := options.password,
      retryInterval := options.retryInterval }
    let e := e.setClient h { m with c := c }
    let conn : MQTTAsync_queuedCommand :=
      { client := h, ptr := x.ptr,
        command := { type := CONNECT, onSuccess := options.onSuccess, onFailure := options.onFailure,
                     context := options.context,
                     details :=
                       if options.struct_version ≥ 2 ∧ options.serverURIcount > 0 then
                         .conn options.connectTimeout options.serverURIcount
                           (options.serverURIs.take options.serverURIcount.toNat) 0 0
                       else .conn options.connectTimeout 0 [] 0 0 } }
    (0, MQTTAsync_addCommand x.now conn e)

/-! ## Acknowledgements of outbound publications -/

/-- The function `MQTTProtocol_handlePubacks` for the client at `h`; `x.rc` is the result of `MQTTPersistence_remove`. -/
def MQTTProtocol_handlePubacks (x : ExtCalls) (h : Nat) (msgId : Int) (e : Engine) : Int × Engine :=
  let c := (e.clients h).c
  match c.outboundMsgs.findIdx? (fun m => decide (m.msgid = msgId)) with
  | none => (TCPSOCKET_COMPLETE, e)
  | some i =>
    if (c.outboundMsgs.getD i {}).qos ≠ 1 then (TCPSOCKET_COMPLETE, e)
    else (x.rc, e.setC h { c with outboundMsgs := c.outboundMsgs.eraseIdx i })

/-- The function `MQTTProtocol_handlePubcomps` for the client at `h`; `x.rc` is the result of `MQTTPersistence_remove`. -/
def MQTTProtocol_handlePubcomps (x : ExtCalls) (h : Nat) (msgId : Int) (e : Engine) : Int × Engine :=
  let c := (e.clients h).c
  match c.outboundMsgs.findIdx? (fun m => decide (m.msgid = msgId)) with
  | none => (TCPSOCKET_COMPLETE, e)
  | some i =>
    if (c.outboundMsgs.getD i {}).qos ≠ 2 then (TCPSOCKET_COMPLETE, e)
    else if (c.outboundMsgs.getD i {}).nextMessageType ≠ PUBCOMP then (TCPSOCKET_COMPLETE, e)
    else (x.rc, e.setC h { c with outboundMsgs := c.outboundMsgs.eraseIdx i })

/-- The function `MQTTProtocol_handlePubrecs` for the client at `h`; `x.rc` is the completion code of `MQTTPacket_send_pubrel`. -/
def MQTTProtocol_handlePubrecs (x : ExtCalls) (h : Nat) (msgId : Int) (e : Engine) : Int × Engine :=
  let c := (e.clients h).c
  match c.outboundMsgs.findIdx? (fun m => decide (m.msgid = msgId)) with
  | none => (TCPSOCKET_COMPLETE, e)
  | some i =>
    let m := c.outboundMsgs.getD i {}
    if m.qos ≠ 2 then (TCPSOCKET_COMPLETE, e)
    else if m.nextMessageType ≠ PUBREC then (TCPSOCKET_COMPLETE, e)
    else
      let e := e.emit (.sendPubrel h msgId)
      let m := { m with nextMessageType := PUBCOMP, lastTouch := x.time }
      (x.rc, e.setC h { c with outboundMsgs := c.outboundMsgs.set i m })

/-- The search of `MQTTAsync_cycle` through the responses of a client for the first command whose token is `msgid`: its position. -/
def MQTTAsync_cycle_find (responses : List MQTTAsync_queuedCommand) (msgid : Int) : Option Nat :=
  responses.findIdx? (fun command => decide (command.command.token = msgid))

/-- The loop of `MQTTAsync_cycle` over the responses of the client at `h` ("use the msgid to find the callback to be called"): the first response whose token is `msgid` is detached and its success callback, when there is one, is called. -/
def MQTTAsync_cycle_complete (h : Nat) (msgid : Int) (e : Engine) : Engine :=
  match MQTTAsync_cycle_find (e.clients h).responses msgid with
  | none => e
  | some i =>
    let command := (e.clients h).responses.getD i {}
    let e := e.setClient h { e.clients h with responses := (e.clients h).responses.eraseIdx i }
    e.call command.command.onSuccess (fun f => .onSuccess h f command.command)

/-- The branch of `MQTTAsync_cycle` for a packet of type PUBACK or PUBCOMP with message id `msgid`, read on the socket of the client at `h`: the protocol handler, then `deliveryComplete`, then the completion of the first response whose token is `msgid`. -/
def MQTTAsync_cycle_ack (x : ExtCalls) (h : Nat) (type : Int) (msgid : Int) (e : Engine) : Int × Engine :=
  let r := if type = PUBCOMP then MQTTProtocol_handlePubcomps x h msgid e
           else MQTTProtocol_handlePubacks x h msgid e
  let e := r.2
  let e := match (e.clients h).dc with
    | some _ => e.emit (.deliveryComplete h msgid)
    | none => e
  (r.1, MQTTAsync_cycle_complete h msgid e)

/-! ## Reference definitions for the command queue (specification, section 4.2) -/

/-- A command that jumps the queue: a CONNECT or an internal DISCONNECT. -/
def MQTTAsync_queuedCommand.isPriority (c : MQTTAsync_queuedCommand) : Prop :=
  c.command.type = CONNECT ∨ (c.command.type = DISCONNECT ∧ c.command.details.dis_internal ≠ 0)

instance (c : MQTTAsync_queuedCommand) : Decidable c.isPriority := by
  unfold MQTTAsync_queuedCommand.isPriority; infer_instance

/-- The enqueue of the specification: a CONNECT or internal DISCONNECT is dropped when the head of the queue has the same client and the same type and is put in front of the queue otherwise; every other command goes to the end. -/
def enqueue_ref (c : MQTTAsync_queuedCommand) (q : List MQTTAsync_queuedCommand) :
    List MQTTAsync_queuedCommand :=
  if c.isPriority then
    match q with
    | head :: _ => if head.client = c.client ∧ head.command.type = c.command.type then q else c :: q
    | [] => c :: q
  else q ++ [c]

/-- The command as `MQTTAsync_addCommand` links it into the list: `start_time` is set, and `seqno` when the command is persisted. -/
def MQTTAsync_addCommand_linked (now : Nat) (command : MQTTAsync_queuedCommand) (e : Engine) :
    MQTTAsync_queuedCommand :=
  let command := { command with command := { command.command with start_time := now } }
  if ¬ command.isPriority ∧ (e.clients command.client).c.persistence = true then
    (MQTTAsync_persistCommand command (e.clients command.client)).2
  else command

/-- Condition (b) and (c) of the dequeue: the command may be sent now. -/
def eligible_ref (e : Engine) (cmd : MQTTAsync_queuedCommand) : Prop :=
  (cmd.command.type = CONNECT ∨ cmd.command.type = DISCONNECT ∨
    ((e.clients cmd.client).c.connected = true ∧ (e.clients cmd.client).c.connect_state = 0 ∧
      e.noPendingWrites (e.clients cmd.client).c.socket = true)) ∧
  ((cmd.command.type = PUBLISH ∨ cmd.command.type = SUBSCRIBE ∨ cmd.command.type = UNSUBSCRIBE) →
    ((e.clients cmd.client).c.outboundMsgs.length : Int) < MAX_MSG_ID - 1)

instance (e : Engine) (cmd : MQTTAsync_queuedCommand) : Decidable (eligible_ref e cmd) := by
  unfold eligible_ref; infer_instance

/-- The command at position `i` of the queue `q` can be selected: (a) no earlier command of `q` has its client, and it is eligible. -/
def selectable_ref (e : Engine) (q : List MQTTAsync_queuedCommand) (i : Nat) : Prop :=
  ∃ cmd, q.get? i = some cmd ∧ (∀ j, j < i → ∀ c, q.get? j = some c → c.client ≠ cmd.client) ∧
    eligible_ref e cmd

/-- The dequeue of the specification: the first selectable command in queue order, and the queue without it; nothing and the queue unchanged when no command is selectable. -/
def next_eligible_ref (e : Engine) :
    Option MQTTAsync_queuedCommand × List MQTTAsync_queuedCommand :=
  match (List.range e.commands.length).find?
      (fun i => decide (∀ j, j < i → (e.commands.getD j {}).client ≠ (e.commands.getD i {}).client) &&
        decide (eligible_ref e (e.commands.getD i {}))) with
  | none => (none, e.commands)
  | some i => (e.commands.get? i, e.commands.take i ++ e.commands.drop (i + 1))

/-! ## Traces of queue operations -/

/-- One operation on the command queue: a call of `MQTTAsync_addCommand`, the dequeue of `MQTTAsync_processCommand`, or any other activity that changes client and socket state but not the queue. -/
inductive QueueOp where
  | add (now : Nat) (command : MQTTAsync_queuedCommand)
  | take
  | world (clients : Nat → MQTTAsyncs) (noPendingWrites : Int → Bool)

/-- The effect of one queue operation. -/
def QueueOp.apply (e : Engine) : QueueOp → Engine
  | .add now command => MQTTAsync_addCommand now command e
  | .take => (MQTTAsync_processCommand_dequeue e).2
  | .world clients noPendingWrites => { e with clients := clients, noPendingWrites := noPendingWrites }

/-- The engine after a sequence of queue operations. -/
def runQueue (ops : List QueueOp) (e : Engine) : Engine :=
  ops.foldl QueueOp.apply e

/-- The claim that a client never has two CONNECT commands, nor two internal DISCONNECT commands, in the queue. -/
def atMostOnePriority (q : List MQTTAsync_queuedCommand) : Prop :=
  ∀ h : Nat,
    (q.filter (fun c => decide (c.client = h ∧ c.command.type = CONNECT))).length ≤ 1 ∧
    (q.filter (fun c => decide (c.client = h ∧ c.command.type = DISCONNECT ∧
      c.command.details.dis_internal ≠ 0))).length ≤ 1

/-- Two neighbours of the queue are not both a CONNECT, or both an internal DISCONNECT, of one client. -/
def noTwinNeighbours (q : List MQTTAsync_queuedCommand) : Prop :=
  List.Chain' (fun a b => ¬ (a.isPriority ∧ b.isPriority ∧ a.client = b.client ∧
    a.command.type = b.command.type)) q

/-! ## Concrete inputs used by the examples -/

/-- A queued PUBLISH (qos 0) of client 0, allocated at address 1. -/
def fifo_first : MQTTAsync_queuedCommand :=
  { client := 0, ptr := 1, command := { type := PUBLISH, details := .pub (some "t") 0 [] 0 0 } }

/-- A queued SUBSCRIBE of client 0 with token 1, allocated at address 2. -/
def fifo_second : MQTTAsync_queuedCommand :=
  { client := 0, ptr := 2, command := { type := SUBSCRIBE, token := 1, details := .sub 0 [] [] } }

/-- A queued CONNECT of client 0, allocated at address 7. -/
def fifo_connect : MQTTAsync_queuedCommand :=
  { client := 0, ptr := 7, command := { type := CONNECT } }

/-- The trace of the FIFO example: the PUBLISH, a CONNECT, the SUBSCRIBE are queued, the CONNECT is dequeued and the client becomes connected. -/
def fifo_trace : List QueueOp :=
  [] ++ [QueueOp.add 5 fifo_first] ++ [QueueOp.add 5 fifo_connect] ++ [QueueOp.add 6 fifo_second] ++
    [QueueOp.take, QueueOp.world (fun _ => { c := { connected := true } }) (fun _ => true)]

/-- Client 0 has an inbound qos 2 message with id 1 (the broker chose that id); nothing is queued or pending. -/
def engine_inbound_1 : Engine :=
  { clients := fun _ => { c := { connected := true,
                                 inboundMsgs := [{ msgid := 1, qos := 2, nextMessageType := PUBREL }] } } }

/-- Client 0 has an outbound qos 1 message with id 1 (restored from persistence); nothing is queued or pending. -/
def engine_outbound_1 : Engine :=
  { clients := fun _ => { c := { connected := true, outboundMsgs := [{ msgid := 1, qos := 1 }] } } }

/-- Client 0 assigned id 2 last; a SUBSCRIBE with token 3 is queued and a SUBSCRIBE with token 4 awaits its SUBACK. -/
def engine_ids_3_4 : Engine :=
  { clients := fun _ =>
      { c := { connected := true, msgID := 2 },
        responses := [{ client := 0, ptr := 4, command := { type := SUBSCRIBE, token := 4, details := .sub 0 [] [] } }] },
    commands := [{ client := 0, ptr := 3, command := { type := SUBSCRIBE, token := 3, details := .sub 0 [] [] } }] }

/-- A queued SUBSCRIBE of client 0 whose token is `t`. -/
def subscribe_with_token (t : Nat) : MQTTAsync_queuedCommand :=
  { client := 0, ptr := t, command := { type := SUBSCRIBE, token := (t : Int), details := .sub 0 [] [] } }

/-- Client 0 assigned id 5 last, and every id of 1..65535 except 5 is the token of a queued SUBSCRIBE of that client. -/
def engine_all_but_5 : Engine :=
  { clients := fun _ => { c := { connected := true, msgID := 5 } },
    commands := ((List.range 65536).filter (fun t => decide (t ≠ 0 ∧ t ≠ 5))).map subscribe_with_token }

/-- Every call into the network fails: `MQTTProtocol_connect` returns `SOCKET_ERROR` and leaves `connect_state` 0. -/
def refused : ExtCalls := { rc := SOCKET_ERROR, connect_state := 0 }

/-- The engine after `n` successive calls of `MQTTAsync_processCommand`, each with the outside results `x`. -/
def dispatch_n : Nat → ExtCalls → Engine → Option Engine
  | 0, _, e => some e
  | n + 1, x, e => (MQTTAsync_processCommand x e).bind (dispatch_n n x)

/-- Client 0 after `MQTTAsync_connect` with `serverURIs = ["tcp://a", "tcp://b"]`, MQTT version 3.1.1 requested and a failure callback. -/
def engine_connect_v311 : Engine :=
  (MQTTAsync_connect (fun _ => true) { ptr := 1 } 0
    { serverURIcount := 2, serverURIs := ["tcp://a", "tcp://b"], MQTTVersion := MQTTVERSION_3_1_1,
      onFailure := some 7 } {}).2

/-- Client 0 after `MQTTAsync_connect` with `serverURIs = ["tcp://a", "tcp://b"]`, the default MQTT version requested and a failure callback. -/
def engine_connect_default : Engine :=
  (MQTTAsync_connect (fun _ => true) { ptr := 1 } 0
    { serverURIcount := 2, serverURIs := ["tcp://a", "tcp://b"], MQTTVersion := MQTTVERSION_DEFAULT,
      onFailure := some 7 } {}).2

/-- Client 0 after `MQTTAsync_connect` with the single server URI `"tcp://a"`, the default MQTT version requested and a failure callback. -/
def engine_connect_single : Engine :=
  (MQTTAsync_connect (fun _ => true) { ptr := 1 } 0
    { serverURIcount := 1, serverURIs := ["tcp://a"], MQTTVersion := MQTTVERSION_DEFAULT,
      onFailure := some 7 } {}).2

/-- A PUBLISH command with qos 2 and token 1 whose success callback is callback 9. -/
def publish_qos2 : MQTTAsync_queuedCommand :=
  { client := 0, ptr := 1,
    command := { type := PUBLISH, token := 1, onSuccess := some 9, details := .pub none 1 [120] 2 0 } }

/-- The outbound message of `publish_qos2` while its PUBREC has not arrived. -/
def message_qos2 : Messages :=
  { msgid := 1, qos := 2, nextMessageType := PUBREC, publish := { topic := some "t", payload := [120], payloadlen := 1, refcount := 1 } }

/-- Client 0 is connected; `publish_qos2` was sent and waits in the responses, its outbound message awaits the PUBREC. -/
def engine_awaiting_pubrec : Engine :=
  { clients := fun _ => { c := { connected := true, good := true, socket := 3, msgID := 1,
                                 outboundMsgs := [message_qos2] },
                          responses := [publish_qos2] } }

/-- Every id of 1..65535 is the token of a queued SUBSCRIBE of client 0, which assigned 65535 last; client 1 is connected and has not assigned an id yet (`msgID` is 0, as on a new client or after a clean-session purge). -/
def engine_all_ids : Engine :=
  { clients := fun h => { c := { connected := true, msgID := if h = 0 then 65535 else 0 } },
    commands := ((List.range 65536).filter (fun t => decide (t ≠ 0))).map subscribe_with_token }

/-! ## Traces of client calls and dispatches -/

/-- One step of the engine as seen from a client: a call of `MQTTAsync_send`, `MQTTAsync_subscribeMany` or `MQTTAsync_unsubscribeMany` that returns, one call of `MQTTAsync_processCommand` by the sending thread, or the handling of a PUBACK or PUBCOMP by the receiving thread. -/
inductive ClientOp where
  | send (fuel : Nat) (utf8 : String → Bool) (x : ExtCalls) (h : Nat) (destinationName : String)
      (payloadlen : Nat) (payload : List Nat) (qos retained : Int)
      (response : Option MQTTAsync_responseOptions)
  | subscribeMany (fuel : Nat) (utf8 : String → Bool) (x : ExtCalls) (h : Nat) (topic : List String)
      (qos : List Int) (response : Option MQTTAsync_responseOptions)
  | unsubscribeMany (fuel : Nat) (utf8 : String → Bool) (x : ExtCalls) (h : Nat) (topic : List String)
      (response : Option MQTTAsync_responseOptions)
  | dispatch (x : ExtCalls)
  | ack (x : ExtCalls) (h : Nat) (type : Int) (msgid : Int)

/-- The engine after one step; `none` when the call does not return within its fuel or reads outside an array. -/
def ClientOp.apply (e : Engine) : ClientOp → Option Engine
  | .send fuel utf8 x h destinationName payloadlen payload qos retained response =>
    (MQTTAsync_send fuel utf8 x h destinationName payloadlen payload qos retained response e).map (fun r => r.2.2)
  | .subscribeMany fuel utf8 x h topic qos response =>
    (MQTTAsync_subscribeMany fuel utf8 x h topic qos response e).map (fun r => r.2.2)
  | .unsubscribeMany fuel utf8 x h topic response =>
    (MQTTAsync_unsubscribeMany fuel utf8 x h topic response e).map (fun r => r.2.2)
  | .dispatch x => MQTTAsync_processCommand x e
  | .ack x h type msgid => some (MQTTAsync_cycle_ack x h type msgid e).2

/-- The engine after a sequence of steps. -/
def runClient : List ClientOp → Engine → Option Engine
  | [], e => some e
  | op :: ops, e => (ClientOp.apply e op).bind (runClient ops)

/-- The nonzero tokens held for the client at `h`: those of its commands in the queue, then those of its pending responses. -/
def heldTokens (e : Engine) (h : Nat) : List Int :=
  ((e.commands.filter (fun c => decide (c.client = h))).map (fun c => c.command.token) ++
    (e.clients h).responses.map (fun c => c.command.token)).filter (fun t => decide (t ≠ 0))

/-- How many commands of the client at `h`, queued or pending, hold the token `t`. -/
def tokenCount (e : Engine) (h : Nat) (t : Int) : Nat :=
  e.commands.countP (fun c => decide (c.client = h ∧ c.command.token = t)) +
    (e.clients h).responses.countP (fun c => decide (c.command.token = t))

/-- A fresh engine: no command queued and no response pending; the client structures are otherwise arbitrary. -/
def Engine.fresh (clients : Nat → MQTTAsyncs) (noPendingWrites : Int → Bool) : Engine :=
  { clients := fun h => { clients h with responses := [] }, noPendingWrites := noPendingWrites }

/-- The engine `e'` has the command queue of `e` and every client has the responses it has in `e`. -/
def sameQueues (e' e : Engine) : Prop :=
  e'.commands = e.commands ∧ ∀ h, (e'.clients h).responses = (e.clients h).responses

/-- No client holds a nonzero token more often in `e'` than in `e`. -/
def fewerTokens (e' e : Engine) : Prop :=
  ∀ h t, t ≠ 0 → tokenCount e' h t ≤ tokenCount e h t

/-- The steps of the token example: client 0 subscribes, publishes with qos 1, the SUBSCRIBE and the PUBLISH are dispatched, the PUBACK of the PUBLISH arrives, and the client publishes with qos 2 and subscribes again. -/
def tokens_trace : List ClientOp :=
  [ClientOp.subscribeMany 10 (fun _ => true) { ptr := 1 } 0 ["a"] [1] none,
   ClientOp.send 10 (fun _ => true) { ptr := 2 } 0 "t" 1 [120] 1 0 none,
   ClientOp.dispatch { rc := 0 },
   ClientOp.dispatch { rc := 0 },
   ClientOp.ack { rc := 0 } 0 PUBACK 2,
   ClientOp.send 10 (fun _ => true) { ptr := 3 } 0 "t" 1 [120] 2 0 none,
   ClientOp.subscribeMany 10 (fun _ => true) { ptr := 4 } 0 ["b"] [0] none]

/-- The engine at the end of the token example, started with every client connected. -/
def tokens_end : Engine :=
  (runClient tokens_trace (Engine.fresh (fun _ => { c := { connected := true } }) (fun _ => true))).getD {}

/-! ## Completion of a connection and retry of outbound publications -/

/-- Results of the calls `MQTTProtocol_retry` makes into code outside the tree. For the client at `h` and its outbound message at position `i`: `noPendingWrites h i` is the answer of `Socket_noPendingWrites` in the loop condition of `MQTTProtocol_retries`, `rc h i` the completion code of `MQTTPacket_send_publish` or `MQTTPacket_send_pubrel`, `time h i` the value of `time()` after the send; `x h` holds the clock and the `malloc` result of the `MQTTAsync_disconnect_internal` call made for that client. -/
structure RetryCalls where
  noPendingWrites : Nat → Nat → Bool := fun _ _ => true
  rc : Nat → Nat → Int := fun _ _ => 0
  time : Nat → Nat → Nat := fun _ _ => 0
  x : Nat → ExtCalls := fun _ => {}

/-- The function `MQTTProtocol_closeSession` of MQTTAsync.c for the client at `h` (`c->context` is its handle). -/
def MQTTProtocol_closeSession (x : ExtCalls) (h : Nat) (e : Engine) : Engine :=
  (MQTTAsync_disconnect_internal x h 0 e).2

/-- The `while` loop of `MQTTProtocol_retries` for the client at `h`, about to look at the outbound message at position `i` with `n` messages left; `client = NULL` after a failed send ends the loop. The call of `MQTTProtocol_storeQoS0` is under `m->qos == 0` inside a branch with qos 1 or 2 and never runs. -/
def MQTTProtocol_retries_loop (y : RetryCalls) (now : Nat) (h : Nat) (regardless : Bool) :
    Nat → Nat → Engine → Engine
  | 0, _, e => e
  | n + 1, i, e =>
    let c := (e.clients h).c
    match c.outboundMsgs.get? i with
    | none => e
    | some m =>
      if c.connected = true ∧ c.good = true ∧ y.noPendingWrites h i = true then
        if regardless = true ∨ (now : Int) - (m.lastTouch : Int) > max c.retryInterval 10 then
          if m.qos = 1 ∨ (m.qos = 2 ∧ m.nextMessageType = PUBREC) then
            let e := e.emit (.sendPublish h m.msgid 1 m.qos)
            if y.rc h i = SOCKET_ERROR then
              MQTTProtocol_closeSession (y.x h) h (e.setC h { c with good := false })
            else
              MQTTProtocol_retries_loop y now h regardless n (i + 1)
                (e.setC h { c with outboundMsgs := c.outboundMsgs.set i { m with lastTouch := y.time h i } })
          else if m.qos ≠ 0 ∧ m.nextMessageType = PUBCOMP then
            let e := e.emit (.sendPubrel h m.msgid)
            if y.rc h i ≠ TCPSOCKET_COMPLETE then
              MQTTProtocol_closeSession (y.x h) h (e.setC h { c with good := false })
            else
              MQTTProtocol_retries_loop y now h regardless n (i + 1)
                (e.setC h { c with outboundMsgs := c.outboundMsgs.set i { m with lastTouch := y.time h i } })
          else MQTTProtocol_retries_loop y now h regardless n (i + 1) e
        else MQTTProtocol_retries_loop y now h regardless n (i + 1) e
      else e

/-- The function `MQTTProtocol_retries` for the client at `h`. -/
def MQTTProtocol_retries (y : RetryCalls) (now : Nat) (h : Nat) (regardless : Bool) (e : Engine) : Engine :=
  if regardless = false ∧ (e.clients h).c.retryInterval ≤ 0 then e
  else MQTTProtocol_retries_loop y now h regardless (e.clients h).c.outboundMsgs.length 0 e

/-- The body of the loop of `MQTTProtocol_retry` for one client of the list `bstate->clients`. -/
def MQTTProtocol_retry_client (y : RetryCalls) (now : Nat) (doRetry regardless : Bool) (e : Engine)
    (h : Nat) : Engine :=
  if (e.clients h).c.connected = false then e
  else if (e.clients h).c.good = false then MQTTProtocol_closeSession (y.x h) h e
  else if e.noPendingWrites (e.clients h).c.socket = false then e
  else if doRetry = true then MQTTProtocol_retries y now h regardless e
  else e

/-- The function `MQTTProtocol_retry`; `handles` is the list `bstate->clients`, each client given by its handle. -/
def MQTTProtocol_retry (y : RetryCalls) (now : Nat) (doRetry regardless : Bool) (handles : List Nat)
    (e : Engine) : Engine :=
  handles.foldl (MQTTProtocol_retry_client y now doRetry regardless) e

/-- The last block of `MQTTAsync_completeConnection` (under `outboundMsgs->count > 0`) for the client at `h`: `lastTouch` of every outbound message is reset and `MQTTProtocol_retry((time_t)0, 1, 1)` re-sends them; `rc` is the return code so far and `handles` the list `bstate->clients`. -/
def MQTTAsync_completeConnection_resend (y : RetryCalls) (handles : List Nat) (h : Nat) (rc : Int)
    (e : Engine) : Int × Engine :=
  if (e.clients h).c.outboundMsgs.length > 0 then
    let c := (e.clients h).c
    let e := e.setC h { c with outboundMsgs := c.outboundMsgs.map (fun m => { m with lastTouch := 0 }) }
    let e := MQTTProtocol_retry y 0 true true handles e
    (if (e.clients h).c.connected ≠ true then MQTTCODE_DISCONNECT else rc, e)
  else (rc, e)

/-- The function `MQTTAsync_completeConnection` for the client at `h` and a CONNACK packet with return code `connack_rc`; `clear_rc` is the result of `MQTTPersistence_clear`, which `MQTTAsync_cleanSession` returns, and `handles` the list `bstate->clients`. The member `pack` of the handle is outside the model. -/
def MQTTAsync_completeConnection (y : RetryCalls) (clear_rc : Int) (handles : List Nat) (h : Nat)
    (connack_rc : Int) (e : Engine) : Int × Engine :=
  if (e.clients h).c.connect_state = 3 then
    if connack_rc = MQTTCODE_SUCCESS then
      let e := e.setC h { (e.clients h).c with connected := true, good := true, connect_state := 0 }
      if (e.clients h).c.cleansession = true then
        MQTTAsync_completeConnection_resend y handles h clear_rc (MQTTAsync_cleanSession h e)
      else MQTTAsync_completeConnection_resend y handles h connack_rc e
    else (connack_rc, e)
  else (MQTTCODE_FAILURE, e)

/-! ## The SUBACK branch of the receiving thread -/

/-- What the SUBACK branch of `MQTTAsync_receiveThread` writes into `data.alt` before it calls a success callback; `qoss` is the list of granted qos values of the packet. -/
def MQTTAsync_receiveThread_subackData (qoss : List Int) : SubscribeData :=
  if qoss.length = 1 then .qos (qoss.headD 0) else if qoss.length > 1 then .qosList qoss else .unset

/-- The branch of `MQTTAsync_receiveThread` for a SUBACK packet with message id `msgId` and granted qos values `qoss`, read for the client at `h`: the first response whose token is `msgId` (the search is that of `MQTTAsync_cycle_find`) is detached, and either its failure callback or its success callback is called, when the one chosen is not NULL. The call of `MQTTProtocol_handleSubacks` that follows frees the packet and is outside the tree. -/
def MQTTAsync_receiveThread_suback (h : Nat) (msgId : Int) (qoss : List Int) (e : Engine) : Engine :=
  match MQTTAsync_cycle_find (e.clients h).responses msgId with
  | none => e
  | some i =>
    let command := (e.clients h).responses.getD i {}
    let e := e.setClient h { e.clients h with responses := (e.clients h).responses.eraseIdx i }
    if qoss.length = 1 ∧ qoss.headD 0 = MQTT_BAD_SUBSCRIBE then
      e.call command.command.onFailure (fun f => .failureData h f command.command.token (qoss.headD 0))
    else
      e.call command.command.onSuccess (fun f => .subscribeSuccess h f command.command.token
        (MQTTAsync_receiveThread_subackData qoss))

/-! ## Reading a trace -/

/-- The MQTT versions of the connect attempts of the client at `h` that a trace records, in order. -/
def connectVersions (h : Nat) (trace : List Event) : List Int :=
  trace.filterMap (fun ev =>
    match ev with
    | .connectAttempt client _ v => if client = h then some v else none
    | _ => none)

/-! ## Further concrete inputs -/

/-- Client 0 is connected and has callback 5 for delivery-complete; `publish_qos2` waits in the responses and its outbound message, whose PUBREC has arrived, awaits the PUBCOMP. -/
def engine_awaiting_pubcomp : Engine :=
  { clients := fun _ => { c := { connected := true, good := true, socket := 3, msgID := 1,
                                 outboundMsgs := [{ message_qos2 with nextMessageType := PUBCOMP }] },
                          dc := some 5,
                          responses := [publish_qos2] } }

/-- A SUBSCRIBE of client 0 for the topics "a" (qos 2) and "b" (qos 1) with token 7, success callback 1 and failure callback 2. -/
def subscribe_two : MQTTAsync_queuedCommand :=
  { client := 0, ptr := 1,
    command := { type := SUBSCRIBE, token := 7, onSuccess := some 1, onFailure := some 2,
                 details := .sub 2 ["a", "b"] [2, 1] } }

/-- Client 0 is connected; `subscribe_two` was sent and awaits its SUBACK. -/
def engine_awaiting_suback : Engine :=
  { clients := fun _ => { c := { connected := true, good := true, socket := 3, msgID := 7 },
                          responses := [subscribe_two] } }

/-- Client 0 (like every client) is connected; nothing is queued or pending and no id was assigned yet. -/
def engine_connected : Engine :=
  { clients := fun _ => { c := { connected := true, good := true, socket := 3 } } }

/-- A stand-in for `UTF8_validateString` in the examples: it rejects the topic written "bad" and accepts every other (a Lean string cannot hold an invalid byte sequence). -/
def utf8_example (topic : String) : Bool :=
  !(strncmp_eq topic.data "bad".data 4)

/-- The CONNECT command that `MQTTAsync_connect` queued in `engine_connect_default`. -/
def connect_default : MQTTAsync_queuedCommand :=
  engine_connect_default.commands.headD {}

/-- The first dispatch of `connect_default` by the CONNECT branch, every network call failing: the completion code, the command as updated and the engine. -/
def connect_attempt_1 : Int × MQTTAsync_queuedCommand × Engine :=
  (MQTTAsync_processCommand_connect refused connect_default engine_connect_default).getD
    (0, connect_default, engine_connect_default)

/-- The dispatch of the command the first attempt left, in the engine the first attempt left. -/
def connect_attempt_2 : Int × MQTTAsync_queuedCommand × Engine :=
  (MQTTAsync_processCommand_connect refused connect_attempt_1.2.1 connect_attempt_1.2.2).getD
    connect_attempt_1

/-! ## What a retry leaves of a connection -/

/-- Between `e` and `e'` the client at `g` keeps `connected` and `connect_state`, and it keeps `good` when every send a retry makes for it completes. -/
def linkKept (y : RetryCalls) (g : Nat) (e' e : Engine) : Prop :=
  (e'.clients g).c.connected = (e.clients g).c.connected ∧
  (e'.clients g).c.connect_state = (e.clients g).c.connect_state ∧
  ((∀ i, y.rc g i = TCPSOCKET_COMPLETE) → (e.clients g).c.good = true → (e'.clients g).c.good = true)

/-- Client 0 has sent its CONNECT on socket 3 and waits for the CONNACK (`connect_state` 3); it asked for no clean session, and a qos 1 publication with id 1 of the session before is still in its outbound messages. -/
def engine_awaiting_connack : Engine :=
  { clients := fun _ => { c := { connect_state := 3, socket := 3, cleansession := false,
                                 outboundMsgs := [{ msgid := 1, qos := 1, lastTouch := 50 }] } } }

/-- Every send the retry makes fails with `SOCKET_ERROR`. -/
def retry_fails : RetryCalls := { rc := fun _ _ => SOCKET_ERROR }

/-- Client 0 waits for the CONNACK of a connection with clean session; an outbound qos 1 publication and an inbound qos 2 publication, both restored from persistence, are in its lists. -/
def engine_awaiting_connack_clean : Engine :=
  { clients := fun _ => { c := { connect_state := 3, socket := 3, cleansession := true,
                                 outboundMsgs := [{ msgid := 1, qos := 1 }],
                                 inboundMsgs := [{ msgid := 9, qos := 2, nextMessageType := PUBREL }] } } }

/-! ## Registering the callbacks -/

/-- The function `MQTTAsync_setCallbacks` on a non-NULL handle; `none` is a NULL function pointer. -/
def MQTTAsync_setCallbacks (h : Nat) (context : Nat) (cl ma dc : Option Nat) (e : Engine) : Int × Engine :=
  if ma = none ∨ (e.clients h).c.connect_state ≠ 0 then (MQTTCODE_FAILURE, e)
  else (MQTTCODE_SUCCESS, e.setClient h { e.clients h with context := context, cl := cl, ma := ma, dc := dc })

/-! ## Restored commands in the queue -/

/-- The function `MQTTAsync_insertInOrder`: the loop stops at the first element whose seqno is greater than that of `content`, and `ListInsert` puts `content` before it, or at the end when there is none. -/
def MQTTAsync_insertInOrder (list : List MQTTAsync_queuedCommand) (content : MQTTAsync_queuedCommand) :
    List MQTTAsync_queuedCommand :=
  match list.findIdx? (fun current => decide (content.seqno < current.seqno)) with
  | some index => list.take index ++ content :: list.drop index
  | none => list ++ [content]

/-! ## Delivery of queued publications -/

/-- The block of `MQTTAsync_receiveThread` that offers the head of the message queue of the client at `h` to the application; `answer` is what the message-arrived callback returns. The removal of the persisted copy by `MQTTPersistence_unpersistQueueEntry` (MQTTPersistence.c, not part of the tree) is outside the model. -/
def MQTTAsync_receiveThread_deliver (answer : Int) (h : Nat) (e : Engine) : Engine :=
  match (e.clients h).c.messageQueue with
  | [] => e
  | qe :: _ =>
    let topicLen := if (qe.topicName.getD "").length = qe.topicLen then 0 else qe.topicLen
    let r : Int × Engine :=
      match (e.clients h).ma with
      | some ma => (answer, e.emit (.messageArrived h ma qe.topicName topicLen qe))
      | none => (1, e)
    if r.1 ≠ 0 then
      r.2.setC h { (e.clients h).c with messageQueue := (e.clients h).c.messageQueue.eraseIdx 0 }
    else r.2

/-- Client 0 (like every client) is connected and has registered context 7 and the callbacks 1 (connection lost), 2 (message arrived) and 3 (delivery complete). -/
def engine_connected_callbacks : Engine :=
  { clients := fun _ => { c := { connected := true, good := true, socket := 3 },
                          context := 7, cl := some 1, ma := some 2, dc := some 3 } }

/-- A restored command of client 0 with the given seqno, allocated at address `ptr`. -/
def restored (seqno ptr : Nat) : MQTTAsync_queuedCommand :=
  { client := 0, seqno := seqno, ptr := ptr, command := { type := PUBLISH, details := .pub (some "t") 0 [] 0 0 } }

/-- A queued publication on topic "t" with the given message id. -/
def queued_publication (msgid : Int) : qEntry :=
  { topicName := some "t", topicLen := 1, payload := [120], qos := 1, msgid := msgid }

/-- Client 0 is connected and has two publications in its message queue; no message-arrived callback was ever registered. -/
def engine_queue_no_callback : Engine :=
  { clients := fun _ => { c := { connected := true, good := true, socket := 3,
                                 messageQueue := [queued_publication 1, queued_publication 2] } } }

/-- Client 0 is connected, has callback 2 for message-arrived and two publications in its message queue. -/
def engine_queue_callback : Engine :=
  { clients := fun _ => { c := { connected := true, good := true, socket := 3,
                                 messageQueue := [queued_publication 1, queued_publication 2] },
                          ma := some 2 } }

/-! ## Message ids of the protocol module -/

/-- The `while` loop of `MQTTProtocol_assignMsgId`, entered with the candidate `msgid`: the loop condition is that an outbound message of the client has the id (`messageIDCompare`); each evaluation of it costs one unit of fuel and `none` means the fuel ran out. -/
def MQTTProtocol_assignMsgId_loop (client : Clients) (start_msgid : Int) : Nat → Int → Option Int
  | 0, _ => none
  | fuel + 1, msgid =>
    if client.outboundMsgs.any (fun m => decide (m.msgid = msgid)) = true then
      let msgid := if msgid = MAX_MSG_ID then 1 else msgid + 1
      if msgid = start_msgid then some 0
      else MQTTProtocol_assignMsgId_loop client start_msgid fuel msgid
    else some msgid

/-- The function `MQTTProtocol_assignMsgId`: the id returned and the client, or `none` when the loop has not ended within `fuel` probes. -/
def MQTTProtocol_assignMsgId (fuel : Nat) (client : Clients) : Option (Int × Clients) :=
  let start_msgid := client.msgID
  match MQTTProtocol_assignMsgId_loop client start_msgid fuel
      (if start_msgid = MAX_MSG_ID then 1 else start_msgid + 1) with
  | none => none
  | some msgid =>
    if msgid ≠ 0 then some (msgid, { client with msgID := msgid })
    else some (msgid, client)

/-- An outbound qos 1 message whose id is `t`. -/
def outbound_with_id (t : Nat) : Messages :=
  { msgid := (t : Int), qos := 1 }

/-- A client structure that never assigned an id (`msgID` is 0) and has an outbound message for every id of 1..65535. -/
def clients_all_outbound : Clients :=
  { connected := true, msgID := 0,
    outboundMsgs := ((List.range 65536).filter (fun t => decide (t ≠ 0))).map outbound_with_id }

/-- Client 0 after `MQTTAsync_connect` with the single server URI `"tcp://a"`, MQTT version 3.1.1 requested and a failure callback. -/
def engine_connect_single_v311 : Engine :=
  (MQTTAsync_connect (fun _ => true) { ptr := 1 } 0
    { serverURIcount := 1, serverURIs := ["tcp://a"], MQTTVersion := MQTTVERSION_3_1_1,
      onFailure := some 7 } {}).2

/-! ## The persisted record of a command and its restoration -/

/-- The `width` bytes of the unsigned value `v`, least significant first (the targets of the SDK are little-endian). -/
def bytes_le : Nat → Nat → List Nat
  | 0, _ => []
  | width + 1, v => v % 256 :: bytes_le width (v / 256)

/-- The unsigned value of a sequence of bytes, least significant first. -/
def value_le : List Nat → Nat
  | [] => 0
  | b :: bs => b + 256 * value_le bs

/-- The object representation of an `int` (four bytes, two's complement). -/
def int_bytes (v : Int) : List Nat :=
  bytes_le 4 (v % 4294967296).toNat

/-- The `int` that four bytes represent. -/
def int_value (bytes : List Nat) : Int :=
  if value_le bytes < 2147483648 then (value_le bytes : Int) else (value_le bytes : Int) - 4294967296

/-- The bytes of a C string up to its terminator; a `Char` of the model stands for one `char`, and the string ends at the first NUL. -/
def cstring_bytes (s : String) : List Nat :=
  (s.data.map Char.toNat).takeWhile (fun b => decide (b ≠ 0))

/-- The bytes `bufs[i]` points to, `lens[i]` of them, as `MQTTAsync_persistCommand` sets them up: `sizeof` bytes of an `int` or of a `size_t` (`sizeof_size_t` is 4 on the 32-bit targets and 8 on the 64-bit targets), a string with its terminator (`strlen + 1`), or the payload. -/
def PersistBuf.encode (sizeof_size_t : Nat) : PersistBuf → List Nat
  | .int v => int_bytes v
  | .size n => bytes_le sizeof_size_t n
  | .str s => cstring_bytes s ++ [0]
  | .bytes b => b

/-- Modelled from the spec: the record kept for a command is the concatenation of the buffers `MQTTAsync_persistCommand` hands to `pput`, each with its recorded length (the persistence backend is not part of the tree). -/
def MQTTAsync_persistCommand_record (sizeof_size_t : Nat) (command : MQTTAsync_command) : List Nat :=
  (MQTTAsync_persistCommand_bufs command).flatMap (PersistBuf.encode sizeof_size_t)

/-- The read `*(int*)ptr` followed by `ptr += sizeof(int)`: the value and the bytes from the new `ptr` on; `none` when the read goes past the end of the buffer. -/
def read_int (buffer : List Nat) : Option (Int × List Nat) :=
  if buffer.length < 4 then none else some (int_value (buffer.take 4), buffer.drop 4)

/-- The copy `strcpy(dest, ptr)` of `strlen(ptr) + 1` bytes followed by `ptr += data_size`: the bytes before the first NUL and the bytes after it; `none` when no NUL is in the buffer. -/
def read_cstring : List Nat → Option (List Nat × List Nat)
  | [] => none
  | b :: rest => if b = 0 then some ([], rest) else (read_cstring rest).map (fun r => (b :: r.1, r.2))

/-- The function `MQTTAsync_restoreCommand` on the bytes of a record; `ptr` is the address `malloc` returns for the command. The result is `some none` when the function returns NULL, and `none` when its behaviour is undefined: a read past the end of the buffer, a payload length that is negative, or, for a SUBSCRIBE or UNSUBSCRIBE with a count above 0, the store to `details.sub.topics[0]`, where `topics` is the NULL pointer `memset` left (the function allocates neither `topics` nor `qoss`). The parameter `buflen` is not used. -/
def MQTTAsync_restoreCommand (ptr : Nat) (buffer : List Nat) : Option (Option MQTTAsync_queuedCommand) :=
  match read_int buffer with
  | none => none
  | some (type, buffer) =>
    match read_int buffer with
    | none => none
    | some (token, buffer) =>
      if type = SUBSCRIBE then
        match read_int buffer with
        | none => none
        | some (count, _) =>
          if count > 0 then none
          else some (some { ptr := ptr, command := { type := type, token := token, details := .sub count [] [] } })
      else if type = UNSUBSCRIBE then
        match read_int buffer with
        | none => none
        | some (count, _) =>
          if count > 0 then none
          else some (some { ptr := ptr, command := { type := type, token := token, details := .unsub count [] } })
      else if type = PUBLISH then
        match read_cstring buffer with
        | none => none
        | some (destinationName, buffer) =>
          match read_int buffer with
          | none => none
          | some (payloadlen, buffer) =>
            if payloadlen < 0 ∨ buffer.length < payloadlen.toNat then none
            else
              match read_int (buffer.drop payloadlen.toNat) with
              | none => none
              | some (qos, buffer') =>
                match read_int buffer' with
                | none => none
                | some (retained, _) =>
                  let details := MQTTAsync_details.pub (some (String.mk (destinationName.map Char.ofNat)))
                    payloadlen.toNat (buffer.take payloadlen.toNat) qos retained
                  some (some { ptr := ptr, command := { type := type, token := token, details := details } })
      else some none

/-- A PUBLISH command with token 7 for the topic "t": the payload "hello" (5 bytes), qos 1, not retained. -/
def publish_hello : MQTTAsync_command :=
  { type := PUBLISH, token := 7, details := .pub (some "t") 5 [104, 101, 108, 108, 111] 1 0 }

/-- A SUBSCRIBE command with token 8 for the one topic "a" with qos 2. -/
def subscribe_one : MQTTAsync_command :=
  { type := SUBSCRIBE, token := 8, details := .sub 1 ["a"] [2] }

/-- An UNSUBSCRIBE command with token 9 for the one topic "a". -/
def unsubscribe_one : MQTTAsync_command :=
  { type := UNSUBSCRIBE, token := 9, details := .unsub 1 ["a"] }

/-! ## Restoring the persisted commands of a client -/

/-- The digits part of the libc function `atoi`: the decimal digits at the front are accumulated. -/
def atoi_digits : List Char → Nat → Nat
  | [], acc => acc
  | c :: cs, acc => if c.isDigit then atoi_digits cs (10 * acc + (c.toNat - 48)) else acc

/-- The libc function `atoi` on the characters of a string: white space, an optional sign, decimal digits (a value outside `int` is outside the model). -/
def atoi (s : List Char) : Int :=
  match s.dropWhile Char.isWhitespace with
  | '-' :: cs => - (atoi_digits cs 0 : Int)
  | '+' :: cs => (atoi_digits cs 0 : Int)
  | cs => (atoi_digits cs 0 : Int)

/-- The seqno `MQTTAsync_restoreCommands` gives a restored command: `atoi(msgkeys[i]+2)` stored in an `unsigned int`. -/
def seqno_of_key (key : String) : Nat :=
  (atoi (key.data.drop 2) % 4294967296).toNat

/-- Results of the calls `MQTTAsync_restoreCommands` makes into code outside the tree: `pkeys_rc` is the return code of `pkeys` (the keys themselves are those of the store, in its order), `pget_rc i` the return code of `pget` for the key at position `i`, `ptr i` the address `malloc` returns for the command restored from it, and `insertInOrder` stands for `MQTTPersistence_insertInOrder` (MQTTPersistence.c, not part of the tree), which is the function called to put the command into the list `commands`. -/
structure PersistCalls where
  pkeys_rc : Int := 0
  pget_rc : Nat → Int := fun _ => 0
  ptr : Nat → Nat := fun i => i
  insertInOrder : List MQTTAsync_queuedCommand → MQTTAsync_queuedCommand → List MQTTAsync_queuedCommand :=
    MQTTAsync_insertInOrder

/-- The `while` loop of `MQTTAsync_restoreCommands` for the client at `h` over the keys from position `i` on, each with its record; the loop ends when `pget` fails. The result is `rc` and the engine, `none` when `MQTTAsync_restoreCommand` has undefined behaviour on a record. -/
def MQTTAsync_restoreCommands_loop (sizeof_size_t : Nat) (p : PersistCalls) (h : Nat) :
    List (String × List PersistBuf) → Nat → Engine → Option (Int × Engine)
  | [], _, e => some (0, e)
  | (key, bufs) :: rest, i, e =>
    if strncmp_eq key.data "c-".data 2 = false then
      MQTTAsync_restoreCommands_loop sizeof_size_t p h rest (i + 1) e
    else if p.pget_rc i ≠ 0 then some (p.pget_rc i, e)
    else
      match MQTTAsync_restoreCommand (p.ptr i) (bufs.flatMap (PersistBuf.encode sizeof_size_t)) with
      | none => none
      | some none => MQTTAsync_restoreCommands_loop sizeof_size_t p h rest (i + 1) e
      | some (some cmd) =>
        let cmd := { cmd with client := h, seqno := seqno_of_key key }
        let e := { e with commands := p.insertInOrder e.commands cmd }
        let e := e.setClient h { e.clients h with
          command_seqno := max (e.clients h).command_seqno cmd.seqno }
        MQTTAsync_restoreCommands_loop sizeof_size_t p h rest (i + 1) e

/-- The function `MQTTAsync_restoreCommands` for the client at `h`. -/
def MQTTAsync_restoreCommands (sizeof_size_t : Nat) (p : PersistCalls) (h : Nat) (e : Engine) :
    Option (Int × Engine) :=
  if (e.clients h).c.persistence = true then
    if p.pkeys_rc = 0 then MQTTAsync_restoreCommands_loop sizeof_size_t p h (e.clients h).c.store 0 e
    else some (p.pkeys_rc, e)
  else some (0, e)

/-- The seqnos of the records that a restoration turns into commands, in the order of the keys from position `i` on: the records under a command key ("c-" and a number) that `pget` delivers and that hold a command; the restoration ends at the first record `pget` does not deliver. -/
def restored_seqnos_ref (sizeof_size_t : Nat) (p : PersistCalls) :
    List (String × List PersistBuf) → Nat → List Nat
  | [], _ => []
  | (key, bufs) :: rest, i =>
    if strncmp_eq key.data "c-".data 2 = false then restored_seqnos_ref sizeof_size_t p rest (i + 1)
    else if p.pget_rc i ≠ 0 then []
    else
      match MQTTAsync_restoreCommand (p.ptr i) (bufs.flatMap (PersistBuf.encode sizeof_size_t)) with
      | some (some _) => seqno_of_key key :: restored_seqnos_ref sizeof_size_t p rest (i + 1)
      | _ => restored_seqnos_ref sizeof_size_t p rest (i + 1)

/-- A new client 0 with persistence whose store holds the records of two PUBLISH commands under the keys "c-7" and "c-3" and a record of another kind. -/
def engine_with_store : Engine :=
  { clients := fun _ =>
      { c := { persistence := true,
               store := [("c-7", MQTTAsync_persistCommand_bufs publish_hello),
                         ("s-1", [.int 1]),
                         ("c-3", MQTTAsync_persistCommand_bufs publish_hello)] } } }

/-- A new client 0 with persistence, as after a restart of the program: its store holds what `MQTTAsync_persistCommand` wrote in the run before for the command `subscribe_one`, one record under the key "c-1". -/
def engine_store_subscribe : Engine :=
  { clients := fun _ =>
      { c := { persistence := true,
               store := (MQTTAsync_persistCommand { command := subscribe_one }
                 { c := { persistence := true } }).1.c.store } } }

/-! ## Inbound publications -/

/-- The `MQTTAsync_message` that `Protocol_processPublication` builds for a publication, with the topic and topic length of the `qEntry` that may hold it: the payload is the `payloadlen` bytes at `payload` (the stored buffer itself for qos 2, a copy otherwise), and `dup` is cleared for qos 2. -/
def Protocol_processPublication_entry (publish : Publish) : qEntry :=
  { topicName := publish.topic, topicLen := publish.topiclen,
    payload := publish.payload.take publish.payloadlen,
    qos := publish.qos, retained := publish.retain,
    dup := if publish.qos = 2 then 0 else publish.dup, msgid := publish.msgId }

/-- The function `Protocol_processPublication` for the client at `h`; `answer` is what the message-arrived callback returns. The persisted copy of a queued entry (`MQTTPersistence_persistQueueEntry`, MQTTPersistence.c, not part of the tree) is outside the model. -/
def Protocol_processPublication (answer : Int) (h : Nat) (publish : Publish) (e : Engine) : Engine :=
  let qe := Protocol_processPublication_entry publish
  let r : Int × Engine :=
    if (e.clients h).c.messageQueue.length = 0 ∧ (e.clients h).c.connected = true then
      match (e.clients h).ma with
      | some ma => (answer, e.emit (.messageArrived h ma publish.topic publish.topiclen qe))
      | none => (0, e)
    else (0, e)
  if r.1 = 0 then
    r.2.setC h { (r.2.clients h).c with messageQueue := (r.2.clients h).c.messageQueue ++ [qe] }
  else r.2

/-- The inbound message that `MQTTProtocol_handlePublishes` allocates for a PUBLISH with qos 2; `lastTouch` is not written and holds what `malloc` returned (`x.uninit`). -/
def MQTTProtocol_handlePublishes_message (x : ExtCalls) (publish : Publish) : Messages :=
  { publish := MQTTProtocol_storePublication publish, msgid := publish.msgId, qos := publish.qos,
    retain := publish.retain, nextMessageType := PUBREL, lastTouch := x.uninit.toNat }

/-- The function `MQTTProtocol_handlePublishes` for a PUBLISH packet read for the client at `h`; `x.rc` is the completion code of `MQTTPacket_send_puback` or `MQTTPacket_send_pubrec`, `answer` what the message-arrived callback returns. For qos 2 and an inbound message with the same id, `ListInsert` puts the new message before the one found and `ListRemove` then unlinks the one found. -/
def MQTTProtocol_handlePublishes (x : ExtCalls) (answer : Int) (h : Nat) (publish : Publish) (e : Engine) :
    Int × Engine :=
  if publish.qos = 0 then (TCPSOCKET_COMPLETE, Protocol_processPublication answer h publish e)
  else if publish.qos = 1 then
    (x.rc, Protocol_processPublication answer h publish (e.emit (.sendPuback h publish.msgId)))
  else if publish.qos = 2 then
    let c := (e.clients h).c
    let m := MQTTProtocol_handlePublishes_message x publish
    let inboundMsgs :=
      match c.inboundMsgs.findIdx? (fun msg => decide (msg.msgid = m.msgid)) with
      | some i => (c.inboundMsgs.take i ++ m :: c.inboundMsgs.drop i).eraseIdx (i + 1)
      | none => c.inboundMsgs ++ [m]
    (x.rc, (e.setC h { c with inboundMsgs := inboundMsgs }).emit (.sendPubrec h publish.msgId))
  else (TCPSOCKET_COMPLETE, e)

/-- The local `Publish` that `MQTTProtocol_handlePubrels` fills from an inbound message (`header.bits.dup` is not written; `Protocol_processPublication` does not read it for qos 2). -/
def MQTTProtocol_handlePubrels_publish (m : Messages) : Publish :=
  { qos := m.qos, retain := m.retain, msgId := m.msgid, topic := m.publish.topic,
    topiclen := m.publish.topiclen, payload := m.publish.payload, payloadlen := m.publish.payloadlen }

/-- The function `MQTTProtocol_handlePubrels` for a PUBREL packet with message id `msgId` and header bit `dup`, read for the client at `h`; `x.rc` is the completion code of `MQTTPacket_send_pubcomp`, `x.remove_rc` the result of `MQTTPersistence_remove`, `answer` what the message-arrived callback returns. -/
def MQTTProtocol_handlePubrels (x : ExtCalls) (answer : Int) (h : Nat) (msgId : Int) (dup : Int)
    (e : Engine) : Int × Engine :=
  let c := (e.clients h).c
  match c.inboundMsgs.findIdx? (fun m => decide (m.msgid = msgId)) with
  | none => if dup = 0 then (TCPSOCKET_COMPLETE, e) else (x.rc, e.emit (.sendPubcomp h msgId))
  | some i =>
    let m := c.inboundMsgs.getD i {}
    if m.qos ≠ 2 then (TCPSOCKET_COMPLETE, e)
    else if m.nextMessageType ≠ PUBREL then (TCPSOCKET_COMPLETE, e)
    else
      let e := e.emit (.sendPubcomp h msgId)
      let e := Protocol_processPublication answer h (MQTTProtocol_handlePubrels_publish m) e
      (x.rc + x.remove_rc,
        e.setC h { (e.clients h).c with inboundMsgs := (e.clients h).c.inboundMsgs.eraseIdx i })

/-- The ids of a list of messages are pairwise distinct. -/
def distinct_ids (l : List Messages) : Prop :=
  l.Pairwise (fun a b => a.msgid ≠ b.msgid)

instance (l : List Messages) : Decidable (distinct_ids l) := by
  unfold distinct_ids; infer_instance

/-- An inbound PUBLISH with qos 2 and id 9 on topic "t" with the payload "x". -/
def publish_inbound_9 : Publish :=
  { topic := some "t", topiclen := 1, payload := [120], payloadlen := 1, msgId := 9, qos := 2 }

/-- Client 0 is connected, has callback 2 for message-arrived and holds the inbound qos 2 messages 8, 9 and 10, all awaiting their PUBREL. -/
def engine_inbound_three : Engine :=
  { clients := fun _ =>
      { c := { connected := true, good := true, socket := 3,
               inboundMsgs := [{ msgid := 8, qos := 2, nextMessageType := PUBREL },
                               { msgid := 9, qos := 2, retain := 1, nextMessageType := PUBREL,
                                 publish := { topic := some "old", topiclen := 3, payload := [111], payloadlen := 1,
                                              refcount := 1 } },
                               { msgid := 10, qos := 2, nextMessageType := PUBREL }] },
        ma := some 2 } }

/-! ## Keepalive -/

/-- Results of the calls `MQTTProtocol_keepalive` makes into code outside the tree: for the client at `h`, `rc h` is the completion code of `MQTTPacket_send_pingreq`, and `x h` holds the clock and the `malloc` result of the `MQTTAsync_disconnect_internal` call made for that client. -/
structure KeepaliveCalls where
  rc : Nat → Int := fun _ => 0
  x : Nat → ExtCalls := fun _ => {}

/-- The body of the loop of `MQTTProtocol_keepalive` for one client of the list `bstate->clients`. -/
def MQTTProtocol_keepalive_client (y : KeepaliveCalls) (now : Nat) (e : Engine) (h : Nat) : Engine :=
  let c := (e.clients h).c
  if c.connected = true ∧ c.keepAliveInterval > 0 ∧
      ((now : Int) - (c.lastSent : Int) ≥ c.keepAliveInterval ∨
        (now : Int) - (c.lastReceived : Int) ≥ c.keepAliveInterval) then
    if c.ping_outstanding = false then
      if e.noPendingWrites c.socket = true then
        let e := e.emit (.sendPingreq h)
        if y.rc h ≠ TCPSOCKET_COMPLETE then MQTTProtocol_closeSession (y.x h) h e
        else e.setC h { c with lastSent := now, ping_outstanding := true }
      else e
    else MQTTProtocol_closeSession (y.x h) h e
  else e

/-- The function `MQTTProtocol_keepalive`; `handles` is the list `bstate->clients`, each client given by its handle. -/
def MQTTProtocol_keepalive (y : KeepaliveCalls) (now : Nat) (handles : List Nat) (e : Engine) : Engine :=
  handles.foldl (MQTTProtocol_keepalive_client y now) e

/-- How many PINGREQ packets a trace records for the client at `h`. -/
def pingreqs (h : Nat) (trace : List Event) : Nat :=
  trace.countP (fun ev => decide (ev = Event.sendPingreq h))

/-- The condition under which the keepalive scan acts on a client: it is connected, has a keepalive interval above 0, and the interval has passed since the last packet sent or since the last packet received. -/
def keepalive_due (now : Nat) (c : Clients) : Prop :=
  c.connected = true ∧ c.keepAliveInterval > 0 ∧
    ((now : Int) - (c.lastSent : Int) ≥ c.keepAliveInterval ∨
      (now : Int) - (c.lastReceived : Int) ≥ c.keepAliveInterval)

instance (now : Nat) (c : Clients) : Decidable (keepalive_due now c) := by
  unfold keepalive_due; infer_instance

/-- Client 0 is connected with a keepalive interval of 60 s, sent its last packet at time 100 and has no PINGREQ outstanding; client 1 is the same but still waits for a PINGRESP; client 2 is connected with no keepalive. -/
def engine_keepalive : Engine :=
  { clients := fun h =>
      { c := { connected := true, good := true, socket := 3 + (h : Int),
               keepAliveInterval := if h = 2 then 0 else 60,
               lastSent := 100, lastReceived := 100, ping_outstanding := decide (h = 1) } } }

/-! ## The retry scan: what is sent for a message -/

/-- The packet that the body of the loop of `MQTTProtocol_retries` sends for the outbound message `m` it looks at: nothing unless `regardless` is set or `lastTouch` is more than `max(retryInterval, 10)` seconds before `now`; then a PUBLISH with `dup` 1 for qos 1 and for qos 2 awaiting the PUBREC, else a PUBREL for a message with a qos other than 0 awaiting the PUBCOMP. -/
def MQTTProtocol_retries_packet (now : Nat) (h : Nat) (regardless : Bool) (retryInterval : Int)
    (m : Messages) : Option Event :=
  if regardless = true ∨ (now : Int) - (m.lastTouch : Int) > max retryInterval 10 then
    if m.qos = 1 ∨ (m.qos = 2 ∧ m.nextMessageType = PUBREC) then some (.sendPublish h m.msgid 1 m.qos)
    else if m.qos ≠ 0 ∧ m.nextMessageType = PUBCOMP then some (.sendPubrel h m.msgid)
    else none
  else none

/-- Client 0 is connected with a retry interval of 20 s and three outbound messages last touched at time 100: a qos 1 publication, a qos 2 publication awaiting the PUBREC and a qos 2 publication awaiting the PUBCOMP. -/
def engine_three_outbound : Engine :=
  { clients := fun _ =>
      { c := { connected := true, good := true, socket := 3, retryInterval := 20,
               outboundMsgs := [{ msgid := 1, qos := 1, lastTouch := 100 },
                                { msgid := 2, qos := 2, nextMessageType := PUBREC, lastTouch := 100 },
                                { msgid := 3, qos := 2, nextMessageType := PUBCOMP, lastTouch := 100 }] } } }

/-! ## Completion queries -/

/-- Modelled from the spec: the value `true` that `MQTTAsync_isComplete` returns (the macro `MQTTASYNC_TRUE` is in MQTTAsync.h, not part of the tree; `MQTTAsync_waitForCompletion` compares the result with the literal 1). -/
abbrev MQTTASYNC_TRUE : Int := 1

/-- A call of `MQTTAsync_lock_mutex` or `MQTTAsync_unlock_mutex` on `mqttasync_mutex`. -/
inductive MutexOp where
  | lock
  | unlock
deriving DecidableEq, Repr

/-- How many acquisitions of the mutex a sequence of calls holds that it has not released. -/
def MutexOp.held (ops : List MutexOp) : Int :=
  (ops.count MutexOp.lock : Int) - (ops.count MutexOp.unlock : Int)

/-- The function `MQTTAsync_isComplete`; `handle` is `none` for a NULL handle. The result is the return code and the calls made on `mqttasync_mutex`, in order. -/
def MQTTAsync_isComplete (handle : Option Nat) (dt : Int) (e : Engine) : Int × List MutexOp :=
  match handle with
  | none => (MQTTCODE_FAILURE, [.lock, .unlock])
  | some h =>
    if e.commands.any (fun cmd => decide (cmd.client = h ∧ cmd.command.token = dt)) = true then
      (MQTTCODE_SUCCESS, [.lock, .unlock])
    else if (e.clients h).c.outboundMsgs.any (fun m => decide (m.msgid = dt)) = true then
      (MQTTCODE_SUCCESS, [.lock, .unlock])
    else (MQTTASYNC_TRUE, [.lock, .unlock])

/-- Results of what `MQTTAsync_waitForCompletion` observes while it polls: `elapsed k` is the value of the call number `k` of `MQTTAsync_elapsed`, and `engine k` the state of the engine at the call number `k` of `MQTTAsync_isComplete` (the two threads of the engine run between the polls). -/
structure WaitCalls where
  elapsed : Nat → Nat := fun _ => 0
  engine : Nat → Engine := fun _ => {}

/-- The `while` loop of `MQTTAsync_waitForCompletion` after `k` polls: the return code and the calls made on `mqttasync_mutex`; each test of the loop condition costs one unit of fuel and `none` means the fuel ran out. -/
def MQTTAsync_waitForCompletion_loop (w : WaitCalls) (handle : Option Nat) (dt : Int) (timeout : Nat) :
    Nat → Nat → Option (Int × List MutexOp)
  | 0, _ => none
  | fuel + 1, k =>
    if w.elapsed k < timeout then
      let r := MQTTAsync_isComplete handle dt (w.engine (k + 1))
      if r.1 = 1 then some (MQTTCODE_SUCCESS, r.2)
      else (MQTTAsync_waitForCompletion_loop w handle dt timeout fuel (k + 1)).map (fun s => (s.1, r.2 ++ s.2))
    else some (MQTTCODE_FAILURE, [])

/-- The function `MQTTAsync_waitForCompletion`; `handle` is `none` for a NULL handle and `e` the engine at entry. The result is the return code and the calls made on `mqttasync_mutex`, in order; `none` when the loop has not ended within `fuel` tests. -/
def MQTTAsync_waitForCompletion (fuel : Nat) (w : WaitCalls) (handle : Option Nat) (dt : Int) (timeout : Nat)
    (e : Engine) : Option (Int × List MutexOp) :=
  match handle with
  | none => some (MQTTCODE_FAILURE, [.lock])
  | some h =>
    if (e.clients h).c.connected = false then some (MQTTCODE_DISCONNECT, [.lock])
    else
      let r := MQTTAsync_isComplete handle dt (w.engine 0)
      if r.1 = 1 then some (MQTTCODE_SUCCESS, [.lock, .unlock] ++ r.2)
      else
        (MQTTAsync_waitForCompletion_loop w handle dt timeout fuel 0).map
          (fun s => (s.1, [.lock, .unlock] ++ r.2 ++ s.2))

/-- Client 0 is connected on socket 3 with clean session. -/
def engine_clean_connected : Engine :=
  { clients := fun _ => { c := { connected := true, good := true, socket := 3, cleansession := true } } }

/-- Client 0 of `engine_clean_connected` publishes with qos 1 (the token is 1) and then calls `MQTTAsync_disconnect` without options; the sending thread dispatches the PUBLISH. -/
def engine_published : Option Engine :=
  (MQTTAsync_send 10 (fun _ => true) { ptr := 1 } 0 "t" 1 [120] 1 0 none engine_clean_connected).bind
    (fun r => MQTTAsync_processCommand {} (MQTTAsync_disconnect { ptr := 2 } 0 none r.2.2).2)

/-- The engine of `engine_published` after the sending thread has dispatched the DISCONNECT as well; no packet was received in between. -/
def engine_published_closed : Option Engine :=
  engine_published.bind (MQTTAsync_processCommand {})

/-! ## String copies -/

/-- The function `strlen` on the bytes of an array that holds a NUL: the number of bytes before the first NUL. -/
def strlen (src : List Nat) : Nat :=
  (src.takeWhile (fun b => decide (b ≠ 0))).length

/-- The `while` loop of `MQTTStrncpy`: `count` as the loop tests it, the bytes of `src` from the read pointer on, the index `temp` of the write pointer in `dest`, and the array `dest`. The result is the index of the write pointer after the loop and the array; `none` when the loop reads past the end of `src` or writes outside `dest`. -/
def MQTTStrncpy_loop : Nat → List Nat → Nat → List Nat → Option (Nat × List Nat)
  | 0, _, temp, dest => some (temp, dest)
  | 1, _, temp, dest => some (temp, dest)
  | count + 2, src, temp, dest =>
    match src with
    | [] => none
    | b :: src =>
      if temp < dest.length then
        if b ≠ 0 then MQTTStrncpy_loop (count + 1) src (temp + 1) (dest.set temp b)
        else some (temp + 1, dest.set temp b)
      else none

/-- The function `MQTTStrncpy`: the array `dest` after the call; `none` when the function reads past the end of `src` or writes outside `dest`. -/
def MQTTStrncpy (dest : List Nat) (src : List Nat) (dest_size : Nat) : Option (List Nat) :=
  match MQTTStrncpy_loop dest_size src 0 dest with
  | none => none
  | some (temp, dest) => if temp < dest.length then some (dest.set temp 0) else none

/-- The function `MQTTStrdup`; `uninit` is the content of the `strlen(src) + 1` bytes that `malloc` returns. -/
def MQTTStrdup (uninit : Nat → Nat) (src : List Nat) : Option (List Nat) :=
  MQTTStrncpy ((List.range (strlen src + 1)).map uninit) src (strlen src + 1)

/-! ## Further client states -/

/-- Client 0 holds no socket: `net.socket` is `INVALID_SOCKET` (-1, Socket.h), and the client is not connected. -/
def engine_no_socket : Engine :=
  { clients := fun _ => { c := { connected := false, socket := -1 } } }

/-- A PUBLISH with qos 1 and id 5 on topic "t" with the payload "x", as the dispatch fills it. -/
def publish_outbound_5 : Publish :=
  { topic := some "t", payload := [120], payloadlen := 1, msgId := 5 }

/-! ## Basic facts about the engine helpers -/

@[simp] theorem Engine.setClient_commands (e : Engine) (h : Nat) (m : MQTTAsyncs) :
    (e.setClient h m).commands = e.commands := rfl

@[simp] theorem Engine.setClient_noPendingWrites (e : Engine) (h : Nat) (m : MQTTAsyncs) :
    (e.setClient h m).noPendingWrites = e.noPendingWrites := rfl

@[simp] theorem Engine.setClient_trace (e : Engine) (h : Nat) (m : MQTTAsyncs) :
    (e.setClient h m).trace = e.trace := rfl

@[simp] theorem Engine.setClient_same (e : Engine) (h : Nat) (m : MQTTAsyncs) :
    (e.setClient h m).clients h = m := by
  simp [Engine.setClient]

theorem Engine.setClient_other (e : Engine) (h h' : Nat) (m : MQTTAsyncs) (hne : h' ≠ h) :
    (e.setClient h m).clients h' = e.clients h' := by
  simp [Engine.setClient, Function.update, hne]

@[simp] theorem Engine.setC_commands (e : Engine) (h : Nat) (c : Clients) :
    (e.setC h c).commands = e.commands := rfl

@[simp] theorem Engine.setC_trace (e : Engine) (h : Nat) (c : Clients) :
    (e.setC h c).trace = e.trace := rfl

@[simp] theorem Engine.setC_noPendingWrites (e : Engine) (h : Nat) (c : Clients) :
    (e.setC h c).noPendingWrites = e.noPendingWrites := rfl

@[simp] theorem Engine.setC_responses (e : Engine) (h h' : Nat) (c : Clients) :
    ((e.setC h c).clients h').responses = (e.clients h').responses := by
  by_cases hh : h' = h
  · subst hh; simp [Engine.setC]
  · simp [Engine.setC, Engine.setClient_other _ _ _ _ hh]

@[simp] theorem Engine.setC_same (e : Engine) (h : Nat) (c : Clients) :
    ((e.setC h c).clients h).c = c := by
  simp [Engine.setC]

@[simp] theorem Engine.emit_commands (e : Engine) (ev : Event) : (e.emit ev).commands = e.commands := rfl

@[simp] theorem Engine.emit_clients (e : Engine) (ev : Event) : (e.emit ev).clients = e.clients := rfl

@[simp] theorem Engine.emit_noPendingWrites (e : Engine) (ev : Event) :
    (e.emit ev).noPendingWrites = e.noPendingWrites := rfl

@[simp] theorem Engine.call_commands (e : Engine) (cb : Option Nat) (ev : Nat → Event) :
    (e.call cb ev).commands = e.commands := by
  cases cb <;> rfl

@[simp] theorem Engine.call_clients (e : Engine) (cb : Option Nat) (ev : Nat → Event) :
    (e.call cb ev).clients = e.clients := by
  cases cb <;> rfl

/-! ## The command queue: enqueue -/

theorem persistCommand_snd (c : MQTTAsync_queuedCommand) (m : MQTTAsyncs) :
    (MQTTAsync_persistCommand c m).2.command = c.command ∧
    (MQTTAsync_persistCommand c m).2.client = c.client ∧
    (MQTTAsync_persistCommand c m).2.ptr = c.ptr := by
  unfold MQTTAsync_persistCommand
  split <;> simp

theorem persistCommand_responses (c : MQTTAsync_queuedCommand) (m : MQTTAsyncs) :
    (MQTTAsync_persistCommand c m).1.responses = m.responses := by
  unfold MQTTAsync_persistCommand
  split <;> simp

theorem addCommand_linked_fields (now : Nat) (c : MQTTAsync_queuedCommand) (e : Engine) :
    (MQTTAsync_addCommand_linked now c e).command = { c.command with start_time := now } ∧
    (MQTTAsync_addCommand_linked now c e).client = c.client ∧
    (MQTTAsync_addCommand_linked now c e).ptr = c.ptr := by
  unfold MQTTAsync_addCommand_linked
  dsimp only
  split
  · have h := persistCommand_snd { c with command := { c.command with start_time := now } }
      (e.clients c.client)
    simpa using h
  · simp

theorem addCommand_linked_isPriority (now : Nat) (c : MQTTAsync_queuedCommand) (e : Engine) :
    (MQTTAsync_addCommand_linked now c e).isPriority ↔ c.isPriority := by
  obtain ⟨h1, _, _⟩ := addCommand_linked_fields now c e
  simp [MQTTAsync_queuedCommand.isPriority, h1]

theorem addCommand_commands (now : Nat) (c : MQTTAsync_queuedCommand) (e : Engine) :
    (MQTTAsync_addCommand now c e).commands =
      enqueue_ref (MQTTAsync_addCommand_linked now c e) e.commands := by
  obtain ⟨h1, h2, _⟩ := addCommand_linked_fields now c e
  have hp := addCommand_linked_isPriority now c e
  by_cases hc : c.isPriority
  · have hl : MQTTAsync_addCommand_linked now c e =
        { c with command := { c.command with start_time := now } } := by
      unfold MQTTAsync_addCommand_linked
      have : ({ c with command := { c.command with start_time := now } } :
          MQTTAsync_queuedCommand).isPriority := by
        simpa [MQTTAsync_queuedCommand.isPriority] using hc
      simp [this]
    have hc' : c.command.type = CONNECT ∨
        (c.command.type = DISCONNECT ∧ c.command.details.dis_internal ≠ 0) := hc
    unfold MQTTAsync_addCommand enqueue_ref
    rw [if_pos (hp.2 hc), hl]
    simp only [hc', if_true]
    cases hq : e.commands with
    | nil => simp
    | cons head rest =>
      simp only [List.head?_cons]
      split <;> simp [hq]
  · have hc' : ¬ (c.command.type = CONNECT ∨
        (c.command.type = DISCONNECT ∧ c.command.details.dis_internal ≠ 0)) := hc
    unfold MQTTAsync_addCommand enqueue_ref
    rw [if_neg (fun h => hc (hp.1 h))]
    simp only [hc', if_false]
    unfold MQTTAsync_addCommand_linked
    have hnp : ¬ ({ c with command := { c.command with start_time := now } } :
          MQTTAsync_queuedCommand).isPriority := by
      simpa [MQTTAsync_queuedCommand.isPriority] using hc
    by_cases hpers : (e.clients c.client).c.persistence = true
    · simp [hpers, hnp]
    · simp [hpers]

/-- C7: `MQTTAsync_addCommand` is the enqueue of the specification. The command it links (the one passed in, with `start_time` set and, for a persisted command, its `seqno`) is dropped when it is a CONNECT or internal DISCONNECT and the head of the queue has the same client and type, is put in front of the queue when it is a CONNECT or internal DISCONNECT otherwise, and is put at the end of the queue in every other case. -/
theorem MQTTAsync_addCommand_refines_enqueue (now : Nat) (c : MQTTAsync_queuedCommand) (e : Engine) :
    (MQTTAsync_addCommand now c e).commands =
        enqueue_ref (MQTTAsync_addCommand_linked now c e) e.commands ∧
      (MQTTAsync_addCommand_linked now c e).command = { c.command with start_time := now } ∧
      (MQTTAsync_addCommand_linked now c e).client = c.client ∧
      (MQTTAsync_addCommand_linked now c e).ptr = c.ptr :=
  ⟨addCommand_commands now c e, addCommand_linked_fields now c e⟩

/-! ## The command queue: dequeue -/

theorem scan_condition_iff (e : Engine) (cmd : MQTTAsync_queuedCommand) :
    ((cmd.command.type = CONNECT ∨ cmd.command.type = DISCONNECT ∨
        ((e.clients cmd.client).c.connected = true ∧ (e.clients cmd.client).c.connect_state = 0 ∧
          e.noPendingWrites (e.clients cmd.client).c.socket = true)) ∧
      ¬ ((cmd.command.type = PUBLISH ∨ cmd.command.type = SUBSCRIBE ∨ cmd.command.type = UNSUBSCRIBE) ∧
          ((e.clients cmd.client).c.outboundMsgs.length : Int) ≥ MAX_MSG_ID - 1)) ↔
    eligible_ref e cmd := by
  unfold eligible_ref
  constructor
  · rintro ⟨h1, h2⟩
    refine ⟨h1, fun ht => ?_⟩
    by_contra hlt
    exact h2 ⟨ht, by omega⟩
  · rintro ⟨h1, h2⟩
    refine ⟨h1, fun ⟨ht, hge⟩ => ?_⟩
    have := h2 ht
    omega

theorem scan_step (e : Engine) (ignored : List Nat) (i : Nat) (cmd : MQTTAsync_queuedCommand)
    (rest : List MQTTAsync_queuedCommand) :
    MQTTAsync_processCommand_scan e ignored i (cmd :: rest) =
      if cmd.client ∈ ignored then MQTTAsync_processCommand_scan e ignored (i + 1) rest
      else if eligible_ref e cmd then some i
      else MQTTAsync_processCommand_scan e (ignored ++ [cmd.client]) (i + 1) rest := by
  have hiff := scan_condition_iff e cmd
  rw [MQTTAsync_processCommand_scan]
  by_cases hin : cmd.client ∈ ignored
  · simp only [hin, if_true]
  · simp only [hin, if_false]
    by_cases hel : eligible_ref e cmd
    · obtain ⟨h1, h2⟩ := hiff.2 hel
      rw [if_pos h1, if_neg h2, if_pos hel]
    · rw [if_neg hel]
      by_cases h1 : (cmd.command.type = CONNECT ∨ cmd.command.type = DISCONNECT ∨
          ((e.clients cmd.client).c.connected = true ∧ (e.clients cmd.client).c.connect_state = 0 ∧
            e.noPendingWrites (e.clients cmd.client).c.socket = true))
      · rw [if_pos h1]
        by_cases h2 : ((cmd.command.type = PUBLISH ∨ cmd.command.type = SUBSCRIBE ∨
            cmd.command.type = UNSUBSCRIBE) ∧
            ((e.clients cmd.client).c.outboundMsgs.length : Int) ≥ MAX_MSG_ID - 1)
        · rw [if_pos h2]
        · exact absurd (hiff.1 ⟨h1, h2⟩) hel
      · rw [if_neg h1]

theorem scan_first (e : Engine) (rest : List MQTTAsync_queuedCommand) :
    ∀ (pre : List MQTTAsync_queuedCommand) (ignored : List Nat),
      (∀ h, h ∈ ignored ↔ ∃ c ∈ pre, c.client = h) →
      (∀ k, k < pre.length → ¬ selectable_ref e (pre ++ rest) k) →
      match MQTTAsync_processCommand_scan e ignored pre.length rest with
      | some j => selectable_ref e (pre ++ rest) j ∧ ∀ k, k < j → ¬ selectable_ref e (pre ++ rest) k
      | none => ∀ k, ¬ selectable_ref e (pre ++ rest) k := by
  induction rest with
  | nil =>
    intro pre ignored _ hpre
    simp only [MQTTAsync_processCommand_scan]
    intro k hk
    by_cases hlt : k < pre.length
    · exact hpre k hlt hk
    · obtain ⟨cmd, hget, _⟩ := hk
      have : (pre ++ []).get? k = none := by
        rw [List.get?_eq_none]; simp; omega
      rw [this] at hget
      cases hget
  | cons cmd rest ih =>
    intro pre ignored hign hpre
    have hq : pre ++ cmd :: rest = (pre ++ [cmd]) ++ rest := by simp
    have hget : (pre ++ cmd :: rest).get? pre.length = some cmd := by
      rw [List.get?_eq_getElem?, List.getElem?_append_right (le_refl _)]
      simp
    have hlen : (pre ++ [cmd]).length = pre.length + 1 := by simp
    rw [scan_step]
    by_cases hin : cmd.client ∈ ignored
    · rw [if_pos hin]
      have hnot : ¬ selectable_ref e (pre ++ cmd :: rest) pre.length := by
        rintro ⟨c, hc, hearlier, _⟩
        rw [hget] at hc
        cases hc
        obtain ⟨c', hc', hcl⟩ := (hign _).1 hin
        obtain ⟨j, hj, hjget⟩ := List.getElem_of_mem hc'
        refine hearlier j hj c' ?_ hcl
        rw [List.get?_eq_getElem?, List.getElem?_append_left hj, List.getElem?_eq_getElem hj, hjget]
      have h1 : ∀ h, h ∈ ignored ↔ ∃ c ∈ pre ++ [cmd], c.client = h := by
        intro h
        constructor
        · intro hh
          obtain ⟨c, hc, hcl⟩ := (hign h).1 hh
          exact ⟨c, by simp [hc], hcl⟩
        · rintro ⟨c, hc, hcl⟩
          rcases List.mem_append.1 hc with hc | hc
          · exact (hign h).2 ⟨c, hc, hcl⟩
          · simp at hc
            subst hc
            rw [← hcl]; exact hin
      have h2 : ∀ k, k < (pre ++ [cmd]).length → ¬ selectable_ref e ((pre ++ [cmd]) ++ rest) k := by
        intro k hk
        rw [← hq]
        rw [hlen] at hk
        by_cases hk' : k < pre.length
        · exact hpre k hk'
        · have : k = pre.length := by omega
          subst this
          exact hnot
      have := ih (pre ++ [cmd]) ignored h1 h2
      rw [hlen, ← hq] at this
      exact this
    · rw [if_neg hin]
      have hearlier : ∀ j, j < pre.length → ∀ c, (pre ++ cmd :: rest).get? j = some c →
          c.client ≠ cmd.client := by
        intro j hj c hc hcl
        rw [List.get?_eq_getElem?, List.getElem?_append_left hj, List.getElem?_eq_getElem hj] at hc
        cases hc
        exact hin ((hign _).2 ⟨pre[j], List.getElem_mem _, hcl⟩)
      by_cases hel : eligible_ref e cmd
      · rw [if_pos hel]
        exact ⟨⟨cmd, hget, hearlier, hel⟩, hpre⟩
      · rw [if_neg hel]
        have hnot : ¬ selectable_ref e (pre ++ cmd :: rest) pre.length := by
          rintro ⟨c, hc, _, helc⟩
          rw [hget] at hc
          cases hc
          exact hel helc
        have h1 : ∀ h, h ∈ ignored ++ [cmd.client] ↔ ∃ c ∈ pre ++ [cmd], c.client = h := by
          intro h
          constructor
          · intro hh
            rcases List.mem_append.1 hh with hh | hh
            · obtain ⟨c, hc, hcl⟩ := (hign h).1 hh
              exact ⟨c, by simp [hc], hcl⟩
            · simp at hh
              exact ⟨cmd, by simp, hh.symm⟩
          · rintro ⟨c, hc, hcl⟩
            rcases List.mem_append.1 hc with hc | hc
            · exact List.mem_append.2 (Or.inl ((hign h).2 ⟨c, hc, hcl⟩))
            · simp at hc
              subst hc
              simp [hcl]
        have h2 : ∀ k, k < (pre ++ [cmd]).length → ¬ selectable_ref e ((pre ++ [cmd]) ++ rest) k := by
          intro k hk
          rw [← hq]
          rw [hlen] at hk
          by_cases hk' : k < pre.length
          · exact hpre k hk'
          · have : k = pre.length := by omega
            subst this
            exact hnot
        have := ih (pre ++ [cmd]) (ignored ++ [cmd.client]) h1 h2
        rw [hlen, ← hq] at this
        exact this

theorem scan_spec (e : Engine) :
    match MQTTAsync_processCommand_scan e [] 0 e.commands with
    | some j => selectable_ref e e.commands j ∧ ∀ k, k < j → ¬ selectable_ref e e.commands k
    | none => ∀ k, ¬ selectable_ref e e.commands k := by
  have := scan_first e e.commands [] [] (by simp) (by simp)
  simpa using this

theorem selectable_lt {e : Engine} {q : List MQTTAsync_queuedCommand} {i : Nat}
    (h : selectable_ref e q i) : i < q.length := by
  obtain ⟨cmd, hget, _⟩ := h
  by_contra hlt
  have : q.get? i = none := by
    rw [List.get?_eq_none]; omega
  rw [this] at hget
  cases hget

theorem selectable_iff (e : Engine) (q : List MQTTAsync_queuedCommand) (i : Nat) (hi : i < q.length) :
    selectable_ref e q i ↔
      ((∀ j, j < i → (q.getD j {}).client ≠ (q.getD i {}).client) ∧ eligible_ref e (q.getD i {})) := by
  have hgi : q.get? i = some (q.getD i {}) := by
    rw [List.get?_eq_getElem?, List.getD_eq_getElem?_getD, List.getElem?_eq_getElem hi]
    rfl
  have hgj : ∀ j, j < i → q.get? j = some (q.getD j {}) := by
    intro j hj
    have hj' : j < q.length := by omega
    rw [List.get?_eq_getElem?, List.getD_eq_getElem?_getD, List.getElem?_eq_getElem hj']
    rfl
  constructor
  · rintro ⟨cmd, hget, hearlier, hel⟩
    rw [hgi] at hget
    cases hget
    exact ⟨fun j hj => hearlier j hj _ (hgj j hj), hel⟩
  · rintro ⟨hearlier, hel⟩
    refine ⟨q.getD i {}, hgi, ?_, hel⟩
    intro j hj c hc
    rw [hgj j hj] at hc
    cases hc
    exact hearlier j hj

theorem bnot_of_not {b : Bool} (h : ¬ b = true) : (!b) = true := by
  cases b
  · rfl
  · exact absurd rfl h

theorem find_selectable_iff (e : Engine) (q : List MQTTAsync_queuedCommand) (i : Nat) (hi : i < q.length) :
    (decide (∀ j, j < i → (q.getD j {}).client ≠ (q.getD i {}).client) &&
        decide (eligible_ref e (q.getD i {}))) = true ↔ selectable_ref e q i := by
  rw [selectable_iff e q i hi]
  simp

/-- C5: the dequeue of `MQTTAsync_processCommand` is the dequeue of the specification. The command it selects is the first command in queue order that has no earlier queued command of the same client and is eligible (a CONNECT or DISCONNECT, or a command of a client that is connected, with `connect_state` 0 and no pending socket write; and, for a PUBLISH, SUBSCRIBE or UNSUBSCRIBE, fewer than `MAX_MSG_ID - 1` outbound messages). Nothing is selected exactly when there is no such command, and the queue afterwards is the queue before without the selected command, the others in their order. -/
theorem MQTTAsync_processCommand_dequeue_refines (e : Engine) :
    (MQTTAsync_processCommand_dequeue e).1 = (next_eligible_ref e).1 ∧
      (MQTTAsync_processCommand_dequeue e).2.commands = (next_eligible_ref e).2 := by
  have hs := scan_spec e
  unfold MQTTAsync_processCommand_dequeue next_eligible_ref
  cases hscan : MQTTAsync_processCommand_scan e [] 0 e.commands with
  | none =>
    rw [hscan] at hs
    have hfind : (List.range e.commands.length).find?
        (fun i => decide (∀ j, j < i → (e.commands.getD j {}).client ≠ (e.commands.getD i {}).client) &&
          decide (eligible_ref e (e.commands.getD i {}))) = none := by
      rw [List.find?_range_eq_none]
      intro i hi
      have := hs i
      rw [← find_selectable_iff e e.commands i hi] at this
      exact bnot_of_not this
    rw [hfind]
    simp
  | some i =>
    rw [hscan] at hs
    obtain ⟨hsel, hmin⟩ := hs
    have hi := selectable_lt hsel
    have hfind : (List.range e.commands.length).find?
        (fun i => decide (∀ j, j < i → (e.commands.getD j {}).client ≠ (e.commands.getD i {}).client) &&
          decide (eligible_ref e (e.commands.getD i {}))) = some i := by
      rw [List.find?_range_eq_some]
      refine ⟨(find_selectable_iff e e.commands i hi).2 hsel, List.mem_range.2 hi, ?_⟩
      intro j hj
      have hj' : j < e.commands.length := by omega
      have := hmin j hj
      rw [← find_selectable_iff e e.commands j hj'] at this
      exact bnot_of_not this
    rw [hfind]
    have hget : e.commands.get? i = some (e.commands.getD i {}) := by
      rw [List.get?_eq_getElem?, List.getD_eq_getElem?_getD, List.getElem?_eq_getElem hi]
      rfl
    simp only [hget]
    split <;> simp [List.eraseIdx_eq_take_drop_succ]

/-! ## The command queue: shape of the reachable queues -/

theorem dequeue_commands (e : Engine) :
    (MQTTAsync_processCommand_dequeue e).2.commands = e.commands ∨
      ∃ i, MQTTAsync_processCommand_scan e [] 0 e.commands = some i ∧ i < e.commands.length ∧
        (MQTTAsync_processCommand_dequeue e).2.commands = e.commands.eraseIdx i := by
  unfold MQTTAsync_processCommand_dequeue
  cases hscan : MQTTAsync_processCommand_scan e [] 0 e.commands with
  | none => exact Or.inl rfl
  | some i =>
    cases hget : e.commands.get? i with
    | none =>
      left
      simp only [hget]
    | some cmd =>
      right
      refine ⟨i, rfl, ?_, ?_⟩
      · by_contra hlt
        have : e.commands.get? i = none := by
          rw [List.get?_eq_none]; omega
        rw [this] at hget
        cases hget
      · simp only [hget]
        split <;> simp

theorem scan_head (e : Engine) (c : MQTTAsync_queuedCommand) (rest : List MQTTAsync_queuedCommand)
    (hq : e.commands = c :: rest) (ht : c.command.type = CONNECT ∨ c.command.type = DISCONNECT) :
    MQTTAsync_processCommand_scan e [] 0 e.commands = some 0 := by
  rw [hq, scan_step]
  have hel : eligible_ref e c := by
    refine ⟨?_, ?_⟩
    · rcases ht with ht | ht
      · exact Or.inl ht
      · exact Or.inr (Or.inl ht)
    · intro hp
      exfalso
      rcases ht with ht | ht <;> rw [ht] at hp <;> revert hp <;> decide
  simp [hel]

theorem add_keeps_shape (now : Nat) (c : MQTTAsync_queuedCommand) (e : Engine)
    (h1 : noTwinNeighbours e.commands)
    (h2 : e.commands.Pairwise (fun a b => b.isPriority → a.isPriority)) :
    noTwinNeighbours (MQTTAsync_addCommand now c e).commands ∧
      (MQTTAsync_addCommand now c e).commands.Pairwise (fun a b => b.isPriority → a.isPriority) := by
  rw [addCommand_commands]
  generalize MQTTAsync_addCommand_linked now c e = c'
  unfold enqueue_ref
  by_cases hp : c'.isPriority
  · rw [if_pos hp]
    cases hq : e.commands with
    | nil =>
      exact ⟨List.chain'_singleton _, List.pairwise_singleton _ _⟩
    | cons head rest =>
      rw [hq] at h1 h2
      simp only
      split
      · exact ⟨h1, h2⟩
      · rename_i hdup
        refine ⟨?_, ?_⟩
        · unfold noTwinNeighbours
          refine List.Chain'.cons ?_ h1
          rintro ⟨_, _, hcl, hty⟩
          exact hdup ⟨hcl.symm, hty.symm⟩
        · exact List.pairwise_cons.2 ⟨fun _ _ _ => hp, h2⟩
  · rw [if_neg hp]
    refine ⟨?_, ?_⟩
    · unfold noTwinNeighbours
      rw [List.chain'_append]
      refine ⟨h1, List.chain'_singleton _, ?_⟩
      intro x _ y hy
      simp at hy
      subst hy
      rintro ⟨_, hpy, _⟩
      exact hp hpy
    · rw [List.pairwise_append]
      refine ⟨h2, List.pairwise_singleton _ _, ?_⟩
      intro a _ b hb hpb
      simp at hb
      subst hb
      exact absurd hpb hp

theorem take_keeps_shape (e : Engine)
    (h1 : noTwinNeighbours e.commands)
    (h2 : e.commands.Pairwise (fun a b => b.isPriority → a.isPriority)) :
    noTwinNeighbours (MQTTAsync_processCommand_dequeue e).2.commands ∧
      (MQTTAsync_processCommand_dequeue e).2.commands.Pairwise (fun a b => b.isPriority → a.isPriority) := by
  rcases dequeue_commands e with hsame | ⟨i, hscan, hi, herase⟩
  · rw [hsame]; exact ⟨h1, h2⟩
  · rw [herase]
    refine ⟨?_, h2.sublist (List.eraseIdx_sublist _ _)⟩
    cases hq : e.commands with
    | nil => rw [hq] at hi; simp at hi
    | cons c rest =>
      by_cases hty : c.command.type = CONNECT ∨ c.command.type = DISCONNECT
      · have h0 := scan_head e c rest hq hty
        rw [h0] at hscan
        cases hscan
        unfold noTwinNeighbours at h1 ⊢
        rw [hq] at h1
        simpa using h1.tail
      · have hc : ¬ c.isPriority := by
          rintro (hc | ⟨hc, _⟩)
          · exact hty (Or.inl hc)
          · exact hty (Or.inr hc)
        rw [hq] at h2
        have hall : ∀ b ∈ c :: rest, ¬ b.isPriority := by
          intro b hb
          rcases List.mem_cons.1 hb with hb | hb
          · rw [hb]; exact hc
          · exact fun hpb => hc ((List.pairwise_cons.1 h2).1 b hb hpb)
        unfold noTwinNeighbours
        apply List.Pairwise.chain'
        apply List.pairwise_of_forall_mem_list
        intro a ha _ _
        rintro ⟨hpa, _⟩
        exact hall a ((List.eraseIdx_sublist _ _).subset ha) hpa

theorem runQueue_keeps_shape (ops : List QueueOp) :
    ∀ e : Engine, noTwinNeighbours e.commands →
      e.commands.Pairwise (fun a b => b.isPriority → a.isPriority) →
      noTwinNeighbours (runQueue ops e).commands ∧
        (runQueue ops e).commands.Pairwise (fun a b => b.isPriority → a.isPriority) := by
  induction ops with
  | nil => intro e h1 h2; exact ⟨h1, h2⟩
  | cons op ops ih =>
    intro e h1 h2
    have hstep : noTwinNeighbours (QueueOp.apply e op).commands ∧
        (QueueOp.apply e op).commands.Pairwise (fun a b => b.isPriority → a.isPriority) := by
      cases op with
      | add now c => exact add_keeps_shape now c e h1 h2
      | take => exact take_keeps_shape e h1 h2
      | world cl np => exact ⟨h1, h2⟩
    exact ih _ hstep.1 hstep.2

/-- C8, the claim as stated fails: from the empty queue, a CONNECT, an internal DISCONNECT and a second CONNECT of the same client, added in this order, leave two CONNECT commands of that client in the queue, because only the head of the queue is compared with the new command. -/
theorem atMostOnePriority_fails :
    ¬ atMostOnePriority (runQueue
      [QueueOp.add 0 { client := 0, ptr := 1, command := { type := CONNECT } },
       QueueOp.add 0 { client := 0, ptr := 2, command := { type := DISCONNECT, details := .dis 1 0 } },
       QueueOp.add 0 { client := 0, ptr := 3, command := { type := CONNECT } }] {}).commands := by
  intro h
  have h0 := (h 0).1
  revert h0
  decide

/-- C8 as amended: in every queue reachable from the empty queue by calls of `MQTTAsync_addCommand`, dequeues and changes of client state, no two neighbouring commands are both a CONNECT, or both an internal DISCONNECT, of the same client (a duplicate is dropped only against the head of the queue). -/
theorem reachable_queue_noTwinNeighbours (ops : List QueueOp) :
    noTwinNeighbours (runQueue ops {}).commands :=
  (runQueue_keeps_shape ops {} List.chain'_nil List.Pairwise.nil).1

/-! ## The command queue: order of the commands of one client -/

theorem runQueue_append (a b : List QueueOp) (e : Engine) :
    runQueue (a ++ b) e = runQueue b (runQueue a e) := by
  simp [runQueue, List.foldl_append]

theorem runQueue_single (op : QueueOp) (e : Engine) : runQueue [op] e = QueueOp.apply e op := rfl

theorem add_commands_cases (now : Nat) (c : MQTTAsync_queuedCommand) (e : Engine) :
    ∃ c' : MQTTAsync_queuedCommand, c'.ptr = c.ptr ∧ c'.client = c.client ∧
      ((MQTTAsync_addCommand now c e).commands = e.commands ∨
        (MQTTAsync_addCommand now c e).commands = c' :: e.commands ∨
        (MQTTAsync_addCommand now c e).commands = e.commands ++ [c']) ∧
      (¬ c.isPriority → (MQTTAsync_addCommand now c e).commands = e.commands ++ [c']) := by
  refine ⟨MQTTAsync_addCommand_linked now c e, (addCommand_linked_fields now c e).2.2,
    (addCommand_linked_fields now c e).2.1, ?_, ?_⟩
  · rw [addCommand_commands]
    unfold enqueue_ref
    split
    · split
      · split
        · exact Or.inl rfl
        · exact Or.inr (Or.inl rfl)
      · exact Or.inr (Or.inl rfl)
    · exact Or.inr (Or.inr rfl)
  · intro hc
    rw [addCommand_commands]
    unfold enqueue_ref
    rw [if_neg (fun h => hc ((addCommand_linked_isPriority now c e).1 h))]

theorem take_sublist (e : Engine) :
    (MQTTAsync_processCommand_dequeue e).2.commands.Sublist e.commands := by
  rcases dequeue_commands e with h | ⟨i, _, _, h⟩
  · rw [h]
  · rw [h]; exact List.eraseIdx_sublist _ _

theorem apply_forall (P : Nat → Nat → Prop) (op : QueueOp) (e : Engine)
    (hop : ∀ now c, op = QueueOp.add now c → P c.ptr c.client)
    (h : ∀ z ∈ e.commands, P z.ptr z.client) :
    ∀ z ∈ (QueueOp.apply e op).commands, P z.ptr z.client := by
  cases op with
  | add now c =>
    obtain ⟨c', hp, hcl, hcases, _⟩ := add_commands_cases now c e
    have hc' : P c'.ptr c'.client := by rw [hp, hcl]; exact hop now c rfl
    intro z hz
    simp only [QueueOp.apply] at hz
    rcases hcases with hq | hq | hq <;> rw [hq] at hz
    · exact h z hz
    · rcases List.mem_cons.1 hz with hz | hz
      · rw [hz]; exact hc'
      · exact h z hz
    · rcases List.mem_append.1 hz with hz | hz
      · exact h z hz
      · simp at hz; rw [hz]; exact hc'
  | take =>
    intro z hz
    exact h z ((take_sublist e).subset hz)
  | world cl np => exact h

theorem runQueue_forall (P : Nat → Nat → Prop) (ops : List QueueOp) :
    ∀ e : Engine, (∀ op ∈ ops, ∀ now c, op = QueueOp.add now c → P c.ptr c.client) →
      (∀ z ∈ e.commands, P z.ptr z.client) →
      ∀ z ∈ (runQueue ops e).commands, P z.ptr z.client := by
  induction ops with
  | nil => intro e _ h; exact h
  | cons op ops ih =>
    intro e hops h
    exact ih (QueueOp.apply e op) (fun o ho => hops o (List.mem_cons_of_mem _ ho))
      (apply_forall P op e (hops op (List.mem_cons_self _ _)) h)

theorem apply_pairwise (p1 p2 : Nat) (op : QueueOp) (e : Engine)
    (hop : ∀ now c, op = QueueOp.add now c → c.ptr ≠ p1 ∧ c.ptr ≠ p2)
    (h : e.commands.Pairwise (fun a b => ¬ (a.ptr = p2 ∧ b.ptr = p1))) :
    (QueueOp.apply e op).commands.Pairwise (fun a b => ¬ (a.ptr = p2 ∧ b.ptr = p1)) := by
  cases op with
  | add now c =>
    obtain ⟨c', hp, _, hcases, _⟩ := add_commands_cases now c e
    obtain ⟨hn1, hn2⟩ := hop now c rfl
    simp only [QueueOp.apply]
    rcases hcases with hq | hq | hq <;> rw [hq]
    · exact h
    · refine List.pairwise_cons.2 ⟨?_, h⟩
      rintro b _ ⟨hb, _⟩
      exact hn2 (hp ▸ hb)
    · rw [List.pairwise_append]
      refine ⟨h, List.pairwise_singleton _ _, ?_⟩
      intro a _ b hb
      simp at hb
      subst hb
      rintro ⟨_, hb⟩
      exact hn1 (hp ▸ hb)
  | take => exact h.sublist (take_sublist e)
  | world cl np => exact h

theorem runQueue_pairwise (p1 p2 : Nat) (ops : List QueueOp) :
    ∀ e : Engine, (∀ op ∈ ops, ∀ now c, op = QueueOp.add now c → c.ptr ≠ p1 ∧ c.ptr ≠ p2) →
      e.commands.Pairwise (fun a b => ¬ (a.ptr = p2 ∧ b.ptr = p1)) →
      (runQueue ops e).commands.Pairwise (fun a b => ¬ (a.ptr = p2 ∧ b.ptr = p1)) := by
  induction ops with
  | nil => intro e _ h; exact h
  | cons op ops ih =>
    intro e hops h
    exact ih (QueueOp.apply e op) (fun o ho => hops o (List.mem_cons_of_mem _ ho))
      (apply_pairwise p1 p2 op e (hops op (List.mem_cons_self _ _)) h)

theorem dequeue_some (e : Engine) (c : MQTTAsync_queuedCommand)
    (h : (MQTTAsync_processCommand_dequeue e).1 = some c) :
    ∃ i, e.commands.get? i = some c ∧
      ∀ j, j < i → ∀ c', e.commands.get? j = some c' → c'.client ≠ c.client := by
  have hs := scan_spec e
  unfold MQTTAsync_processCommand_dequeue at h
  cases hscan : MQTTAsync_processCommand_scan e [] 0 e.commands with
  | none => rw [hscan] at h; cases h
  | some i =>
    rw [hscan] at hs h
    obtain ⟨⟨cmd, hget, hearlier, _⟩, _⟩ := hs
    simp only [hget] at h
    have hc : cmd = c := by
      split at h <;> simpa using h
    subst hc
    exact ⟨i, hget, hearlier⟩

theorem fifo_final (e : Engine) (p1 p2 cl : Nat) (hne : p1 ≠ p2)
    (hpw : e.commands.Pairwise (fun a b => ¬ (a.ptr = p2 ∧ b.ptr = p1)))
    (hcl : ∀ z ∈ e.commands, (z.ptr = p1 ∨ z.ptr = p2) → z.client = cl)
    (hstill : ∃ y ∈ e.commands, y.ptr = p1)
    (c : MQTTAsync_queuedCommand) (h : (MQTTAsync_processCommand_dequeue e).1 = some c) :
    c.ptr ≠ p2 := by
  intro hc2
  obtain ⟨i, hget, hearlier⟩ := dequeue_some e c h
  obtain ⟨y, hy, hyp⟩ := hstill
  obtain ⟨j, hj, hjy⟩ := List.getElem_of_mem hy
  rw [List.get?_eq_getElem?] at hget
  obtain ⟨hi, hic⟩ := List.getElem?_eq_some_iff.1 hget
  have hcmem : c ∈ e.commands := hic ▸ List.getElem_mem _
  have hccl : c.client = cl := hcl c hcmem (Or.inr hc2)
  have hycl : y.client = cl := hcl y hy (Or.inl hyp)
  rcases Nat.lt_trichotomy j i with hlt | heq | hgt
  · refine hearlier j hlt y ?_ (hycl.trans hccl.symm)
    rw [List.get?_eq_getElem?, List.getElem?_eq_getElem hj, hjy]
  · subst heq
    rw [hjy] at hic
    rw [hic] at hyp
    exact hne (hyp.symm.trans hc2)
  · have := (List.pairwise_iff_getElem.1 hpw) i j hi hj hgt
    rw [hic, hjy] at this
    exact this ⟨hc2, hyp⟩

/-- C6: per-client FIFO. Let `c1` and `c2` be commands of the same client, `c2` neither a CONNECT nor an internal DISCONNECT, `c1` handed to `MQTTAsync_addCommand` before `c2`, with any calls of `MQTTAsync_addCommand` for other allocations, dequeues and changes of client state before, between and after. Then, as long as `c1` is in the queue, the command returned by the dequeue of `MQTTAsync_processCommand` is not `c2`. A queued command is identified by the address `ptr` of its allocation. -/
theorem per_client_fifo (ops1 ops2 ops3 : List QueueOp) (now1 now2 : Nat)
    (c1 c2 : MQTTAsync_queuedCommand)
    (hclient : c1.client = c2.client) (hc2 : ¬ c2.isPriority)
    (hptr : c1.ptr ≠ c2.ptr)
    (hfresh : ∀ op ∈ ops1 ++ ops2 ++ ops3, ∀ now c, op = QueueOp.add now c →
      c.ptr ≠ c1.ptr ∧ c.ptr ≠ c2.ptr)
    (hstill : ∃ y ∈ (runQueue (ops1 ++ [QueueOp.add now1 c1] ++ ops2 ++ [QueueOp.add now2 c2] ++ ops3)
      {}).commands, y.ptr = c1.ptr) :
    (MQTTAsync_processCommand_dequeue
        (runQueue (ops1 ++ [QueueOp.add now1 c1] ++ ops2 ++ [QueueOp.add now2 c2] ++ ops3) {})).1.map
      (fun c => c.ptr) ≠ some c2.ptr := by
  have hf1 : ∀ op ∈ ops1, ∀ now c, op = QueueOp.add now c → c.ptr ≠ c1.ptr ∧ c.ptr ≠ c2.ptr :=
    fun op ho => hfresh op (by simp [ho])
  have hf2 : ∀ op ∈ ops2, ∀ now c, op = QueueOp.add now c → c.ptr ≠ c1.ptr ∧ c.ptr ≠ c2.ptr :=
    fun op ho => hfresh op (by simp [ho])
  have hf3 : ∀ op ∈ ops3, ∀ now c, op = QueueOp.add now c → c.ptr ≠ c1.ptr ∧ c.ptr ≠ c2.ptr :=
    fun op ho => hfresh op (by simp [ho])
  rw [runQueue_append, runQueue_append, runQueue_append, runQueue_append, runQueue_single,
    runQueue_single] at hstill ⊢
  -- the queue before `c1` is added holds neither allocation
  have h1 : ∀ z ∈ (runQueue ops1 {}).commands, z.ptr ≠ c1.ptr ∧ z.ptr ≠ c2.ptr :=
    runQueue_forall (fun p _ => p ≠ c1.ptr ∧ p ≠ c2.ptr) ops1 {} hf1 (by intro z hz; cases hz)
  -- after `c1` is added: `c2` is absent and the allocation of `c1` belongs to the client
  have h2 : ∀ z ∈ (QueueOp.apply (runQueue ops1 {}) (QueueOp.add now1 c1)).commands,
      z.ptr ≠ c2.ptr ∧ (z.ptr = c1.ptr → z.client = c1.client) := by
    refine apply_forall (fun p k => p ≠ c2.ptr ∧ (p = c1.ptr → k = c1.client)) _ _ ?_ ?_
    · intro now c hop
      cases hop
      exact ⟨hptr, fun _ => rfl⟩
    · intro z hz
      exact ⟨(h1 z hz).2, fun hp => absurd hp (h1 z hz).1⟩
  have h3 : ∀ z ∈ (runQueue ops2 (QueueOp.apply (runQueue ops1 {}) (QueueOp.add now1 c1))).commands,
      z.ptr ≠ c2.ptr ∧ (z.ptr = c1.ptr → z.client = c1.client) := by
    refine runQueue_forall (fun p k => p ≠ c2.ptr ∧ (p = c1.ptr → k = c1.client)) ops2 _ ?_ h2
    intro op ho now c hop
    exact ⟨(hf2 op ho now c hop).2, fun hp => absurd hp (hf2 op ho now c hop).1⟩
  -- after `c2` is added at the end: no allocation of `c1` behind the one of `c2`
  generalize runQueue ops2 (QueueOp.apply (runQueue ops1 {}) (QueueOp.add now1 c1)) = e3 at h3 hstill ⊢
  have h4 : (QueueOp.apply e3 (QueueOp.add now2 c2)).commands.Pairwise
        (fun a b => ¬ (a.ptr = c2.ptr ∧ b.ptr = c1.ptr)) ∧
      ∀ z ∈ (QueueOp.apply e3 (QueueOp.add now2 c2)).commands,
        (z.ptr = c1.ptr ∨ z.ptr = c2.ptr) → z.client = c1.client := by
    obtain ⟨c', hp, hcl, _, happ⟩ := add_commands_cases now2 c2 e3
    have hq : (QueueOp.apply e3 (QueueOp.add now2 c2)).commands = e3.commands ++ [c'] := happ hc2
    rw [hq]
    refine ⟨?_, ?_⟩
    · rw [List.pairwise_append]
      refine ⟨?_, List.pairwise_singleton _ _, ?_⟩
      · apply List.pairwise_of_forall_mem_list
        intro a ha _ _
        rintro ⟨ha2, _⟩
        exact (h3 a ha).1 ha2
      · intro a _ b hb
        simp at hb
        subst hb
        rintro ⟨_, hb⟩
        exact hptr (hb.symm.trans hp)
    · intro z hz hz12
      rcases List.mem_append.1 hz with hz | hz
      · rcases hz12 with hz1 | hz2
        · exact (h3 z hz).2 hz1
        · exact absurd hz2 (h3 z hz).1
      · simp at hz
        rw [hz, hcl]
        exact hclient.symm
  generalize QueueOp.apply e3 (QueueOp.add now2 c2) = e4 at h4 hstill ⊢
  have h5 := runQueue_pairwise c1.ptr c2.ptr ops3 e4 hf3 h4.1
  have h6 : ∀ z ∈ (runQueue ops3 e4).commands, (z.ptr = c1.ptr ∨ z.ptr = c2.ptr) → z.client = c1.client :=
    runQueue_forall (fun p k => (p = c1.ptr ∨ p = c2.ptr) → k = c1.client) ops3 e4
      (fun op ho now c hop h12 => by
        rcases h12 with h | h
        · exact absurd h (hf3 op ho now c hop).1
        · exact absurd h (hf3 op ho now c hop).2)
      h4.2
  intro hsel
  cases hc : (MQTTAsync_processCommand_dequeue (runQueue ops3 e4)).1 with
  | none => rw [hc] at hsel; cases hsel
  | some c =>
    rw [hc] at hsel
    simp only [Option.map_some', Option.some.injEq] at hsel
    exact fifo_final _ c1.ptr c2.ptr c1.client hptr h5 h6 hstill c hc hsel

/-- C6 at a concrete trace: a PUBLISH and then a SUBSCRIBE of client 0 are queued, a CONNECT is queued in between and dequeued, the client becomes connected; the PUBLISH is still queued and the dequeue returns it, not the SUBSCRIBE. -/
theorem per_client_fifo_witness :
    (MQTTAsync_processCommand_dequeue (runQueue fifo_trace {})).1.map (fun c => c.ptr) = some 1 ∧
    (MQTTAsync_processCommand_dequeue (runQueue fifo_trace {})).1.map (fun c => c.ptr) ≠ some 2 :=
  ⟨by decide,
   per_client_fifo [] [QueueOp.add 5 fifo_connect]
    [QueueOp.take, QueueOp.world (fun _ => { c := { connected := true } }) (fun _ => true)]
    5 6 fifo_first fifo_second rfl (by decide) (by decide)
    (by
      intro op hop now c hc
      simp only [List.nil_append, List.cons_append, List.mem_cons, List.mem_singleton,
        List.not_mem_nil, or_false] at hop
      rcases hop with h | h | h
      · rw [h] at hc
        cases hc
        decide
      · rw [h] at hc
        cases hc
      · rw [h] at hc
        cases hc)
    (by decide)⟩

/-! ## Message ids -/

theorem assign_loop_result (e : Engine) (h : Nat) (start : Int) :
    ∀ (fuel : Nat) (m r : Int), MQTTAsync_assignMsgId_loop e h start fuel m = some r → r ≠ 0 →
      (1 ≤ m → m ≤ MAX_MSG_ID → 1 ≤ r ∧ r ≤ MAX_MSG_ID) ∧ MQTTAsync_assignMsgId_inUse e h r = false := by
  intro fuel
  induction fuel with
  | zero => intro m r hr; simp [MQTTAsync_assignMsgId_loop] at hr
  | succ fuel ih =>
    intro m r hr hnz
    rw [MQTTAsync_assignMsgId_loop] at hr
    by_cases huse : MQTTAsync_assignMsgId_inUse e h m = true
    · rw [if_pos huse] at hr
      dsimp only at hr
      by_cases hstart : (if m = MAX_MSG_ID then 1 else m + 1) = start
      · rw [if_pos hstart] at hr
        cases hr
        exact absurd rfl hnz
      · rw [if_neg hstart] at hr
        obtain ⟨h1, h2⟩ := ih _ r hr hnz
        refine ⟨fun hm1 hm2 => h1 ?_ ?_, h2⟩
        · split <;> omega
        · split <;> omega
    · rw [if_neg huse] at hr
      cases hr
      exact ⟨fun hm1 hm2 => ⟨hm1, hm2⟩, by simpa using huse⟩

theorem assign_result (fuel h : Nat) (e : Engine) (msgid : Int) (e' : Engine)
    (hret : MQTTAsync_assignMsgId fuel h e = some (msgid, e')) :
    e'.commands = e.commands ∧ (∀ h', (e'.clients h').responses = (e.clients h').responses) ∧
      (msgid ≠ 0 → MQTTAsync_assignMsgId_inUse e h msgid = false ∧
        (0 ≤ (e.clients h).c.msgID → (e.clients h).c.msgID ≤ MAX_MSG_ID →
          1 ≤ msgid ∧ msgid ≤ MAX_MSG_ID)) := by
  unfold MQTTAsync_assignMsgId at hret
  dsimp only at hret
  cases hloop : MQTTAsync_assignMsgId_loop e h (e.clients h).c.msgID fuel
      (if (e.clients h).c.msgID = MAX_MSG_ID then 1 else (e.clients h).c.msgID + 1) with
  | none => rw [hloop] at hret; cases hret
  | some r =>
    rw [hloop] at hret
    dsimp only at hret
    by_cases hr : r ≠ 0
    · rw [if_pos hr] at hret
      cases hret
      obtain ⟨h1, h2⟩ := assign_loop_result e h _ fuel _ msgid hloop hr
      refine ⟨rfl, fun h' => by simp, fun _ => ⟨h2, fun hlo hhi => h1 ?_ ?_⟩⟩
      · split <;> omega
      · simp only [MAX_MSG_ID] at hhi ⊢
        split <;> omega
    · rw [if_neg hr] at hret
      cases hret
      exact ⟨rfl, fun _ => rfl, fun hnz => absurd hnz hr⟩

theorem inUse_false_iff (e : Engine) (h : Nat) (msgid : Int) :
    MQTTAsync_assignMsgId_inUse e h msgid = false ↔
      (∀ cmd ∈ e.commands, cmd.command.token ≠ msgid) ∧
        (∀ cmd ∈ (e.clients h).responses, cmd.command.token ≠ msgid) := by
  unfold MQTTAsync_assignMsgId_inUse
  simp [List.any_eq_false]

/-- C2, the claim as stated fails: an id present in `inboundMsgs`, or in `outboundMsgs`, is handed out when no queued command and no pending response holds it, because `MQTTAsync_assignMsgId` looks only at the list `commands` and at the responses of the client. -/
theorem assignMsgId_ignores_inflight :
    ((MQTTAsync_assignMsgId 1 0 engine_inbound_1).map Prod.fst = some 1 ∧
        ∃ m ∈ (engine_inbound_1.clients 0).c.inboundMsgs, m.msgid = 1) ∧
      ((MQTTAsync_assignMsgId 1 0 engine_outbound_1).map Prod.fst = some 1 ∧
        ∃ m ∈ (engine_outbound_1.clients 0).c.outboundMsgs, m.msgid = 1) := by
  decide

/-- C2 as amended: when the client's `msgID` is within 0..65535 and `MQTTAsync_assignMsgId` returns a nonzero id, that id lies in 1..65535, is not the token of any command in the queue (of this or any other client) and is not the token of any pending response of the client. -/
theorem MQTTAsync_assignMsgId_unused (fuel h : Nat) (e : Engine) (msgid : Int) (e' : Engine)
    (hlo : 0 ≤ (e.clients h).c.msgID) (hhi : (e.clients h).c.msgID ≤ MAX_MSG_ID)
    (hret : MQTTAsync_assignMsgId fuel h e = some (msgid, e')) (hnz : msgid ≠ 0) :
    1 ≤ msgid ∧ msgid ≤ 65535 ∧
      (∀ cmd ∈ e.commands, cmd.command.token ≠ msgid) ∧
      (∀ cmd ∈ (e.clients h).responses, cmd.command.token ≠ msgid) := by
  obtain ⟨_, _, h3⟩ := assign_result fuel h e msgid e' hret
  obtain ⟨huse, hr⟩ := h3 hnz
  obtain ⟨h1, h2⟩ := hr hlo hhi
  exact ⟨h1, h2, (inUse_false_iff e h msgid).1 huse⟩

/-- C2 as amended, at a concrete state: with `msgID` 2, token 3 queued and token 4 pending, the id returned is 5. -/
theorem MQTTAsync_assignMsgId_unused_witness :
    (1 : Int) ≤ 5 ∧ (5 : Int) ≤ 65535 ∧
      (∀ cmd ∈ engine_ids_3_4.commands, cmd.command.token ≠ 5) ∧
      (∀ cmd ∈ (engine_ids_3_4.clients 0).responses, cmd.command.token ≠ 5) :=
  MQTTAsync_assignMsgId_unused 3 0 engine_ids_3_4 5
    (engine_ids_3_4.setC 0 { (engine_ids_3_4.clients 0).c with msgID := 5 })
    (by decide) (by decide) rfl (by decide)

theorem assign_loop_exhausted (e : Engine) (h : Nat) (s : Int) (hs1 : 1 ≤ s) (hs2 : s ≤ 65535)
    (hall : ∀ m : Int, 1 ≤ m → m ≤ 65535 → m ≠ s → MQTTAsync_assignMsgId_inUse e h m = true) :
    ∀ (fuel : Nat) (m : Int), 1 ≤ m → m ≤ 65535 → m ≠ s →
      (if m < s then s - m else 65535 - m + s) ≤ (fuel : Int) →
      MQTTAsync_assignMsgId_loop e h s fuel m = some 0 := by
  intro fuel
  induction fuel with
  | zero =>
    intro m hm1 hm2 hms hd
    exfalso
    split at hd <;> omega
  | succ fuel ih =>
    intro m hm1 hm2 hms hd
    rw [MQTTAsync_assignMsgId_loop, if_pos (hall m hm1 hm2 hms)]
    dsimp only
    by_cases hnext : (if m = MAX_MSG_ID then 1 else m + 1) = s
    · rw [if_pos hnext]
    · rw [if_neg hnext]
      simp only [MAX_MSG_ID] at hnext ⊢
      apply ih
      · split <;> omega
      · split <;> omega
      · exact hnext
      · push_cast at hd
        split at hd <;> split <;> split <;> omega

theorem engine_all_but_5_inUse (m : Int) (hm1 : 1 ≤ m) (hm2 : m ≤ 65535) (hm : m ≠ 5) :
    MQTTAsync_assignMsgId_inUse engine_all_but_5 0 m = true := by
  unfold MQTTAsync_assignMsgId_inUse engine_all_but_5
  simp only [Bool.or_eq_true, List.any_eq_true, List.mem_map, List.mem_filter, List.mem_range,
    decide_eq_true_eq]
  left
  refine ⟨_, ⟨m.toNat, ⟨by omega, by omega⟩, rfl⟩, ?_⟩
  show ((m.toNat : Nat) : Int) = m
  omega

theorem engine_all_but_5_free : MQTTAsync_assignMsgId_inUse engine_all_but_5 0 5 = false := by
  rw [inUse_false_iff]
  constructor
  · intro cmd hcmd
    unfold engine_all_but_5 at hcmd
    dsimp only at hcmd
    rw [List.mem_map] at hcmd
    obtain ⟨t, ht, rfl⟩ := hcmd
    rw [List.mem_filter] at ht
    have ht2 := ht.2
    rw [decide_eq_true_eq] at ht2
    show (t : Int) ≠ 5
    omega
  · intro cmd hcmd
    have hnil : (engine_all_but_5.clients 0).responses = [] := rfl
    rw [hnil] at hcmd
    cases hcmd

theorem assign_of_loop (fuel h : Nat) (e : Engine) (r : Int)
    (hloop : MQTTAsync_assignMsgId_loop e h (e.clients h).c.msgID fuel
      (if (e.clients h).c.msgID = MAX_MSG_ID then 1 else (e.clients h).c.msgID + 1) = some r) :
    (MQTTAsync_assignMsgId fuel h e).map Prod.fst = some r := by
  unfold MQTTAsync_assignMsgId
  dsimp only
  rw [hloop]
  dsimp only
  split <;> rfl

theorem assign_loop_never_ends (e : Engine) (h : Nat)
    (hall : ∀ m : Int, 1 ≤ m → m ≤ 65535 → MQTTAsync_assignMsgId_inUse e h m = true) :
    ∀ (fuel : Nat) (m : Int), 1 ≤ m → m ≤ 65535 → MQTTAsync_assignMsgId_loop e h 0 fuel m = none := by
  intro fuel
  induction fuel with
  | zero => intro m _ _; rfl
  | succ fuel ih =>
    intro m hm1 hm2
    rw [MQTTAsync_assignMsgId_loop, if_pos (hall m hm1 hm2)]
    dsimp only
    have hnext : ¬ (if m = MAX_MSG_ID then 1 else m + 1) = 0 := by
      split <;> omega
    rw [if_neg hnext]
    simp only [MAX_MSG_ID]
    apply ih
    · split <;> omega
    · split <;> omega

theorem engine_all_ids_inUse (m : Int) (hm1 : 1 ≤ m) (hm2 : m ≤ 65535) :
    MQTTAsync_assignMsgId_inUse engine_all_ids 1 m = true := by
  unfold MQTTAsync_assignMsgId_inUse engine_all_ids
  simp only [Bool.or_eq_true, List.any_eq_true, List.mem_map, List.mem_filter, List.mem_range,
    decide_eq_true_eq]
  left
  refine ⟨_, ⟨m.toNat, ⟨by omega, by omega⟩, rfl⟩, ?_⟩
  show ((m.toNat : Nat) : Int) = m
  omega

/-- C4, the code at the failing inputs. First input: the client assigned id 5 last and every other id of 1..65535 is the token of a queued command; id 5 is not in use, yet `MQTTAsync_assignMsgId` returns 0, because the scan probes 6, ..., 65535, 1, ..., 4 and gives up when it comes back to 5 without probing it. Second input: client 1 has `msgID` 0 and all ids of 1..65535 are tokens of queued commands (of client 0; the scan goes through the commands of all clients); no id is available, yet the call for client 1 does not return 0: whatever the fuel, the scan has not ended, because the candidate never equals the start value 0. -/
theorem assignMsgId_misses_free_id :
    (MQTTAsync_assignMsgId_inUse engine_all_but_5 0 5 = false ∧
      (MQTTAsync_assignMsgId 65535 0 engine_all_but_5).map Prod.fst = some 0) ∧
    (∀ fuel : Nat, MQTTAsync_assignMsgId fuel 1 engine_all_ids = none) := by
  refine ⟨⟨engine_all_but_5_free, ?_⟩, ?_⟩
  · have hloop : MQTTAsync_assignMsgId_loop engine_all_but_5 0 5 65535 6 = some 0 := by
      apply assign_loop_exhausted engine_all_but_5 0 5 (by decide) (by decide)
        (fun m h1 h2 h3 => engine_all_but_5_inUse m h1 h2 h3) 65535 6 (by decide) (by decide) (by decide)
      decide
    exact assign_of_loop 65535 0 engine_all_but_5 0 hloop
  · intro fuel
    have hloop : MQTTAsync_assignMsgId_loop engine_all_ids 1 0 fuel 1 = none :=
      assign_loop_never_ends engine_all_ids 1 (fun m h1 h2 => engine_all_ids_inUse m h1 h2) fuel 1
        (by decide) (by decide)
    have hloop' : MQTTAsync_assignMsgId_loop engine_all_ids 1 (engine_all_ids.clients 1).c.msgID fuel
        (if (engine_all_ids.clients 1).c.msgID = MAX_MSG_ID then 1
          else (engine_all_ids.clients 1).c.msgID + 1) = none := hloop
    unfold MQTTAsync_assignMsgId
    dsimp only
    rw [hloop']

/-! ## The connect fallback -/

/-- C10, the code at the failing input: one server URI, default version requested. After the attempts with 3.1.1 and with 3.1 on `serverURIs[0]` the queued CONNECT has `currentURI = 0`, `serverURIcount = 1` and `MQTTVersion = 3`: neither `currentURI + 1 < serverURIcount` nor "default requested and 3.1.1 just attempted" holds, yet `MQTTAsync_checkConn` answers that a further attempt is to be made, and the dispatch of that attempt reads `serverURIs[1]`, outside the array. -/
theorem checkConn_accepts_last_uri :
    (dispatch_n 2 refused engine_connect_single).map
        (fun e => e.commands.map (fun c => c.command.details)) =
      some [MQTTAsync_details.conn 30 1 ["tcp://a"] 0 3] ∧
    MQTTAsync_checkConn { type := CONNECT, details := .conn 30 1 ["tcp://a"] 0 3 }
        { c := { MQTTVersion := MQTTVERSION_DEFAULT } } = true ∧
    ¬ ((0 : Int) + 1 < 1 ∨ (MQTTVERSION_DEFAULT = MQTTVERSION_DEFAULT ∧ (3 : Int) = MQTTVERSION_3_1_1)) ∧
    (dispatch_n 3 refused engine_connect_single).isSome = false := by
  decide

/-- C9, the code at the failing input: `serverURIs = ["tcp://a", "tcp://b"]` and every attempt refused. With version 3.1.1 requested the first dispatch attempts `b` (the index is incremented before it is used), `a` is never attempted and the second dispatch reads `serverURIs[2]`, outside the array. With the default version requested the attempts are `a`, `a`, `b` and the fourth dispatch reads `serverURIs[2]`. In neither run has the failure callback been invoked when the read outside the array happens. -/
theorem connect_fallback_runs :
    (dispatch_n 1 refused engine_connect_v311).map (fun e => e.trace) =
        some [Event.connectAttempt 0 "b" 4] ∧
      (dispatch_n 2 refused engine_connect_v311).isSome = false ∧
      (dispatch_n 3 refused engine_connect_default).map (fun e => e.trace) =
        some [Event.connectAttempt 0 "a" 4, Event.connectAttempt 0 "a" 3, Event.connectAttempt 0 "b" 3] ∧
      (dispatch_n 4 refused engine_connect_default).isSome = false := by
  decide

/-! ## Acknowledgements -/

/-- C1, the code at the failing input: a qos 2 publication with id 1 awaits its PUBREC. A PUBACK with id 1, and likewise a PUBCOMP with id 1, leaves the outbound message in place (the protocol handler rejects the packet) and nevertheless removes the command from the responses and invokes its success callback. -/
theorem cycle_completes_on_wrong_ack :
    (MQTTAsync_cycle_ack {} 0 PUBACK 1 engine_awaiting_pubrec).2.trace =
        [Event.onSuccess 0 9 publish_qos2.command] ∧
      ((MQTTAsync_cycle_ack {} 0 PUBACK 1 engine_awaiting_pubrec).2.clients 0).c.outboundMsgs =
        [message_qos2] ∧
      ((MQTTAsync_cycle_ack {} 0 PUBACK 1 engine_awaiting_pubrec).2.clients 0).responses = [] ∧
      (MQTTAsync_cycle_ack {} 0 PUBCOMP 1 engine_awaiting_pubrec).2.trace =
        [Event.onSuccess 0 9 publish_qos2.command] ∧
      ((MQTTAsync_cycle_ack {} 0 PUBCOMP 1 engine_awaiting_pubrec).2.clients 0).c.outboundMsgs =
        [message_qos2] ∧
      ((MQTTAsync_cycle_ack {} 0 PUBCOMP 1 engine_awaiting_pubrec).2.clients 0).responses = [] := by
  decide

/-! ## Tokens held by a client -/

theorem sameQueues_refl (e : Engine) : sameQueues e e := ⟨rfl, fun _ => rfl⟩

theorem sameQueues_trans {a b c : Engine} (h1 : sameQueues a b) (h2 : sameQueues b c) : sameQueues a c :=
  ⟨h1.1.trans h2.1, fun h => (h1.2 h).trans (h2.2 h)⟩

theorem sameQueues_tokenCount {e' e : Engine} (hs : sameQueues e' e) (h : Nat) (t : Int) :
    tokenCount e' h t = tokenCount e h t := by
  unfold tokenCount
  rw [hs.1, hs.2 h]

theorem fewerTokens_refl (e : Engine) : fewerTokens e e := fun _ _ _ => le_refl _

theorem fewerTokens_trans {a b c : Engine} (h1 : fewerTokens a b) (h2 : fewerTokens b c) : fewerTokens a c :=
  fun h t ht => le_trans (h1 h t ht) (h2 h t ht)

theorem sameQueues_fewer {e' e : Engine} (hs : sameQueues e' e) : fewerTokens e' e :=
  fun h t _ => le_of_eq (sameQueues_tokenCount hs h t)

theorem setClient_responses (e : Engine) (h0 h : Nat) (m : MQTTAsyncs) :
    ((e.setClient h0 m).clients h).responses =
      if h = h0 then m.responses else (e.clients h).responses := by
  by_cases hh : h = h0
  · subst hh; simp
  · simp [hh, Engine.setClient_other _ _ _ _ hh]

theorem sameQueues_setClient (e : Engine) (h0 : Nat) (m : MQTTAsyncs)
    (hm : m.responses = (e.clients h0).responses) : sameQueues (e.setClient h0 m) e := by
  refine ⟨rfl, fun h => ?_⟩
  rw [setClient_responses]
  split
  · rename_i hh; rw [hh, hm]
  · rfl

theorem sameQueues_setC (e : Engine) (h0 : Nat) (c : Clients) : sameQueues (e.setC h0 c) e :=
  ⟨rfl, fun h => Engine.setC_responses e h0 h c⟩

theorem sameQueues_emit (e : Engine) (ev : Event) : sameQueues (e.emit ev) e := ⟨rfl, fun _ => rfl⟩

theorem sameQueues_call (e : Engine) (cb : Option Nat) (ev : Nat → Event) :
    sameQueues (e.call cb ev) e := by
  cases cb
  · exact sameQueues_refl e
  · exact sameQueues_emit e _

theorem sameQueues_closeOnly (h : Nat) (e : Engine) : sameQueues (MQTTAsync_closeOnly h e) e := by
  unfold MQTTAsync_closeOnly
  dsimp only
  split
  · refine sameQueues_trans (sameQueues_setC _ _ _) ?_
    refine sameQueues_trans (sameQueues_emit _ _) ?_
    split
    · exact sameQueues_emit _ _
    · exact sameQueues_refl _
  · exact sameQueues_setC _ _ _

theorem fewerTokens_removeResponsesAndCommands (h0 : Nat) (e : Engine) :
    fewerTokens (MQTTAsync_removeResponsesAndCommands h0 e) e := by
  intro h t _
  unfold tokenCount MQTTAsync_removeResponsesAndCommands
  dsimp only
  apply Nat.add_le_add
  · exact (List.filter_sublist _).countP_le _
  · rw [setClient_responses]
    split
    · simp
    · exact le_refl _

theorem fewerTokens_cleanSession (h0 : Nat) (e : Engine) :
    fewerTokens (MQTTAsync_cleanSession h0 e) e := by
  unfold MQTTAsync_cleanSession
  exact fewerTokens_trans (fewerTokens_removeResponsesAndCommands h0 _)
    (sameQueues_fewer (sameQueues_setC _ _ _))

theorem fewerTokens_closeSession (h0 : Nat) (e : Engine) :
    fewerTokens (MQTTAsync_closeSession h0 e) e := by
  unfold MQTTAsync_closeSession
  dsimp only
  split
  · exact fewerTokens_trans (fewerTokens_cleanSession h0 _) (sameQueues_fewer (sameQueues_closeOnly h0 e))
  · exact sameQueues_fewer (sameQueues_closeOnly h0 e)

theorem fewerTokens_checkDisconnect (now h0 : Nat) (command : MQTTAsync_command) (e : Engine) :
    fewerTokens (MQTTAsync_checkDisconnect now h0 command e) e := by
  unfold MQTTAsync_checkDisconnect
  split
  · dsimp only
    split
    · exact fewerTokens_trans (sameQueues_fewer (sameQueues_emit _ _)) (fewerTokens_closeSession h0 e)
    · split
      · exact fewerTokens_trans (sameQueues_fewer (sameQueues_call _ _ _)) (fewerTokens_closeSession h0 e)
      · exact fewerTokens_closeSession h0 e
  · exact fewerTokens_refl e

theorem addCommand_responses (now : Nat) (c : MQTTAsync_queuedCommand) (e : Engine) (h : Nat) :
    ((MQTTAsync_addCommand now c e).clients h).responses = (e.clients h).responses := by
  unfold MQTTAsync_addCommand
  dsimp only
  split
  · split
    · split <;> rfl
    · rfl
  · split
    · have hp := persistCommand_responses
        { c with command := { c.command with start_time := now } } (e.clients c.client)
      show ((e.setClient c.client _).clients h).responses = _
      rw [setClient_responses]
      split
      · rename_i hh; rw [hh]; exact hp
      · rfl
    · rfl

theorem addCommand_tokenCount_le (now : Nat) (c : MQTTAsync_queuedCommand) (e : Engine) (h : Nat)
    (t : Int) :
    tokenCount (MQTTAsync_addCommand now c e) h t ≤
      tokenCount e h t + (if c.client = h ∧ c.command.token = t then 1 else 0) := by
  have hr := addCommand_responses now c e h
  have hc := addCommand_commands now c e
  obtain ⟨hcmd, hcl, _⟩ := addCommand_linked_fields now c e
  have hδ : (if (decide ((MQTTAsync_addCommand_linked now c e).client = h ∧
      (MQTTAsync_addCommand_linked now c e).command.token = t)) = true then 1 else 0) =
      (if c.client = h ∧ c.command.token = t then 1 else 0) := by
    rw [hcl, hcmd]
    simp
  unfold tokenCount
  rw [hr, hc]
  unfold enqueue_ref
  split
  · split
    · split
      · omega
      · rw [List.countP_cons, hδ]; omega
    · rw [List.countP_cons, hδ]; omega
  · rw [List.countP_append, List.countP_cons, List.countP_nil, hδ]; omega

theorem fewerTokens_addCommand_zero (now : Nat) (c : MQTTAsync_queuedCommand) (e : Engine)
    (hz : c.command.token = 0) : fewerTokens (MQTTAsync_addCommand now c e) e := by
  intro h t ht
  have := addCommand_tokenCount_le now c e h t
  rw [hz] at this
  have h0 : ¬ (c.client = h ∧ (0 : Int) = t) := fun hh => ht hh.2.symm
  rw [if_neg h0] at this
  exact this

theorem countP_eraseIdx (p : MQTTAsync_queuedCommand → Bool) :
    ∀ (q : List MQTTAsync_queuedCommand) (i : Nat) (c : MQTTAsync_queuedCommand),
      q.get? i = some c → q.countP p = (q.eraseIdx i).countP p + (if p c = true then 1 else 0) := by
  intro q
  induction q with
  | nil => intro i c h; cases h
  | cons a q ih =>
    intro i c h
    cases i with
    | zero =>
      simp only [List.get?_cons_zero, Option.some.injEq] at h
      subst h
      rw [List.eraseIdx_zero, List.tail_cons, List.countP_cons]
    | succ i =>
      simp only [List.get?_cons_succ] at h
      rw [List.eraseIdx_cons_succ, List.countP_cons, List.countP_cons, ih i c h]
      omega

theorem dequeue_tokenCount (e : Engine) (cmd : MQTTAsync_queuedCommand) (e1 : Engine)
    (hd : MQTTAsync_processCommand_dequeue e = (some cmd, e1)) (h : Nat) (t : Int) :
    tokenCount e h t = tokenCount e1 h t + (if cmd.client = h ∧ cmd.command.token = t then 1 else 0) := by
  unfold MQTTAsync_processCommand_dequeue at hd
  cases hscan : MQTTAsync_processCommand_scan e [] 0 e.commands with
  | none => rw [hscan] at hd; cases hd
  | some i =>
    rw [hscan] at hd
    cases hget : e.commands.get? i with
    | none => simp only [hget] at hd; cases hd
    | some c =>
      simp only [hget] at hd
      have hcount := countP_eraseIdx (fun c => decide (c.client = h ∧ c.command.token = t))
        e.commands i c hget
      have hδ : (if decide (c.client = h ∧ c.command.token = t) = true then 1 else 0) =
          (if c.client = h ∧ c.command.token = t then 1 else 0) := by simp
      rw [hδ] at hcount
      split at hd
      · simp only [Prod.mk.injEq, Option.some.injEq] at hd
        obtain ⟨hc, he⟩ := hd
        subst hc
        rw [← he]
        unfold tokenCount
        rw [setClient_responses]
        have : (MQTTAsync_unpersistCommand c (e.clients c.client)).responses =
            (e.clients c.client).responses := rfl
        simp only [Engine.setClient_commands, this]
        split
        · rename_i hh; subst hh; rw [hcount]; omega
        · rw [hcount]; omega
      · simp only [Prod.mk.injEq, Option.some.injEq] at hd
        obtain ⟨hc, he⟩ := hd
        subst hc
        rw [← he]
        unfold tokenCount
        simp only
        rw [hcount]; omega

theorem dequeue_none (e e1 : Engine) (hd : MQTTAsync_processCommand_dequeue e = (none, e1)) :
    e1 = e := by
  unfold MQTTAsync_processCommand_dequeue at hd
  cases hscan : MQTTAsync_processCommand_scan e [] 0 e.commands with
  | none => rw [hscan] at hd; simp only [Prod.mk.injEq, true_and] at hd; exact hd.symm
  | some i =>
    rw [hscan] at hd
    cases hget : e.commands.get? i with
    | none => simp only [hget, Prod.mk.injEq, true_and] at hd; exact hd.symm
    | some c =>
      simp only [hget] at hd
      split at hd <;> simp at hd

theorem fewerTokens_disconnect1 (x : ExtCalls) (h0 : Nat) (options : Option MQTTAsync_command)
    (internal : Int) (e : Engine) : fewerTokens (MQTTAsync_disconnect1 x h0 options internal e).2 e := by
  unfold MQTTAsync_disconnect1
  split
  · exact fewerTokens_refl e
  · exact fewerTokens_addCommand_zero _ _ _ rfl

theorem sameQueues_startPublish (x : ExtCalls) (h0 : Nat) (publish : Publish) (qos retained : Int)
    (e : Engine) : sameQueues (MQTTProtocol_startPublish x h0 publish qos retained e).2 e := by
  unfold MQTTProtocol_startPublish
  dsimp only
  refine sameQueues_trans (sameQueues_emit _ _) ?_
  split
  · exact sameQueues_setC _ _ _
  · exact sameQueues_refl e

theorem processCommand_connect_frame (x : ExtCalls) (cmd : MQTTAsync_queuedCommand) (e : Engine)
    (rc : Int) (cmd' : MQTTAsync_queuedCommand) (e' : Engine)
    (hc : MQTTAsync_processCommand_connect x cmd e = some (rc, cmd', e')) :
    sameQueues e' e ∧ cmd'.client = cmd.client ∧ cmd'.command.token = cmd.command.token := by
  unfold MQTTAsync_processCommand_connect at hc
  dsimp only at hc
  split at hc
  · simp only [Option.some.injEq, Prod.mk.injEq] at hc
    obtain ⟨_, h2, h3⟩ := hc
    subst h2 h3
    exact ⟨sameQueues_refl _, rfl, rfl⟩
  · split at hc
    · cases hc
    · simp only [Option.some.injEq, Prod.mk.injEq] at hc
      obtain ⟨_, h2, h3⟩ := hc
      subst h2 h3
      refine ⟨?_, rfl, rfl⟩
      repeat' split
      all_goals
        first
        | exact sameQueues_trans (sameQueues_emit _ _)
            (sameQueues_trans (sameQueues_setC _ _ _) (sameQueues_emit _ _))
        | exact sameQueues_trans (sameQueues_setC _ _ _) (sameQueues_emit _ _)

theorem processCommand_publish_frame (x : ExtCalls) (cmd : MQTTAsync_queuedCommand) (e : Engine) :
    sameQueues (MQTTAsync_processCommand_publish x cmd e).2.2 e ∧
      (MQTTAsync_processCommand_publish x cmd e).2.1.client = cmd.client ∧
      (MQTTAsync_processCommand_publish x cmd e).2.1.command.token = cmd.command.token := by
  have hs := sameQueues_startPublish x cmd.client
    { payload := cmd.command.details.pub_payload, payloadlen := cmd.command.details.pub_payloadlen,
      topic := cmd.command.details.pub_destinationName, msgId := cmd.command.token }
    cmd.command.details.pub_qos cmd.command.details.pub_retained e
  unfold MQTTAsync_processCommand_publish
  dsimp only
  split
  · split
    · exact ⟨sameQueues_trans (sameQueues_call _ _ _) hs, rfl, rfl⟩
    · exact ⟨sameQueues_trans (sameQueues_setClient _ _ _ (by rfl)) hs, rfl, rfl⟩
  · exact ⟨hs, rfl, rfl⟩

theorem fewerTokens_processCommand_disconnect (x : ExtCalls) (cmd : MQTTAsync_queuedCommand)
    (e : Engine) : fewerTokens (MQTTAsync_processCommand_disconnect x cmd e) e := by
  unfold MQTTAsync_processCommand_disconnect
  dsimp only
  split
  · exact fewerTokens_trans (fewerTokens_checkDisconnect _ _ _ _) (sameQueues_fewer (sameQueues_setC _ _ _))
  · exact fewerTokens_refl e

theorem tokenCount_append_response (e : Engine) (cmd : MQTTAsync_queuedCommand) (h : Nat) (t : Int) :
    tokenCount (e.setClient cmd.client
        { e.clients cmd.client with responses := (e.clients cmd.client).responses ++ [cmd] }) h t =
      tokenCount e h t + (if cmd.client = h ∧ cmd.command.token = t then 1 else 0) := by
  unfold tokenCount
  rw [setClient_responses]
  simp only [Engine.setClient_commands]
  by_cases hh : h = cmd.client
  · subst hh
    simp only [if_true, List.countP_append, List.countP_cons, List.countP_nil, true_and,
      decide_eq_true_eq]
    omega
  · have hne : ¬ (cmd.client = h ∧ cmd.command.token = t) := fun hc => hh hc.1.symm
    rw [if_neg hh, if_neg hne]
    omega

theorem finish_tokenCount_le (x : ExtCalls) (rc : Int) (cmd : MQTTAsync_queuedCommand) (e : Engine)
    (h : Nat) (t : Int) (ht : t ≠ 0) :
    tokenCount (MQTTAsync_processCommand_finish x rc cmd e) h t ≤
      tokenCount e h t + (if cmd.client = h ∧ cmd.command.token = t then 1 else 0) := by
  unfold MQTTAsync_processCommand_finish
  dsimp only
  split
  · exact le_trans (le_of_eq (sameQueues_tokenCount (sameQueues_setClient _ _ _ (by rfl)) h t))
      (Nat.le_add_right _ _)
  · split
    · exact le_trans (le_of_eq (sameQueues_tokenCount (sameQueues_setClient _ _ _ (by rfl)) h t))
        (Nat.le_add_right _ _)
    · split
      · split
        · rw [tokenCount_append_response]
        · omega
      · split
        · have hle : ∀ e1 : Engine, fewerTokens e1 e →
              tokenCount
                (if cmd.command.type = CONNECT ∧ MQTTAsync_checkConn cmd.command (e1.clients cmd.client) = true
                  then MQTTAsync_addCommand x.now cmd e1
                  else e1.call cmd.command.onFailure (fun f => Event.onFailure cmd.client f cmd.command)) h t ≤
              tokenCount e h t + (if cmd.client = h ∧ cmd.command.token = t then 1 else 0) := by
            intro e1 h1
            split
            · exact le_trans (addCommand_tokenCount_le _ _ _ _ _) (Nat.add_le_add_right (h1 h t ht) _)
            · rw [sameQueues_tokenCount (sameQueues_call _ _ _)]
              exact le_trans (h1 h t ht) (Nat.le_add_right _ _)
          split
          · exact hle _ (fewerTokens_disconnect1 _ _ _ _ _)
          · exact hle _ (fewerTokens_disconnect1 _ _ _ _ _)
        · rw [tokenCount_append_response]

theorem processCommand_fewerTokens (x : ExtCalls) (e e' : Engine)
    (hp : MQTTAsync_processCommand x e = some e') : fewerTokens e' e := by
  intro h t ht
  unfold MQTTAsync_processCommand at hp
  cases hd : MQTTAsync_processCommand_dequeue e with
  | mk sel e1 =>
    rw [hd] at hp
    cases sel with
    | none =>
      simp only [Option.some.injEq] at hp
      rw [← hp, dequeue_none e e1 hd]
    | some cmd =>
      have hcount := dequeue_tokenCount e cmd e1 hd h t
      dsimp only at hp
      split at hp
      · cases hconn : MQTTAsync_processCommand_connect x cmd e1 with
        | none => rw [hconn] at hp; cases hp
        | some r =>
          obtain ⟨rc, cmd', e2⟩ := r
          rw [hconn] at hp
          simp only [Option.some.injEq] at hp
          obtain ⟨hs, hcl, htok⟩ := processCommand_connect_frame x cmd e1 rc cmd' e2 hconn
          have := finish_tokenCount_le x rc cmd' e2 h t ht
          rw [hp, sameQueues_tokenCount hs, hcl, htok] at this
          omega
      · split at hp
        · simp only [Option.some.injEq] at hp
          have := finish_tokenCount_le x x.rc cmd (e1.emit (Event.sendSubscribe cmd.client cmd.command.token)) h t ht
          rw [hp, sameQueues_tokenCount (sameQueues_emit _ _)] at this
          omega
        · split at hp
          · simp only [Option.some.injEq] at hp
            have := finish_tokenCount_le x x.rc cmd
              (e1.emit (Event.sendUnsubscribe cmd.client cmd.command.token)) h t ht
            rw [hp, sameQueues_tokenCount (sameQueues_emit _ _)] at this
            omega
          · split at hp
            · simp only [Option.some.injEq] at hp
              obtain ⟨hs, hcl, htok⟩ := processCommand_publish_frame x cmd e1
              have := finish_tokenCount_le x (MQTTAsync_processCommand_publish x cmd e1).1
                (MQTTAsync_processCommand_publish x cmd e1).2.1
                (MQTTAsync_processCommand_publish x cmd e1).2.2 h t ht
              rw [hp, sameQueues_tokenCount hs, hcl, htok] at this
              omega
            · split at hp
              · simp only [Option.some.injEq] at hp
                have := finish_tokenCount_le x 0 cmd (MQTTAsync_processCommand_disconnect x cmd e1) h t ht
                rw [hp] at this
                have hle := fewerTokens_processCommand_disconnect x cmd e1 h t ht
                omega
              · simp only [Option.some.injEq] at hp
                have := finish_tokenCount_le x 0 cmd e1 h t ht
                rw [hp] at this
                omega

theorem sameQueues_handlePubacks (x : ExtCalls) (h0 : Nat) (msgId : Int) (e : Engine) :
    sameQueues (MQTTProtocol_handlePubacks x h0 msgId e).2 e := by
  unfold MQTTProtocol_handlePubacks
  dsimp only
  split
  · exact sameQueues_refl e
  · split
    · exact sameQueues_refl e
    · exact sameQueues_setC _ _ _

theorem sameQueues_handlePubcomps (x : ExtCalls) (h0 : Nat) (msgId : Int) (e : Engine) :
    sameQueues (MQTTProtocol_handlePubcomps x h0 msgId e).2 e := by
  unfold MQTTProtocol_handlePubcomps
  dsimp only
  split
  · exact sameQueues_refl e
  · split
    · exact sameQueues_refl e
    · split
      · exact sameQueues_refl e
      · exact sameQueues_setC _ _ _

theorem fewerTokens_drop_response (e : Engine) (h0 i : Nat) :
    fewerTokens (e.setClient h0 { e.clients h0 with responses := (e.clients h0).responses.eraseIdx i }) e := by
  intro h t _
  unfold tokenCount
  rw [setClient_responses]
  simp only [Engine.setClient_commands]
  apply Nat.add_le_add_left
  split
  · rename_i hh
    subst hh
    exact (List.eraseIdx_sublist _ _).countP_le _
  · exact le_refl _

theorem fewerTokens_cycle_complete (h0 : Nat) (msgid : Int) (e : Engine) :
    fewerTokens (MQTTAsync_cycle_complete h0 msgid e) e := by
  unfold MQTTAsync_cycle_complete
  split
  · exact fewerTokens_refl e
  · exact fewerTokens_trans (sameQueues_fewer (sameQueues_call _ _ _)) (fewerTokens_drop_response e h0 _)

theorem fewerTokens_cycle_ack (x : ExtCalls) (h0 : Nat) (type msgid : Int) (e : Engine) :
    fewerTokens (MQTTAsync_cycle_ack x h0 type msgid e).2 e := by
  have hs : sameQueues (if type = PUBCOMP then MQTTProtocol_handlePubcomps x h0 msgid e
      else MQTTProtocol_handlePubacks x h0 msgid e).2 e := by
    split
    · exact sameQueues_handlePubcomps x h0 msgid e
    · exact sameQueues_handlePubacks x h0 msgid e
  unfold MQTTAsync_cycle_ack
  dsimp only
  refine fewerTokens_trans (fewerTokens_cycle_complete _ _ _) (sameQueues_fewer ?_)
  split
  · exact sameQueues_trans (sameQueues_emit _ _) hs
  · exact hs

theorem tokenCount_zero_of_unused (e : Engine) (h : Nat) (t : Int)
    (hu : MQTTAsync_assignMsgId_inUse e h t = false) : tokenCount e h t = 0 := by
  obtain ⟨h1, h2⟩ := (inUse_false_iff e h t).1 hu
  unfold tokenCount
  have a : e.commands.countP (fun c => decide (c.client = h ∧ c.command.token = t)) = 0 := by
    rw [List.countP_eq_zero]
    intro c hc
    simp only [decide_eq_true_eq, not_and]
    exact fun _ => h1 c hc
  have b : (e.clients h).responses.countP (fun c => decide (c.command.token = t)) = 0 := by
    rw [List.countP_eq_zero]
    intro c hc
    simp only [decide_eq_true_eq]
    exact h2 c hc
  rw [a, b]

theorem add_fresh_keeps_distinct (now : Nat) (c : MQTTAsync_queuedCommand) (e : Engine)
    (hinv : ∀ h t, t ≠ 0 → tokenCount e h t ≤ 1)
    (hfresh : c.command.token ≠ 0 → tokenCount e c.client c.command.token = 0) :
    ∀ h t, t ≠ 0 → tokenCount (MQTTAsync_addCommand now c e) h t ≤ 1 := by
  intro h t ht
  have hle := addCommand_tokenCount_le now c e h t
  by_cases hc : c.client = h ∧ c.command.token = t
  · rw [if_pos hc] at hle
    obtain ⟨h1, h2⟩ := hc
    subst h1 h2
    rw [hfresh ht] at hle
    exact hle
  · rw [if_neg hc] at hle
    exact le_trans hle (hinv h t ht)

theorem assign_keeps_distinct (fuel h0 : Nat) (e : Engine) (msgid : Int) (e1 : Engine)
    (hret : MQTTAsync_assignMsgId fuel h0 e = some (msgid, e1))
    (hinv : ∀ h t, t ≠ 0 → tokenCount e h t ≤ 1) :
    (∀ h t, t ≠ 0 → tokenCount e1 h t ≤ 1) ∧ (msgid ≠ 0 → tokenCount e1 h0 msgid = 0) := by
  obtain ⟨h1, h2, h3⟩ := assign_result fuel h0 e msgid e1 hret
  have hs : sameQueues e1 e := ⟨h1, h2⟩
  refine ⟨fun h t ht => ?_, fun hnz => ?_⟩
  · rw [sameQueues_tokenCount hs]; exact hinv h t ht
  · rw [sameQueues_tokenCount hs]; exact tokenCount_zero_of_unused e h0 msgid (h3 hnz).1

theorem send_keeps_distinct (fuel : Nat) (utf8 : String → Bool) (x : ExtCalls) (h0 : Nat)
    (destinationName : String) (payloadlen : Nat) (payload : List Nat) (qos retained : Int)
    (response : Option MQTTAsync_responseOptions) (e : Engine) (r : Int × Option MQTTAsync_responseOptions × Engine)
    (hret : MQTTAsync_send fuel utf8 x h0 destinationName payloadlen payload qos retained response e =
      some r)
    (hinv : ∀ h t, t ≠ 0 → tokenCount e h t ≤ 1) :
    ∀ h t, t ≠ 0 → tokenCount r.2.2 h t ≤ 1 := by
  unfold MQTTAsync_send at hret
  split at hret
  · cases hret; exact hinv
  · split at hret
    · cases hret; exact hinv
    · split at hret
      · cases hret; exact hinv
      · dsimp only at hret
        by_cases hq : qos > 0
        · rw [if_pos hq] at hret
          cases ha : MQTTAsync_assignMsgId fuel h0 e with
          | none => rw [ha] at hret; cases hret
          | some a =>
            obtain ⟨msgid, e1⟩ := a
            rw [ha] at hret
            dsimp only at hret
            obtain ⟨hi1, hi2⟩ := assign_keeps_distinct fuel h0 e msgid e1 ha hinv
            split at hret
            · cases hret; exact hi1
            · cases hret
              exact add_fresh_keeps_distinct _ _ _ hi1 hi2
        · rw [if_neg hq] at hret
          dsimp only at hret
          split at hret
          · cases hret; exact hinv
          · cases hret
            exact add_fresh_keeps_distinct _ _ _ hinv (fun hne => absurd rfl hne)

theorem subscribeMany_keeps_distinct (fuel : Nat) (utf8 : String → Bool) (x : ExtCalls) (h0 : Nat)
    (topic : List String) (qos : List Int) (response : Option MQTTAsync_responseOptions) (e : Engine)
    (r : Int × Option MQTTAsync_responseOptions × Engine)
    (hret : MQTTAsync_subscribeMany fuel utf8 x h0 topic qos response e = some r)
    (hinv : ∀ h t, t ≠ 0 → tokenCount e h t ≤ 1) :
    ∀ h t, t ≠ 0 → tokenCount r.2.2 h t ≤ 1 := by
  unfold MQTTAsync_subscribeMany at hret
  split at hret
  · cases hret; exact hinv
  · split at hret
    · cases hret; exact hinv
    · cases ha : MQTTAsync_assignMsgId fuel h0 e with
      | none => rw [ha] at hret; cases hret
      | some a =>
        obtain ⟨msgid, e1⟩ := a
        rw [ha] at hret
        dsimp only at hret
        obtain ⟨hi1, hi2⟩ := assign_keeps_distinct fuel h0 e msgid e1 ha hinv
        split at hret
        · cases hret; exact hi1
        · cases hret
          exact add_fresh_keeps_distinct _ _ _ hi1 hi2

theorem unsubscribeMany_keeps_distinct (fuel : Nat) (utf8 : String → Bool) (x : ExtCalls) (h0 : Nat)
    (topic : List String) (response : Option MQTTAsync_responseOptions) (e : Engine)
    (r : Int × Option MQTTAsync_responseOptions × Engine)
    (hret : MQTTAsync_unsubscribeMany fuel utf8 x h0 topic response e = some r)
    (hinv : ∀ h t, t ≠ 0 → tokenCount e h t ≤ 1) :
    ∀ h t, t ≠ 0 → tokenCount r.2.2 h t ≤ 1 := by
  unfold MQTTAsync_unsubscribeMany at hret
  split at hret
  · cases hret; exact hinv
  · split at hret
    · cases hret; exact hinv
    · cases ha : MQTTAsync_assignMsgId fuel h0 e with
      | none => rw [ha] at hret; cases hret
      | some a =>
        obtain ⟨msgid, e1⟩ := a
        rw [ha] at hret
        dsimp only at hret
        obtain ⟨hi1, hi2⟩ := assign_keeps_distinct fuel h0 e msgid e1 ha hinv
        split at hret
        · cases hret; exact hi1
        · cases hret
          exact add_fresh_keeps_distinct _ _ _ hi1 hi2

theorem apply_keeps_distinct (op : ClientOp) (e e' : Engine) (hop : ClientOp.apply e op = some e')
    (hinv : ∀ h t, t ≠ 0 → tokenCount e h t ≤ 1) :
    ∀ h t, t ≠ 0 → tokenCount e' h t ≤ 1 := by
  cases op with
  | send fuel utf8 x h0 destinationName payloadlen payload qos retained response =>
    simp only [ClientOp.apply, Option.map_eq_some'] at hop
    obtain ⟨r, hr, rfl⟩ := hop
    exact send_keeps_distinct _ _ _ _ _ _ _ _ _ _ _ r hr hinv
  | subscribeMany fuel utf8 x h0 topic qos response =>
    simp only [ClientOp.apply, Option.map_eq_some'] at hop
    obtain ⟨r, hr, rfl⟩ := hop
    exact subscribeMany_keeps_distinct _ _ _ _ _ _ _ _ r hr hinv
  | unsubscribeMany fuel utf8 x h0 topic response =>
    simp only [ClientOp.apply, Option.map_eq_some'] at hop
    obtain ⟨r, hr, rfl⟩ := hop
    exact unsubscribeMany_keeps_distinct _ _ _ _ _ _ _ r hr hinv
  | dispatch x =>
    intro h t ht
    exact le_trans (processCommand_fewerTokens x e e' hop h t ht) (hinv h t ht)
  | ack x h0 type msgid =>
    simp only [ClientOp.apply, Option.some.injEq] at hop
    intro h t ht
    rw [← hop]
    exact le_trans (fewerTokens_cycle_ack x h0 type msgid e h t ht) (hinv h t ht)

theorem runClient_keeps_distinct (ops : List ClientOp) :
    ∀ e e' : Engine, runClient ops e = some e' → (∀ h t, t ≠ 0 → tokenCount e h t ≤ 1) →
      ∀ h t, t ≠ 0 → tokenCount e' h t ≤ 1 := by
  induction ops with
  | nil =>
    intro e e' hrun hinv
    simp only [runClient, Option.some.injEq] at hrun
    rw [← hrun]; exact hinv
  | cons op ops ih =>
    intro e e' hrun hinv
    simp only [runClient, Option.bind_eq_some] at hrun
    obtain ⟨e1, h1, h2⟩ := hrun
    exact ih e1 e' h2 (apply_keeps_distinct op e e1 h1 hinv)

theorem count_heldTokens (e : Engine) (h : Nat) (t : Int) (ht : t ≠ 0) :
    (heldTokens e h).count t = tokenCount e h t := by
  unfold heldTokens tokenCount
  rw [List.count_filter (by simpa using ht), List.count_append, List.count_eq_countP,
    List.count_eq_countP, List.countP_map, List.countP_map, List.countP_filter]
  congr 1
  apply List.countP_congr
  intro c _
  simp [and_comm]

/-- C3: in every state reached from a fresh engine (nothing queued, nothing pending) by calls of `MQTTAsync_send`, `MQTTAsync_subscribeMany` and `MQTTAsync_unsubscribeMany` that return, for any clients and any qos, interleaved with dispatches by `MQTTAsync_processCommand` (and with the handling of PUBACK and PUBCOMP packets, which frees tokens for reuse), the nonzero tokens of the queued commands and pending responses of each client are pairwise distinct. -/
theorem held_tokens_distinct (clients : Nat → MQTTAsyncs) (noPendingWrites : Int → Bool)
    (ops : List ClientOp) (e : Engine)
    (hrun : runClient ops (Engine.fresh clients noPendingWrites) = some e) (h : Nat) :
    (heldTokens e h).Nodup := by
  have hinv : ∀ h t, t ≠ 0 → tokenCount e h t ≤ 1 := by
    apply runClient_keeps_distinct ops _ e hrun
    intro h t _
    simp [tokenCount, Engine.fresh]
  rw [List.nodup_iff_count_le_one]
  intro t
  by_cases ht : t = 0
  · subst ht
    have : (heldTokens e h).count 0 = 0 := by
      rw [List.count_eq_zero]
      unfold heldTokens
      simp
    omega
  · rw [count_heldTokens e h t ht]
    exact hinv h t ht

/-- C3 at a concrete trace: a SUBSCRIBE (token 1) and a qos 1 PUBLISH (token 2) are queued and dispatched, the PUBACK for 2 arrives, then a qos 2 PUBLISH (token 3) and a SUBSCRIBE (token 4) are queued: client 0 holds the tokens 3 and 4 in the queue and 1 among the responses. -/
theorem held_tokens_distinct_witness :
    heldTokens tokens_end 0 = [3, 4, 1] ∧ (heldTokens tokens_end 0).Nodup :=
  ⟨by decide,
   held_tokens_distinct (fun _ => { c := { connected := true } }) (fun _ => true) tokens_trace
     tokens_end rfl 0⟩

/-! ## Clean session -/

theorem cleanSession_commands (h : Nat) (e : Engine) :
    (MQTTAsync_cleanSession h e).commands = e.commands.filter (fun cmd => decide (cmd.client ≠ h)) := rfl

theorem cleanSession_client (h : Nat) (e : Engine) :
    (MQTTAsync_cleanSession h e).clients h =
      { e.clients h with
        c := { (e.clients h).c with store := [], inboundMsgs := [], outboundMsgs := [], messageQueue := [],
                                    msgID := 0 },
        responses := [] } := by
  simp [MQTTAsync_cleanSession, MQTTAsync_removeResponsesAndCommands, Engine.setC]

theorem cleanSession_other (h h' : Nat) (e : Engine) (hne : h' ≠ h) :
    (MQTTAsync_cleanSession h e).clients h' = e.clients h' := by
  simp [MQTTAsync_cleanSession, MQTTAsync_removeResponsesAndCommands, Engine.setC, Engine.setClient,
    Function.update, hne]

theorem cleanSession_trace (h : Nat) (e : Engine) : (MQTTAsync_cleanSession h e).trace = e.trace := rfl

/-- C14: after `MQTTAsync_cleanSession` the client has no inbound message, no outbound message, no entry in its message queue and no pending response, no command of the queue belongs to it, and the queue is the queue of before without the commands of that client, the others in the order they had; the other clients are as before. -/
theorem MQTTAsync_cleanSession_purges (h : Nat) (e : Engine) :
    ((MQTTAsync_cleanSession h e).clients h).c.inboundMsgs = [] ∧
    ((MQTTAsync_cleanSession h e).clients h).c.outboundMsgs = [] ∧
    ((MQTTAsync_cleanSession h e).clients h).c.messageQueue = [] ∧
    ((MQTTAsync_cleanSession h e).clients h).responses = [] ∧
    (∀ cmd ∈ (MQTTAsync_cleanSession h e).commands, cmd.client ≠ h) ∧
    (MQTTAsync_cleanSession h e).commands = e.commands.filter (fun cmd => decide (cmd.client ≠ h)) ∧
    (∀ h', h' ≠ h →
      (MQTTAsync_cleanSession h e).commands.filter (fun cmd => decide (cmd.client = h')) =
        e.commands.filter (fun cmd => decide (cmd.client = h'))) ∧
    (∀ h', h' ≠ h → (MQTTAsync_cleanSession h e).clients h' = e.clients h') := by
  rw [cleanSession_client, cleanSession_commands]
  refine ⟨rfl, rfl, rfl, rfl, ?_, rfl, ?_, fun h' hne => cleanSession_other h h' e hne⟩
  · intro cmd hcmd
    simpa using (List.mem_filter.1 hcmd).2
  · intro h' hne
    rw [List.filter_filter]
    apply List.filter_congr
    intro cmd _
    by_cases hc : cmd.client = h'
    · simp [hc, hne]
    · simp [hc]

/-! ## Closing on a DISCONNECT command -/

theorem closeOnly_trace (h : Nat) (e : Engine) :
    ∃ l, (MQTTAsync_closeOnly h e).trace = e.trace ++ l ∧ ∀ h', Event.connectionLost h' ∉ l := by
  unfold MQTTAsync_closeOnly
  dsimp only
  split
  · by_cases hc : (e.clients h).c.connected = true
    · exact ⟨[.sendDisconnect h, .socketClose (e.clients h).c.socket], by simp [hc, Engine.emit], by simp⟩
    · exact ⟨[.socketClose (e.clients h).c.socket], by simp [hc, Engine.emit], by simp⟩
  · exact ⟨[], by simp, by simp⟩

theorem closeSession_trace (h : Nat) (e : Engine) :
    ∃ l, (MQTTAsync_closeSession h e).trace = e.trace ++ l ∧ ∀ h', Event.connectionLost h' ∉ l := by
  unfold MQTTAsync_closeSession
  dsimp only
  split
  · rw [cleanSession_trace]; exact closeOnly_trace h e
  · exact closeOnly_trace h e

theorem closeOnly_state (h : Nat) (e : Engine) :
    ((MQTTAsync_closeOnly h e).clients h).c.connected = false ∧
    ((MQTTAsync_closeOnly h e).clients h).c.ping_outstanding = false ∧
    ((MQTTAsync_closeOnly h e).clients h).c.good = false ∧
    ((MQTTAsync_closeOnly h e).clients h).c.connect_state = 0 ∧
    ((MQTTAsync_closeOnly h e).clients h).c.socket =
      (if (e.clients h).c.socket > 0 then 0 else (e.clients h).c.socket) ∧
    (MQTTAsync_closeOnly h e).trace =
      e.trace ++ (if (e.clients h).c.socket > 0 then
        (if (e.clients h).c.connected = true then [Event.sendDisconnect h] else []) ++
          [Event.socketClose (e.clients h).c.socket]
        else []) ∧
    ((MQTTAsync_closeOnly h e).clients h).c.outboundMsgs = (e.clients h).c.outboundMsgs ∧
    ((MQTTAsync_closeOnly h e).clients h).c.inboundMsgs = (e.clients h).c.inboundMsgs ∧
    ((MQTTAsync_closeOnly h e).clients h).c.messageQueue = (e.clients h).c.messageQueue ∧
    ((MQTTAsync_closeOnly h e).clients h).c.msgID = (e.clients h).c.msgID ∧
    ((e.clients h).c.cleansession = false → MQTTAsync_closeSession h e = MQTTAsync_closeOnly h e) := by
  have hcs : ((MQTTAsync_closeOnly h e).clients h).c.cleansession = (e.clients h).c.cleansession := by
    unfold MQTTAsync_closeOnly
    dsimp only
    split <;> simp
  refine ⟨?_, ?_, ?_, ?_, ?_, ?_, ?_, ?_, ?_, ?_, ?_⟩
  · unfold MQTTAsync_closeOnly
    dsimp only
    split <;> simp
  · unfold MQTTAsync_closeOnly
    dsimp only
    split <;> simp
  · unfold MQTTAsync_closeOnly
    dsimp only
    split <;> simp
  · unfold MQTTAsync_closeOnly
    dsimp only
    split <;> simp
  · unfold MQTTAsync_closeOnly
    dsimp only
    by_cases hs : (e.clients h).c.socket > 0
    · rw [if_pos hs, if_pos hs]; simp
    · rw [if_neg hs, if_neg hs]; simp
  · unfold MQTTAsync_closeOnly
    dsimp only
    by_cases hs : (e.clients h).c.socket > 0
    · rw [if_pos hs, if_pos hs]
      by_cases hc : (e.clients h).c.connected = true
      · simp [hc, Engine.emit]
      · simp [hc, Engine.emit]
    · rw [if_neg hs, if_neg hs]; simp
  · unfold MQTTAsync_closeOnly
    dsimp only
    split <;> simp
  · unfold MQTTAsync_closeOnly
    dsimp only
    split <;> simp
  · unfold MQTTAsync_closeOnly
    dsimp only
    split <;> simp
  · unfold MQTTAsync_closeOnly
    dsimp only
    split <;> simp
  · intro hclean
    unfold MQTTAsync_closeSession
    dsimp only
    rw [if_neg (by rw [hcs, hclean]; decide)]

theorem closeSession_state (h : Nat) (e : Engine) :
    (((MQTTAsync_closeSession h e).clients h).c.connected = false ∧
      ((MQTTAsync_closeSession h e).clients h).c.ping_outstanding = false ∧
      ((MQTTAsync_closeSession h e).clients h).c.good = false ∧
      ((MQTTAsync_closeSession h e).clients h).c.connect_state = 0 ∧
      ((MQTTAsync_closeSession h e).clients h).c.socket =
        (if (e.clients h).c.socket > 0 then 0 else (e.clients h).c.socket)) ∧
    (MQTTAsync_closeSession h e).trace =
      e.trace ++ (if (e.clients h).c.socket > 0 then
        (if (e.clients h).c.connected = true then [Event.sendDisconnect h] else []) ++
          [Event.socketClose (e.clients h).c.socket]
        else []) ∧
    ((e.clients h).c.cleansession = true →
      ((MQTTAsync_closeSession h e).clients h).c.outboundMsgs = [] ∧
      ((MQTTAsync_closeSession h e).clients h).c.inboundMsgs = [] ∧
      ((MQTTAsync_closeSession h e).clients h).c.messageQueue = [] ∧
      ((MQTTAsync_closeSession h e).clients h).responses = [] ∧
      (MQTTAsync_closeSession h e).commands = e.commands.filter (fun cmd => decide (cmd.client ≠ h))) ∧
    ((e.clients h).c.cleansession = false →
      ((MQTTAsync_closeSession h e).clients h).c.outboundMsgs = (e.clients h).c.outboundMsgs ∧
      ((MQTTAsync_closeSession h e).clients h).c.inboundMsgs = (e.clients h).c.inboundMsgs ∧
      ((MQTTAsync_closeSession h e).clients h).c.messageQueue = (e.clients h).c.messageQueue ∧
      ((MQTTAsync_closeSession h e).clients h).responses = (e.clients h).responses ∧
      (MQTTAsync_closeSession h e).commands = e.commands) := by
  obtain ⟨h1, h2, h3, h4, h5, h6, h7, h8, h9, _, h11⟩ := closeOnly_state h e
  have hcs : ((MQTTAsync_closeOnly h e).clients h).c.cleansession = (e.clients h).c.cleansession := by
    unfold MQTTAsync_closeOnly
    dsimp only
    split <;> simp
  have hcmd : (MQTTAsync_closeOnly h e).commands = e.commands := by
    unfold MQTTAsync_closeOnly
    dsimp only
    split
    · split <;> rfl
    · rfl
  have hresp : ((MQTTAsync_closeOnly h e).clients h).responses = (e.clients h).responses := by
    unfold MQTTAsync_closeOnly
    dsimp only
    split
    · split <;> simp
    · simp
  by_cases hclean : (e.clients h).c.cleansession = true
  · have hres : MQTTAsync_closeSession h e = MQTTAsync_cleanSession h (MQTTAsync_closeOnly h e) := by
      unfold MQTTAsync_closeSession
      dsimp only
      rw [if_pos (by rw [hcs]; exact hclean)]
    rw [hres, cleanSession_client, cleanSession_commands, cleanSession_trace, hcmd]
    refine ⟨⟨h1, h2, h3, h4, h5⟩, h6, fun _ => ⟨rfl, rfl, rfl, rfl, rfl⟩, fun hf => ?_⟩
    rw [hclean] at hf
    cases hf
  · have hclean' : (e.clients h).c.cleansession = false := by simpa using hclean
    rw [h11 hclean']
    refine ⟨⟨h1, h2, h3, h4, h5⟩, h6, fun ht => absurd ht hclean, fun _ => ⟨h7, h8, h9, hresp, hcmd⟩⟩

theorem checkDisconnect_after_close (now h : Nat) (command : MQTTAsync_command) (e : Engine) :
    (¬ ((e.clients h).c.outboundMsgs.length = 0 ∨
          (now : Int) - (command.start_time : Int) ≥ command.details.dis_timeout) →
      MQTTAsync_checkDisconnect now h command e = e) ∧
    (((e.clients h).c.outboundMsgs.length = 0 ∨
          (now : Int) - (command.start_time : Int) ≥ command.details.dis_timeout) →
      (MQTTAsync_checkDisconnect now h command e).clients = (MQTTAsync_closeSession h e).clients ∧
      (MQTTAsync_checkDisconnect now h command e).commands = (MQTTAsync_closeSession h e).commands ∧
      (∃ l, (MQTTAsync_closeSession h e).trace = e.trace ++ l ∧ ∀ h', Event.connectionLost h' ∉ l) ∧
      (MQTTAsync_checkDisconnect now h command e).trace = (MQTTAsync_closeSession h e).trace ++
        (if command.details.dis_internal ≠ 0 then
          (if (e.clients h).cl.isSome = true ∧ (e.clients h).c.connected = true then [Event.connectionLost h]
           else [])
         else (command.onSuccess.map (fun f => Event.onSuccess h f command)).toList)) := by
  have hcl : ((MQTTAsync_closeSession h e).clients h).cl = (e.clients h).cl := by
    unfold MQTTAsync_closeSession MQTTAsync_closeOnly
    dsimp only
    repeat' split
    all_goals simp [cleanSession_client, Engine.setC]
  refine ⟨fun hno => ?_, fun hyes => ?_⟩
  · unfold MQTTAsync_checkDisconnect
    rw [if_neg hno]
  · unfold MQTTAsync_checkDisconnect
    rw [if_pos hyes]
    dsimp only
    rw [hcl]
    refine ⟨?_, ?_, closeSession_trace h e, ?_⟩
    · repeat' split
      all_goals simp
    · repeat' split
      all_goals simp
    · by_cases hi : command.details.dis_internal ≠ 0
      · by_cases hc : (e.clients h).cl.isSome = true ∧ (e.clients h).c.connected = true
        · simp [hi, hc, Engine.emit]
        · have hi' : ¬ command.details.dis_internal = 0 := hi
          simp only [hi, hc, hi', and_false, false_and, if_true, if_false, ne_eq, not_false_eq_true, true_and]
          simp
      · have hi' : command.details.dis_internal = 0 := not_not.1 hi
        simp only [hi']
        cases command.onSuccess <;> simp [Engine.call, Engine.emit]

/-- C16: `MQTTAsync_checkDisconnect` leaves the engine as it is unless the client has no outbound message or the time since the command was queued (`start_time`) has reached its timeout. In that case the session is closed: the client is not connected afterwards, `connect_state` is 0, `ping_outstanding` and `good` are cleared, a socket above 0 is closed and set to 0 (after an MQTT DISCONNECT when the client was connected), and with clean session the outbound and inbound messages, the message queue, the responses and the queued commands of the client are gone, while without it they are as before. The close itself calls no connection-lost callback, and after it exactly this is called: for an internal disconnect the connection-lost callback, when one is registered and the client was connected before the close, and nothing otherwise; for a disconnect of the application the success callback of the command, when it has one, and never the connection-lost callback. -/
theorem MQTTAsync_checkDisconnect_closes (now h : Nat) (command : MQTTAsync_command) (e : Engine) :
    (¬ ((e.clients h).c.outboundMsgs.length = 0 ∨
          (now : Int) - (command.start_time : Int) ≥ command.details.dis_timeout) →
      MQTTAsync_checkDisconnect now h command e = e) ∧
    (((e.clients h).c.outboundMsgs.length = 0 ∨
          (now : Int) - (command.start_time : Int) ≥ command.details.dis_timeout) →
      (MQTTAsync_checkDisconnect now h command e).clients = (MQTTAsync_closeSession h e).clients ∧
      (MQTTAsync_checkDisconnect now h command e).commands = (MQTTAsync_closeSession h e).commands ∧
      (∃ l, (MQTTAsync_closeSession h e).trace = e.trace ++ l ∧ ∀ h', Event.connectionLost h' ∉ l) ∧
      (MQTTAsync_checkDisconnect now h command e).trace = (MQTTAsync_closeSession h e).trace ++
        (if command.details.dis_internal ≠ 0 then
          (if (e.clients h).cl.isSome = true ∧ (e.clients h).c.connected = true then [Event.connectionLost h]
           else [])
         else (command.onSuccess.map (fun f => Event.onSuccess h f command)).toList) ∧
      (((MQTTAsync_checkDisconnect now h command e).clients h).c.connected = false ∧
        ((MQTTAsync_checkDisconnect now h command e).clients h).c.ping_outstanding = false ∧
        ((MQTTAsync_checkDisconnect now h command e).clients h).c.good = false ∧
        ((MQTTAsync_checkDisconnect now h command e).clients h).c.connect_state = 0 ∧
        ((MQTTAsync_checkDisconnect now h command e).clients h).c.socket =
          (if (e.clients h).c.socket > 0 then 0 else (e.clients h).c.socket)) ∧
      (MQTTAsync_checkDisconnect now h command e).trace =
        e.trace ++ (if (e.clients h).c.socket > 0 then
            (if (e.clients h).c.connected = true then [Event.sendDisconnect h] else []) ++
              [Event.socketClose (e.clients h).c.socket]
            else []) ++
          (if command.details.dis_internal ≠ 0 then
            (if (e.clients h).cl.isSome = true ∧ (e.clients h).c.connected = true then
              [Event.connectionLost h]
             else [])
           else (command.onSuccess.map (fun f => Event.onSuccess h f command)).toList) ∧
      ((e.clients h).c.cleansession = true →
        ((MQTTAsync_checkDisconnect now h command e).clients h).c.outboundMsgs = [] ∧
        ((MQTTAsync_checkDisconnect now h command e).clients h).c.inboundMsgs = [] ∧
        ((MQTTAsync_checkDisconnect now h command e).clients h).c.messageQueue = [] ∧
        ((MQTTAsync_checkDisconnect now h command e).clients h).responses = [] ∧
        (MQTTAsync_checkDisconnect now h command e).commands =
          e.commands.filter (fun cmd => decide (cmd.client ≠ h))) ∧
      ((e.clients h).c.cleansession = false →
        ((MQTTAsync_checkDisconnect now h command e).clients h).c.outboundMsgs =
          (e.clients h).c.outboundMsgs ∧
        ((MQTTAsync_checkDisconnect now h command e).clients h).c.inboundMsgs =
          (e.clients h).c.inboundMsgs ∧
        ((MQTTAsync_checkDisconnect now h command e).clients h).c.messageQueue =
          (e.clients h).c.messageQueue ∧
        ((MQTTAsync_checkDisconnect now h command e).clients h).responses = (e.clients h).responses ∧
        (MQTTAsync_checkDisconnect now h command e).commands = e.commands)) := by
  obtain ⟨hno, hyes⟩ := checkDisconnect_after_close now h command e
  obtain ⟨s1, s2, s3, s4⟩ := closeSession_state h e
  refine ⟨hno, fun hcond => ?_⟩
  obtain ⟨c1, c2, c3, c4⟩ := hyes hcond
  refine ⟨c1, c2, c3, c4, ?_, ?_, ?_, ?_⟩
  · rw [c1]; exact s1
  · rw [c4, s2]
  · intro hclean
    rw [c1, c2]
    exact s3 hclean
  · intro hclean
    rw [c1, c2]
    exact s4 hclean

/-! ## Completion of a pending response by the receiving thread -/

theorem cycle_find_first (pre post : List MQTTAsync_queuedCommand) (command : MQTTAsync_queuedCommand)
    (msgid : Int) (hpre : ∀ c ∈ pre, c.command.token ≠ msgid) (htok : command.command.token = msgid) :
    MQTTAsync_cycle_find (pre ++ command :: post) msgid = some pre.length := by
  unfold MQTTAsync_cycle_find
  induction pre with
  | nil => simp [List.findIdx?_cons, htok]
  | cons a pre ih =>
    have ha : a.command.token ≠ msgid := hpre a (List.mem_cons_self _ _)
    have ih' := ih (fun c hc => hpre c (List.mem_cons_of_mem _ hc))
    simp [List.findIdx?_cons, ha, ih']

theorem getD_first (pre post : List MQTTAsync_queuedCommand) (command d : MQTTAsync_queuedCommand) :
    (pre ++ command :: post).getD pre.length d = command := by
  induction pre with
  | nil => rfl
  | cons a pre ih => simpa using ih

theorem eraseIdx_first (pre post : List MQTTAsync_queuedCommand) (command : MQTTAsync_queuedCommand) :
    (pre ++ command :: post).eraseIdx pre.length = pre ++ post := by
  induction pre with
  | nil => rfl
  | cons a pre ih => simpa using ih

theorem Engine.setC_callbacks (e : Engine) (h h' : Nat) (c : Clients) :
    ((e.setC h c).clients h').dc = (e.clients h').dc ∧ ((e.setC h c).clients h').cl = (e.clients h').cl := by
  by_cases hh : h' = h
  · subst hh; simp [Engine.setC]
  · simp [Engine.setC, Engine.setClient_other _ _ _ _ hh]

theorem handlePubacks_frame (x : ExtCalls) (h : Nat) (msgId : Int) (e : Engine) :
    (MQTTProtocol_handlePubacks x h msgId e).2.trace = e.trace ∧
    ((MQTTProtocol_handlePubacks x h msgId e).2.clients h).dc = (e.clients h).dc := by
  unfold MQTTProtocol_handlePubacks
  dsimp only
  repeat' split
  all_goals simp [(Engine.setC_callbacks _ _ _ _).1]

theorem handlePubcomps_frame (x : ExtCalls) (h : Nat) (msgId : Int) (e : Engine) :
    (MQTTProtocol_handlePubcomps x h msgId e).2.trace = e.trace ∧
    ((MQTTProtocol_handlePubcomps x h msgId e).2.clients h).dc = (e.clients h).dc := by
  unfold MQTTProtocol_handlePubcomps
  dsimp only
  repeat' split
  all_goals simp [(Engine.setC_callbacks _ _ _ _).1]

theorem cycle_complete_first (h : Nat) (msgid : Int) (e : Engine)
    (pre post : List MQTTAsync_queuedCommand) (command : MQTTAsync_queuedCommand)
    (hresp : (e.clients h).responses = pre ++ command :: post)
    (hpre : ∀ c ∈ pre, c.command.token ≠ msgid) (htok : command.command.token = msgid) :
    (MQTTAsync_cycle_complete h msgid e).trace =
      e.trace ++ (command.command.onSuccess.map (fun f => Event.onSuccess h f command.command)).toList ∧
    ((MQTTAsync_cycle_complete h msgid e).clients h).responses = pre ++ post := by
  unfold MQTTAsync_cycle_complete
  rw [hresp, cycle_find_first pre post command msgid hpre htok]
  dsimp only
  rw [getD_first, eraseIdx_first]
  cases command.command.onSuccess <;> simp [Engine.call, Engine.emit]

/-- C17: when a PUBACK or PUBCOMP with message id `msgid` is handled for a client that has a delivery-complete callback, and `command` is the first pending response with that token, the calls made for the packet are `deliveryComplete(msgid)` first and then the success callback of the command (when it has one), and nothing else; the command leaves the pending responses. -/
theorem deliveryComplete_before_onSuccess (x : ExtCalls) (h : Nat) (type msgid : Int) (e : Engine)
    (pre post : List MQTTAsync_queuedCommand) (command : MQTTAsync_queuedCommand) (d : Nat)
    (hresp : (e.clients h).responses = pre ++ command :: post)
    (hpre : ∀ c ∈ pre, c.command.token ≠ msgid) (htok : command.command.token = msgid)
    (hdc : (e.clients h).dc = some d) :
    (MQTTAsync_cycle_ack x h type msgid e).2.trace =
      e.trace ++ Event.deliveryComplete h msgid ::
        (command.command.onSuccess.map (fun f => Event.onSuccess h f command.command)).toList ∧
    ((MQTTAsync_cycle_ack x h type msgid e).2.clients h).responses = pre ++ post := by
  have hframe : ∀ e1 : Engine, sameQueues e1 e → e1.trace = e.trace → (e1.clients h).dc = (e.clients h).dc →
      (MQTTAsync_cycle_complete h msgid
          (match (e1.clients h).dc with
            | some _ => e1.emit (.deliveryComplete h msgid)
            | none => e1)).trace =
        e.trace ++ Event.deliveryComplete h msgid ::
          (command.command.onSuccess.map (fun f => Event.onSuccess h f command.command)).toList ∧
      ((MQTTAsync_cycle_complete h msgid
          (match (e1.clients h).dc with
            | some _ => e1.emit (.deliveryComplete h msgid)
            | none => e1)).clients h).responses = pre ++ post := by
    intro e1 hs ht hd
    rw [hd, hdc]
    dsimp only
    have hr : ((e1.emit (.deliveryComplete h msgid)).clients h).responses = pre ++ command :: post := by
      rw [Engine.emit_clients, hs.2 h, hresp]
    obtain ⟨h1, h2⟩ := cycle_complete_first h msgid _ pre post command hr hpre htok
    refine ⟨?_, h2⟩
    rw [h1]
    simp [Engine.emit, ht]
  unfold MQTTAsync_cycle_ack
  dsimp only
  by_cases ht : type = PUBCOMP
  · rw [if_pos ht]
    exact hframe _ (sameQueues_handlePubcomps x h msgid e) (handlePubcomps_frame x h msgid e).1
      (handlePubcomps_frame x h msgid e).2
  · rw [if_neg ht]
    exact hframe _ (sameQueues_handlePubacks x h msgid e) (handlePubacks_frame x h msgid e).1
      (handlePubacks_frame x h msgid e).2

/-- The witness of C17: the PUBCOMP of the qos 2 publish with token 1 arrives for client 0, which has callback 5 for delivery-complete; `deliveryComplete(1)` is followed by the success callback 9 of the publish. -/
theorem deliveryComplete_before_onSuccess_witness :
    (MQTTAsync_cycle_ack {} 0 PUBCOMP 1 engine_awaiting_pubcomp).2.trace =
      [Event.deliveryComplete 0 1, Event.onSuccess 0 9 publish_qos2.command] ∧
    ((MQTTAsync_cycle_ack {} 0 PUBCOMP 1 engine_awaiting_pubcomp).2.clients 0).responses = [] :=
  deliveryComplete_before_onSuccess {} 0 PUBCOMP 1 engine_awaiting_pubcomp [] [] publish_qos2 5
    rfl (by simp) rfl rfl

/-- C15: when a SUBACK with message id `msgId` and granted qos values `qoss` is handled and `command` is the first pending response with that token, the command leaves the pending responses and at most one callback is called: for a SUBACK that carries the single value 0x80 the failure callback of the command with code 0x80 (when it has one) and not the success callback; in every other case the success callback (when it has one) and not the failure callback, and the data it gets holds the values of `qoss` in their order. -/
theorem suback_calls_one_callback (h : Nat) (msgId : Int) (qoss : List Int) (e : Engine)
    (pre post : List MQTTAsync_queuedCommand) (command : MQTTAsync_queuedCommand)
    (hresp : (e.clients h).responses = pre ++ command :: post)
    (hpre : ∀ c ∈ pre, c.command.token ≠ msgId) (htok : command.command.token = msgId) :
    ((MQTTAsync_receiveThread_suback h msgId qoss e).clients h).responses = pre ++ post ∧
    (qoss = [MQTT_BAD_SUBSCRIBE] →
      (MQTTAsync_receiveThread_suback h msgId qoss e).trace = e.trace ++
        (command.command.onFailure.map (fun f => Event.failureData h f msgId 0x80)).toList) ∧
    (qoss ≠ [MQTT_BAD_SUBSCRIBE] →
      (MQTTAsync_receiveThread_suback h msgId qoss e).trace = e.trace ++
        (command.command.onSuccess.map (fun f =>
          Event.subscribeSuccess h f msgId (MQTTAsync_receiveThread_subackData qoss))).toList) ∧
    (MQTTAsync_receiveThread_subackData qoss).values = qoss := by
  unfold MQTTAsync_receiveThread_suback
  rw [hresp, cycle_find_first pre post command msgId hpre htok]
  dsimp only
  rw [getD_first, eraseIdx_first, htok]
  have hbad : (qoss.length = 1 ∧ qoss.headD 0 = MQTT_BAD_SUBSCRIBE) ↔ qoss = [MQTT_BAD_SUBSCRIBE] := by
    constructor
    · rintro ⟨h1, h2⟩
      match qoss, h1, h2 with
      | [q], _, h2 => simpa using h2
    · intro hq; subst hq; simp
  refine ⟨?_, fun hq => ?_, fun hq => ?_, ?_⟩
  · split
    · cases command.command.onFailure <;> simp [Engine.call]
    · cases command.command.onSuccess <;> simp [Engine.call]
  · rw [if_pos (hbad.2 hq)]
    subst hq
    cases command.command.onFailure <;> simp [Engine.call, Engine.emit]
  · rw [if_neg (fun hc => hq (hbad.1 hc))]
    cases command.command.onSuccess <;> simp [Engine.call, Engine.emit]
  · match qoss with
    | [] => rfl
    | [q] => rfl
    | q :: q' :: rest => simp [MQTTAsync_receiveThread_subackData, SubscribeData.values]

/-- The witness of C15: a SUBSCRIBE of two topics with token 7, success callback 1 and failure callback 2 is pending for client 0, and the SUBACK carries `[1, 0x80]`; the command is removed and the one call made is that of the success callback, with `[1, 0x80]`. -/
theorem suback_calls_one_callback_witness :
    ((MQTTAsync_receiveThread_suback 0 7 [1, 0x80] engine_awaiting_suback).clients 0).responses = [] ∧
    (MQTTAsync_receiveThread_suback 0 7 [1, 0x80] engine_awaiting_suback).trace =
      [Event.subscribeSuccess 0 1 7 (SubscribeData.qosList [1, 0x80])] :=
  ⟨(suback_calls_one_callback 0 7 [1, 0x80] engine_awaiting_suback [] [] subscribe_two rfl (by simp) rfl).1,
   (suback_calls_one_callback 0 7 [1, 0x80] engine_awaiting_suback [] [] subscribe_two rfl (by simp)
      rfl).2.2.1 (by decide)⟩

/-! ## The synchronous checks of the publishing and subscribing calls -/

theorem assign_zero (fuel h : Nat) (e e' : Engine)
    (hret : MQTTAsync_assignMsgId fuel h e = some (0, e')) : e' = e := by
  unfold MQTTAsync_assignMsgId at hret
  dsimp only at hret
  split at hret
  · cases hret
  · split at hret
    · rename_i hne
      simp only [Option.some.injEq, Prod.mk.injEq] at hret
      exact absurd hret.1 hne
    · simp only [Option.some.injEq, Prod.mk.injEq] at hret
      exact hret.2.symm

theorem assign_msgID (fuel h : Nat) (e e' : Engine) (msgid : Int)
    (hret : MQTTAsync_assignMsgId fuel h e = some (msgid, e')) (hne : msgid ≠ 0) :
    (e'.clients h).c.msgID = msgid := by
  unfold MQTTAsync_assignMsgId at hret
  dsimp only at hret
  split at hret
  · cases hret
  · split at hret
    · simp only [Option.some.injEq, Prod.mk.injEq] at hret
      obtain ⟨h1, h2⟩ := hret
      subst h1; subst h2
      simp
    · rename_i hz
      simp only [Option.some.injEq, Prod.mk.injEq] at hret
      exact absurd (hret.1 ▸ not_not.1 hz) hne

theorem send_rejects_cases (fuel : Nat) (utf8 : String → Bool) (x : ExtCalls) (h : Nat)
    (destinationName : String) (payloadlen : Nat) (payload : List Nat) (qos retained : Int)
    (response : Option MQTTAsync_responseOptions) (e : Engine) :
    ((e.clients h).c.connected = false →
      MQTTAsync_send fuel utf8 x h destinationName payloadlen payload qos retained response e =
        some (MQTTCODE_DISCONNECT, response, e)) ∧
    ((e.clients h).c.connected = true → utf8 destinationName = false →
      MQTTAsync_send fuel utf8 x h destinationName payloadlen payload qos retained response e =
        some (MQTTCODE_BAD_UTF8_STRING, response, e)) ∧
    ((e.clients h).c.connected = true → utf8 destinationName = true → ¬ (qos = 0 ∨ qos = 1 ∨ qos = 2) →
      MQTTAsync_send fuel utf8 x h destinationName payloadlen payload qos retained response e =
        some (MQTTCODE_BAD_QOS, response, e)) ∧
    ((e.clients h).c.connected = true → utf8 destinationName = true → (qos = 1 ∨ qos = 2) →
      ∀ e', MQTTAsync_assignMsgId fuel h e = some (0, e') →
        MQTTAsync_send fuel utf8 x h destinationName payloadlen payload qos retained response e =
          some (MQTTCODE_NO_MORE_MSGIDS, response, e)) ∧
    (∀ r, MQTTAsync_send fuel utf8 x h destinationName payloadlen payload qos retained response e = some r →
      r.1 ≠ MQTTCODE_SUCCESS →
        (r.1 = MQTTCODE_DISCONNECT ∨ r.1 = MQTTCODE_BAD_UTF8_STRING ∨ r.1 = MQTTCODE_BAD_QOS ∨
          r.1 = MQTTCODE_NO_MORE_MSGIDS) ∧ r.2.1 = response ∧ r.2.2 = e) := by
  refine ⟨fun hc => ?_, fun hc hu => ?_, fun hc hu hq => ?_, fun hc hu hq e' ha => ?_, fun r hret hne => ?_⟩
  · unfold MQTTAsync_send
    rw [if_pos hc]
  · unfold MQTTAsync_send
    rw [if_neg (by simp [hc]), if_pos hu]
  · unfold MQTTAsync_send
    rw [if_neg (by simp [hc]), if_neg (by simp [hu]), if_pos (by omega)]
  · have he : e' = e := assign_zero fuel h e e' ha
    subst he
    unfold MQTTAsync_send
    rw [if_neg (by simp [hc]), if_neg (by simp [hu]), if_neg (by omega)]
    dsimp only
    rw [if_pos (by omega : qos > 0), ha]
    dsimp only
    rw [if_pos ⟨by omega, rfl⟩]
  · unfold MQTTAsync_send at hret
    split at hret
    · cases hret; simp
    · split at hret
      · cases hret; simp
      · split at hret
        · cases hret; simp
        · dsimp only at hret
          by_cases hq : qos > 0
          · rw [if_pos hq] at hret
            cases ha : MQTTAsync_assignMsgId fuel h e with
            | none => rw [ha] at hret; cases hret
            | some a =>
              obtain ⟨msgid, e1⟩ := a
              rw [ha] at hret
              dsimp only at hret
              split at hret
              · rename_i hz
                cases hret
                have hm : msgid = 0 := hz.2
                subst hm
                simp [assign_zero fuel h e e1 ha]
              · cases hret
                exact absurd rfl hne
          · rw [if_neg hq] at hret
            dsimp only at hret
            split at hret
            · rename_i hz
              exact absurd hz.1 hq
            · cases hret
              exact absurd rfl hne

theorem validate_first (utf8 : String → Bool) :
    ∀ (topic : List String) (qos : List Int) (i : Nat), topic.length = qos.length → i < topic.length →
      (∀ j, j < i → utf8 (topic.getD j "") = true ∧ 0 ≤ qos.getD j 0 ∧ qos.getD j 0 ≤ 2) →
      (utf8 (topic.getD i "") = false ∨ qos.getD i 0 < 0 ∨ qos.getD i 0 > 2) →
      MQTTAsync_subscribeMany_validate utf8 topic qos =
        if utf8 (topic.getD i "") = false then MQTTCODE_BAD_UTF8_STRING else MQTTCODE_BAD_QOS := by
  intro topic
  induction topic with
  | nil => intro qos i _ hi; simp at hi
  | cons t topic ih =>
    intro qos i hlen hi hfirst hbad
    match qos, hlen with
    | q :: qos, hlen =>
      cases i with
      | zero =>
        simp only [List.getD_cons_zero] at hbad ⊢
        unfold MQTTAsync_subscribeMany_validate
        by_cases hu : utf8 t = false
        · simp [hu]
        · have hq : q < 0 ∨ q > 2 := by
            rcases hbad with hb | hb
            · exact absurd hb hu
            · exact hb
          simp [hu, hq]
      | succ i =>
        have h0 := hfirst 0 (Nat.succ_pos i)
        simp only [List.getD_cons_zero] at h0
        unfold MQTTAsync_subscribeMany_validate
        rw [if_neg (by simp [h0.1]), if_neg (by omega)]
        simp only [List.getD_cons_succ] at hbad ⊢
        apply ih qos i (by simpa using hlen) (by simpa using hi) _ hbad
        intro j hj
        have := hfirst (j + 1) (by omega)
        simpa using this

/-- C19, what the code does instead: client 0 is connected and subscribes to the topics "a" and "bad" with the requested qos 3 and 0; the second topic is not valid UTF-8, yet the call returns `BadQoS`, because the first entry is checked first and its qos is out of range. -/
theorem subscribeMany_reports_first_offence :
    utf8_example "bad" = false ∧
    (MQTTAsync_subscribeMany 10 utf8_example {} 0 ["a", "bad"] [3, 0] none engine_connected).map
      (fun r => r.1) = some MQTTCODE_BAD_QOS := by
  decide

/-- C19 as amended: for a connected client and `count` entries, when entry `i` is the first whose topic is not valid UTF-8 or whose qos is outside 0..2, `MQTTAsync_subscribeMany` returns `BadUtf8String` if the topic of that entry is not valid UTF-8 and `BadQoS` otherwise, wherever in the list the entry is; the engine is as before the call (nothing is queued, `msgID` is not changed), and so is the response structure. -/
theorem MQTTAsync_subscribeMany_rejects (fuel : Nat) (utf8 : String → Bool) (x : ExtCalls) (h : Nat)
    (topic : List String) (qos : List Int) (response : Option MQTTAsync_responseOptions) (e : Engine)
    (i : Nat) (hconn : (e.clients h).c.connected = true) (hlen : topic.length = qos.length)
    (hi : i < topic.length)
    (hfirst : ∀ j, j < i → utf8 (topic.getD j "") = true ∧ 0 ≤ qos.getD j 0 ∧ qos.getD j 0 ≤ 2)
    (hbad : utf8 (topic.getD i "") = false ∨ qos.getD i 0 < 0 ∨ qos.getD i 0 > 2) :
    MQTTAsync_subscribeMany fuel utf8 x h topic qos response e =
      some (if utf8 (topic.getD i "") = false then MQTTCODE_BAD_UTF8_STRING else MQTTCODE_BAD_QOS,
        response, e) := by
  have hv := validate_first utf8 topic qos i hlen hi hfirst hbad
  have hne : MQTTAsync_subscribeMany_validate utf8 topic qos ≠ MQTTCODE_SUCCESS := by
    rw [hv]; split <;> decide
  unfold MQTTAsync_subscribeMany
  rw [if_neg (by simp [hconn]), if_pos hne, hv]

/-- The witness of C19 as amended: of the three entries the last is the first at fault, with an invalid topic; the call returns `BadUtf8String` and the engine is unchanged. -/
theorem MQTTAsync_subscribeMany_rejects_witness :
    MQTTAsync_subscribeMany 10 utf8_example {} 0 ["a", "b", "bad"] [0, 2, 1] none engine_connected =
      some (MQTTCODE_BAD_UTF8_STRING, none, engine_connected) :=
  MQTTAsync_subscribeMany_rejects 10 utf8_example {} 0 ["a", "b", "bad"] [0, 2, 1] none engine_connected 2
    rfl rfl (by decide) (by decide) (by decide)

theorem addCommand_msgID (now : Nat) (c : MQTTAsync_queuedCommand) (e : Engine) (h : Nat) :
    ((MQTTAsync_addCommand now c e).clients h).c.msgID = (e.clients h).c.msgID := by
  unfold MQTTAsync_addCommand
  dsimp only
  split
  · split
    · split <;> rfl
    · rfl
  · split
    · by_cases hh : h = c.client
      · subst hh
        unfold MQTTAsync_persistCommand
        dsimp only
        split <;> simp
      · show ((e.setClient c.client _).clients h).c.msgID = _
        rw [Engine.setClient_other _ _ _ _ hh]
    · rfl

theorem addCommand_appends (now : Nat) (c : MQTTAsync_queuedCommand) (e : Engine)
    (hc : ¬ c.isPriority) :
    (MQTTAsync_addCommand now c e).commands = e.commands ++ [MQTTAsync_addCommand_linked now c e] := by
  rw [addCommand_commands]
  unfold enqueue_ref
  rw [if_neg (fun hp => hc ((addCommand_linked_isPriority now c e).1 hp))]

theorem send_success_queue (fuel : Nat) (utf8 : String → Bool) (x : ExtCalls) (h : Nat)
    (destinationName : String) (payloadlen : Nat) (payload : List Nat) (qos retained : Int)
    (response : Option MQTTAsync_responseOptions) (e : Engine)
    (hok : (MQTTAsync_send fuel utf8 x h destinationName payloadlen payload qos retained response e).map
      (fun r => r.1) = some MQTTCODE_SUCCESS) :
    ∃ r cmd, MQTTAsync_send fuel utf8 x h destinationName payloadlen payload qos retained response e = some r ∧
      r.2.2.commands = e.commands ++ [cmd] ∧ cmd.command.type = PUBLISH ∧ cmd.client = h ∧
      cmd.command.details.pub_qos = qos ∧
      r.2.1 = response.map (fun o => { o with token := cmd.command.token }) ∧
      (qos = 0 → cmd.command.token = 0 ∧ (r.2.2.clients h).c.msgID = (e.clients h).c.msgID) ∧
      (qos ≠ 0 → cmd.command.token ≠ 0 ∧
        (∃ e1, MQTTAsync_assignMsgId fuel h e = some (cmd.command.token, e1)) ∧
        (r.2.2.clients h).c.msgID = cmd.command.token) := by
  have hnp : ∀ (now : Nat) (ptr : Nat) (cmd : MQTTAsync_command), cmd.type = PUBLISH →
      ¬ ({ client := h, ptr := ptr, command := cmd } : MQTTAsync_queuedCommand).isPriority := by
    intro now ptr cmd ht
    simp [MQTTAsync_queuedCommand.isPriority, ht]
  unfold MQTTAsync_send at hok ⊢
  split at hok
  · simp at hok
  · split at hok
    · simp at hok
    · split at hok
      · simp at hok
      · rename_i hconn hutf hqos
        rw [if_neg hconn, if_neg hutf, if_neg hqos]
        dsimp only at hok ⊢
        by_cases hq : qos > 0
        · rw [if_pos hq] at hok ⊢
          cases ha : MQTTAsync_assignMsgId fuel h e with
          | none => rw [ha] at hok; cases hok
          | some a =>
            obtain ⟨msgid, e1⟩ := a
            rw [ha] at hok
            dsimp only at hok ⊢
            split at hok
            · simp at hok
            · rename_i hz
              rw [if_neg hz]
              have hm : msgid ≠ 0 := fun h0 => hz ⟨hq, h0⟩
              obtain ⟨hcmds, _, _⟩ := assign_result fuel h e msgid e1 ha
              obtain ⟨hl1, hl2, _⟩ := addCommand_linked_fields x.now
                { client := h, ptr := x.ptr,
                  command := { type := PUBLISH, token := msgid, onSuccess := (response.getD {}).onSuccess,
                               onFailure := (response.getD {}).onFailure, context := (response.getD {}).context,
                               details := .pub (some destinationName) payloadlen (payload.take payloadlen)
                                 qos retained } } e1
              refine ⟨_, _, rfl, ?_, ?_, hl2, ?_, ?_, fun h0 => absurd h0 (by omega), fun _ => ⟨?_, ⟨e1, ?_⟩, ?_⟩⟩
              · dsimp only
                rw [addCommand_appends _ _ _ (hnp x.now _ _ rfl), hcmds]
              · rw [hl1]
              · rw [hl1]; rfl
              · rw [hl1]
              · rw [hl1]; exact hm
              · rw [hl1]
              · dsimp only
                rw [addCommand_msgID, hl1]
                exact assign_msgID fuel h e e1 msgid ha hm
        · rw [if_neg hq] at hok ⊢
          dsimp only at hok ⊢
          split at hok
          · rename_i hz
            exact absurd hz.1 hq
          · rename_i hz
            rw [if_neg hz]
            have hq0 : qos = 0 := by omega
            obtain ⟨hl1, hl2, _⟩ := addCommand_linked_fields x.now
              { client := h, ptr := x.ptr,
                command := { type := PUBLISH, token := 0, onSuccess := (response.getD {}).onSuccess,
                             onFailure := (response.getD {}).onFailure, context := (response.getD {}).context,
                             details := .pub (some destinationName) payloadlen (payload.take payloadlen)
                               qos retained } } e
            refine ⟨_, _, rfl, ?_, ?_, hl2, ?_, ?_, fun _ => ⟨?_, ?_⟩, fun hne => absurd hq0 hne⟩
            · dsimp only
              rw [addCommand_appends _ _ _ (hnp x.now _ _ rfl)]
            · rw [hl1]
            · rw [hl1]; rfl
            · rw [hl1]
            · rw [hl1]
            · dsimp only
              rw [addCommand_msgID]

/-- C20: a call of `MQTTAsync_send` that returns `Success` leaves the queue as it was with one PUBLISH command of the client added at the end, and the response structure (when there is one) with the token of that command. With qos 0 that token is 0 and `msgID` of the client is unchanged; with qos 1 or 2 the token is the nonzero id `MQTTAsync_assignMsgId` returned for the client in the state before the call, which is now its `msgID`. -/
theorem MQTTAsync_send_queues_token (fuel : Nat) (utf8 : String → Bool) (x : ExtCalls) (h : Nat)
    (destinationName : String) (payloadlen : Nat) (payload : List Nat) (qos retained : Int)
    (response : Option MQTTAsync_responseOptions) (e : Engine)
    (hok : (MQTTAsync_send fuel utf8 x h destinationName payloadlen payload qos retained response e).map
      (fun r => r.1) = some MQTTCODE_SUCCESS) :
    ∃ r cmd, MQTTAsync_send fuel utf8 x h destinationName payloadlen payload qos retained response e = some r ∧
      r.2.2.commands = e.commands ++ [cmd] ∧ cmd.command.type = PUBLISH ∧ cmd.client = h ∧
      cmd.command.details.pub_qos = qos ∧
      r.2.1 = response.map (fun o => { o with token := cmd.command.token }) ∧
      (qos = 0 → cmd.command.token = 0 ∧ (r.2.2.clients h).c.msgID = (e.clients h).c.msgID) ∧
      (qos ≠ 0 → cmd.command.token ≠ 0 ∧
        (∃ e1, MQTTAsync_assignMsgId fuel h e = some (cmd.command.token, e1)) ∧
        (r.2.2.clients h).c.msgID = cmd.command.token) :=
  send_success_queue fuel utf8 x h destinationName payloadlen payload qos retained response e hok

/-- The witness of C20: client 0 is connected and publishes with qos 1 and a response structure; the call returns `Success`. -/
theorem MQTTAsync_send_queues_token_witness :
    ∃ r cmd, MQTTAsync_send 10 (fun _ => true) { ptr := 1 } 0 "t" 1 [120] 1 0 (some {}) engine_connected =
        some r ∧
      r.2.2.commands = engine_connected.commands ++ [cmd] ∧ cmd.command.type = PUBLISH ∧ cmd.client = 0 ∧
      cmd.command.details.pub_qos = 1 ∧
      r.2.1 = (some {} : Option MQTTAsync_responseOptions).map
        (fun o => { o with token := cmd.command.token }) ∧
      ((1 : Int) = 0 → cmd.command.token = 0 ∧
        (r.2.2.clients 0).c.msgID = (engine_connected.clients 0).c.msgID) ∧
      ((1 : Int) ≠ 0 → cmd.command.token ≠ 0 ∧
        (∃ e1, MQTTAsync_assignMsgId 10 0 engine_connected = some (cmd.command.token, e1)) ∧
        (r.2.2.clients 0).c.msgID = cmd.command.token) :=
  MQTTAsync_send_queues_token 10 (fun _ => true) { ptr := 1 } 0 "t" 1 [120] 1 0 (some {}) engine_connected
    (by decide)

/-! ## The MQTT version of a connect attempt -/

theorem serverURI_details (command : MQTTAsync_queuedCommand) (e : Engine)
    (timeout n : Int) (uris : List String) (cur v : Int)
    (hd : command.command.details = .conn timeout n uris cur v)
    (d : MQTTAsync_details) (uri : String)
    (hch : MQTTAsync_processCommand_serverURI command e = some (d, uri)) :
    ∃ cur' v', d = .conn timeout n uris cur' v' ∧ (v ≠ 3 → v' = v) := by
  unfold MQTTAsync_processCommand_serverURI at hch
  dsimp only at hch
  rw [hd] at hch
  simp only [MQTTAsync_details.serverURIcount, MQTTAsync_details.MQTTVersion,
    MQTTAsync_details.set_currentURI, MQTTAsync_details.set_MQTTVersion, MQTTAsync_details.currentURI,
    MQTTAsync_details.serverURIs] at hch
  by_cases hn : n > 0
  · rw [if_pos hn] at hch
    by_cases hreq : (e.clients command.client).c.MQTTVersion = MQTTVERSION_DEFAULT
    · by_cases hv : v = 3
      · simp only [hreq, hv, if_true] at hch
        split at hch
        · cases hch
        · split at hch
          · cases hch
          · simp only [Option.some.injEq, Prod.mk.injEq] at hch
            exact ⟨_, _, hch.1.symm, fun hne => absurd hv hne⟩
      · simp only [hreq, hv, if_true, if_false] at hch
        split at hch
        · cases hch
        · split at hch
          · cases hch
          · simp only [Option.some.injEq, Prod.mk.injEq] at hch
            exact ⟨_, _, hch.1.symm, fun _ => rfl⟩
    · simp only [hreq, if_false] at hch
      split at hch
      · cases hch
      · split at hch
        · cases hch
        · simp only [Option.some.injEq, Prod.mk.injEq] at hch
          exact ⟨_, _, hch.1.symm, fun _ => rfl⟩
  · rw [if_neg hn] at hch
    simp only [Option.some.injEq, Prod.mk.injEq] at hch
    exact ⟨_, _, hch.1.symm, fun _ => rfl⟩

theorem connect_step (x : ExtCalls) (command : MQTTAsync_queuedCommand) (e : Engine)
    (timeout n : Int) (uris : List String) (cur v : Int)
    (hd : command.command.details = .conn timeout n uris cur v)
    (hidle : (e.clients command.client).c.connect_state = 0 ∧ (e.clients command.client).c.connected = false)
    (r : Int × MQTTAsync_queuedCommand × Engine)
    (hret : MQTTAsync_processCommand_connect x command e = some r) :
    r.2.1.client = command.client ∧
    connectVersions command.client r.2.2.trace =
      connectVersions command.client e.trace ++ [r.2.1.command.details.MQTTVersion] ∧
    (∃ cur', r.2.1.command.details = .conn timeout n uris cur' r.2.1.command.details.MQTTVersion) ∧
    ((e.clients command.client).c.MQTTVersion = MQTTVERSION_DEFAULT → v = 0 →
      r.2.1.command.details.MQTTVersion = MQTTVERSION_3_1_1) ∧
    ((e.clients command.client).c.MQTTVersion = MQTTVERSION_DEFAULT → v = MQTTVERSION_3_1_1 →
      r.2.1.command.details.MQTTVersion = MQTTVERSION_3_1) ∧
    ((e.clients command.client).c.MQTTVersion ≠ MQTTVERSION_DEFAULT →
      r.2.1.command.details.MQTTVersion = (e.clients command.client).c.MQTTVersion) := by
  unfold MQTTAsync_processCommand_connect at hret
  dsimp only at hret
  rw [if_neg (by simp [hidle.1, hidle.2])] at hret
  cases hch : MQTTAsync_processCommand_serverURI command e with
  | none => rw [hch] at hret; cases hret
  | some a =>
    obtain ⟨d, uri⟩ := a
    obtain ⟨cur', v', hd', hv'⟩ := serverURI_details command e timeout n uris cur v hd d uri hch
    rw [hch] at hret
    dsimp only at hret
    subst hd'
    simp only [MQTTAsync_details.MQTTVersion, MQTTAsync_details.set_MQTTVersion] at hret
    cases hret
    dsimp only
    refine ⟨rfl, ?_, ?_, ?_, ?_, ?_⟩
    · by_cases hp : (if x.connect_state = 0 then SOCKET_ERROR else x.rc) = EINPROGRESS
      · rw [if_pos hp]
        simp [connectVersions, Engine.emit, List.filterMap_append, MQTTAsync_details.MQTTVersion]
      · rw [if_neg hp]
        simp [connectVersions, Engine.emit, List.filterMap_append, MQTTAsync_details.MQTTVersion]
    · repeat' split
      all_goals exact ⟨_, rfl⟩
    · intro hreq hv
      have : v' = 0 := by rw [hv' (by omega)]; exact hv
      simp [hreq, this, MQTTAsync_details.MQTTVersion]
    · intro hreq hv
      have : v' = 4 := by rw [hv' (by simp only [MQTTVERSION_3_1_1] at hv; omega)]; exact hv
      simp [hreq, this, MQTTAsync_details.MQTTVersion]
    · intro hreq
      simp [hreq, MQTTAsync_details.MQTTVersion]

/-- C11: two successive dispatches of a CONNECT command for a client that is idle each time, the second of the command as the first left it. Each dispatch makes one connect attempt, with the version it leaves in the command. When the default version was requested and the command is new (`MQTTVersion` 0, as `MQTTAsync_connect` builds it), the first attempt uses 3.1.1 and the second 3.1. When a version was requested explicitly, an attempt uses exactly that version, whatever the command held before. -/
theorem connect_version_choice (x1 x2 : ExtCalls) (command : MQTTAsync_queuedCommand) (e1 e2 : Engine)
    (timeout n : Int) (uris : List String) (cur v : Int)
    (r1 r2 : Int × MQTTAsync_queuedCommand × Engine)
    (hd : command.command.details = .conn timeout n uris cur v)
    (hidle1 : (e1.clients command.client).c.connect_state = 0 ∧
      (e1.clients command.client).c.connected = false)
    (h1 : MQTTAsync_processCommand_connect x1 command e1 = some r1)
    (hidle2 : (e2.clients command.client).c.connect_state = 0 ∧
      (e2.clients command.client).c.connected = false)
    (h2 : MQTTAsync_processCommand_connect x2 r1.2.1 e2 = some r2) :
    (connectVersions command.client r1.2.2.trace =
        connectVersions command.client e1.trace ++ [r1.2.1.command.details.MQTTVersion] ∧
      connectVersions command.client r2.2.2.trace =
        connectVersions command.client e2.trace ++ [r2.2.1.command.details.MQTTVersion]) ∧
    ((e1.clients command.client).c.MQTTVersion = MQTTVERSION_DEFAULT → v = 0 →
      r1.2.1.command.details.MQTTVersion = MQTTVERSION_3_1_1 ∧
      ((e2.clients command.client).c.MQTTVersion = MQTTVERSION_DEFAULT →
        r2.2.1.command.details.MQTTVersion = MQTTVERSION_3_1)) ∧
    ((e1.clients command.client).c.MQTTVersion ≠ MQTTVERSION_DEFAULT →
      r1.2.1.command.details.MQTTVersion = (e1.clients command.client).c.MQTTVersion) ∧
    ((e2.clients command.client).c.MQTTVersion ≠ MQTTVERSION_DEFAULT →
      r2.2.1.command.details.MQTTVersion = (e2.clients command.client).c.MQTTVersion) := by
  obtain ⟨a1, a2, ⟨cur1, a3⟩, a4, _, a6⟩ := connect_step x1 command e1 timeout n uris cur v hd hidle1 r1 h1
  rw [← a1] at hidle2
  obtain ⟨_, b2, _, _, b5, b6⟩ :=
    connect_step x2 r1.2.1 e2 timeout n uris cur1 r1.2.1.command.details.MQTTVersion a3 hidle2 r2 h2
  rw [a1] at b2 b5 b6
  exact ⟨⟨a2, b2⟩, fun hreq hv => ⟨a4 hreq hv, fun hreq2 => b5 hreq2 (a4 hreq hv)⟩, a6, b6⟩

/-- The witness of C11: the CONNECT of `engine_connect_default` (default version requested) is dispatched twice while every network call fails; the first attempt uses version 4 (3.1.1) and the second version 3 (3.1). -/
theorem connect_version_choice_witness :
    (connectVersions 0 connect_attempt_1.2.2.trace =
        connectVersions 0 engine_connect_default.trace ++ [connect_attempt_1.2.1.command.details.MQTTVersion] ∧
      connectVersions 0 connect_attempt_2.2.2.trace =
        connectVersions 0 connect_attempt_1.2.2.trace ++
          [connect_attempt_2.2.1.command.details.MQTTVersion]) ∧
    ((engine_connect_default.clients 0).c.MQTTVersion = MQTTVERSION_DEFAULT → (0 : Int) = 0 →
      connect_attempt_1.2.1.command.details.MQTTVersion = MQTTVERSION_3_1_1 ∧
      ((connect_attempt_1.2.2.clients 0).c.MQTTVersion = MQTTVERSION_DEFAULT →
        connect_attempt_2.2.1.command.details.MQTTVersion = MQTTVERSION_3_1)) ∧
    ((engine_connect_default.clients 0).c.MQTTVersion ≠ MQTTVERSION_DEFAULT →
      connect_attempt_1.2.1.command.details.MQTTVersion = (engine_connect_default.clients 0).c.MQTTVersion) ∧
    ((connect_attempt_1.2.2.clients 0).c.MQTTVersion ≠ MQTTVERSION_DEFAULT →
      connect_attempt_2.2.1.command.details.MQTTVersion = (connect_attempt_1.2.2.clients 0).c.MQTTVersion) :=
  connect_version_choice refused refused connect_default engine_connect_default connect_attempt_1.2.2
    30 2 ["tcp://a", "tcp://b"] 0 0 connect_attempt_1 connect_attempt_2 rfl ⟨rfl, rfl⟩ rfl ⟨rfl, rfl⟩ rfl

/-! ## Completion of a connection -/

theorem linkKept_refl (y : RetryCalls) (g : Nat) (e : Engine) : linkKept y g e e :=
  ⟨rfl, rfl, fun _ hg => hg⟩

theorem linkKept_trans {y : RetryCalls} {g : Nat} {a b c : Engine}
    (h1 : linkKept y g a b) (h2 : linkKept y g b c) : linkKept y g a c :=
  ⟨h1.1.trans h2.1, h1.2.1.trans h2.2.1, fun hrc hg => h1.2.2 hrc (h2.2.2 hrc hg)⟩

theorem linkKept_of_eq (y : RetryCalls) (g : Nat) (e' e : Engine) (h : e'.clients g = e.clients g) :
    linkKept y g e' e := by
  unfold linkKept
  rw [h]
  exact ⟨rfl, rfl, fun _ hg => hg⟩

theorem closeSession_clients (x : ExtCalls) (h : Nat) (e : Engine) :
    (MQTTProtocol_closeSession x h e).clients = e.clients := by
  unfold MQTTProtocol_closeSession MQTTAsync_disconnect_internal MQTTAsync_disconnect1
  split
  · rfl
  · unfold MQTTAsync_addCommand
    dsimp only
    rw [if_pos (Or.inr ⟨rfl, by decide⟩)]
    split
    · split <;> rfl
    · rfl

theorem linkKept_touch (y : RetryCalls) (g h : Nat) (e : Engine) (msgs : List Messages) :
    linkKept y g (e.setC h { (e.clients h).c with outboundMsgs := msgs }) e := by
  by_cases hg : g = h
  · subst hg
    exact ⟨by simp, by simp, fun _ hgood => by simpa using hgood⟩
  · exact linkKept_of_eq y g _ e (by simp [Engine.setC, Engine.setClient_other _ _ _ _ hg])

theorem linkKept_fail (y : RetryCalls) (g h : Nat) (e : Engine) (x : ExtCalls)
    (hfail : ¬ (∀ i, y.rc h i = TCPSOCKET_COMPLETE)) :
    linkKept y g (MQTTProtocol_closeSession x h (e.setC h { (e.clients h).c with good := false })) e := by
  unfold linkKept
  rw [closeSession_clients]
  by_cases hg : g = h
  · subst hg
    exact ⟨by simp, by simp, fun hrc => absurd hrc hfail⟩
  · simp [Engine.setC, Engine.setClient_other _ _ _ _ hg]

theorem retries_loop_linkKept (y : RetryCalls) (now h : Nat) (regardless : Bool) (g : Nat) :
    ∀ (n i : Nat) (e : Engine), linkKept y g (MQTTProtocol_retries_loop y now h regardless n i e) e := by
  intro n
  induction n with
  | zero => intro i e; exact linkKept_refl y g e
  | succ n ih =>
    intro i e
    unfold MQTTProtocol_retries_loop
    dsimp only
    split
    · exact linkKept_refl y g e
    · rename_i m _
      split
      · split
        · split
          · split
            · rename_i hrc
              exact linkKept_fail y g h (e.emit _) _ (fun hall => by
                have := hall i
                rw [hrc] at this
                exact absurd this (by decide))
            · exact linkKept_trans (ih _ _) (linkKept_touch y g h (e.emit _) _)
          · split
            · split
              · rename_i hrc
                exact linkKept_fail y g h (e.emit _) _ (fun hall => hrc (hall i))
              · exact linkKept_trans (ih _ _) (linkKept_touch y g h (e.emit _) _)
            · exact ih _ _
        · exact ih _ _
      · exact linkKept_refl y g e

theorem retries_linkKept (y : RetryCalls) (now h : Nat) (regardless : Bool) (g : Nat) (e : Engine) :
    linkKept y g (MQTTProtocol_retries y now h regardless e) e := by
  unfold MQTTProtocol_retries
  split
  · exact linkKept_refl y g e
  · exact retries_loop_linkKept y now h regardless g _ _ e

theorem retry_client_linkKept (y : RetryCalls) (now : Nat) (doRetry regardless : Bool) (g : Nat)
    (e : Engine) (h : Nat) :
    linkKept y g (MQTTProtocol_retry_client y now doRetry regardless e h) e := by
  unfold MQTTProtocol_retry_client
  split
  · exact linkKept_refl y g e
  · split
    · exact linkKept_of_eq y g _ e (by rw [closeSession_clients])
    · split
      · exact linkKept_refl y g e
      · split
        · exact retries_linkKept y now h regardless g e
        · exact linkKept_refl y g e

theorem retry_linkKept (y : RetryCalls) (now : Nat) (doRetry regardless : Bool) (g : Nat)
    (handles : List Nat) :
    ∀ e : Engine, linkKept y g (MQTTProtocol_retry y now doRetry regardless handles e) e := by
  induction handles with
  | nil => intro e; exact linkKept_refl y g e
  | cons h handles ih =>
    intro e
    unfold MQTTProtocol_retry at ih ⊢
    rw [List.foldl_cons]
    exact linkKept_trans (ih _) (retry_client_linkKept y now doRetry regardless g e h)

theorem resend_linkKept (y : RetryCalls) (handles : List Nat) (h : Nat) (rc : Int) (e : Engine) :
    linkKept y h (MQTTAsync_completeConnection_resend y handles h rc e).2 e := by
  unfold MQTTAsync_completeConnection_resend
  split
  · exact linkKept_trans (retry_linkKept y 0 true true h handles _) (linkKept_touch y h h e _)
  · exact linkKept_refl y h e

theorem resend_empty (y : RetryCalls) (handles : List Nat) (h : Nat) (rc : Int) (e : Engine)
    (hout : (e.clients h).c.outboundMsgs = []) :
    MQTTAsync_completeConnection_resend y handles h rc e = (rc, e) := by
  unfold MQTTAsync_completeConnection_resend
  rw [if_neg (by simp [hout])]

/-- C12, what the code does instead: client 0 waits for the CONNACK with one qos 1 publication outbound and no clean session. The CONNACK with return code 0 arrives; the retry that `MQTTAsync_completeConnection` runs re-sends the publication, the send fails, and the function returns 0 with `connected` set and `good` cleared. -/
theorem completeConnection_clears_good :
    (MQTTAsync_completeConnection retry_fails 0 [0] 0 0 engine_awaiting_connack).1 = MQTTCODE_SUCCESS ∧
    ((MQTTAsync_completeConnection retry_fails 0 [0] 0 0 engine_awaiting_connack).2.clients 0).c.connected =
      true ∧
    ((MQTTAsync_completeConnection retry_fails 0 [0] 0 0 engine_awaiting_connack).2.clients 0).c.good =
      false := by
  decide

/-- C12 as amended: for a client in `connect_state` 3, a CONNACK with return code 0 leaves `connected` set and `connect_state` 0, and it leaves `good` set when the session is clean, or no outbound message remains, or every send of the retry for this client completes; a CONNACK with another return code makes the function return that code and leaves the engine as it was (so `connected` stays clear). For a client in another `connect_state` the function returns `Failure` and leaves the engine as it was. -/
theorem MQTTAsync_completeConnection_sets (y : RetryCalls) (clear_rc : Int) (handles : List Nat) (h : Nat)
    (connack_rc : Int) (e : Engine) :
    ((e.clients h).c.connect_state = 3 → connack_rc = MQTTCODE_SUCCESS →
      ((MQTTAsync_completeConnection y clear_rc handles h connack_rc e).2.clients h).c.connected = true ∧
      ((MQTTAsync_completeConnection y clear_rc handles h connack_rc e).2.clients h).c.connect_state = 0 ∧
      (((e.clients h).c.cleansession = true ∨ (e.clients h).c.outboundMsgs = [] ∨
          ∀ i, y.rc h i = TCPSOCKET_COMPLETE) →
        ((MQTTAsync_completeConnection y clear_rc handles h connack_rc e).2.clients h).c.good = true)) ∧
    ((e.clients h).c.connect_state = 3 → connack_rc ≠ MQTTCODE_SUCCESS →
      MQTTAsync_completeConnection y clear_rc handles h connack_rc e = (connack_rc, e)) ∧
    ((e.clients h).c.connect_state ≠ 3 →
      MQTTAsync_completeConnection y clear_rc handles h connack_rc e = (MQTTCODE_FAILURE, e)) := by
  refine ⟨fun hs hrc => ?_, fun hs hrc => ?_, fun hs => ?_⟩
  · unfold MQTTAsync_completeConnection
    rw [if_pos hs, if_pos hrc]
    dsimp only
    by_cases hclean : (e.clients h).c.cleansession = true
    · rw [if_pos (by simpa using hclean), resend_empty _ _ _ _ _ (by rw [cleanSession_client])]
      simp [cleanSession_client]
    · rw [if_neg (by simpa using hclean)]
      obtain ⟨k1, k2, k3⟩ := resend_linkKept y handles h connack_rc
        (e.setC h { (e.clients h).c with connected := true, good := true, connect_state := 0 })
      refine ⟨?_, ?_, fun hor => ?_⟩
      · rw [k1]; simp
      · rw [k2]; simp
      · rcases hor with hc | ho | hall
        · exact absurd hc hclean
        · rw [resend_empty _ _ _ _ _ (by simpa using ho)]
          simp
        · exact k3 hall (by simp)
  · unfold MQTTAsync_completeConnection
    rw [if_pos hs, if_neg hrc]
  · unfold MQTTAsync_completeConnection
    rw [if_neg hs]

/-- C13: for a client with clean session that waits for its CONNACK (`connect_state` 3), after `MQTTAsync_completeConnection` has handled a CONNACK with return code 0 the client has no outbound and no inbound message, whatever the two lists held before. -/
theorem completeConnection_clean_session (y : RetryCalls) (clear_rc : Int) (handles : List Nat) (h : Nat)
    (e : Engine) (hs : (e.clients h).c.connect_state = 3) (hclean : (e.clients h).c.cleansession = true) :
    ((MQTTAsync_completeConnection y clear_rc handles h MQTTCODE_SUCCESS e).2.clients h).c.outboundMsgs = [] ∧
    ((MQTTAsync_completeConnection y clear_rc handles h MQTTCODE_SUCCESS e).2.clients h).c.inboundMsgs = [] := by
  unfold MQTTAsync_completeConnection
  rw [if_pos hs, if_pos rfl]
  dsimp only
  rw [if_pos (by simpa using hclean), resend_empty _ _ _ _ _ (by rw [cleanSession_client])]
  simp [cleanSession_client]

/-- The witness of C13: client 0 asked for a clean session and has an outbound and an inbound publication restored from persistence; after the CONNACK both lists are empty. -/
theorem completeConnection_clean_session_witness :
    ((MQTTAsync_completeConnection {} 0 [0] 0 MQTTCODE_SUCCESS engine_awaiting_connack_clean).2.clients
      0).c.outboundMsgs = [] ∧
    ((MQTTAsync_completeConnection {} 0 [0] 0 MQTTCODE_SUCCESS engine_awaiting_connack_clean).2.clients
      0).c.inboundMsgs = [] :=
  completeConnection_clean_session {} 0 [0] 0 engine_awaiting_connack_clean rfl rfl

/-! ## The first element a search finds -/

theorem findIdx_first {α : Type} (p : α → Bool) (pre post : List α) (m : α)
    (hpre : ∀ a ∈ pre, p a = false) (hm : p m = true) :
    (pre ++ m :: post).findIdx? p = some pre.length := by
  induction pre with
  | nil => simp [List.findIdx?_cons, hm]
  | cons a pre ih =>
    have ha : p a = false := hpre a (List.mem_cons_self _ _)
    have ih' := ih (fun c hc => hpre c (List.mem_cons_of_mem _ hc))
    simp [List.findIdx?_cons, ha, ih']

theorem findIdx_none {α : Type} (p : α → Bool) (l : List α) (h : l.find? p = none) :
    l.findIdx? p = none := by
  induction l with
  | nil => rfl
  | cons a l ih =>
    rw [List.find?_cons] at h
    cases hp : p a with
    | true => rw [hp] at h; cases h
    | false =>
      rw [hp] at h
      simp [List.findIdx?_cons, hp, ih h]

theorem find_decomp {α : Type} (p : α → Bool) (l : List α) (m : α) (h : l.find? p = some m) :
    ∃ pre post, l = pre ++ m :: post ∧ (∀ a ∈ pre, p a = false) ∧ p m = true := by
  induction l with
  | nil => cases h
  | cons a l ih =>
    rw [List.find?_cons] at h
    cases hp : p a with
    | true =>
      rw [hp] at h
      simp only [Option.some.injEq] at h
      subst h
      exact ⟨[], l, rfl, by simp, hp⟩
    | false =>
      rw [hp] at h
      obtain ⟨pre, post, h1, h2, h3⟩ := ih h
      refine ⟨a :: pre, post, by rw [h1]; rfl, ?_, h3⟩
      intro b hb
      rcases List.mem_cons.1 hb with hb | hb
      · rw [hb]; exact hp
      · exact h2 b hb

theorem list_getD_first {α : Type} (pre post : List α) (m d : α) :
    (pre ++ m :: post).getD pre.length d = m := by
  induction pre with
  | nil => rfl
  | cons a pre ih => simpa using ih

theorem list_eraseIdx_first {α : Type} (pre post : List α) (m : α) :
    (pre ++ m :: post).eraseIdx pre.length = pre ++ post := by
  induction pre with
  | nil => rfl
  | cons a pre ih => simpa using ih

theorem filter_other_erase (pre post : List Messages) (m : Messages) (msgId : Int)
    (hm : m.msgid = msgId) :
    (pre ++ post).filter (fun a => decide (a.msgid ≠ msgId)) =
      (pre ++ m :: post).filter (fun a => decide (a.msgid ≠ msgId)) := by
  simp [List.filter_append, List.filter_cons, hm]

theorem handlePubacks_removes (x : ExtCalls) (h : Nat) (msgId : Int) (e : Engine) :
    (∀ m, (e.clients h).c.outboundMsgs.find? (fun m => decide (m.msgid = msgId)) = some m → m.qos = 1 →
      ∃ pre post, (e.clients h).c.outboundMsgs = pre ++ m :: post ∧ (∀ a ∈ pre, a.msgid ≠ msgId) ∧
        ((MQTTProtocol_handlePubacks x h msgId e).2.clients h).c.outboundMsgs = pre ++ post) ∧
    ((∀ m, (e.clients h).c.outboundMsgs.find? (fun m => decide (m.msgid = msgId)) = some m → m.qos ≠ 1) →
      (MQTTProtocol_handlePubacks x h msgId e).2 = e) ∧
    (((MQTTProtocol_handlePubacks x h msgId e).2.clients h).c.outboundMsgs.filter
        (fun a => decide (a.msgid ≠ msgId)) =
      (e.clients h).c.outboundMsgs.filter (fun a => decide (a.msgid ≠ msgId))) := by
  cases hf : (e.clients h).c.outboundMsgs.find? (fun m => decide (m.msgid = msgId)) with
  | none =>
    have hi := findIdx_none _ _ hf
    have hres : (MQTTProtocol_handlePubacks x h msgId e).2 = e := by
      unfold MQTTProtocol_handlePubacks
      dsimp only
      rw [hi]
    exact ⟨fun m hm => (by cases hm), fun _ => hres, by rw [hres]⟩
  | some m0 =>
    obtain ⟨pre, post, hl, hpre, hm0⟩ := find_decomp _ _ _ hf
    have hid : m0.msgid = msgId := by simpa using hm0
    have hpre' : ∀ a ∈ pre, a.msgid ≠ msgId := fun a ha => by simpa using hpre a ha
    have hi : (e.clients h).c.outboundMsgs.findIdx? (fun m => decide (m.msgid = msgId)) =
        some pre.length := by
      rw [hl]; exact findIdx_first _ pre post m0 hpre hm0
    by_cases hq : m0.qos = 1
    · have hout : ((MQTTProtocol_handlePubacks x h msgId e).2.clients h).c.outboundMsgs = pre ++ post := by
        unfold MQTTProtocol_handlePubacks
        dsimp only
        rw [hi]
        dsimp only
        rw [hl, list_getD_first, if_neg (by simp [hq]), list_eraseIdx_first]
        simp
      refine ⟨fun m hm _ => ?_, fun hno => absurd hq (hno m0 rfl), ?_⟩
      · simp only [Option.some.injEq] at hm
        subst hm
        exact ⟨pre, post, hl, hpre', hout⟩
      · rw [hout, hl]
        exact filter_other_erase pre post m0 msgId hid
    · have hres : (MQTTProtocol_handlePubacks x h msgId e).2 = e := by
        unfold MQTTProtocol_handlePubacks
        dsimp only
        rw [hi]
        dsimp only
        rw [hl, list_getD_first, if_pos hq]
      refine ⟨fun m hm hq' => ?_, fun _ => hres, by rw [hres]⟩
      simp only [Option.some.injEq] at hm
      subst hm
      exact absurd hq' hq

theorem handlePubcomps_removes (x : ExtCalls) (h : Nat) (msgId : Int) (e : Engine) :
    (∀ m, (e.clients h).c.outboundMsgs.find? (fun m => decide (m.msgid = msgId)) = some m →
      m.qos = 2 → m.nextMessageType = PUBCOMP →
      ∃ pre post, (e.clients h).c.outboundMsgs = pre ++ m :: post ∧ (∀ a ∈ pre, a.msgid ≠ msgId) ∧
        ((MQTTProtocol_handlePubcomps x h msgId e).2.clients h).c.outboundMsgs = pre ++ post) ∧
    ((∀ m, (e.clients h).c.outboundMsgs.find? (fun m => decide (m.msgid = msgId)) = some m →
        ¬ (m.qos = 2 ∧ m.nextMessageType = PUBCOMP)) →
      (MQTTProtocol_handlePubcomps x h msgId e).2 = e) ∧
    (((MQTTProtocol_handlePubcomps x h msgId e).2.clients h).c.outboundMsgs.filter
        (fun a => decide (a.msgid ≠ msgId)) =
      (e.clients h).c.outboundMsgs.filter (fun a => decide (a.msgid ≠ msgId))) := by
  cases hf : (e.clients h).c.outboundMsgs.find? (fun m => decide (m.msgid = msgId)) with
  | none =>
    have hi := findIdx_none _ _ hf
    have hres : (MQTTProtocol_handlePubcomps x h msgId e).2 = e := by
      unfold MQTTProtocol_handlePubcomps
      dsimp only
      rw [hi]
    exact ⟨fun m hm => (by cases hm), fun _ => hres, by rw [hres]⟩
  | some m0 =>
    obtain ⟨pre, post, hl, hpre, hm0⟩ := find_decomp _ _ _ hf
    have hid : m0.msgid = msgId := by simpa using hm0
    have hpre' : ∀ a ∈ pre, a.msgid ≠ msgId := fun a ha => by simpa using hpre a ha
    have hi : (e.clients h).c.outboundMsgs.findIdx? (fun m => decide (m.msgid = msgId)) =
        some pre.length := by
      rw [hl]; exact findIdx_first _ pre post m0 hpre hm0
    by_cases hfin : m0.qos = 2 ∧ m0.nextMessageType = PUBCOMP
    · have hout : ((MQTTProtocol_handlePubcomps x h msgId e).2.clients h).c.outboundMsgs = pre ++ post := by
        unfold MQTTProtocol_handlePubcomps
        dsimp only
        rw [hi]
        dsimp only
        rw [hl, list_getD_first, if_neg (by simp [hfin.1]), if_neg (by simp [hfin.2]), list_eraseIdx_first]
        simp
      refine ⟨fun m hm _ _ => ?_, fun hno => absurd hfin (hno m0 rfl), ?_⟩
      · simp only [Option.some.injEq] at hm
        subst hm
        exact ⟨pre, post, hl, hpre', hout⟩
      · rw [hout, hl]
        exact filter_other_erase pre post m0 msgId hid
    · have hres : (MQTTProtocol_handlePubcomps x h msgId e).2 = e := by
        unfold MQTTProtocol_handlePubcomps
        dsimp only
        rw [hi]
        dsimp only
        rw [hl, list_getD_first]
        by_cases hq : m0.qos = 2
        · have hn : m0.nextMessageType ≠ PUBCOMP := fun hn => hfin ⟨hq, hn⟩
          rw [if_neg (by simp [hq]), if_pos hn]
        · rw [if_pos hq]
      refine ⟨fun m hm hq hn => ?_, fun _ => hres, by rw [hres]⟩
      simp only [Option.some.injEq] at hm
      subst hm
      exact absurd ⟨hq, hn⟩ hfin

/-! ## Registering the callbacks -/

/-- C21, the claim as stated fails. First input: `MQTTAsync_connect` was called for client 0 and its CONNECT is in the queue (`connect_state` is still 0); `MQTTAsync_setCallbacks` returns `Success` and stores the new context and callbacks. Second input: client 0 is connected (`connect_state` is 0 again) with callbacks registered; `MQTTAsync_setCallbacks` returns `Success` and replaces them. -/
theorem setCallbacks_accepted_after_connect :
    (engine_connect_default.commands.map (fun c => (c.client, c.command.type)) = [(0, CONNECT)] ∧
      (MQTTAsync_setCallbacks 0 42 (some 11) (some 12) (some 13) engine_connect_default).1 =
        MQTTCODE_SUCCESS ∧
      ((MQTTAsync_setCallbacks 0 42 (some 11) (some 12) (some 13) engine_connect_default).2.clients 0).ma =
        some 12) ∧
    ((engine_connected_callbacks.clients 0).c.connected = true ∧
      (engine_connected_callbacks.clients 0).ma = some 2 ∧
      (MQTTAsync_setCallbacks 0 42 (some 11) (some 12) (some 13) engine_connected_callbacks).1 =
        MQTTCODE_SUCCESS ∧
      ((MQTTAsync_setCallbacks 0 42 (some 11) (some 12) (some 13) engine_connected_callbacks).2.clients 0).ma =
        some 12 ∧
      ((MQTTAsync_setCallbacks 0 42 (some 11) (some 12) (some 13) engine_connected_callbacks).2.clients
        0).context = 42) := by
  decide

/-- C21, amended: `MQTTAsync_setCallbacks` returns `Failure` exactly when the message-arrived callback passed is NULL or `connect_state` of the client is not 0, and then the engine is unchanged, the registered callbacks and context among the rest. In every other state, which includes a client whose CONNECT is still queued and a connected client, it returns `Success` and stores the context and the three callbacks; the rest of the client, the other clients, the command queue and the trace are unchanged. -/
theorem MQTTAsync_setCallbacks_guard (h context : Nat) (cl ma dc : Option Nat) (e : Engine) :
    ((MQTTAsync_setCallbacks h context cl ma dc e).1 = MQTTCODE_FAILURE ↔
      (ma = none ∨ (e.clients h).c.connect_state ≠ 0)) ∧
    ((MQTTAsync_setCallbacks h context cl ma dc e).1 = MQTTCODE_FAILURE →
      (MQTTAsync_setCallbacks h context cl ma dc e).2 = e) ∧
    ((MQTTAsync_setCallbacks h context cl ma dc e).1 = MQTTCODE_FAILURE ∨
      (MQTTAsync_setCallbacks h context cl ma dc e).1 = MQTTCODE_SUCCESS) ∧
    (¬ (ma = none ∨ (e.clients h).c.connect_state ≠ 0) →
      (MQTTAsync_setCallbacks h context cl ma dc e).1 = MQTTCODE_SUCCESS ∧
      ((MQTTAsync_setCallbacks h context cl ma dc e).2.clients h).context = context ∧
      ((MQTTAsync_setCallbacks h context cl ma dc e).2.clients h).cl = cl ∧
      ((MQTTAsync_setCallbacks h context cl ma dc e).2.clients h).ma = ma ∧
      ((MQTTAsync_setCallbacks h context cl ma dc e).2.clients h).dc = dc ∧
      ((MQTTAsync_setCallbacks h context cl ma dc e).2.clients h).c = (e.clients h).c ∧
      ((MQTTAsync_setCallbacks h context cl ma dc e).2.clients h).responses = (e.clients h).responses ∧
      (∀ g, g ≠ h → (MQTTAsync_setCallbacks h context cl ma dc e).2.clients g = e.clients g) ∧
      (MQTTAsync_setCallbacks h context cl ma dc e).2.commands = e.commands ∧
      (MQTTAsync_setCallbacks h context cl ma dc e).2.trace = e.trace) := by
  unfold MQTTAsync_setCallbacks
  by_cases hc : ma = none ∨ (e.clients h).c.connect_state ≠ 0
  · rw [if_pos hc]
    exact ⟨⟨fun _ => hc, fun _ => rfl⟩, fun _ => rfl, Or.inl rfl, fun hn => absurd hc hn⟩
  · rw [if_neg hc]
    have hne : ¬ (MQTTCODE_SUCCESS = MQTTCODE_FAILURE) := by decide
    refine ⟨⟨fun hf => absurd hf hne, fun hx => absurd hx hc⟩, fun hf => absurd hf hne, Or.inr rfl,
      fun _ => ⟨rfl, ?_, ?_, ?_, ?_, ?_, ?_, ?_, rfl, rfl⟩⟩
    · simp
    · simp
    · simp
    · simp
    · simp
    · simp
    · intro g hg
      exact Engine.setClient_other _ _ _ _ hg

/-! ## Restored commands in the queue -/

/-- C24: when the list is sorted by non-decreasing seqno, the list after `MQTTAsync_insertInOrder` is sorted by non-decreasing seqno; it is the old list with the new command put in at one place, after every element whose seqno is less than or equal to its own and before every element whose seqno is greater. -/
theorem MQTTAsync_insertInOrder_sorted (list : List MQTTAsync_queuedCommand)
    (content : MQTTAsync_queuedCommand)
    (hs : list.Pairwise (fun a b => a.seqno ≤ b.seqno)) :
    (MQTTAsync_insertInOrder list content).Pairwise (fun a b => a.seqno ≤ b.seqno) ∧
    ∃ pre post, list = pre ++ post ∧ MQTTAsync_insertInOrder list content = pre ++ content :: post ∧
      (∀ a ∈ pre, a.seqno ≤ content.seqno) ∧ (∀ b ∈ post, content.seqno < b.seqno) := by
  have key : ∃ pre post, list = pre ++ post ∧ MQTTAsync_insertInOrder list content = pre ++ content :: post ∧
      (∀ a ∈ pre, a.seqno ≤ content.seqno) ∧ (∀ b ∈ post, content.seqno < b.seqno) := by
    cases hf : list.find? (fun current => decide (content.seqno < current.seqno)) with
    | none =>
      refine ⟨list, [], by simp, ?_, ?_, by simp⟩
      · unfold MQTTAsync_insertInOrder
        rw [findIdx_none _ _ hf]
      · intro a ha
        have := List.find?_eq_none.1 hf a ha
        simpa using this
    | some m0 =>
      obtain ⟨pre, post, hl, hpre, hm0⟩ := find_decomp _ _ _ hf
      refine ⟨pre, m0 :: post, hl, ?_, ?_, ?_⟩
      · unfold MQTTAsync_insertInOrder
        rw [hl, findIdx_first _ pre post m0 hpre hm0]
        simp
      · intro a ha
        simpa using hpre a ha
      · intro b hb
        have h0 : content.seqno < m0.seqno := by simpa using hm0
        rcases List.mem_cons.1 hb with hb | hb
        · rw [hb]; exact h0
        · rw [hl] at hs
          have hs' := (List.pairwise_append.1 hs).2.1
          have := (List.pairwise_cons.1 hs').1 b hb
          omega
  refine ⟨?_, key⟩
  obtain ⟨pre, post, hl, hr, hpre, hpost⟩ := key
  rw [hr]
  rw [hl] at hs
  obtain ⟨h1, h2, h3⟩ := List.pairwise_append.1 hs
  refine List.pairwise_append.2 ⟨h1, List.pairwise_cons.2 ⟨fun b hb => le_of_lt (hpost b hb), h2⟩, ?_⟩
  intro a ha b hb
  rcases List.mem_cons.1 hb with hb | hb
  · rw [hb]; exact hpre a ha
  · exact h3 a ha b hb

/-- The witness of C24: a command with seqno 2 is inserted into the commands with seqno 1, 2, 2 and 5; it goes after the two with seqno 2 and before the one with seqno 5. -/
theorem MQTTAsync_insertInOrder_sorted_witness :
    (MQTTAsync_insertInOrder [restored 1 10, restored 2 11, restored 2 12, restored 5 13]
        (restored 2 14)).Pairwise (fun a b => a.seqno ≤ b.seqno) ∧
    ∃ pre post, [restored 1 10, restored 2 11, restored 2 12, restored 5 13] = pre ++ post ∧
      MQTTAsync_insertInOrder [restored 1 10, restored 2 11, restored 2 12, restored 5 13] (restored 2 14) =
        pre ++ restored 2 14 :: post ∧
      (∀ a ∈ pre, a.seqno ≤ (restored 2 14).seqno) ∧ (∀ b ∈ post, (restored 2 14).seqno < b.seqno) :=
  MQTTAsync_insertInOrder_sorted [restored 1 10, restored 2 11, restored 2 12, restored 5 13]
    (restored 2 14) (by decide)

/-! ## Delivery of queued publications -/

/-- C26, what the code does instead: client 0 has two publications queued and no message-arrived callback; the turn of the receiving thread calls nothing and the queue afterwards is without its head, so the first publication is dropped without having been delivered. -/
theorem queue_head_dropped_without_callback :
    (engine_queue_no_callback.clients 0).c.messageQueue = [queued_publication 1, queued_publication 2] ∧
    (MQTTAsync_receiveThread_deliver 0 0 engine_queue_no_callback).trace = [] ∧
    ((MQTTAsync_receiveThread_deliver 0 0 engine_queue_no_callback).clients 0).c.messageQueue =
      [queued_publication 2] := by
  decide

/-- C26 as amended: for a client whose message queue is not empty, with head `qe`. When a message-arrived callback is registered, the callback is called once, with `qe`, and nothing else is called; when it answers true (not 0) the queue afterwards is the old queue without its head, and when it answers false (0) the queue is unchanged. When no message-arrived callback is registered, nothing is called and the queue afterwards is the old queue without its head. -/
theorem receiveThread_delivers_head (answer : Int) (h : Nat) (e : Engine) (qe : qEntry)
    (rest : List qEntry) (hq : (e.clients h).c.messageQueue = qe :: rest) :
    (∀ ma, (e.clients h).ma = some ma →
      (MQTTAsync_receiveThread_deliver answer h e).trace = e.trace ++
        [Event.messageArrived h ma qe.topicName
          (if (qe.topicName.getD "").length = qe.topicLen then 0 else qe.topicLen) qe] ∧
      (answer ≠ 0 → ((MQTTAsync_receiveThread_deliver answer h e).clients h).c.messageQueue = rest) ∧
      (answer = 0 → ((MQTTAsync_receiveThread_deliver answer h e).clients h).c.messageQueue = qe :: rest)) ∧
    ((e.clients h).ma = none →
      (MQTTAsync_receiveThread_deliver answer h e).trace = e.trace ∧
      ((MQTTAsync_receiveThread_deliver answer h e).clients h).c.messageQueue = rest) := by
  refine ⟨fun ma hma => ?_, fun hma => ?_⟩
  · unfold MQTTAsync_receiveThread_deliver
    rw [hq]
    dsimp only
    rw [hma]
    dsimp only
    by_cases ha : answer = 0
    · rw [if_neg (by simp [ha])]
      refine ⟨by simp [Engine.emit], fun hne => absurd ha hne, fun _ => by simp [hq]⟩
    · rw [if_pos ha]
      refine ⟨by simp [Engine.emit], fun _ => by simp, fun h0 => absurd h0 ha⟩
  · unfold MQTTAsync_receiveThread_deliver
    rw [hq]
    dsimp only
    rw [hma]
    dsimp only
    rw [if_pos (by decide)]
    exact ⟨by simp, by simp⟩

/-- The witness of C26 as amended: client 0 has callback 2 for message-arrived and two publications queued; the callback answers false. -/
theorem receiveThread_delivers_head_witness :
    (MQTTAsync_receiveThread_deliver 0 0 engine_queue_callback).trace =
      [Event.messageArrived 0 2 (some "t") 0 (queued_publication 1)] ∧
    ((MQTTAsync_receiveThread_deliver 0 0 engine_queue_callback).clients 0).c.messageQueue =
      [queued_publication 1, queued_publication 2] :=
  ⟨((receiveThread_delivers_head 0 0 engine_queue_callback (queued_publication 1) [queued_publication 2]
      rfl).1 2 rfl).1,
   ((receiveThread_delivers_head 0 0 engine_queue_callback (queued_publication 1) [queued_publication 2]
      rfl).1 2 rfl).2.2 rfl⟩

/-! ## Termination of the id scan -/

theorem protocol_assign_loop_never_ends (c : Clients)
    (hall : ∀ m : Int, 1 ≤ m → m ≤ 65535 → c.outboundMsgs.any (fun a => decide (a.msgid = m)) = true) :
    ∀ (fuel : Nat) (m : Int), 1 ≤ m → m ≤ 65535 → MQTTProtocol_assignMsgId_loop c 0 fuel m = none := by
  intro fuel
  induction fuel with
  | zero => intro m _ _; rfl
  | succ fuel ih =>
    intro m hm1 hm2
    rw [MQTTProtocol_assignMsgId_loop, if_pos (hall m hm1 hm2)]
    dsimp only
    have hnext : ¬ (if m = MAX_MSG_ID then 1 else m + 1) = 0 := by
      split <;> omega
    rw [if_neg hnext]
    simp only [MAX_MSG_ID]
    apply ih
    · split <;> omega
    · split <;> omega

theorem cleaned_all_ids_inUse (m : Int) (hm1 : 1 ≤ m) (hm2 : m ≤ 65535) :
    MQTTAsync_assignMsgId_inUse (MQTTAsync_cleanSession 1 engine_all_ids) 1 m = true := by
  unfold MQTTAsync_assignMsgId_inUse
  rw [cleanSession_commands]
  unfold engine_all_ids
  simp only [Bool.or_eq_true, List.any_eq_true, List.mem_map, List.mem_filter, List.mem_range,
    decide_eq_true_eq]
  left
  refine ⟨subscribe_with_token m.toNat, ⟨⟨m.toNat, ⟨by omega, by omega⟩, rfl⟩, by simp [subscribe_with_token]⟩, ?_⟩
  show ((m.toNat : Nat) : Int) = m
  omega

theorem clients_all_outbound_inUse (m : Int) (hm1 : 1 ≤ m) (hm2 : m ≤ 65535) :
    clients_all_outbound.outboundMsgs.any (fun a => decide (a.msgid = m)) = true := by
  unfold clients_all_outbound
  simp only [List.any_eq_true, List.mem_map, List.mem_filter, List.mem_range, decide_eq_true_eq]
  refine ⟨_, ⟨m.toNat, ⟨by omega, by omega⟩, rfl⟩, ?_⟩
  show ((m.toNat : Nat) : Int) = m
  omega

/-- C27, what the code does instead: when `msgID` of the client is 0 and every id of 1..65535 is in use (for `MQTTAsync_assignMsgId`: is the token of a queued command or of a pending response of the client; for `MQTTProtocol_assignMsgId`: is the id of an outbound message), the scan has not ended after any number of probes: the candidate runs through 1..65535 again and again and never equals the start value 0, which is the only exit of a loop whose condition stays true. -/
theorem assignMsgId_scan_never_ends (e : Engine) (h : Nat) (c : Clients)
    (hstart : (e.clients h).c.msgID = 0)
    (hall : ∀ m : Int, 1 ≤ m → m ≤ 65535 → MQTTAsync_assignMsgId_inUse e h m = true)
    (hcstart : c.msgID = 0)
    (hcall : ∀ m : Int, 1 ≤ m → m ≤ 65535 → c.outboundMsgs.any (fun a => decide (a.msgid = m)) = true) :
    (∀ fuel : Nat, MQTTAsync_assignMsgId fuel h e = none) ∧
    (∀ fuel : Nat, MQTTProtocol_assignMsgId fuel c = none) := by
  constructor
  · intro fuel
    unfold MQTTAsync_assignMsgId
    dsimp only
    rw [hstart]
    have := assign_loop_never_ends e h hall fuel 1 (by decide) (by decide)
    rw [if_neg (by decide), show (0 : Int) + 1 = 1 from rfl, this]
  · intro fuel
    unfold MQTTProtocol_assignMsgId
    dsimp only
    rw [hcstart]
    have := protocol_assign_loop_never_ends c hcall fuel 1 (by decide) (by decide)
    rw [if_neg (by decide), show (0 : Int) + 1 = 1 from rfl, this]

/-- The failing input of C27: client 1 went through a clean-session purge (its `msgID` is 0) while the queued commands of client 0 hold every id of 1..65535; and a client structure with `msgID` 0 and an outbound message for every id. -/
theorem assignMsgId_scan_never_ends_witness :
    (∀ fuel : Nat, MQTTAsync_assignMsgId fuel 1 (MQTTAsync_cleanSession 1 engine_all_ids) = none) ∧
    (∀ fuel : Nat, MQTTProtocol_assignMsgId fuel clients_all_outbound = none) :=
  assignMsgId_scan_never_ends (MQTTAsync_cleanSession 1 engine_all_ids) 1 clients_all_outbound
    (by rw [cleanSession_client]) cleaned_all_ids_inUse rfl clients_all_outbound_inUse

/-! ## The index into the server URIs -/

/-- C28, the code at the failing input: `MQTTAsync_connect` with one server URI and version 3.1.1 requested queues a CONNECT with `currentURI = 0` and `serverURIcount = 1`; its first dispatch reads `serverURIs[1]`, outside the array, before any attempt was made. In general, when a version was requested explicitly, the index a dispatch reads is `currentURI + 1`: the increment comes before the read. -/
theorem connect_reads_index_out_of_range :
    engine_connect_single_v311.commands.map (fun c => c.command.details) =
      [MQTTAsync_details.conn 30 1 ["tcp://a"] 0 0] ∧
    (engine_connect_single_v311.commands.map
      (fun c => MQTTAsync_processCommand_serverURI c engine_connect_single_v311)) = [none] ∧
    (MQTTAsync_processCommand refused engine_connect_single_v311).isSome = false ∧
    (∀ (command : MQTTAsync_queuedCommand) (e : Engine) (d : MQTTAsync_details) (uri : String),
      (e.clients command.client).c.MQTTVersion ≠ MQTTVERSION_DEFAULT →
      command.command.details.serverURIcount > 0 →
      MQTTAsync_processCommand_serverURI command e = some (d, uri) →
      d.currentURI = command.command.details.currentURI + 1) := by
  refine ⟨by decide, by decide, by decide, ?_⟩
  intro command e d uri hreq hn hch
  unfold MQTTAsync_processCommand_serverURI at hch
  dsimp only at hch
  rw [if_pos hn, if_neg hreq] at hch
  generalize command.command.details = det at hn hch ⊢
  cases det with
  | conn t n u c v =>
    simp only [MQTTAsync_details.currentURI, MQTTAsync_details.set_currentURI,
      MQTTAsync_details.serverURIs] at hch ⊢
    split at hch
    · cases hch
    · split at hch
      · cases hch
      · simp only [Option.some.injEq, Prod.mk.injEq] at hch
        rw [← hch.1]
  | sub _ _ _ => simp [MQTTAsync_details.serverURIcount] at hn
  | unsub _ _ => simp [MQTTAsync_details.serverURIcount] at hn
  | pub _ _ _ _ _ => simp [MQTTAsync_details.serverURIcount] at hn
  | dis _ _ => simp [MQTTAsync_details.serverURIcount] at hn

/-! ## Persisted commands -/

theorem bytes_le_length : ∀ (w v : Nat), (bytes_le w v).length = w := by
  intro w
  induction w with
  | zero => intro v; rfl
  | succ w ih => intro v; simp [bytes_le, ih]

theorem value_bytes_le : ∀ (w v : Nat), value_le (bytes_le w v) = v % 256 ^ w := by
  intro w
  induction w with
  | zero => intro v; simp [bytes_le, value_le, Nat.mod_one]
  | succ w ih =>
    intro v
    simp only [bytes_le, value_le, ih]
    rw [pow_succ', Nat.mod_mul]

theorem int_bytes_length (v : Int) : (int_bytes v).length = 4 :=
  bytes_le_length 4 _

theorem int_value_bytes (v : Int) (h1 : -2147483648 ≤ v) (h2 : v < 2147483648) :
    int_value (int_bytes v) = v := by
  unfold int_value int_bytes
  rw [value_bytes_le]
  have hn : (v % 4294967296).toNat % 256 ^ 4 = (v % 4294967296).toNat := by
    apply Nat.mod_eq_of_lt
    norm_num
    omega
  rw [hn]
  split <;> omega

theorem read_int_bytes (v : Int) (rest : List Nat) (h1 : -2147483648 ≤ v) (h2 : v < 2147483648) :
    read_int (int_bytes v ++ rest) = some (v, rest) := by
  unfold read_int
  have hl := int_bytes_length v
  rw [if_neg (by simp [hl])]
  have ht : (int_bytes v ++ rest).take 4 = int_bytes v := by
    rw [← hl]; exact List.take_left' rfl
  have hd : (int_bytes v ++ rest).drop 4 = rest := by
    rw [← hl]; exact List.drop_left' rfl
  rw [ht, hd, int_value_bytes v h1 h2]

theorem read_cstring_bytes (bs rest : List Nat) (hnz : ∀ b ∈ bs, b ≠ 0) :
    read_cstring (bs ++ 0 :: rest) = some (bs, rest) := by
  induction bs with
  | nil => simp [read_cstring]
  | cons b bs ih =>
    have hb : b ≠ 0 := hnz b (List.mem_cons_self _ _)
    have ih' := ih (fun c hc => hnz c (List.mem_cons_of_mem _ hc))
    simp [read_cstring, hb, ih']

theorem cstring_bytes_nul_free (s : String) (hs : ∀ c ∈ s.data, c ≠ Char.ofNat 0) :
    cstring_bytes s = s.data.map Char.toNat ∧ (∀ b ∈ cstring_bytes s, b ≠ 0) ∧
      String.mk ((cstring_bytes s).map Char.ofNat) = s := by
  have hall : ∀ b ∈ s.data.map Char.toNat, b ≠ 0 := by
    intro b hb
    obtain ⟨c, hc, rfl⟩ := List.mem_map.1 hb
    intro h0
    apply hs c hc
    have : Char.ofNat c.toNat = c := Char.ofNat_toNat c
    rw [← this, h0]
  have heq : cstring_bytes s = s.data.map Char.toNat := by
    unfold cstring_bytes
    rw [List.takeWhile_eq_self_iff]
    intro b hb
    simpa using hall b hb
  refine ⟨heq, by rw [heq]; exact hall, ?_⟩
  rw [heq, List.map_map]
  have : (Char.ofNat ∘ Char.toNat) = id := by
    funext c
    exact Char.ofNat_toNat c
  rw [this, List.map_id]

theorem size_bytes_ilp32 (n : Nat) (hn : n < 2147483648) : bytes_le 4 n = int_bytes (n : Int) := by
  unfold int_bytes
  congr 1
  omega

theorem publish_record_ilp32 (command : MQTTAsync_command) (topic : String) (payload : List Nat)
    (qos retained : Int) (ht : command.type = PUBLISH)
    (hd : command.details = .pub (some topic) payload.length payload qos retained)
    (hlen : payload.length < 2147483648) :
    MQTTAsync_persistCommand_record 4 command =
      int_bytes PUBLISH ++ (int_bytes command.token ++ (cstring_bytes topic ++ 0 ::
        (int_bytes (payload.length : Int) ++ (payload ++ (int_bytes qos ++ (int_bytes retained ++ [])))))) := by
  unfold MQTTAsync_persistCommand_record MQTTAsync_persistCommand_bufs
  rw [if_neg (by rw [ht]; decide), if_neg (by rw [ht]; decide), if_pos ht, hd]
  simp only [List.flatMap_cons, List.flatMap_nil, PersistBuf.encode, Option.getD_some, List.take_length,
    size_bytes_ilp32 _ hlen, ht, List.append_assoc, List.singleton_append]

theorem restore_publish_ilp32 (ptr : Nat) (command : MQTTAsync_command) (topic : String)
    (payload : List Nat) (qos retained : Int) (ht : command.type = PUBLISH)
    (hd : command.details = .pub (some topic) payload.length payload qos retained)
    (htoken : -2147483648 ≤ command.token ∧ command.token < 2147483648)
    (hqos : -2147483648 ≤ qos ∧ qos < 2147483648)
    (hret : -2147483648 ≤ retained ∧ retained < 2147483648)
    (htopic : ∀ c ∈ topic.data, c ≠ Char.ofNat 0)
    (hlen : payload.length < 2147483648) :
    (MQTTAsync_restoreCommand ptr (MQTTAsync_persistCommand_record 4 command)).map
        (Option.map (fun c => (c.command.type, c.command.token, c.command.details))) =
      some (some (PUBLISH, command.token, .pub (some topic) payload.length payload qos retained)) := by
  obtain ⟨_, hnz, hback⟩ := cstring_bytes_nul_free topic htopic
  rw [publish_record_ilp32 command topic payload qos retained ht hd hlen]
  unfold MQTTAsync_restoreCommand
  rw [read_int_bytes _ _ (by decide) (by decide)]
  dsimp only
  rw [read_int_bytes _ _ htoken.1 htoken.2]
  dsimp only
  rw [if_neg (by decide), if_neg (by decide), if_pos rfl, read_cstring_bytes _ _ hnz]
  dsimp only
  rw [read_int_bytes _ _ (by omega) (by omega)]
  dsimp only
  rw [if_neg (by simp)]
  simp only [Int.toNat_ofNat, List.drop_left, List.take_left]
  rw [read_int_bytes _ _ hqos.1 hqos.2]
  dsimp only
  rw [read_int_bytes _ _ hret.1 hret.2]
  dsimp only
  rw [hback]
  rfl

theorem restore_subscribe_undefined (sizeof_size_t ptr : Nat) (command : MQTTAsync_command) (count : Int)
    (topics : List String) (qoss : List Int) (ht : command.type = SUBSCRIBE)
    (hd : command.details = .sub count topics qoss)
    (htoken : -2147483648 ≤ command.token ∧ command.token < 2147483648)
    (hcount : 0 < count ∧ count < 2147483648) :
    MQTTAsync_restoreCommand ptr (MQTTAsync_persistCommand_record sizeof_size_t command) = none := by
  have hrec : ∃ rest, MQTTAsync_persistCommand_record sizeof_size_t command =
      int_bytes SUBSCRIBE ++ (int_bytes command.token ++ (int_bytes count ++ rest)) := by
    unfold MQTTAsync_persistCommand_record MQTTAsync_persistCommand_bufs
    rw [if_pos ht, hd]
    dsimp only
    rw [List.flatMap_append]
    simp only [List.flatMap_cons, List.flatMap_nil, PersistBuf.encode, ht, List.append_assoc, List.append_nil]
    exact ⟨_, rfl⟩
  obtain ⟨rest, hrec⟩ := hrec
  rw [hrec]
  unfold MQTTAsync_restoreCommand
  rw [read_int_bytes _ _ (by decide) (by decide)]
  dsimp only
  rw [read_int_bytes _ _ htoken.1 htoken.2]
  dsimp only
  rw [if_pos rfl, read_int_bytes _ _ (by omega) hcount.2]
  dsimp only
  rw [if_pos hcount.1]

theorem restore_unsubscribe_undefined (sizeof_size_t ptr : Nat) (command : MQTTAsync_command) (count : Int)
    (topics : List String) (ht : command.type = UNSUBSCRIBE)
    (hd : command.details = .unsub count topics)
    (htoken : -2147483648 ≤ command.token ∧ command.token < 2147483648)
    (hcount : 0 < count ∧ count < 2147483648) :
    MQTTAsync_restoreCommand ptr (MQTTAsync_persistCommand_record sizeof_size_t command) = none := by
  have hrec : ∃ rest, MQTTAsync_persistCommand_record sizeof_size_t command =
      int_bytes UNSUBSCRIBE ++ (int_bytes command.token ++ (int_bytes count ++ rest)) := by
    unfold MQTTAsync_persistCommand_record MQTTAsync_persistCommand_bufs
    rw [if_neg (by rw [ht]; decide), if_pos ht, hd]
    dsimp only
    rw [List.flatMap_append]
    simp only [List.flatMap_cons, List.flatMap_nil, PersistBuf.encode, ht, List.append_assoc, List.append_nil]
    exact ⟨_, rfl⟩
  obtain ⟨rest, hrec⟩ := hrec
  rw [hrec]
  unfold MQTTAsync_restoreCommand
  rw [read_int_bytes _ _ (by decide) (by decide)]
  dsimp only
  rw [read_int_bytes _ _ htoken.1 htoken.2]
  dsimp only
  rw [if_neg (by decide), if_pos rfl, read_int_bytes _ _ (by omega) hcount.2]
  dsimp only
  rw [if_pos hcount.1]

/-- C22, the code at the failing input and where it holds. With an 8-byte `size_t` (the 64-bit targets): `MQTTAsync_persistCommand` writes `sizeof(payloadlen)` = 8 bytes for the payload length, `MQTTAsync_restoreCommand` reads it with `*(int*)ptr` and advances only 4 bytes; for the PUBLISH of "hello" with qos 1 the restored payload is four zero bytes and "h", the restored qos is the number whose bytes are "ello", and the restored retained flag is the qos written. With a 4-byte `size_t` (the 32-bit targets) the round trip holds for every PUBLISH whose token, qos and retained flag are `int` values, whose topic has no NUL and whose payload is shorter than 2^31 bytes. -/
theorem restoreCommand_misreads_payloadlen :
    (publish_hello.details = .pub (some "t") 5 [104, 101, 108, 108, 111] 1 0 ∧
      MQTTAsync_persistCommand_record 8 publish_hello =
        [3, 0, 0, 0, 7, 0, 0, 0, 116, 0, 5, 0, 0, 0, 0, 0, 0, 0, 104, 101, 108, 108, 111, 1, 0, 0, 0,
          0, 0, 0, 0] ∧
      (MQTTAsync_restoreCommand 0 (MQTTAsync_persistCommand_record 8 publish_hello)).map
          (Option.map (fun c => (c.command.type, c.command.token, c.command.details))) =
        some (some (PUBLISH, 7, .pub (some "t") 5 [0, 0, 0, 0, 104] 1869376613 1))) ∧
    (∀ (ptr : Nat) (command : MQTTAsync_command) (topic : String) (payload : List Nat)
        (qos retained : Int), command.type = PUBLISH →
      command.details = .pub (some topic) payload.length payload qos retained →
      (-2147483648 ≤ command.token ∧ command.token < 2147483648) →
      (-2147483648 ≤ qos ∧ qos < 2147483648) → (-2147483648 ≤ retained ∧ retained < 2147483648) →
      (∀ c ∈ topic.data, c ≠ Char.ofNat 0) → payload.length < 2147483648 →
      (MQTTAsync_restoreCommand ptr (MQTTAsync_persistCommand_record 4 command)).map
          (Option.map (fun c => (c.command.type, c.command.token, c.command.details))) =
        some (some (PUBLISH, command.token, .pub (some topic) payload.length payload qos retained))) :=
  ⟨by decide, fun ptr command topic payload qos retained ht hd htoken hqos hret htopic hlen =>
    restore_publish_ilp32 ptr command topic payload qos retained ht hd htoken hqos hret htopic hlen⟩

/-- C23, the code at the failing inputs: `MQTTAsync_restoreCommand` never allocates the arrays `topics` and `qoss`, so for the record of every SUBSCRIBE and of every UNSUBSCRIBE with at least one topic its behaviour is undefined (the first store goes to `topics[0]` of a NULL `topics`), whatever the size of `size_t`; so it is for the SUBSCRIBE of the one topic "a" and for the UNSUBSCRIBE of it. Only a record with count 0 restores, to a command with no topics. -/
theorem restoreCommand_writes_null_topics :
    (∀ (sizeof_size_t ptr : Nat) (command : MQTTAsync_command) (count : Int) (topics : List String)
        (qoss : List Int), command.type = SUBSCRIBE → command.details = .sub count topics qoss →
      (-2147483648 ≤ command.token ∧ command.token < 2147483648) → (0 < count ∧ count < 2147483648) →
      MQTTAsync_restoreCommand ptr (MQTTAsync_persistCommand_record sizeof_size_t command) = none) ∧
    (∀ (sizeof_size_t ptr : Nat) (command : MQTTAsync_command) (count : Int) (topics : List String),
      command.type = UNSUBSCRIBE → command.details = .unsub count topics →
      (-2147483648 ≤ command.token ∧ command.token < 2147483648) → (0 < count ∧ count < 2147483648) →
      MQTTAsync_restoreCommand ptr (MQTTAsync_persistCommand_record sizeof_size_t command) = none) ∧
    MQTTAsync_persistCommand_record 8 subscribe_one = [8, 0, 0, 0, 8, 0, 0, 0, 1, 0, 0, 0, 97, 0, 2, 0, 0, 0] ∧
    MQTTAsync_restoreCommand 0 (MQTTAsync_persistCommand_record 8 subscribe_one) = none ∧
    MQTTAsync_restoreCommand 0 (MQTTAsync_persistCommand_record 4 subscribe_one) = none ∧
    MQTTAsync_restoreCommand 0 (MQTTAsync_persistCommand_record 8 unsubscribe_one) = none ∧
    (MQTTAsync_restoreCommand 0 (MQTTAsync_persistCommand_record 8
        { type := SUBSCRIBE, token := 8, details := .sub 0 [] [] })).map
      (Option.map (fun c => (c.command.type, c.command.token, c.command.details))) =
        some (some (SUBSCRIBE, 8, .sub 0 [] [])) :=
  ⟨fun sizeof_size_t ptr command count topics qoss ht hd htoken hcount =>
      restore_subscribe_undefined sizeof_size_t ptr command count topics qoss ht hd htoken hcount,
    fun sizeof_size_t ptr command count topics ht hd htoken hcount =>
      restore_unsubscribe_undefined sizeof_size_t ptr command count topics ht hd htoken hcount,
    by decide, by decide, by decide, by decide, by decide⟩

/-! ## Command sequence numbers -/

theorem foldl_max_ge (l : List Nat) : ∀ a : Nat, a ≤ l.foldl max a ∧ ∀ s ∈ l, s ≤ l.foldl max a := by
  induction l with
  | nil => intro a; exact ⟨le_refl a, fun s hs => by cases hs⟩
  | cons b l ih =>
    intro a
    rw [List.foldl_cons]
    obtain ⟨h1, h2⟩ := ih (max a b)
    refine ⟨le_trans (le_max_left a b) h1, fun s hs => ?_⟩
    rcases List.mem_cons.1 hs with hs | hs
    · rw [hs]; exact le_trans (le_max_right a b) h1
    · exact h2 s hs

theorem restoreCommands_loop_seqno (sizeof_size_t : Nat) (p : PersistCalls) (h : Nat) :
    ∀ (entries : List (String × List PersistBuf)) (i : Nat) (e : Engine) (r : Int × Engine),
      MQTTAsync_restoreCommands_loop sizeof_size_t p h entries i e = some r →
      (r.2.clients h).command_seqno =
        (restored_seqnos_ref sizeof_size_t p entries i).foldl max (e.clients h).command_seqno := by
  intro entries
  induction entries with
  | nil =>
    intro i e r hr
    simp only [MQTTAsync_restoreCommands_loop, Option.some.injEq] at hr
    rw [← hr]
    rfl
  | cons entry entries ih =>
    intro i e r hr
    obtain ⟨key, bufs⟩ := entry
    rw [MQTTAsync_restoreCommands_loop] at hr
    rw [restored_seqnos_ref]
    by_cases hk : strncmp_eq key.data "c-".data 2 = false
    · rw [if_pos hk] at hr ⊢
      exact ih _ _ _ hr
    · rw [if_neg hk] at hr ⊢
      by_cases hg : p.pget_rc i ≠ 0
      · rw [if_pos hg] at hr ⊢
        simp only [Option.some.injEq] at hr
        rw [← hr]
        rfl
      · rw [if_neg hg] at hr ⊢
        cases hres : MQTTAsync_restoreCommand (p.ptr i) (bufs.flatMap (PersistBuf.encode sizeof_size_t)) with
        | none => rw [hres] at hr; cases hr
        | some a =>
          cases a with
          | none =>
            rw [hres] at hr
            exact ih _ _ _ hr
          | some cmd =>
            rw [hres] at hr
            dsimp only at hr ⊢
            rw [ih _ _ _ hr, List.foldl_cons]
            simp

theorem restoreCommands_loop_returns (sizeof_size_t : Nat) (p : PersistCalls) (h : Nat) :
    ∀ (entries : List (String × List PersistBuf)) (i : Nat) (e : Engine),
      (∀ entry ∈ entries, strncmp_eq entry.1.data "c-".data 2 = true →
        ∀ ptr, MQTTAsync_restoreCommand ptr (entry.2.flatMap (PersistBuf.encode sizeof_size_t)) ≠ none) →
      ∃ r, MQTTAsync_restoreCommands_loop sizeof_size_t p h entries i e = some r := by
  intro entries
  induction entries with
  | nil =>
    intro i e _
    exact ⟨_, rfl⟩
  | cons entry entries ih =>
    intro i e hdef
    obtain ⟨key, bufs⟩ := entry
    have hrest : ∀ entry ∈ entries, strncmp_eq entry.1.data "c-".data 2 = true →
        ∀ ptr, MQTTAsync_restoreCommand ptr (entry.2.flatMap (PersistBuf.encode sizeof_size_t)) ≠ none :=
      fun entry hin => hdef entry (List.mem_cons_of_mem _ hin)
    rw [MQTTAsync_restoreCommands_loop]
    by_cases hk : strncmp_eq key.data "c-".data 2 = false
    · rw [if_pos hk]
      exact ih _ _ hrest
    · rw [if_neg hk]
      by_cases hg : p.pget_rc i ≠ 0
      · rw [if_pos hg]
        exact ⟨_, rfl⟩
      · rw [if_neg hg]
        have hk' : strncmp_eq key.data "c-".data 2 = true := by simpa using hk
        cases hres : MQTTAsync_restoreCommand (p.ptr i) (bufs.flatMap (PersistBuf.encode sizeof_size_t)) with
        | none => exact absurd hres (hdef (key, bufs) (List.mem_cons_self _ _) hk' (p.ptr i))
        | some a =>
          cases a with
          | none => exact ih _ _ hrest
          | some cmd => exact ih _ _ hrest

theorem restoreCommands_subscribe_store (sizeof_size_t : Nat) (p : PersistCalls)
    (hk : p.pkeys_rc = 0) (hg : p.pget_rc 0 = 0) :
    MQTTAsync_restoreCommands sizeof_size_t p 0 engine_store_subscribe = none := by
  have hstore : (engine_store_subscribe.clients 0).c.store =
      [("c-1", MQTTAsync_persistCommand_bufs subscribe_one)] := by decide
  have hper : (engine_store_subscribe.clients 0).c.persistence = true := rfl
  have hnone := restore_subscribe_undefined sizeof_size_t (p.ptr 0) subscribe_one 1 ["a"] [2] rfl rfl
    (by decide) (by decide)
  unfold MQTTAsync_persistCommand_record at hnone
  unfold MQTTAsync_restoreCommands
  rw [if_pos hper, if_pos hk, hstore, MQTTAsync_restoreCommands_loop, if_neg (by decide),
    if_neg (by rw [hg]; decide), hnone]

/-- C25, the claim fails at a store that holds the record of a SUBSCRIBE (or UNSUBSCRIBE) with a topic: `MQTTAsync_restoreCommands` passes the record to `MQTTAsync_restoreCommand`, which stores through the NULL pointer `topics`, so the call does not return with `command_seqno` set. The record under "c-1" of the failing input is what `MQTTAsync_persistCommand` itself writes for a SUBSCRIBE of one topic. What holds: (1) for a PUBLISH, SUBSCRIBE or UNSUBSCRIBE, `MQTTAsync_persistCommand` gives the command the seqno `command_seqno + 1` taken modulo 2^32 (the counter is an `unsigned int`), makes it the new `command_seqno` and puts the record under the key of that seqno; (2) for a store on whose command records `MQTTAsync_restoreCommand` is defined, `MQTTAsync_restoreCommands` returns, `command_seqno` is then the maximum of its value before (0 for a new client) and the seqnos of the records restored, and a command persisted afterwards, the counter not wrapping, gets a seqno greater than that of every record restored; (3) an example with the records "c-7" and "c-3": `command_seqno` is 7 after the restoration and the next command persisted gets seqno 8. -/
theorem restoreCommands_undefined_on_subscribe :
    ((MQTTAsync_persistCommand { command := subscribe_one } { c := { persistence := true } }).1.c.store =
        [("c-1", MQTTAsync_persistCommand_bufs subscribe_one)] ∧
      (engine_store_subscribe.clients 0).c.store = [("c-1", MQTTAsync_persistCommand_bufs subscribe_one)] ∧
      (engine_store_subscribe.clients 0).command_seqno = 0 ∧
      ∀ (sizeof_size_t : Nat) (p : PersistCalls), p.pkeys_rc = 0 → p.pget_rc 0 = 0 →
        MQTTAsync_restoreCommands sizeof_size_t p 0 engine_store_subscribe = none) ∧
    (∀ (qcmd : MQTTAsync_queuedCommand) (aclient : MQTTAsyncs),
      (qcmd.command.type = SUBSCRIBE ∨ qcmd.command.type = UNSUBSCRIBE ∨ qcmd.command.type = PUBLISH) →
      (MQTTAsync_persistCommand qcmd aclient).2.seqno = (aclient.command_seqno + 1) % 4294967296 ∧
      (MQTTAsync_persistCommand qcmd aclient).1.command_seqno = (aclient.command_seqno + 1) % 4294967296 ∧
      (MQTTAsync_persistCommand qcmd aclient).1.c.store.getLast? =
        some (commandKey ((aclient.command_seqno + 1) % 4294967296),
          MQTTAsync_persistCommand_bufs qcmd.command)) ∧
    (∀ (sizeof_size_t : Nat) (p : PersistCalls) (h : Nat) (e : Engine),
      (e.clients h).c.persistence = true → p.pkeys_rc = 0 →
      (∀ entry ∈ (e.clients h).c.store, strncmp_eq entry.1.data "c-".data 2 = true →
        ∀ ptr, MQTTAsync_restoreCommand ptr (entry.2.flatMap (PersistBuf.encode sizeof_size_t)) ≠ none) →
      ∃ r, MQTTAsync_restoreCommands sizeof_size_t p h e = some r ∧
        (r.2.clients h).command_seqno =
          (restored_seqnos_ref sizeof_size_t p (e.clients h).c.store 0).foldl max
            (e.clients h).command_seqno ∧
        ∀ qcmd : MQTTAsync_queuedCommand,
          (qcmd.command.type = SUBSCRIBE ∨ qcmd.command.type = UNSUBSCRIBE ∨ qcmd.command.type = PUBLISH) →
          (r.2.clients h).command_seqno + 1 < 4294967296 →
          ∀ s ∈ restored_seqnos_ref sizeof_size_t p (e.clients h).c.store 0,
            s < (MQTTAsync_persistCommand qcmd (r.2.clients h)).2.seqno) ∧
    (restored_seqnos_ref 4 {} (engine_with_store.clients 0).c.store 0 = [7, 3] ∧
      (MQTTAsync_restoreCommands 4 {} 0 engine_with_store).map
        (fun r => (r.1, (r.2.clients 0).command_seqno)) = some (0, 7) ∧
      (MQTTAsync_restoreCommands 4 {} 0 engine_with_store).map
        (fun r => (MQTTAsync_persistCommand { command := publish_hello } (r.2.clients 0)).2.seqno) =
        some 8) := by
  have hpersist : ∀ (qcmd : MQTTAsync_queuedCommand) (aclient : MQTTAsyncs),
      (qcmd.command.type = SUBSCRIBE ∨ qcmd.command.type = UNSUBSCRIBE ∨ qcmd.command.type = PUBLISH) →
      (MQTTAsync_persistCommand qcmd aclient).2.seqno = (aclient.command_seqno + 1) % 4294967296 ∧
      (MQTTAsync_persistCommand qcmd aclient).1.command_seqno = (aclient.command_seqno + 1) % 4294967296 ∧
      (MQTTAsync_persistCommand qcmd aclient).1.c.store.getLast? =
        some (commandKey ((aclient.command_seqno + 1) % 4294967296),
          MQTTAsync_persistCommand_bufs qcmd.command) := by
    intro qcmd aclient ht
    unfold MQTTAsync_persistCommand
    dsimp only
    rw [if_pos ht]
    simp
  refine ⟨⟨by decide, by decide, rfl, restoreCommands_subscribe_store⟩, hpersist, ?_, by decide⟩
  intro sizeof_size_t p h e hp hk hdef
  obtain ⟨r, hr⟩ := restoreCommands_loop_returns sizeof_size_t p h (e.clients h).c.store 0 e hdef
  have hres : MQTTAsync_restoreCommands sizeof_size_t p h e = some r := by
    unfold MQTTAsync_restoreCommands
    rw [if_pos hp, if_pos hk]
    exact hr
  have hseq := restoreCommands_loop_seqno sizeof_size_t p h _ 0 e r hr
  refine ⟨r, hres, hseq, ?_⟩
  intro qcmd ht hlt s hs
  rw [(hpersist qcmd (r.2.clients h) ht).1, Nat.mod_eq_of_lt hlt, hseq]
  exact Nat.lt_succ_of_le ((foldl_max_ge _ _).2 s hs)

/-! ## Inbound publications: what `Protocol_processPublication` does -/

@[simp] theorem Engine.emit_trace (e : Engine) (ev : Event) : (e.emit ev).trace = e.trace ++ [ev] := rfl

theorem processPublication_direct (answer : Int) (h : Nat) (publish : Publish) (e : Engine) (f : Nat)
    (hq : (e.clients h).c.messageQueue = []) (hc : (e.clients h).c.connected = true)
    (hma : (e.clients h).ma = some f) :
    Protocol_processPublication answer h publish e =
      if answer = 0 then
        (e.emit (.messageArrived h f publish.topic publish.topiclen
            (Protocol_processPublication_entry publish))).setC h
          { (e.clients h).c with messageQueue := [Protocol_processPublication_entry publish] }
      else e.emit (.messageArrived h f publish.topic publish.topiclen
        (Protocol_processPublication_entry publish)) := by
  unfold Protocol_processPublication
  have hg : (e.clients h).c.messageQueue.length = 0 ∧ (e.clients h).c.connected = true :=
    ⟨by rw [hq]; rfl, hc⟩
  simp only [if_pos hg, hma]
  by_cases ha : answer = 0
  · simp [ha, hq]
  · simp [ha]

theorem processPublication_queued (answer : Int) (h : Nat) (publish : Publish) (e : Engine)
    (hno : (e.clients h).c.messageQueue ≠ [] ∨ (e.clients h).c.connected = false ∨ (e.clients h).ma = none) :
    Protocol_processPublication answer h publish e =
      e.setC h { (e.clients h).c with
        messageQueue := (e.clients h).c.messageQueue ++ [Protocol_processPublication_entry publish] } := by
  unfold Protocol_processPublication
  by_cases hg : (e.clients h).c.messageQueue.length = 0 ∧ (e.clients h).c.connected = true
  · have hma : (e.clients h).ma = none := by
      rcases hno with hno | hno | hno
      · exact absurd (List.length_eq_zero.1 hg.1) hno
      · rw [hg.2] at hno; cases hno
      · exact hno
    simp only [hg, and_self, if_true, hma]
  · simp only [hg, if_false]
    simp

theorem processPublication_inbound (answer : Int) (h : Nat) (publish : Publish) (e : Engine) :
    ((Protocol_processPublication answer h publish e).clients h).c.inboundMsgs =
      (e.clients h).c.inboundMsgs := by
  by_cases hg : (e.clients h).c.messageQueue = [] ∧ (e.clients h).c.connected = true ∧
      ∃ f, (e.clients h).ma = some f
  · obtain ⟨hq, hc, f, hma⟩ := hg
    rw [processPublication_direct answer h publish e f hq hc hma]
    by_cases ha : answer = 0
    · simp [ha]
    · simp [ha]
  · rw [processPublication_queued answer h publish e]
    · simp
    · by_cases hq : (e.clients h).c.messageQueue = []
      · by_cases hc : (e.clients h).c.connected = true
        · right; right
          cases hma : (e.clients h).ma with
          | none => rfl
          | some f => exact absurd ⟨hq, hc, f, hma⟩ hg
        · right; left
          simpa using hc
      · exact Or.inl hq

/-- C37: `Protocol_processPublication` calls the message-arrived callback only when the message queue of the client is empty and the client is connected (and a callback is registered); the trace then gains that one call, and otherwise nothing. When the queue is not empty, or the callback returns 0, the publication is appended at the end of the queue and every earlier entry keeps its place; in every case the queue afterwards is the queue before, or the queue before with the publication at its end. -/
theorem processPublication_keeps_arrival_order (answer : Int) (h : Nat) (publish : Publish) (e : Engine) :
    ((Protocol_processPublication answer h publish e).trace = e.trace ∨
      ∃ f, (e.clients h).ma = some f ∧ (e.clients h).c.messageQueue = [] ∧
        (e.clients h).c.connected = true ∧
        (Protocol_processPublication answer h publish e).trace =
          e.trace ++ [Event.messageArrived h f publish.topic publish.topiclen
            (Protocol_processPublication_entry publish)]) ∧
    ((e.clients h).c.messageQueue ≠ [] →
      (Protocol_processPublication answer h publish e).trace = e.trace ∧
      ((Protocol_processPublication answer h publish e).clients h).c.messageQueue =
        (e.clients h).c.messageQueue ++ [Protocol_processPublication_entry publish]) ∧
    (answer = 0 →
      ((Protocol_processPublication answer h publish e).clients h).c.messageQueue =
        (e.clients h).c.messageQueue ++ [Protocol_processPublication_entry publish]) ∧
    (((Protocol_processPublication answer h publish e).clients h).c.messageQueue =
        (e.clients h).c.messageQueue ∨
      ((Protocol_processPublication answer h publish e).clients h).c.messageQueue =
        (e.clients h).c.messageQueue ++ [Protocol_processPublication_entry publish]) ∧
    (∀ f, (e.clients h).c.messageQueue = [] → (e.clients h).c.connected = true →
      (e.clients h).ma = some f → answer ≠ 0 →
      (Protocol_processPublication answer h publish e).trace =
          e.trace ++ [Event.messageArrived h f publish.topic publish.topiclen
            (Protocol_processPublication_entry publish)] ∧
      ((Protocol_processPublication answer h publish e).clients h).c.messageQueue = []) := by
  by_cases hg : (e.clients h).c.messageQueue = [] ∧ (e.clients h).c.connected = true ∧
      ∃ f, (e.clients h).ma = some f
  · obtain ⟨hq, hc, f, hma⟩ := hg
    rw [processPublication_direct answer h publish e f hq hc hma]
    by_cases ha : answer = 0
    · simp [ha, hq, hc, hma]
    · simp [ha, hq, hc, hma]
  · have hno : (e.clients h).c.messageQueue ≠ [] ∨ (e.clients h).c.connected = false ∨
        (e.clients h).ma = none := by
      by_cases hq : (e.clients h).c.messageQueue = []
      · by_cases hc : (e.clients h).c.connected = true
        · right; right
          cases hma : (e.clients h).ma with
          | none => rfl
          | some f => exact absurd ⟨hq, hc, f, hma⟩ hg
        · right; left
          simpa using hc
      · exact Or.inl hq
    rw [processPublication_queued answer h publish e hno]
    refine ⟨Or.inl rfl, fun _ => ⟨rfl, by simp⟩, fun _ => by simp, Or.inr (by simp), ?_⟩
    intro f hq hc hma _
    exact absurd ⟨hq, hc, f, hma⟩ hg

/-! ## Inbound publications with qos 2 -/

theorem distinct_ids_split (pre post : List Messages) (m0 : Messages)
    (hd : distinct_ids (pre ++ m0 :: post)) :
    (∀ a ∈ pre, a.msgid ≠ m0.msgid) ∧ (∀ a ∈ post, a.msgid ≠ m0.msgid) := by
  unfold distinct_ids at hd
  rw [List.pairwise_append] at hd
  obtain ⟨_, h2, h3⟩ := hd
  rw [List.pairwise_cons] at h2
  exact ⟨fun a ha => h3 a ha m0 (List.mem_cons_self _ _), fun a ha => (h2.1 a ha).symm⟩

theorem distinct_ids_replace (pre post : List Messages) (m0 m : Messages) (hid : m.msgid = m0.msgid)
    (hd : distinct_ids (pre ++ m0 :: post)) : distinct_ids (pre ++ m :: post) := by
  unfold distinct_ids at hd ⊢
  rw [List.pairwise_append] at hd ⊢
  obtain ⟨h1, h2, h3⟩ := hd
  rw [List.pairwise_cons] at h2 ⊢
  refine ⟨h1, ⟨fun a ha => ?_, h2.2⟩, fun a ha b hb => ?_⟩
  · rw [hid]; exact h2.1 a ha
  · rcases List.mem_cons.1 hb with hb | hb
    · rw [hb, hid]; exact h3 a ha m0 (List.mem_cons_self _ _)
    · exact h3 a ha b (List.mem_cons_of_mem _ hb)

theorem distinct_ids_remove (pre post : List Messages) (m0 : Messages)
    (hd : distinct_ids (pre ++ m0 :: post)) : distinct_ids (pre ++ post) := by
  unfold distinct_ids at hd ⊢
  rw [List.pairwise_append] at hd ⊢
  obtain ⟨h1, h2, h3⟩ := hd
  rw [List.pairwise_cons] at h2
  exact ⟨h1, h2.2, fun a ha b hb => h3 a ha b (List.mem_cons_of_mem _ hb)⟩

theorem distinct_ids_append (l : List Messages) (m : Messages) (hall : ∀ a ∈ l, a.msgid ≠ m.msgid)
    (hd : distinct_ids l) : distinct_ids (l ++ [m]) := by
  unfold distinct_ids at hd ⊢
  rw [List.pairwise_append]
  refine ⟨hd, List.pairwise_singleton _ _, fun a ha b hb => ?_⟩
  rw [List.mem_singleton.1 hb]
  exact hall a ha

theorem filter_id_none (l : List Messages) (msgId : Int) (hall : ∀ a ∈ l, a.msgid ≠ msgId) :
    l.filter (fun a => decide (a.msgid = msgId)) = [] := by
  rw [List.filter_eq_nil_iff]
  intro a ha
  simpa using hall a ha

theorem filter_other_all (l : List Messages) (msgId : Int) (hall : ∀ a ∈ l, a.msgid ≠ msgId) :
    l.filter (fun a => decide (a.msgid ≠ msgId)) = l := by
  rw [List.filter_eq_self]
  intro a ha
  simpa using hall a ha

theorem list_insert_remove {α : Type} (pre post : List α) (m0 m : α) :
    ((pre ++ m0 :: post).take pre.length ++ m :: (pre ++ m0 :: post).drop pre.length).eraseIdx
      (pre.length + 1) = pre ++ m :: post := by
  induction pre with
  | nil => rfl
  | cons a pre ih => simpa using ih

theorem findIdx_absent (l : List Messages) (msgId : Int) (hall : ∀ a ∈ l, a.msgid ≠ msgId) :
    l.findIdx? (fun m => decide (m.msgid = msgId)) = none := by
  apply findIdx_none
  rw [List.find?_eq_none]
  intro a ha
  simpa using hall a ha

theorem handlePublishes_found (x : ExtCalls) (answer : Int) (h : Nat) (publish : Publish) (e : Engine)
    (hq : publish.qos = 2) (pre post : List Messages) (m0 : Messages)
    (hl : (e.clients h).c.inboundMsgs = pre ++ m0 :: post) (hid : m0.msgid = publish.msgId)
    (hpre : ∀ a ∈ pre, a.msgid ≠ publish.msgId) :
    (MQTTProtocol_handlePublishes x answer h publish e).2 =
      (e.setC h { (e.clients h).c with
        inboundMsgs := pre ++ MQTTProtocol_handlePublishes_message x publish :: post }).emit
        (.sendPubrec h publish.msgId) := by
  have hi : (e.clients h).c.inboundMsgs.findIdx?
      (fun msg => decide (msg.msgid = (MQTTProtocol_handlePublishes_message x publish).msgid)) =
      some pre.length := by
    rw [hl]
    exact findIdx_first _ pre post m0 (fun a ha => by simpa [MQTTProtocol_handlePublishes_message] using hpre a ha)
      (by simpa [MQTTProtocol_handlePublishes_message] using hid)
  unfold MQTTProtocol_handlePublishes
  rw [if_neg (by rw [hq]; decide), if_neg (by rw [hq]; decide), if_pos hq]
  dsimp only
  rw [hi]
  dsimp only
  rw [hl, list_insert_remove]

theorem handlePublishes_fresh (x : ExtCalls) (answer : Int) (h : Nat) (publish : Publish) (e : Engine)
    (hq : publish.qos = 2) (hall : ∀ a ∈ (e.clients h).c.inboundMsgs, a.msgid ≠ publish.msgId) :
    (MQTTProtocol_handlePublishes x answer h publish e).2 =
      (e.setC h { (e.clients h).c with
        inboundMsgs := (e.clients h).c.inboundMsgs ++ [MQTTProtocol_handlePublishes_message x publish] }).emit
        (.sendPubrec h publish.msgId) := by
  have hi : (e.clients h).c.inboundMsgs.findIdx?
      (fun msg => decide (msg.msgid = (MQTTProtocol_handlePublishes_message x publish).msgid)) = none :=
    findIdx_absent _ _ hall
  unfold MQTTProtocol_handlePublishes
  rw [if_neg (by rw [hq]; decide), if_neg (by rw [hq]; decide), if_pos hq]
  dsimp only
  rw [hi]

theorem id_found_or_absent (l : List Messages) (msgId : Int) :
    (∃ pre m0 post, l = pre ++ m0 :: post ∧ m0.msgid = msgId ∧ ∀ a ∈ pre, a.msgid ≠ msgId) ∨
      (∀ a ∈ l, a.msgid ≠ msgId) := by
  cases hf : l.find? (fun m => decide (m.msgid = msgId)) with
  | none =>
    right
    rw [List.find?_eq_none] at hf
    intro a ha
    simpa using hf a ha
  | some m0 =>
    left
    obtain ⟨pre, post, h1, h2, h3⟩ := find_decomp _ _ _ hf
    exact ⟨pre, m0, post, h1, by simpa using h3, fun a ha => by simpa using h2 a ha⟩

/-- C31: `MQTTProtocol_handlePublishes` on a PUBLISH with qos 2 and id `i`, for a client whose inbound messages have pairwise distinct ids. An inbound message with id `i` is replaced at its position by the new message, and without one the new message is appended; every other entry keeps its content and place. Afterwards exactly one inbound message has id `i`: the new one, which holds the topic and the payload of the packet and awaits the PUBREL; the ids are still pairwise distinct. One PUBREC for `i` is sent and nothing else happens towards the network or the application, and the message queue is as before. -/
theorem handlePublishes_qos2_stores (x : ExtCalls) (answer : Int) (h : Nat) (publish : Publish) (e : Engine)
    (hq : publish.qos = 2) (hd : distinct_ids (e.clients h).c.inboundMsgs) :
    (∀ pre m0 post, (e.clients h).c.inboundMsgs = pre ++ m0 :: post → m0.msgid = publish.msgId →
      ((MQTTProtocol_handlePublishes x answer h publish e).2.clients h).c.inboundMsgs =
        pre ++ MQTTProtocol_handlePublishes_message x publish :: post) ∧
    ((∀ a ∈ (e.clients h).c.inboundMsgs, a.msgid ≠ publish.msgId) →
      ((MQTTProtocol_handlePublishes x answer h publish e).2.clients h).c.inboundMsgs =
        (e.clients h).c.inboundMsgs ++ [MQTTProtocol_handlePublishes_message x publish]) ∧
    (((MQTTProtocol_handlePublishes x answer h publish e).2.clients h).c.inboundMsgs.filter
        (fun a => decide (a.msgid = publish.msgId)) = [MQTTProtocol_handlePublishes_message x publish]) ∧
    distinct_ids ((MQTTProtocol_handlePublishes x answer h publish e).2.clients h).c.inboundMsgs ∧
    ((MQTTProtocol_handlePublishes_message x publish).msgid = publish.msgId ∧
      (MQTTProtocol_handlePublishes_message x publish).qos = 2 ∧
      (MQTTProtocol_handlePublishes_message x publish).retain = publish.retain ∧
      (MQTTProtocol_handlePublishes_message x publish).publish.topic = publish.topic ∧
      (MQTTProtocol_handlePublishes_message x publish).publish.payload =
        publish.payload.take publish.payloadlen ∧
      (MQTTProtocol_handlePublishes_message x publish).nextMessageType = PUBREL) ∧
    (MQTTProtocol_handlePublishes x answer h publish e).2.trace =
      e.trace ++ [Event.sendPubrec h publish.msgId] ∧
    ((MQTTProtocol_handlePublishes x answer h publish e).2.clients h).c.messageQueue =
      (e.clients h).c.messageQueue := by
  have hmid : (MQTTProtocol_handlePublishes_message x publish).msgid = publish.msgId := rfl
  refine ⟨?_, ?_, ?_, ?_, ⟨rfl, hq, rfl, rfl, rfl, rfl⟩, ?_, ?_⟩
  · intro pre m0 post hl hid
    have hsp := distinct_ids_split pre post m0 (by rw [← hl]; exact hd)
    rw [handlePublishes_found x answer h publish e hq pre post m0 hl hid
      (fun a ha => by rw [← hid]; exact hsp.1 a ha)]
    simp
  · intro hall
    rw [handlePublishes_fresh x answer h publish e hq hall]
    simp
  · rcases id_found_or_absent (e.clients h).c.inboundMsgs publish.msgId with
      ⟨pre, m0, post, hl, hid, hpre⟩ | hall
    · have hsp := distinct_ids_split pre post m0 (by rw [← hl]; exact hd)
      rw [handlePublishes_found x answer h publish e hq pre post m0 hl hid hpre]
      simp only [Engine.emit_clients, Engine.setC_same]
      rw [List.filter_append, List.filter_cons, filter_id_none pre _ hpre,
        filter_id_none post _ (fun a ha => by rw [← hid]; exact hsp.2 a ha)]
      simp [hmid]
    · rw [handlePublishes_fresh x answer h publish e hq hall]
      simp only [Engine.emit_clients, Engine.setC_same]
      rw [List.filter_append, filter_id_none _ _ hall]
      simp [hmid]
  · rcases id_found_or_absent (e.clients h).c.inboundMsgs publish.msgId with
      ⟨pre, m0, post, hl, hid, hpre⟩ | hall
    · rw [handlePublishes_found x answer h publish e hq pre post m0 hl hid hpre]
      simp only [Engine.emit_clients, Engine.setC_same]
      exact distinct_ids_replace pre post m0 _ (by rw [hmid, hid]) (by rw [← hl]; exact hd)
    · rw [handlePublishes_fresh x answer h publish e hq hall]
      simp only [Engine.emit_clients, Engine.setC_same]
      exact distinct_ids_append _ _ (by rw [hmid]; exact hall) hd
  · rcases id_found_or_absent (e.clients h).c.inboundMsgs publish.msgId with
      ⟨pre, m0, post, hl, hid, hpre⟩ | hall
    · rw [handlePublishes_found x answer h publish e hq pre post m0 hl hid hpre]
      simp
    · rw [handlePublishes_fresh x answer h publish e hq hall]
      simp
  · rcases id_found_or_absent (e.clients h).c.inboundMsgs publish.msgId with
      ⟨pre, m0, post, hl, hid, hpre⟩ | hall
    · rw [handlePublishes_found x answer h publish e hq pre post m0 hl hid hpre]
      simp
    · rw [handlePublishes_fresh x answer h publish e hq hall]
      simp

/-- C31, on an instance: client 0 holds the inbound messages 8, 9 and 10, and a PUBLISH with qos 2 and id 9 arrives; the new message takes the place of the old message 9 between 8 and 10. -/
theorem handlePublishes_qos2_stores_witness :
    publish_inbound_9.qos = 2 ∧ distinct_ids (engine_inbound_three.clients 0).c.inboundMsgs ∧
    (((MQTTProtocol_handlePublishes {} 1 0 publish_inbound_9 engine_inbound_three).2.clients 0).c.inboundMsgs.filter
        (fun a => decide (a.msgid = publish_inbound_9.msgId)) =
          [MQTTProtocol_handlePublishes_message {} publish_inbound_9]) ∧
    ((MQTTProtocol_handlePublishes {} 1 0 publish_inbound_9 engine_inbound_three).2.clients 0).c.inboundMsgs.map
        (fun a => (a.msgid, a.publish.topic)) = [(8, none), (9, some "t"), (10, none)] :=
  ⟨by decide, by decide,
    (handlePublishes_qos2_stores {} 1 0 publish_inbound_9 engine_inbound_three (by decide) (by decide)).2.2.1,
    by decide⟩

theorem handlePubrels_found (x : ExtCalls) (answer : Int) (h : Nat) (dup : Int) (e : Engine)
    (pre post : List Messages) (m : Messages)
    (hl : (e.clients h).c.inboundMsgs = pre ++ m :: post) (hpre : ∀ a ∈ pre, a.msgid ≠ m.msgid)
    (hq : m.qos = 2) (hn : m.nextMessageType = PUBREL) :
    (MQTTProtocol_handlePubrels x answer h m.msgid dup e).2 =
      (Protocol_processPublication answer h (MQTTProtocol_handlePubrels_publish m)
          (e.emit (.sendPubcomp h m.msgid))).setC h
        { ((Protocol_processPublication answer h (MQTTProtocol_handlePubrels_publish m)
            (e.emit (.sendPubcomp h m.msgid))).clients h).c with inboundMsgs := pre ++ post } := by
  have hi : (e.clients h).c.inboundMsgs.findIdx? (fun a => decide (a.msgid = m.msgid)) =
      some pre.length := by
    rw [hl]
    exact findIdx_first _ pre post m (fun a ha => by simpa using hpre a ha) (by simp)
  unfold MQTTProtocol_handlePubrels
  dsimp only
  rw [hi]
  dsimp only
  rw [hl, list_getD_first, if_neg (by simp [hq]), if_neg (by simp [hn])]
  dsimp only
  rw [processPublication_inbound, Engine.emit_clients, hl, list_eraseIdx_first]

theorem handlePubrels_absent (x : ExtCalls) (answer : Int) (h : Nat) (msgId : Int) (dup : Int) (e : Engine)
    (hall : ∀ a ∈ (e.clients h).c.inboundMsgs, a.msgid ≠ msgId) :
    (MQTTProtocol_handlePubrels x answer h msgId dup e).2 =
      if dup = 0 then e else e.emit (.sendPubcomp h msgId) := by
  unfold MQTTProtocol_handlePubrels
  dsimp only
  rw [findIdx_absent _ _ hall]
  dsimp only
  split <;> rfl

/-- C32: a PUBREL with id `i` for a client whose inbound messages have pairwise distinct ids and include a qos 2 message `m` with id `i` that awaits the PUBREL. The handler sends one PUBCOMP for `i`, passes the stored publication once to `Protocol_processPublication` (topic, payload, retained flag and qos 2 of `m`, with `dup` 0) and removes `m` from the inbound messages, every other entry keeping its place. So either the message-arrived callback is called once with it (queue empty, client connected, callback registered), and the publication is queued only when the callback returns 0, or no callback is called and the publication is appended to the message queue. A further PUBREL with id `i` calls no callback and leaves the inbound messages and the message queue as they are; it sends at most a PUBCOMP (when its `dup` bit is set). -/
theorem pubrel_delivers_once (x : ExtCalls) (answer : Int) (h : Nat) (dup : Int) (e : Engine) (m : Messages)
    (hd : distinct_ids (e.clients h).c.inboundMsgs) (hm : m ∈ (e.clients h).c.inboundMsgs)
    (hq : m.qos = 2) (hn : m.nextMessageType = PUBREL) :
    ((MQTTProtocol_handlePubrels x answer h m.msgid dup e).2.clients h).c.inboundMsgs =
      (e.clients h).c.inboundMsgs.filter (fun a => decide (a.msgid ≠ m.msgid)) ∧
    distinct_ids ((MQTTProtocol_handlePubrels x answer h m.msgid dup e).2.clients h).c.inboundMsgs ∧
    (Protocol_processPublication_entry (MQTTProtocol_handlePubrels_publish m) =
      { topicName := m.publish.topic, topicLen := m.publish.topiclen, payload := m.publish.payload.take m.publish.payloadlen, qos := 2, retained := m.retain, dup := 0, msgid := m.msgid }) ∧
    (∀ f, (e.clients h).c.messageQueue = [] → (e.clients h).c.connected = true →
      (e.clients h).ma = some f →
      (MQTTProtocol_handlePubrels x answer h m.msgid dup e).2.trace =
        e.trace ++ [Event.sendPubcomp h m.msgid, Event.messageArrived h f m.publish.topic m.publish.topiclen
          (Protocol_processPublication_entry (MQTTProtocol_handlePubrels_publish m))] ∧
      ((MQTTProtocol_handlePubrels x answer h m.msgid dup e).2.clients h).c.messageQueue =
        if answer = 0 then [Protocol_processPublication_entry (MQTTProtocol_handlePubrels_publish m)]
        else []) ∧
    (((e.clients h).c.messageQueue ≠ [] ∨ (e.clients h).c.connected = false ∨ (e.clients h).ma = none) →
      (MQTTProtocol_handlePubrels x answer h m.msgid dup e).2.trace =
        e.trace ++ [Event.sendPubcomp h m.msgid] ∧
      ((MQTTProtocol_handlePubrels x answer h m.msgid dup e).2.clients h).c.messageQueue =
        (e.clients h).c.messageQueue ++
          [Protocol_processPublication_entry (MQTTProtocol_handlePubrels_publish m)]) ∧
    (∀ (x' : ExtCalls) (answer' dup' : Int),
      ((MQTTProtocol_handlePubrels x' answer' h m.msgid dup'
          (MQTTProtocol_handlePubrels x answer h m.msgid dup e).2).2.clients h).c.inboundMsgs =
        ((MQTTProtocol_handlePubrels x answer h m.msgid dup e).2.clients h).c.inboundMsgs ∧
      ((MQTTProtocol_handlePubrels x' answer' h m.msgid dup'
          (MQTTProtocol_handlePubrels x answer h m.msgid dup e).2).2.clients h).c.messageQueue =
        ((MQTTProtocol_handlePubrels x answer h m.msgid dup e).2.clients h).c.messageQueue ∧
      (MQTTProtocol_handlePubrels x' answer' h m.msgid dup'
          (MQTTProtocol_handlePubrels x answer h m.msgid dup e).2).2.trace =
        (MQTTProtocol_handlePubrels x answer h m.msgid dup e).2.trace ++
          (if dup' = 0 then [] else [Event.sendPubcomp h m.msgid])) := by
  obtain ⟨pre, post, hl⟩ := List.append_of_mem hm
  have hsp := distinct_ids_split pre post m (by rw [← hl]; exact hd)
  have hres := handlePubrels_found x answer h dup e pre post m hl hsp.1 hq hn
  have hin : ((MQTTProtocol_handlePubrels x answer h m.msgid dup e).2.clients h).c.inboundMsgs =
      pre ++ post := by
    rw [hres]; simp
  have hrest : ∀ a ∈ pre ++ post, a.msgid ≠ m.msgid := by
    intro a ha
    rcases List.mem_append.1 ha with ha | ha
    · exact hsp.1 a ha
    · exact hsp.2 a ha
  refine ⟨?_, ?_, ?_, ?_, ?_, ?_⟩
  · rw [hin, hl, List.filter_append, List.filter_cons, filter_other_all pre _ hsp.1,
      filter_other_all post _ hsp.2]
    simp
  · rw [hin]
    exact distinct_ids_remove pre post m (by rw [← hl]; exact hd)
  · simp [Protocol_processPublication_entry, MQTTProtocol_handlePubrels_publish, hq]
  · intro f hqe hc hma
    rw [hres, processPublication_direct answer h _ (e.emit (.sendPubcomp h m.msgid)) f hqe hc hma]
    by_cases ha : answer = 0
    · simp [ha, MQTTProtocol_handlePubrels_publish]
    · simp [ha, hqe, MQTTProtocol_handlePubrels_publish]
  · intro hno
    rw [hres, processPublication_queued answer h _ (e.emit (.sendPubcomp h m.msgid)) hno]
    simp
  · intro x' answer' dup'
    rw [handlePubrels_absent x' answer' h m.msgid dup' _ (by rw [hin]; exact hrest)]
    by_cases hdup : dup' = 0
    · simp [hdup]
    · simp [hdup]

/-- C32, on an instance: client 0 holds the inbound messages 8, 9 and 10 and has a message-arrived callback; the PUBREL for 9 sends the PUBCOMP, calls the callback with the stored publication and leaves the messages 8 and 10, and a second PUBREL for 9 (with `dup` set) only sends a PUBCOMP. -/
theorem pubrel_delivers_once_witness :
    distinct_ids (engine_inbound_three.clients 0).c.inboundMsgs ∧
    ((engine_inbound_three.clients 0).c.inboundMsgs.getD 1 {}).msgid = 9 ∧
    ((MQTTProtocol_handlePubrels {} 1 0 9 0 engine_inbound_three).2.clients 0).c.inboundMsgs =
      (engine_inbound_three.clients 0).c.inboundMsgs.filter (fun a => decide (a.msgid ≠ 9)) ∧
    ((MQTTProtocol_handlePubrels {} 1 0 9 0 engine_inbound_three).2.clients 0).c.inboundMsgs.map
      (fun a => a.msgid) = [8, 10] ∧
    (MQTTProtocol_handlePubrels {} 1 0 9 0 engine_inbound_three).2.trace =
      [Event.sendPubcomp 0 9, Event.messageArrived 0 2 (some "old") 3
        { topicName := some "old", topicLen := 3, payload := [111], qos := 2, retained := 1, msgid := 9 }] ∧
    (MQTTProtocol_handlePubrels {} 1 0 9 1 (MQTTProtocol_handlePubrels {} 1 0 9 0 engine_inbound_three).2).2.trace =
      [Event.sendPubcomp 0 9, Event.messageArrived 0 2 (some "old") 3
        { topicName := some "old", topicLen := 3, payload := [111], qos := 2, retained := 1, msgid := 9 },
       Event.sendPubcomp 0 9] :=
  ⟨by decide, by decide,
    (pubrel_delivers_once {} 1 0 0 engine_inbound_three ((engine_inbound_three.clients 0).c.inboundMsgs.getD 1 {})
      (by decide) (by decide) (by decide) (by decide)).1,
    by decide, by decide, by decide⟩

/-! ## The retry scan: which packets are sent again -/

theorem protocol_closeSession_trace (x : ExtCalls) (h : Nat) (e : Engine) :
    (MQTTProtocol_closeSession x h e).trace = e.trace := by
  unfold MQTTProtocol_closeSession MQTTAsync_disconnect_internal MQTTAsync_disconnect1
  split
  · rfl
  · unfold MQTTAsync_addCommand
    dsimp only
    rw [if_pos (Or.inr ⟨rfl, by decide⟩)]
    split
    · split <;> rfl
    · rfl

theorem protocol_closeSession_noPendingWrites (x : ExtCalls) (h : Nat) (e : Engine) :
    (MQTTProtocol_closeSession x h e).noPendingWrites = e.noPendingWrites := by
  unfold MQTTProtocol_closeSession MQTTAsync_disconnect_internal MQTTAsync_disconnect1
  split
  · rfl
  · unfold MQTTAsync_addCommand
    dsimp only
    rw [if_pos (Or.inr ⟨rfl, by decide⟩)]
    split
    · split <;> rfl
    · rfl

theorem list_drop_of_get {α : Type} (l : List α) (i : Nat) (m : α) (h : l.get? i = some m) :
    l.drop i = m :: l.drop (i + 1) := by
  induction l generalizing i with
  | nil => cases h
  | cons a l ih =>
    cases i with
    | zero => simp at h; simp [h]
    | succ i => simpa using ih i (by simpa using h)

theorem list_drop_set_succ {α : Type} (l : List α) (i : Nat) (a : α) :
    (l.set i a).drop (i + 1) = l.drop (i + 1) := by
  induction l generalizing i with
  | nil => rfl
  | cons b l ih =>
    cases i with
    | zero => rfl
    | succ i => simpa using ih i

theorem list_map_set_same {α β : Type} (f : α → β) (l : List α) (i : Nat) (m m' : α)
    (h : l.get? i = some m) (hf : f m' = f m) : (l.set i m').map f = l.map f := by
  induction l generalizing i with
  | nil => rfl
  | cons b l ih =>
    cases i with
    | zero =>
      simp at h
      simp [h, hf]
    | succ i =>
      simp only [List.set_cons_succ, List.map_cons]
      rw [ih i (by simpa using h)]

theorem retries_packet_publish (now h : Nat) (regardless : Bool) (retryInterval : Int) (m : Messages)
    (hdue : regardless = true ∨ (now : Int) - (m.lastTouch : Int) > max retryInterval 10)
    (hp : m.qos = 1 ∨ (m.qos = 2 ∧ m.nextMessageType = PUBREC)) :
    MQTTProtocol_retries_packet now h regardless retryInterval m =
      some (Event.sendPublish h m.msgid 1 m.qos) := by
  unfold MQTTProtocol_retries_packet
  rw [if_pos hdue, if_pos hp]

theorem retries_packet_pubrel (now h : Nat) (regardless : Bool) (retryInterval : Int) (m : Messages)
    (hdue : regardless = true ∨ (now : Int) - (m.lastTouch : Int) > max retryInterval 10)
    (hp : ¬ (m.qos = 1 ∨ (m.qos = 2 ∧ m.nextMessageType = PUBREC)))
    (hr : m.qos ≠ 0 ∧ m.nextMessageType = PUBCOMP) :
    MQTTProtocol_retries_packet now h regardless retryInterval m = some (Event.sendPubrel h m.msgid) := by
  unfold MQTTProtocol_retries_packet
  rw [if_pos hdue, if_neg hp, if_pos hr]

theorem retries_packet_nothing (now h : Nat) (regardless : Bool) (retryInterval : Int) (m : Messages)
    (hdue : regardless = true ∨ (now : Int) - (m.lastTouch : Int) > max retryInterval 10)
    (hp : ¬ (m.qos = 1 ∨ (m.qos = 2 ∧ m.nextMessageType = PUBREC)))
    (hr : ¬ (m.qos ≠ 0 ∧ m.nextMessageType = PUBCOMP)) :
    MQTTProtocol_retries_packet now h regardless retryInterval m = none := by
  unfold MQTTProtocol_retries_packet
  rw [if_pos hdue, if_neg hp, if_neg hr]

theorem retries_packet_not_due (now h : Nat) (regardless : Bool) (retryInterval : Int) (m : Messages)
    (hdue : ¬ (regardless = true ∨ (now : Int) - (m.lastTouch : Int) > max retryInterval 10)) :
    MQTTProtocol_retries_packet now h regardless retryInterval m = none := by
  unfold MQTTProtocol_retries_packet
  rw [if_neg hdue]

theorem retries_loop_scan (y : RetryCalls) (now h : Nat) (regardless : Bool) :
    ∀ (n i : Nat) (e : Engine),
      ∃ k, (MQTTProtocol_retries_loop y now h regardless n i e).trace =
          e.trace ++ (((e.clients h).c.outboundMsgs.drop i).take k).filterMap
            (MQTTProtocol_retries_packet now h regardless (e.clients h).c.retryInterval) ∧
        ((MQTTProtocol_retries_loop y now h regardless n i e).clients h).c.outboundMsgs.map
            (fun m => { m with lastTouch := 0 }) =
          (e.clients h).c.outboundMsgs.map (fun m => { m with lastTouch := 0 }) ∧
        ((e.clients h).c.connected = true → (e.clients h).c.good = true →
          (∀ j, y.noPendingWrites h j = true) → (∀ j, y.rc h j = TCPSOCKET_COMPLETE) →
          (e.clients h).c.outboundMsgs.length ≤ n + i → (e.clients h).c.outboundMsgs.length ≤ k + i) := by
  intro n
  induction n with
  | zero =>
    intro i e
    refine ⟨0, by simp [MQTTProtocol_retries_loop], by simp [MQTTProtocol_retries_loop], ?_⟩
    intro _ _ _ _ hlen
    exact hlen
  | succ n ih =>
    intro i e
    unfold MQTTProtocol_retries_loop
    dsimp only
    split
    · rename_i hget
      refine ⟨0, by simp, rfl, ?_⟩
      intro _ _ _ _ _
      have := List.get?_eq_none.1 hget
      omega
    · rename_i m hget
      have hdrop := list_drop_of_get _ _ _ hget
      split
      · split
        · rename_i hdue
          split
          · rename_i hp
            have hpk := retries_packet_publish now h regardless (e.clients h).c.retryInterval m hdue hp
            split
            · rename_i hrc
              refine ⟨1, ?_, ?_, ?_⟩
              · rw [protocol_closeSession_trace, hdrop]
                simp [hpk]
              · rw [closeSession_clients]
                simp
              · intro _ _ _ hall _
                have := hall i
                rw [hrc] at this
                exact absurd this (by decide)
            · obtain ⟨k, h1, h2, h3⟩ := ih (i + 1)
                ((e.emit (.sendPublish h m.msgid 1 m.qos)).setC h
                  { (e.clients h).c with
                    outboundMsgs := (e.clients h).c.outboundMsgs.set i { m with lastTouch := y.time h i } })
              simp only [Engine.setC_same, Engine.setC_trace, Engine.emit_trace, list_drop_set_succ,
                List.length_set] at h1 h2 h3
              refine ⟨k + 1, ?_, ?_, ?_⟩
              · rw [h1, hdrop]
                simp [hpk]
              · rw [h2]
                exact list_map_set_same _ _ _ m _ hget rfl
              · intro hc hg hnp hall hlen
                have := h3 hc hg hnp hall (by omega)
                omega
          · rename_i hp
            split
            · rename_i hr
              have hpk := retries_packet_pubrel now h regardless (e.clients h).c.retryInterval m hdue hp hr
              split
              · rename_i hrc
                refine ⟨1, ?_, ?_, ?_⟩
                · rw [protocol_closeSession_trace, hdrop]
                  simp [hpk]
                · rw [closeSession_clients]
                  simp
                · intro _ _ _ hall _
                  exact absurd (hall i) hrc
              · obtain ⟨k, h1, h2, h3⟩ := ih (i + 1)
                  ((e.emit (.sendPubrel h m.msgid)).setC h
                    { (e.clients h).c with
                      outboundMsgs := (e.clients h).c.outboundMsgs.set i { m with lastTouch := y.time h i } })
                simp only [Engine.setC_same, Engine.setC_trace, Engine.emit_trace, list_drop_set_succ,
                  List.length_set] at h1 h2 h3
                refine ⟨k + 1, ?_, ?_, ?_⟩
                · rw [h1, hdrop]
                  simp [hpk]
                · rw [h2]
                  exact list_map_set_same _ _ _ m _ hget rfl
                · intro hc hg hnp hall hlen
                  have := h3 hc hg hnp hall (by omega)
                  omega
            · rename_i hr
              have hpk := retries_packet_nothing now h regardless (e.clients h).c.retryInterval m hdue hp hr
              obtain ⟨k, h1, h2, h3⟩ := ih (i + 1) e
              refine ⟨k + 1, ?_, h2, ?_⟩
              · rw [h1, hdrop]
                simp [hpk]
              · intro hc hg hnp hall hlen
                have := h3 hc hg hnp hall (by omega)
                omega
        · rename_i hdue
          have hpk := retries_packet_not_due now h regardless (e.clients h).c.retryInterval m hdue
          obtain ⟨k, h1, h2, h3⟩ := ih (i + 1) e
          refine ⟨k + 1, ?_, h2, ?_⟩
          · rw [h1, hdrop]
            simp [hpk]
          · intro hc hg hnp hall hlen
            have := h3 hc hg hnp hall (by omega)
            omega
      · rename_i hcond
        refine ⟨0, by simp, rfl, ?_⟩
        intro hc hg hnp _ _
        exact absurd ⟨hc, hg, hnp i⟩ hcond

/-- C33: `MQTTProtocol_retries` looks at the outbound messages of the client in order, a first part of the list (the scan stops when the client is no longer connected and good, when the socket has a pending write, or after a failed send), and what it sends is, for each message looked at, the packet of `MQTTProtocol_retries_packet`: nothing for a message whose `lastTouch` is not more than `max(retryInterval, 10)` seconds before `now` unless `regardless` is set, a PUBLISH with `dup` 1 and the id of the message for qos 1 and for qos 2 awaiting the PUBREC, a PUBREL with the id for qos 2 awaiting the PUBCOMP. When the client is connected and good, no write is pending and every send completes, every message is looked at. The outbound list keeps its messages in their order, each unchanged except for `lastTouch`. With `regardless` not set and a retry interval of 0 or less nothing is done. -/
theorem MQTTProtocol_retries_resends (y : RetryCalls) (now h : Nat) (regardless : Bool) (e : Engine) :
    (∃ k, (MQTTProtocol_retries y now h regardless e).trace =
        e.trace ++ ((e.clients h).c.outboundMsgs.take k).filterMap
          (MQTTProtocol_retries_packet now h regardless (e.clients h).c.retryInterval)) ∧
    ((regardless = true ∨ (e.clients h).c.retryInterval > 0) →
      (e.clients h).c.connected = true → (e.clients h).c.good = true →
      (∀ j, y.noPendingWrites h j = true) → (∀ j, y.rc h j = TCPSOCKET_COMPLETE) →
      (MQTTProtocol_retries y now h regardless e).trace =
        e.trace ++ (e.clients h).c.outboundMsgs.filterMap
          (MQTTProtocol_retries_packet now h regardless (e.clients h).c.retryInterval)) ∧
    ((MQTTProtocol_retries y now h regardless e).clients h).c.outboundMsgs.map
        (fun m => { m with lastTouch := 0 }) =
      (e.clients h).c.outboundMsgs.map (fun m => { m with lastTouch := 0 }) ∧
    (∀ (m : Messages) (retryInterval : Int),
      (¬ (regardless = true ∨ (now : Int) - (m.lastTouch : Int) > max retryInterval 10) →
        MQTTProtocol_retries_packet now h regardless retryInterval m = none) ∧
      ((regardless = true ∨ (now : Int) - (m.lastTouch : Int) > max retryInterval 10) →
        (m.qos = 1 ∨ (m.qos = 2 ∧ m.nextMessageType = PUBREC)) →
        MQTTProtocol_retries_packet now h regardless retryInterval m =
          some (Event.sendPublish h m.msgid 1 m.qos)) ∧
      ((regardless = true ∨ (now : Int) - (m.lastTouch : Int) > max retryInterval 10) →
        m.qos = 2 → m.nextMessageType = PUBCOMP →
        MQTTProtocol_retries_packet now h regardless retryInterval m =
          some (Event.sendPubrel h m.msgid))) ∧
    (regardless = false → (e.clients h).c.retryInterval ≤ 0 →
      MQTTProtocol_retries y now h regardless e = e) := by
  have hpk : ∀ (m : Messages) (retryInterval : Int),
      (¬ (regardless = true ∨ (now : Int) - (m.lastTouch : Int) > max retryInterval 10) →
        MQTTProtocol_retries_packet now h regardless retryInterval m = none) ∧
      ((regardless = true ∨ (now : Int) - (m.lastTouch : Int) > max retryInterval 10) →
        (m.qos = 1 ∨ (m.qos = 2 ∧ m.nextMessageType = PUBREC)) →
        MQTTProtocol_retries_packet now h regardless retryInterval m =
          some (Event.sendPublish h m.msgid 1 m.qos)) ∧
      ((regardless = true ∨ (now : Int) - (m.lastTouch : Int) > max retryInterval 10) →
        m.qos = 2 → m.nextMessageType = PUBCOMP →
        MQTTProtocol_retries_packet now h regardless retryInterval m =
          some (Event.sendPubrel h m.msgid)) := by
    intro m retryInterval
    refine ⟨retries_packet_not_due now h regardless retryInterval m,
      retries_packet_publish now h regardless retryInterval m, ?_⟩
    intro hdue hq hn
    refine retries_packet_pubrel now h regardless retryInterval m hdue ?_ ⟨by rw [hq]; decide, hn⟩
    rintro (h1 | ⟨_, h2⟩)
    · rw [hq] at h1; exact absurd h1 (by decide)
    · rw [hn] at h2; exact absurd h2 (by decide)
  by_cases hoff : regardless = false ∧ (e.clients h).c.retryInterval ≤ 0
  · have hres : MQTTProtocol_retries y now h regardless e = e := by
      unfold MQTTProtocol_retries
      rw [if_pos hoff]
    refine ⟨⟨0, by rw [hres]; simp⟩, ?_, by rw [hres], hpk, fun _ _ => hres⟩
    intro hon
    rcases hon with hon | hon
    · rw [hoff.1] at hon; cases hon
    · exact absurd hoff.2 (not_le.2 hon)
  · have hres : MQTTProtocol_retries y now h regardless e =
        MQTTProtocol_retries_loop y now h regardless (e.clients h).c.outboundMsgs.length 0 e := by
      unfold MQTTProtocol_retries
      rw [if_neg hoff]
    obtain ⟨k, h1, h2, h3⟩ := retries_loop_scan y now h regardless
      (e.clients h).c.outboundMsgs.length 0 e
    rw [List.drop_zero] at h1
    refine ⟨⟨k, by rw [hres, h1]⟩, ?_, by rw [hres, h2], hpk, fun h4 h5 => absurd ⟨h4, h5⟩ hoff⟩
    intro _ hc hg hnp hall
    have hk := h3 hc hg hnp hall (by omega)
    rw [hres, h1, List.take_of_length_le (by omega)]

/-- The retry scan on an instance: at time 200 the three outbound messages of `engine_three_outbound`, last touched at time 100 with a retry interval of 20 s, are all sent again, the first two as PUBLISH with `dup` 1 and the third as PUBREL; at time 115 none is. -/
theorem retries_example :
    (MQTTProtocol_retries {} 200 0 false engine_three_outbound).trace =
      [Event.sendPublish 0 1 1 1, Event.sendPublish 0 2 1 2, Event.sendPubrel 0 3] ∧
    (MQTTProtocol_retries {} 115 0 false engine_three_outbound).trace = [] := by
  decide

/-! ## Keepalive -/

theorem protocol_closeSession_commands (x : ExtCalls) (h : Nat) (e : Engine) :
    ∀ cmd ∈ e.commands, cmd ∈ (MQTTProtocol_closeSession x h e).commands := by
  intro cmd hcmd
  unfold MQTTProtocol_closeSession MQTTAsync_disconnect_internal MQTTAsync_disconnect1
  split
  · exact hcmd
  · unfold MQTTAsync_addCommand
    dsimp only
    rw [if_pos (Or.inr ⟨rfl, by decide⟩)]
    split
    · split
      · exact hcmd
      · exact List.mem_cons_of_mem _ hcmd
    · exact List.mem_cons_of_mem _ hcmd

theorem protocol_closeSession_requests (x : ExtCalls) (h : Nat) (e : Engine)
    (hc : (e.clients h).c.connected = true) :
    ∃ cmd ∈ (MQTTProtocol_closeSession x h e).commands, cmd.client = h ∧ cmd.command.type = DISCONNECT := by
  unfold MQTTProtocol_closeSession MQTTAsync_disconnect_internal MQTTAsync_disconnect1
  rw [if_neg (by rw [hc]; decide)]
  unfold MQTTAsync_addCommand
  dsimp only
  rw [if_pos (Or.inr ⟨rfl, by decide⟩)]
  split
  · rename_i head hhead
    split
    · rename_i hsame
      exact ⟨head, List.mem_of_mem_head? hhead, hsame.1, hsame.2⟩
    · exact ⟨_, List.mem_cons_self _ _, rfl, rfl⟩
  · exact ⟨_, List.mem_cons_self _ _, rfl, rfl⟩

theorem pingreqs_append (g : Nat) (l l' : List Event) :
    pingreqs g (l ++ l') = pingreqs g l + pingreqs g l' := by
  unfold pingreqs
  rw [List.countP_append]

theorem keepalive_client_cases (y : KeepaliveCalls) (now : Nat) (e : Engine) (h : Nat) :
    (¬ keepalive_due now (e.clients h).c → MQTTProtocol_keepalive_client y now e h = e) ∧
    (keepalive_due now (e.clients h).c → (e.clients h).c.ping_outstanding = true →
      MQTTProtocol_keepalive_client y now e h = MQTTProtocol_closeSession (y.x h) h e) ∧
    (keepalive_due now (e.clients h).c → (e.clients h).c.ping_outstanding = false →
      e.noPendingWrites (e.clients h).c.socket = false → MQTTProtocol_keepalive_client y now e h = e) ∧
    (keepalive_due now (e.clients h).c → (e.clients h).c.ping_outstanding = false →
      e.noPendingWrites (e.clients h).c.socket = true → y.rc h = TCPSOCKET_COMPLETE →
      MQTTProtocol_keepalive_client y now e h =
        (e.emit (.sendPingreq h)).setC h { (e.clients h).c with lastSent := now, ping_outstanding := true }) ∧
    (keepalive_due now (e.clients h).c → (e.clients h).c.ping_outstanding = false →
      e.noPendingWrites (e.clients h).c.socket = true → y.rc h ≠ TCPSOCKET_COMPLETE →
      MQTTProtocol_keepalive_client y now e h =
        MQTTProtocol_closeSession (y.x h) h (e.emit (.sendPingreq h))) := by
  unfold keepalive_due
  refine ⟨?_, ?_, ?_, ?_, ?_⟩
  · intro hdue
    unfold MQTTProtocol_keepalive_client
    dsimp only
    rw [if_neg hdue]
  · intro hdue hp
    unfold MQTTProtocol_keepalive_client
    dsimp only
    rw [if_pos hdue, if_neg (by rw [hp]; decide)]
  · intro hdue hp hw
    unfold MQTTProtocol_keepalive_client
    dsimp only
    rw [if_pos hdue, if_pos hp, if_neg (by rw [hw]; decide)]
  · intro hdue hp hw hrc
    unfold MQTTProtocol_keepalive_client
    dsimp only
    rw [if_pos hdue, if_pos hp, if_pos hw, if_neg (by rw [hrc]; decide)]
  · intro hdue hp hw hrc
    unfold MQTTProtocol_keepalive_client
    dsimp only
    rw [if_pos hdue, if_pos hp, if_pos hw, if_pos hrc]

theorem keepalive_client_frame (y : KeepaliveCalls) (now : Nat) (e : Engine) (h : Nat) :
    (∀ g, g ≠ h → (MQTTProtocol_keepalive_client y now e h).clients g = e.clients g) ∧
    (∀ g, g ≠ h → pingreqs g (MQTTProtocol_keepalive_client y now e h).trace = pingreqs g e.trace) ∧
    (∀ cmd ∈ e.commands, cmd ∈ (MQTTProtocol_keepalive_client y now e h).commands) ∧
    (MQTTProtocol_keepalive_client y now e h).noPendingWrites = e.noPendingWrites := by
  have hping : ∀ g, g ≠ h → pingreqs g (e.trace ++ [Event.sendPingreq h]) = pingreqs g e.trace := by
    intro g hg
    rw [pingreqs_append]
    have : pingreqs g [Event.sendPingreq h] = 0 := by
      unfold pingreqs
      rw [List.countP_eq_zero]
      intro ev hev
      rw [List.mem_singleton.1 hev]
      simpa using fun hh => hg hh.symm
    omega
  obtain ⟨c1, c2, c3, c4, c5⟩ := keepalive_client_cases y now e h
  by_cases hdue : keepalive_due now (e.clients h).c
  · by_cases hp : (e.clients h).c.ping_outstanding = true
    · rw [c2 hdue hp]
      exact ⟨fun g _ => by rw [closeSession_clients], fun g _ => by rw [protocol_closeSession_trace],
        protocol_closeSession_commands _ _ _, protocol_closeSession_noPendingWrites _ _ _⟩
    · have hp' : (e.clients h).c.ping_outstanding = false := by simpa using hp
      by_cases hw : e.noPendingWrites (e.clients h).c.socket = true
      · by_cases hrc : y.rc h = TCPSOCKET_COMPLETE
        · rw [c4 hdue hp' hw hrc]
          refine ⟨fun g hg => ?_, fun g hg => ?_, fun cmd hcmd => by simpa using hcmd, by simp⟩
          · simp [Engine.setC, Engine.setClient_other _ _ _ _ hg]
          · simpa using hping g hg
        · rw [c5 hdue hp' hw hrc]
          refine ⟨fun g _ => by rw [closeSession_clients]; rfl, fun g hg => ?_, fun cmd hcmd => ?_, ?_⟩
          · rw [protocol_closeSession_trace]
            exact hping g hg
          · exact protocol_closeSession_commands _ _ _ cmd (by simpa using hcmd)
          · rw [protocol_closeSession_noPendingWrites]; rfl
      · have hw' : e.noPendingWrites (e.clients h).c.socket = false := by simpa using hw
        rw [c3 hdue hp' hw']
        exact ⟨fun _ _ => rfl, fun _ _ => rfl, fun _ hcmd => hcmd, rfl⟩
  · rw [c1 hdue]
    exact ⟨fun _ _ => rfl, fun _ _ => rfl, fun _ hcmd => hcmd, rfl⟩

theorem keepalive_frame (y : KeepaliveCalls) (now : Nat) :
    ∀ (handles : List Nat) (e : Engine),
      (∀ g, g ∉ handles → (MQTTProtocol_keepalive y now handles e).clients g = e.clients g ∧
        pingreqs g (MQTTProtocol_keepalive y now handles e).trace = pingreqs g e.trace) ∧
      (∀ cmd ∈ e.commands, cmd ∈ (MQTTProtocol_keepalive y now handles e).commands) ∧
      (MQTTProtocol_keepalive y now handles e).noPendingWrites = e.noPendingWrites := by
  intro handles
  induction handles with
  | nil => intro e; exact ⟨fun _ _ => ⟨rfl, rfl⟩, fun _ hcmd => hcmd, rfl⟩
  | cons a handles ih =>
    intro e
    obtain ⟨f1, f2, f3, f4⟩ := keepalive_client_frame y now e a
    obtain ⟨i1, i2, i3⟩ := ih (MQTTProtocol_keepalive_client y now e a)
    have hstep : MQTTProtocol_keepalive y now (a :: handles) e =
        MQTTProtocol_keepalive y now handles (MQTTProtocol_keepalive_client y now e a) := rfl
    rw [hstep]
    refine ⟨fun g hg => ?_, fun cmd hcmd => i2 cmd (f3 cmd hcmd), by rw [i3, f4]⟩
    have hga : g ≠ a := fun hh => hg (by rw [hh]; exact List.mem_cons_self _ _)
    have hgh : g ∉ handles := fun hh => hg (List.mem_cons_of_mem _ hh)
    obtain ⟨j1, j2⟩ := i1 g hgh
    exact ⟨by rw [j1, f1 g hga], by rw [j2, f2 g hga]⟩

theorem keepalive_split (y : KeepaliveCalls) (now : Nat) (pre post : List Nat) (g : Nat) (e : Engine) :
    MQTTProtocol_keepalive y now (pre ++ g :: post) e =
      MQTTProtocol_keepalive y now post
        (MQTTProtocol_keepalive_client y now (MQTTProtocol_keepalive y now pre e) g) := by
  unfold MQTTProtocol_keepalive
  rw [List.foldl_append, List.foldl_cons]

/-- C34: `MQTTProtocol_keepalive(now)` over a list of clients in which each client occurs once, for a client `g` of the list. When `g` is not connected, has no keepalive interval above 0, or has reached neither interval, its structure is unchanged and no PINGREQ is sent for it. When it is due and a PINGREQ is outstanding, no PINGREQ is sent, the structure is unchanged and a DISCONNECT command for `g` is in the command queue (the close of the session is requested). When it is due, no PINGREQ is outstanding and its socket has no pending write, exactly one PINGREQ is sent for it; when that send completes `ping_outstanding` is set and `lastSent` is `now`, and otherwise a DISCONNECT command is queued. When its socket has a pending write, nothing is sent and nothing changes. -/
theorem keepalive_pings_once (y : KeepaliveCalls) (now : Nat) (handles : List Nat) (e : Engine) (g : Nat)
    (hnd : handles.Nodup) (hg : g ∈ handles) :
    (¬ keepalive_due now (e.clients g).c →
      (MQTTProtocol_keepalive y now handles e).clients g = e.clients g ∧
      pingreqs g (MQTTProtocol_keepalive y now handles e).trace = pingreqs g e.trace) ∧
    (keepalive_due now (e.clients g).c → (e.clients g).c.ping_outstanding = true →
      (MQTTProtocol_keepalive y now handles e).clients g = e.clients g ∧
      pingreqs g (MQTTProtocol_keepalive y now handles e).trace = pingreqs g e.trace ∧
      ∃ cmd ∈ (MQTTProtocol_keepalive y now handles e).commands,
        cmd.client = g ∧ cmd.command.type = DISCONNECT) ∧
    (keepalive_due now (e.clients g).c → (e.clients g).c.ping_outstanding = false →
      e.noPendingWrites (e.clients g).c.socket = true →
      pingreqs g (MQTTProtocol_keepalive y now handles e).trace = pingreqs g e.trace + 1 ∧
      (y.rc g = TCPSOCKET_COMPLETE →
        ((MQTTProtocol_keepalive y now handles e).clients g).c =
          { (e.clients g).c with lastSent := now, ping_outstanding := true }) ∧
      (y.rc g ≠ TCPSOCKET_COMPLETE →
        (MQTTProtocol_keepalive y now handles e).clients g = e.clients g ∧
        ∃ cmd ∈ (MQTTProtocol_keepalive y now handles e).commands,
          cmd.client = g ∧ cmd.command.type = DISCONNECT)) ∧
    (keepalive_due now (e.clients g).c → (e.clients g).c.ping_outstanding = false →
      e.noPendingWrites (e.clients g).c.socket = false →
      (MQTTProtocol_keepalive y now handles e).clients g = e.clients g ∧
      pingreqs g (MQTTProtocol_keepalive y now handles e).trace = pingreqs g e.trace) := by
  obtain ⟨pre, post, hl⟩ := List.append_of_mem hg
  subst hl
  have hpre : g ∉ pre := by
    intro hin
    have := (List.nodup_append.1 hnd).2.2
    exact this hin (List.mem_cons_self _ _)
  have hpost : g ∉ post := by
    have := (List.nodup_append.1 hnd).2.1
    exact (List.nodup_cons.1 this).1
  rw [keepalive_split]
  obtain ⟨p1, _, p3⟩ := keepalive_frame y now pre e
  obtain ⟨pc, pt⟩ := p1 g hpre
  obtain ⟨q1, q2, _⟩ := keepalive_frame y now post
    (MQTTProtocol_keepalive_client y now (MQTTProtocol_keepalive y now pre e) g)
  obtain ⟨qc, qt⟩ := q1 g hpost
  obtain ⟨c1, c2, c3, c4, c5⟩ := keepalive_client_cases y now (MQTTProtocol_keepalive y now pre e) g
  rw [pc] at c1 c2 c3 c4 c5
  rw [p3] at c3 c4 c5
  rw [qc, qt]
  refine ⟨?_, ?_, ?_, ?_⟩
  · intro hdue
    rw [c1 hdue]
    exact ⟨pc, pt⟩
  · intro hdue hp
    have hconn : ((MQTTProtocol_keepalive y now pre e).clients g).c.connected = true := by
      rw [pc]; exact hdue.1
    refine ⟨by rw [c2 hdue hp, closeSession_clients, pc],
      by rw [c2 hdue hp, protocol_closeSession_trace, pt], ?_⟩
    obtain ⟨cmd, hcmd, h1, h2⟩ := protocol_closeSession_requests (y.x g) g _ hconn
    exact ⟨cmd, q2 cmd (by rw [c2 hdue hp]; exact hcmd), h1, h2⟩
  · intro hdue hp hw
    refine ⟨?_, ?_, ?_⟩
    · by_cases hrc : y.rc g = TCPSOCKET_COMPLETE
      · rw [c4 hdue hp hw hrc]
        simp only [Engine.setC_trace, Engine.emit_trace]
        rw [pingreqs_append, pt]
        simp [pingreqs]
      · rw [c5 hdue hp hw hrc, protocol_closeSession_trace]
        simp only [Engine.emit_trace]
        rw [pingreqs_append, pt]
        simp [pingreqs]
    · intro hrc
      rw [c4 hdue hp hw hrc]
      simp [pc]
    · intro hrc
      have hconn : (((MQTTProtocol_keepalive y now pre e).emit (.sendPingreq g)).clients g).c.connected =
          true := by
        rw [Engine.emit_clients, pc]; exact hdue.1
      refine ⟨by rw [c5 hdue hp hw hrc, closeSession_clients, Engine.emit_clients, pc], ?_⟩
      obtain ⟨cmd, hcmd, h1, h2⟩ := protocol_closeSession_requests (y.x g) g _ hconn
      exact ⟨cmd, q2 cmd (by rw [c5 hdue hp hw hrc]; exact hcmd), h1, h2⟩
  · intro hdue hp hw
    rw [c3 hdue hp hw]
    exact ⟨pc, pt⟩

/-- C34, on an instance: at time 160 the keepalive scan over the clients 0, 1 and 2 of `engine_keepalive` sends one PINGREQ for client 0, which is due and has none outstanding; it sends none for client 1, which still waits for a PINGRESP and gets a DISCONNECT command queued, and none for client 2, which has no keepalive. -/
theorem keepalive_pings_once_witness :
    [0, 1, 2].Nodup ∧ 0 ∈ [0, 1, 2] ∧ keepalive_due 160 (engine_keepalive.clients 0).c ∧
    pingreqs 0 (MQTTProtocol_keepalive {} 160 [0, 1, 2] engine_keepalive).trace =
      pingreqs 0 engine_keepalive.trace + 1 ∧
    (MQTTProtocol_keepalive {} 160 [0, 1, 2] engine_keepalive).trace = [Event.sendPingreq 0] ∧
    (MQTTProtocol_keepalive {} 160 [0, 1, 2] engine_keepalive).commands.map
      (fun cmd => (cmd.client, cmd.command.type)) = [(1, DISCONNECT)] :=
  ⟨by decide, by decide, by decide,
    ((keepalive_pings_once {} 160 [0, 1, 2] engine_keepalive 0 (by decide) (by decide)).2.2.1
      (by decide) (by decide) (by decide)).1,
    by decide, by decide⟩

/-! ## Closing the connection only -/

/-- C35, the claim as stated fails: for a client whose `net.socket` is `INVALID_SOCKET` (-1), `MQTTAsync_closeOnly` does not enter the block under `socket > 0`, and the socket is -1 afterwards, not 0. -/
theorem closeOnly_keeps_invalid_socket :
    (engine_no_socket.clients 0).c.socket = -1 ∧
    ((MQTTAsync_closeOnly 0 engine_no_socket).clients 0).c.socket = -1 ∧
    ((MQTTAsync_closeOnly 0 engine_no_socket).clients 0).c.socket ≠ 0 := by
  decide

/-- C35, amended: `MQTTAsync_closeOnly` leaves the client not connected, with `ping_outstanding` and `good` cleared and `connect_state` 0. The socket is 0 afterwards when it was above 0 and is left as it was otherwise. Only for a socket above 0 anything is emitted: an MQTT DISCONNECT when the client was connected, then the close of the socket. The outbound messages, the inbound messages, the message queue and `msgID` are unchanged, and for a client without clean session `MQTTAsync_closeSession` does the same and nothing more. -/
theorem MQTTAsync_closeOnly_clears (h : Nat) (e : Engine) :
    ((MQTTAsync_closeOnly h e).clients h).c.connected = false ∧
    ((MQTTAsync_closeOnly h e).clients h).c.ping_outstanding = false ∧
    ((MQTTAsync_closeOnly h e).clients h).c.good = false ∧
    ((MQTTAsync_closeOnly h e).clients h).c.connect_state = 0 ∧
    ((MQTTAsync_closeOnly h e).clients h).c.socket =
      (if (e.clients h).c.socket > 0 then 0 else (e.clients h).c.socket) ∧
    (MQTTAsync_closeOnly h e).trace =
      e.trace ++ (if (e.clients h).c.socket > 0 then
        (if (e.clients h).c.connected = true then [Event.sendDisconnect h] else []) ++
          [Event.socketClose (e.clients h).c.socket]
        else []) ∧
    ((MQTTAsync_closeOnly h e).clients h).c.outboundMsgs = (e.clients h).c.outboundMsgs ∧
    ((MQTTAsync_closeOnly h e).clients h).c.inboundMsgs = (e.clients h).c.inboundMsgs ∧
    ((MQTTAsync_closeOnly h e).clients h).c.messageQueue = (e.clients h).c.messageQueue ∧
    ((MQTTAsync_closeOnly h e).clients h).c.msgID = (e.clients h).c.msgID ∧
    ((e.clients h).c.cleansession = false → MQTTAsync_closeSession h e = MQTTAsync_closeOnly h e) :=
  closeOnly_state h e

/-! ## Starting a publish: the outbound message -/

/-- C36, the claim as stated fails: for qos 1 `MQTTProtocol_createMessage` does not write `nextMessageType`, so the field of the new outbound message holds what `malloc` returned, here 0 in one run and 7 (the code of PUBCOMP) in another, and not the code of PUBACK. -/
theorem startPublish_leaves_next_unset :
    ((MQTTProtocol_startPublish { uninit := 0 } 0 publish_outbound_5 1 0 engine_connected).2.clients 0).c.outboundMsgs.map
      (fun m => (m.msgid, m.qos, m.nextMessageType)) = [(5, 1, 0)] ∧
    ((MQTTProtocol_startPublish { uninit := 7 } 0 publish_outbound_5 1 0 engine_connected).2.clients 0).c.outboundMsgs.map
      (fun m => (m.msgid, m.qos, m.nextMessageType)) = [(5, 1, PUBCOMP)] ∧
    (0 : Int) ≠ PUBACK ∧ PUBCOMP ≠ PUBACK := by
  decide

/-- C36, amended: `MQTTProtocol_startPublish` with a qos above 0 adds exactly one message at the end of the outbound messages of the client and leaves the earlier entries as they are; the message has the id of the packet, which the dispatch sets to the token of the publish command, the given qos and retained flag, and `nextMessageType` is PUBREC for qos 2 and is not written for any other qos. With qos 0 the outbound messages are unchanged. In both cases one PUBLISH with `dup` 0 is sent. -/
theorem MQTTProtocol_startPublish_appends (x : ExtCalls) (h : Nat) (publish : Publish) (qos retained : Int)
    (e : Engine) :
    (qos > 0 →
      ((MQTTProtocol_startPublish x h publish qos retained e).2.clients h).c.outboundMsgs =
        (e.clients h).c.outboundMsgs ++ [MQTTProtocol_createMessage x publish qos retained]) ∧
    ((MQTTProtocol_createMessage x publish qos retained).msgid = publish.msgId ∧
      (MQTTProtocol_createMessage x publish qos retained).qos = qos ∧
      (MQTTProtocol_createMessage x publish qos retained).retain = retained ∧
      (qos = 2 → (MQTTProtocol_createMessage x publish qos retained).nextMessageType = PUBREC) ∧
      (qos ≠ 2 → (MQTTProtocol_createMessage x publish qos retained).nextMessageType = x.uninit)) ∧
    (qos ≤ 0 →
      ((MQTTProtocol_startPublish x h publish qos retained e).2.clients h).c.outboundMsgs =
        (e.clients h).c.outboundMsgs) ∧
    (MQTTProtocol_startPublish x h publish qos retained e).2.trace =
      e.trace ++ [Event.sendPublish h publish.msgId 0 qos] ∧
    (∀ command : MQTTAsync_queuedCommand, command.command.details.pub_qos > 0 →
      ((MQTTAsync_processCommand_publish x command e).2.2.clients command.client).c.outboundMsgs.map
          (fun m => (m.msgid, m.qos, m.retain)) =
        (e.clients command.client).c.outboundMsgs.map (fun m => (m.msgid, m.qos, m.retain)) ++
          [(command.command.token, command.command.details.pub_qos,
            command.command.details.pub_retained)]) := by
  refine ⟨?_, ⟨rfl, rfl, rfl, ?_, ?_⟩, ?_, ?_, ?_⟩
  · intro hq
    unfold MQTTProtocol_startPublish
    dsimp only
    rw [if_pos hq]
    simp
  · intro hq
    simp [MQTTProtocol_createMessage, hq]
  · intro hq
    simp [MQTTProtocol_createMessage, hq]
  · intro hq
    unfold MQTTProtocol_startPublish
    dsimp only
    rw [if_neg (not_lt.2 hq)]
    rfl
  · unfold MQTTProtocol_startPublish
    dsimp only
    split <;> simp
  · intro command hq
    unfold MQTTAsync_processCommand_publish
    dsimp only
    rw [if_neg (by omega)]
    dsimp only
    unfold MQTTProtocol_startPublish
    dsimp only
    rw [if_pos hq]
    simp [MQTTProtocol_createMessage]

/-! ## Waiting for a completion: the mutex -/

theorem held_append (a b : List MutexOp) : MutexOp.held (a ++ b) = MutexOp.held a + MutexOp.held b := by
  unfold MutexOp.held
  rw [List.count_append, List.count_append]
  push_cast
  ring

theorem isComplete_ops (handle : Option Nat) (dt : Int) (e : Engine) :
    (MQTTAsync_isComplete handle dt e).2 = [MutexOp.lock, MutexOp.unlock] := by
  unfold MQTTAsync_isComplete
  split
  · rfl
  · split
    · rfl
    · split <;> rfl

theorem waitForCompletion_loop_balanced (w : WaitCalls) (handle : Option Nat) (dt : Int) (timeout : Nat) :
    ∀ (fuel k : Nat) (r : Int × List MutexOp),
      MQTTAsync_waitForCompletion_loop w handle dt timeout fuel k = some r → MutexOp.held r.2 = 0 := by
  intro fuel
  induction fuel with
  | zero => intro k r hr; cases hr
  | succ fuel ih =>
    intro k r hr
    unfold MQTTAsync_waitForCompletion_loop at hr
    dsimp only at hr
    split at hr
    · split at hr
      · simp only [Option.some.injEq] at hr
        rw [← hr, isComplete_ops]
        decide
      · cases hl : MQTTAsync_waitForCompletion_loop w handle dt timeout fuel (k + 1) with
        | none => rw [hl] at hr; cases hr
        | some s =>
          rw [hl] at hr
          simp only [Option.map_some', Option.some.injEq] at hr
          rw [← hr, held_append, isComplete_ops, ih (k + 1) s hl]
          decide
    · simp only [Option.some.injEq] at hr
      rw [← hr]
      decide

/-- C39, the claim fails: `MQTTAsync_waitForCompletion` locks `mqttasync_mutex` at entry, and on the two early paths, a NULL handle and a client that is not connected, it jumps to `exit`, where nothing unlocks: the call returns with one acquisition and no release. On every other path that returns the acquisitions and releases of the call are equal. -/
theorem waitForCompletion_keeps_lock :
    (∀ (fuel : Nat) (w : WaitCalls) (dt : Int) (timeout : Nat) (e : Engine),
      MQTTAsync_waitForCompletion fuel w none dt timeout e = some (MQTTCODE_FAILURE, [MutexOp.lock])) ∧
    (∀ (fuel : Nat) (w : WaitCalls) (h : Nat) (dt : Int) (timeout : Nat) (e : Engine),
      (e.clients h).c.connected = false →
      MQTTAsync_waitForCompletion fuel w (some h) dt timeout e =
        some (MQTTCODE_DISCONNECT, [MutexOp.lock])) ∧
    MutexOp.held [MutexOp.lock] = 1 ∧
    (∀ (fuel : Nat) (w : WaitCalls) (h : Nat) (dt : Int) (timeout : Nat) (e : Engine)
      (r : Int × List MutexOp), (e.clients h).c.connected = true →
      MQTTAsync_waitForCompletion fuel w (some h) dt timeout e = some r → MutexOp.held r.2 = 0) ∧
    MQTTAsync_waitForCompletion 0 {} (some 0) 1 1000 engine_connected =
      some (MQTTCODE_SUCCESS, [MutexOp.lock, MutexOp.unlock, MutexOp.lock, MutexOp.unlock]) := by
  refine ⟨fun _ _ _ _ _ => rfl, ?_, by decide, ?_, by decide⟩
  · intro fuel w h dt timeout e hc
    unfold MQTTAsync_waitForCompletion
    dsimp only
    rw [if_pos hc]
  · intro fuel w h dt timeout e r hc hr
    unfold MQTTAsync_waitForCompletion at hr
    dsimp only at hr
    rw [if_neg (by rw [hc]; decide)] at hr
    split at hr
    · simp only [Option.some.injEq] at hr
      rw [← hr, held_append, isComplete_ops]
      decide
    · cases hl : MQTTAsync_waitForCompletion_loop w (some h) dt timeout fuel 0 with
      | none => rw [hl] at hr; cases hr
      | some s =>
        rw [hl] at hr
        simp only [Option.map_some', Option.some.injEq] at hr
        rw [← hr, held_append, held_append, isComplete_ops,
          waitForCompletion_loop_balanced w (some h) dt timeout fuel 0 s hl]
        decide

/-! ## Completion queries -/

theorem isComplete_true_iff (h : Nat) (dt : Int) (e : Engine) :
    (MQTTAsync_isComplete (some h) dt e).1 = MQTTASYNC_TRUE ↔
      (∀ cmd ∈ e.commands, cmd.client = h → cmd.command.token ≠ dt) ∧
      (∀ m ∈ (e.clients h).c.outboundMsgs, m.msgid ≠ dt) := by
  unfold MQTTAsync_isComplete
  dsimp only
  by_cases hc : e.commands.any (fun cmd => decide (cmd.client = h ∧ cmd.command.token = dt)) = true
  · rw [if_pos hc]
    constructor
    · intro hf; exact absurd hf (by decide)
    · intro hall
      rw [List.any_eq_true] at hc
      obtain ⟨cmd, hcmd, hp⟩ := hc
      have hp' : cmd.client = h ∧ cmd.command.token = dt := by simpa using hp
      exact absurd hp'.2 (hall.1 cmd hcmd hp'.1)
  · rw [if_neg hc]
    have hcall : ∀ cmd ∈ e.commands, cmd.client = h → cmd.command.token ≠ dt := by
      intro cmd hcmd hcl htok
      exact hc (List.any_eq_true.2 ⟨cmd, hcmd, by simp [hcl, htok]⟩)
    by_cases ho : (e.clients h).c.outboundMsgs.any (fun m => decide (m.msgid = dt)) = true
    · rw [if_pos ho]
      constructor
      · intro hf; exact absurd hf (by decide)
      · intro hall
        rw [List.any_eq_true] at ho
        obtain ⟨m, hm, hp⟩ := ho
        exact absurd (by simpa using hp) (hall.2 m hm)
    · rw [if_neg ho]
      refine ⟨fun _ => ⟨hcall, ?_⟩, fun _ => rfl⟩
      intro m hm hid
      exact ho (List.any_eq_true.2 ⟨m, hm, by simp [hid]⟩)

theorem isComplete_values (h : Nat) (dt : Int) (e : Engine) :
    (MQTTAsync_isComplete (some h) dt e).1 = MQTTASYNC_TRUE ∨
      (MQTTAsync_isComplete (some h) dt e).1 = 0 := by
  unfold MQTTAsync_isComplete
  dsimp only
  split
  · right; rfl
  · split
    · right; rfl
    · left; rfl

theorem isComplete_false_of_command (h : Nat) (dt : Int) (e : Engine) (cmd : MQTTAsync_queuedCommand)
    (hcmd : cmd ∈ e.commands) (hcl : cmd.client = h) (htok : cmd.command.token = dt) :
    (MQTTAsync_isComplete (some h) dt e).1 = 0 := by
  rcases isComplete_values h dt e with ht | hf
  · exact absurd htok (((isComplete_true_iff h dt e).1 ht).1 cmd hcmd hcl)
  · exact hf

theorem isComplete_false_of_outbound (h : Nat) (dt : Int) (e : Engine) (m : Messages)
    (hm : m ∈ (e.clients h).c.outboundMsgs) (hid : m.msgid = dt) :
    (MQTTAsync_isComplete (some h) dt e).1 = 0 := by
  rcases isComplete_values h dt e with ht | hf
  · exact absurd hid (((isComplete_true_iff h dt e).1 ht).2 m hm)
  · exact hf

theorem setClient_responses_c (e : Engine) (h g : Nat) (r : List MQTTAsync_queuedCommand) :
    ((e.setClient h { e.clients h with responses := r }).clients g).c = (e.clients g).c := by
  by_cases hg : g = h
  · subst hg; simp
  · rw [Engine.setClient_other _ _ _ _ hg]

theorem finish_publish_clients (x : ExtCalls) (rc : Int) (command : MQTTAsync_queuedCommand) (e : Engine)
    (ht : command.command.type = PUBLISH) (g : Nat) :
    ((MQTTAsync_processCommand_finish x rc command e).clients g).c = (e.clients g).c := by
  have hcl := closeSession_clients x command.client e
  unfold MQTTProtocol_closeSession at hcl
  unfold MQTTAsync_processCommand_finish
  dsimp only
  have hnc : ¬ (command.command.type = CONNECT) := fun hh => absurd (ht.symm.trans hh) (by decide)
  have hnd : ¬ (command.command.type = DISCONNECT) := fun hh => absurd (ht.symm.trans hh) (by decide)
  rw [if_neg (fun hh => hnc hh.1), if_neg hnd]
  split
  · split
    · exact setClient_responses_c _ _ _ _
    · rfl
  · split
    · rw [if_neg (fun hh => hnc hh.1)]
      rw [Engine.call_clients, hcl]
    · exact setClient_responses_c _ _ _ _

theorem processCommand_publish_outbound (x : ExtCalls) (command : MQTTAsync_queuedCommand) (e : Engine)
    (hq : command.command.details.pub_qos > 0) :
    ((MQTTAsync_processCommand_publish x command e).2.2.clients command.client).c.outboundMsgs =
      (e.clients command.client).c.outboundMsgs ++
        [MQTTProtocol_createMessage x
          { payload := command.command.details.pub_payload, payloadlen := command.command.details.pub_payloadlen,
            topic := command.command.details.pub_destinationName, msgId := command.command.token }
          command.command.details.pub_qos command.command.details.pub_retained] := by
  unfold MQTTAsync_processCommand_publish
  dsimp only
  rw [if_neg (by omega)]
  dsimp only
  unfold MQTTProtocol_startPublish
  dsimp only
  rw [if_pos hq]
  simp

/-- C38, the last part of the claim fails: client 0, connected with clean session, publishes with qos 1 (token 1) and calls `MQTTAsync_disconnect`. After the dispatch of the PUBLISH the outbound message 1 exists and `MQTTAsync_isComplete` returns 0 for the token. After the dispatch of the DISCONNECT the session is closed and purged: no PUBACK has arrived, yet the outbound message is gone and `MQTTAsync_isComplete` returns true for the token. -/
theorem isComplete_true_after_purge :
    (MQTTAsync_send 10 (fun _ => true) { ptr := 1 } 0 "t" 1 [120] 1 0 none engine_clean_connected).map
      (fun r => (r.1, r.2.2.commands.map (fun cmd => (cmd.command.type, cmd.command.token)))) =
        some (MQTTCODE_SUCCESS, [(PUBLISH, 1)]) ∧
    engine_published.map (fun e => ((MQTTAsync_isComplete (some 0) 1 e).1,
      (e.clients 0).c.outboundMsgs.map (fun m => m.msgid), e.trace)) =
        some (0, [1], [Event.sendPublish 0 1 0 1]) ∧
    engine_published_closed.map (fun e => ((MQTTAsync_isComplete (some 0) 1 e).1,
      (e.clients 0).c.outboundMsgs.map (fun m => m.msgid), e.trace)) =
        some (MQTTASYNC_TRUE, [], [Event.sendPublish 0 1 0 1, Event.sendDisconnect 0, Event.socketClose 3]) := by
  decide

/-- C38, amended: for a non-NULL handle `MQTTAsync_isComplete` returns true exactly when no command of the queue that belongs to the client has the token and no outbound message of the client has it as id, and 0 otherwise. So it returns 0 for the token of a publish with qos 1 or 2 after the `MQTTAsync_send` that queued it, and after the dispatch of the command, which leaves an outbound message with that id. After a purge by `MQTTAsync_cleanSession` it returns true for every token. -/
theorem MQTTAsync_isComplete_finds :
    (∀ (h : Nat) (dt : Int) (e : Engine),
      ((MQTTAsync_isComplete (some h) dt e).1 = MQTTASYNC_TRUE ↔
        (∀ cmd ∈ e.commands, cmd.client = h → cmd.command.token ≠ dt) ∧
        (∀ m ∈ (e.clients h).c.outboundMsgs, m.msgid ≠ dt)) ∧
      ((MQTTAsync_isComplete (some h) dt e).1 = MQTTASYNC_TRUE ∨
        (MQTTAsync_isComplete (some h) dt e).1 = 0)) ∧
    (∀ (fuel : Nat) (utf8 : String → Bool) (x : ExtCalls) (h : Nat) (destinationName : String)
      (payloadlen : Nat) (payload : List Nat) (qos retained : Int)
      (response : Option MQTTAsync_responseOptions) (e : Engine),
      (MQTTAsync_send fuel utf8 x h destinationName payloadlen payload qos retained response e).map
        (fun r => r.1) = some MQTTCODE_SUCCESS →
      ∃ r cmd, MQTTAsync_send fuel utf8 x h destinationName payloadlen payload qos retained response e =
          some r ∧
        r.2.2.commands = e.commands ++ [cmd] ∧ cmd.command.type = PUBLISH ∧
        r.2.1 = response.map (fun o => { o with token := cmd.command.token }) ∧
        (MQTTAsync_isComplete (some h) cmd.command.token r.2.2).1 = 0) ∧
    (∀ (x : ExtCalls) (command : MQTTAsync_queuedCommand) (e : Engine),
      command.command.type = PUBLISH → command.command.details.pub_qos > 0 →
      (MQTTAsync_isComplete (some command.client) command.command.token
        (MQTTAsync_processCommand_finish x (MQTTAsync_processCommand_publish x command e).1
          (MQTTAsync_processCommand_publish x command e).2.1
          (MQTTAsync_processCommand_publish x command e).2.2)).1 = 0) ∧
    (∀ (h : Nat) (dt : Int) (e : Engine),
      (MQTTAsync_isComplete (some h) dt (MQTTAsync_cleanSession h e)).1 = MQTTASYNC_TRUE) := by
  refine ⟨fun h dt e => ⟨isComplete_true_iff h dt e, isComplete_values h dt e⟩, ?_, ?_, ?_⟩
  · intro fuel utf8 x h destinationName payloadlen payload qos retained response e hok
    obtain ⟨r, cmd, hr, hcmds, hty, hcl, _, hresp, _, _⟩ :=
      send_success_queue fuel utf8 x h destinationName payloadlen payload qos retained response e hok
    refine ⟨r, cmd, hr, hcmds, hty, hresp, ?_⟩
    exact isComplete_false_of_command h _ _ cmd (by rw [hcmds]; simp) hcl rfl
  · intro x command e ht hq
    have hout := (processCommand_publish_outbound x command e hq)
    have htype : (MQTTAsync_processCommand_publish x command e).2.1.command.type = PUBLISH := by
      unfold MQTTAsync_processCommand_publish
      dsimp only
      rw [if_neg (by omega)]
      exact ht
    apply isComplete_false_of_outbound _ _ _
      (MQTTProtocol_createMessage x
        { payload := command.command.details.pub_payload, payloadlen := command.command.details.pub_payloadlen,
          topic := command.command.details.pub_destinationName, msgId := command.command.token }
        command.command.details.pub_qos command.command.details.pub_retained)
    · rw [finish_publish_clients x _ _ _ htype, hout]
      simp
    · rfl
  · intro h dt e
    rw [isComplete_true_iff, cleanSession_client, cleanSession_commands]
    refine ⟨?_, by simp⟩
    intro cmd hcmd hcl
    have := (List.mem_filter.1 hcmd).2
    simp [hcl] at this

/-! ## String copies -/

theorem strlen_cons_nonzero (b : Nat) (src : List Nat) (hb : b ≠ 0) :
    strlen (b :: src) = strlen src + 1 := by
  simp [strlen, List.takeWhile_cons, hb]

theorem strlen_cons_zero (src : List Nat) : strlen (0 :: src) = 0 := by
  simp [strlen, List.takeWhile_cons]

theorem strlen_lt_length (src : List Nat) (h : 0 ∈ src) : strlen src < src.length := by
  induction src with
  | nil => cases h
  | cons b src ih =>
    by_cases hb : b = 0
    · subst hb; rw [strlen_cons_zero]; simp
    · rw [strlen_cons_nonzero b src hb]
      have : 0 ∈ src := by
        rcases List.mem_cons.1 h with h | h
        · exact absurd h.symm hb
        · exact h
      simpa using ih this

theorem take_strlen_succ (src : List Nat) (h : 0 ∈ src) :
    src.take (strlen src + 1) = src.take (strlen src) ++ [0] := by
  induction src with
  | nil => cases h
  | cons b src ih =>
    by_cases hb : b = 0
    · subst hb; rw [strlen_cons_zero]; rfl
    · rw [strlen_cons_nonzero b src hb]
      have : 0 ∈ src := by
        rcases List.mem_cons.1 h with h | h
        · exact absurd h.symm hb
        · exact h
      simp [ih this]

theorem list_set_split {α : Type} (l : List α) (i : Nat) (a : α) (h : i < l.length) :
    l.set i a = l.take i ++ a :: l.drop (i + 1) := by
  induction l generalizing i with
  | nil => simp at h
  | cons b l ih =>
    cases i with
    | zero => rfl
    | succ i => simp [ih i (by simpa using h)]

theorem list_take_set_succ {α : Type} (l : List α) (i : Nat) (a : α) (h : i < l.length) :
    (l.set i a).take (i + 1) = l.take i ++ [a] := by
  induction l generalizing i with
  | nil => simp at h
  | cons b l ih =>
    cases i with
    | zero => rfl
    | succ i => simp [ih i (by simpa using h)]

theorem list_drop_set_after {α : Type} (l : List α) (i k : Nat) (a : α) :
    (l.set i a).drop (i + 1 + k) = l.drop (i + 1 + k) := by
  induction l generalizing i with
  | nil => simp
  | cons b l ih =>
    cases i with
    | zero =>
      have h1 : 0 + 1 + k = k + 1 := by omega
      rw [h1]
      rfl
    | succ i =>
      have h1 : i + 1 + 1 + k = (i + 1 + k) + 1 := by omega
      rw [h1, List.set_cons_succ, List.drop_succ_cons, List.drop_succ_cons]
      exact ih i

theorem list_take_set_before {α : Type} (l : List α) (i j : Nat) (a : α) (h : j ≤ i) :
    (l.set i a).take j = l.take j := by
  induction l generalizing i j with
  | nil => simp
  | cons b l ih =>
    cases j with
    | zero => rfl
    | succ j =>
      cases i with
      | zero => omega
      | succ i => simp [ih i j (by omega)]

theorem MQTTStrncpy_loop_result :
    ∀ (c : Nat) (src : List Nat) (temp : Nat) (dest : List Nat), 0 ∈ src → temp + c ≤ dest.length →
      MQTTStrncpy_loop (c + 1) src temp dest =
        some (temp + min (strlen src + 1) c,
          dest.take temp ++ src.take (min (strlen src + 1) c) ++
            dest.drop (temp + min (strlen src + 1) c)) := by
  intro c
  induction c with
  | zero =>
    intro src temp dest _ _
    simp [MQTTStrncpy_loop]
  | succ c ih =>
    intro src temp dest hnul hlen
    cases src with
    | nil => cases hnul
    | cons b src =>
      have ht : temp < dest.length := by omega
      simp only [MQTTStrncpy_loop]
      rw [if_pos ht]
      by_cases hb : b = 0
      · subst hb
        rw [if_neg (by simp), strlen_cons_zero]
        have hk : min (0 + 1) (c + 1) = 1 := by omega
        rw [hk, list_set_split dest temp 0 ht]
        simp
      · rw [if_pos hb, strlen_cons_nonzero b src hb]
        have hnul' : 0 ∈ src := by
          rcases List.mem_cons.1 hnul with h | h
          · exact absurd h.symm hb
          · exact h
        rw [ih src (temp + 1) (dest.set temp b) hnul' (by rw [List.length_set]; omega)]
        have hk : min (strlen src + 1 + 1) (c + 1) = min (strlen src + 1) c + 1 := by omega
        rw [hk, list_take_set_succ dest temp b ht, list_drop_set_after]
        have h1 : temp + 1 + min (strlen src + 1) c = temp + (min (strlen src + 1) c + 1) := by omega
        rw [h1]
        simp


theorem MQTTStrncpy_result (dest src : List Nat) (dest_size : Nat) (hnul : 0 ∈ src) (hsize : 1 ≤ dest_size)
    (hlen : dest.length = dest_size) :
    MQTTStrncpy dest src dest_size =
      some ((src.take (min (strlen src + 1) (dest_size - 1)) ++
        dest.drop (min (strlen src + 1) (dest_size - 1))).set (min (strlen src + 1) (dest_size - 1)) 0) := by
  obtain ⟨c, rfl⟩ : ∃ c, dest_size = c + 1 := ⟨dest_size - 1, by omega⟩
  have hs := strlen_lt_length src hnul
  unfold MQTTStrncpy
  rw [MQTTStrncpy_loop_result c src 0 dest hnul (by omega)]
  simp only [Nat.zero_add, List.take_zero, List.nil_append, Nat.add_sub_cancel]
  rw [if_pos (by
    rw [List.length_append, List.length_take, List.length_drop]
    omega)]

theorem MQTTStrncpy_front (dest src : List Nat) (dest_size : Nat) (hnul : 0 ∈ src) (hsize : 1 ≤ dest_size)
    (hlen : dest.length = dest_size) :
    ∃ d, MQTTStrncpy dest src dest_size = some d ∧ d.length = dest_size ∧
      d.take (min (strlen src) (dest_size - 1) + 1) = src.take (min (strlen src) (dest_size - 1)) ++ [0] := by
  obtain ⟨c, rfl⟩ : ∃ c, dest_size = c + 1 := ⟨dest_size - 1, by omega⟩
  have hs := strlen_lt_length src hnul
  refine ⟨_, MQTTStrncpy_result dest src (c + 1) hnul hsize hlen, ?_, ?_⟩
  · rw [List.length_set, List.length_append, List.length_take, List.length_drop]
    omega
  · simp only [Nat.add_sub_cancel]
    by_cases hc : strlen src < c
    · have h1 : min (strlen src + 1) c = strlen src + 1 := by omega
      have h2 : min (strlen src) c = strlen src := by omega
      rw [h1, h2, list_take_set_before _ _ _ _ (le_refl _),
        List.take_append_of_le_length (by rw [List.length_take]; omega), List.take_take,
        Nat.min_self, take_strlen_succ src hnul]
    · have h1 : min (strlen src + 1) c = c := by omega
      have h2 : min (strlen src) c = c := by omega
      rw [h1, h2, list_take_set_succ _ _ _ (by
          rw [List.length_append, List.length_take, List.length_drop]; omega),
        List.take_append_of_le_length (by rw [List.length_take]; omega), List.take_take, Nat.min_self]

theorem MQTTStrdup_result (uninit : Nat → Nat) (src : List Nat) (hnul : 0 ∈ src) :
    MQTTStrdup uninit src = some (src.take (strlen src) ++ [0]) := by
  obtain ⟨d, h1, h2, h3⟩ := MQTTStrncpy_front ((List.range (strlen src + 1)).map uninit) src
    (strlen src + 1) hnul (by omega) (by simp)
  unfold MQTTStrdup
  rw [h1]
  simp only [Nat.add_sub_cancel, Nat.min_self] at h3
  rw [← h3, List.take_of_length_le (by omega)]

/-- C40: for a source array that holds a NUL and a destination of `dest_size` bytes, `dest_size` at least 1, `MQTTStrncpy` returns without a read past the NUL of `src` and without a write outside `dest`, and `dest` then holds the first `min(strlen(src), dest_size - 1)` bytes of `src` followed by a NUL. `MQTTStrdup` therefore returns the bytes of `src` up to its NUL, followed by the NUL. -/
theorem MQTTStrncpy_copies (dest src : List Nat) (dest_size : Nat) (uninit : Nat → Nat)
    (hnul : 0 ∈ src) (hsize : 1 ≤ dest_size) (hlen : dest.length = dest_size) :
    (∃ d, MQTTStrncpy dest src dest_size = some d ∧ d.length = dest_size ∧
      d.take (min (strlen src) (dest_size - 1) + 1) =
        src.take (min (strlen src) (dest_size - 1)) ++ [0]) ∧
    MQTTStrdup uninit src = some (src.take (strlen src) ++ [0]) :=
  ⟨MQTTStrncpy_front dest src dest_size hnul hsize hlen, MQTTStrdup_result uninit src hnul⟩

/-- C40, on an instance: the string "hi" copied into two bytes gives "h" and the NUL, and its duplicate is "hi" and the NUL. -/
theorem MQTTStrncpy_copies_witness :
    0 ∈ [104, 105, 0] ∧ 1 ≤ 2 ∧ [9, 9].length = 2 ∧
    MQTTStrdup (fun _ => 9) [104, 105, 0] = some ([104, 105, 0].take (strlen [104, 105, 0]) ++ [0]) ∧
    MQTTStrncpy [9, 9] [104, 105, 0] 2 = some [104, 0] ∧
    MQTTStrdup (fun _ => 9) [104, 105, 0] = some [104, 105, 0] :=
  ⟨by decide, by decide, by decide,
    (MQTTStrncpy_copies [9, 9] [104, 105, 0] 2 (fun _ => 9) (by decide) (by decide) (by decide)).2,
    by decide, by decide⟩

/-! ## Publishing when no message id is left -/

theorem assignMsgId_exhausted (fuel h : Nat) (e : Engine) (hs1 : 1 ≤ (e.clients h).c.msgID)
    (hs2 : (e.clients h).c.msgID ≤ 65535)
    (hall : ∀ m : Int, 1 ≤ m → m ≤ 65535 → m ≠ (e.clients h).c.msgID →
      MQTTAsync_assignMsgId_inUse e h m = true)
    (hfuel : 65534 ≤ fuel) : MQTTAsync_assignMsgId fuel h e = some (0, e) := by
  have hloop : MQTTAsync_assignMsgId_loop e h (e.clients h).c.msgID fuel
      (if (e.clients h).c.msgID = MAX_MSG_ID then 1 else (e.clients h).c.msgID + 1) = some 0 := by
    by_cases hmax : (e.clients h).c.msgID = MAX_MSG_ID
    · rw [if_pos hmax]
      have hmax' : (e.clients h).c.msgID = 65535 := hmax
      apply assign_loop_exhausted e h _ hs1 hs2 hall fuel 1 (by decide) (by decide)
      · rw [hmax']; decide
      · rw [hmax']
        simp only [show ((1 : Int) < 65535) from by decide, if_true]
        omega
    · rw [if_neg hmax]
      have hmax' : (e.clients h).c.msgID ≠ 65535 := hmax
      apply assign_loop_exhausted e h _ hs1 hs2 hall fuel _ (by omega) (by omega) (by omega)
      rw [if_neg (by omega)]
      omega
  unfold MQTTAsync_assignMsgId
  dsimp only
  rw [hloop]
  simp

theorem assignMsgId_cleaned_never_ends (fuel : Nat) :
    MQTTAsync_assignMsgId fuel 1 (MQTTAsync_cleanSession 1 engine_all_ids) = none := by
  have hstart : ((MQTTAsync_cleanSession 1 engine_all_ids).clients 1).c.msgID = 0 := by
    rw [cleanSession_client]
  unfold MQTTAsync_assignMsgId
  dsimp only
  rw [hstart]
  have := assign_loop_never_ends (MQTTAsync_cleanSession 1 engine_all_ids) 1 cleaned_all_ids_inUse fuel 1
    (by decide) (by decide)
  rw [if_neg (by decide), show (0 : Int) + 1 = 1 from rfl, this]

/-- C18, the claim fails in its last case. Client 1 is connected, its `msgID` is 0 (as after a clean-session purge) and every id of 1..65535 is the token of a queued command, so no id can be assigned; `MQTTAsync_send` with qos 1 or 2 then does not return `NoMoreMsgIds`: whatever the fuel, the call has not returned, because the scan of `MQTTAsync_assignMsgId` never ends. What holds: the call returns `Disconnected` for a client that is not connected, otherwise `BadUtf8String` for a topic that is not valid UTF-8, otherwise `BadQoS` for a qos other than 0, 1 and 2, and, for qos 1 or 2, `NoMoreMsgIds` when `MQTTAsync_assignMsgId` returns 0, which it does when `msgID` is in 1..65535 and every other id is in use; whenever the call returns a code other than `Success`, the code is one of these four and the engine and the response structure are as before the call. -/
theorem send_spins_without_ids :
    (((MQTTAsync_cleanSession 1 engine_all_ids).clients 1).c.connected = true ∧
      ((MQTTAsync_cleanSession 1 engine_all_ids).clients 1).c.msgID = 0 ∧
      (∀ m : Int, 1 ≤ m → m ≤ 65535 →
        MQTTAsync_assignMsgId_inUse (MQTTAsync_cleanSession 1 engine_all_ids) 1 m = true) ∧
      ∀ (fuel : Nat) (utf8 : String → Bool) (x : ExtCalls) (destinationName : String) (payloadlen : Nat)
        (payload : List Nat) (qos retained : Int) (response : Option MQTTAsync_responseOptions),
        utf8 destinationName = true → (qos = 1 ∨ qos = 2) →
        MQTTAsync_send fuel utf8 x 1 destinationName payloadlen payload qos retained response
          (MQTTAsync_cleanSession 1 engine_all_ids) = none) ∧
    (∀ (fuel : Nat) (utf8 : String → Bool) (x : ExtCalls) (h : Nat) (destinationName : String)
      (payloadlen : Nat) (payload : List Nat) (qos retained : Int)
      (response : Option MQTTAsync_responseOptions) (e : Engine),
      ((e.clients h).c.connected = false →
        MQTTAsync_send fuel utf8 x h destinationName payloadlen payload qos retained response e =
          some (MQTTCODE_DISCONNECT, response, e)) ∧
      ((e.clients h).c.connected = true → utf8 destinationName = false →
        MQTTAsync_send fuel utf8 x h destinationName payloadlen payload qos retained response e =
          some (MQTTCODE_BAD_UTF8_STRING, response, e)) ∧
      ((e.clients h).c.connected = true → utf8 destinationName = true → ¬ (qos = 0 ∨ qos = 1 ∨ qos = 2) →
        MQTTAsync_send fuel utf8 x h destinationName payloadlen payload qos retained response e =
          some (MQTTCODE_BAD_QOS, response, e)) ∧
      ((e.clients h).c.connected = true → utf8 destinationName = true → (qos = 1 ∨ qos = 2) →
        ∀ e', MQTTAsync_assignMsgId fuel h e = some (0, e') →
          MQTTAsync_send fuel utf8 x h destinationName payloadlen payload qos retained response e =
            some (MQTTCODE_NO_MORE_MSGIDS, response, e)) ∧
      (∀ r, MQTTAsync_send fuel utf8 x h destinationName payloadlen payload qos retained response e = some r →
        r.1 ≠ MQTTCODE_SUCCESS →
          (r.1 = MQTTCODE_DISCONNECT ∨ r.1 = MQTTCODE_BAD_UTF8_STRING ∨ r.1 = MQTTCODE_BAD_QOS ∨
            r.1 = MQTTCODE_NO_MORE_MSGIDS) ∧ r.2.1 = response ∧ r.2.2 = e)) ∧
    (∀ (fuel : Nat) (utf8 : String → Bool) (x : ExtCalls) (h : Nat) (destinationName : String)
      (payloadlen : Nat) (payload : List Nat) (qos retained : Int)
      (response : Option MQTTAsync_responseOptions) (e : Engine),
      (e.clients h).c.connected = true → utf8 destinationName = true → (qos = 1 ∨ qos = 2) →
      1 ≤ (e.clients h).c.msgID → (e.clients h).c.msgID ≤ 65535 →
      (∀ m : Int, 1 ≤ m → m ≤ 65535 → m ≠ (e.clients h).c.msgID →
        MQTTAsync_assignMsgId_inUse e h m = true) →
      65534 ≤ fuel →
      MQTTAsync_send fuel utf8 x h destinationName payloadlen payload qos retained response e =
        some (MQTTCODE_NO_MORE_MSGIDS, response, e)) := by
  refine ⟨⟨by rw [cleanSession_client]; rfl, by rw [cleanSession_client], cleaned_all_ids_inUse, ?_⟩,
    send_rejects_cases, ?_⟩
  · intro fuel utf8 x destinationName payloadlen payload qos retained response hu hq
    have hc : ((MQTTAsync_cleanSession 1 engine_all_ids).clients 1).c.connected = true := by
      rw [cleanSession_client]; rfl
    unfold MQTTAsync_send
    rw [if_neg (by simp [hc]), if_neg (by simp [hu]), if_neg (by omega)]
    dsimp only
    rw [if_pos (by omega : qos > 0), assignMsgId_cleaned_never_ends]
  · intro fuel utf8 x h destinationName payloadlen payload qos retained response e hc hu hq hs1 hs2 hall hfuel
    exact (send_rejects_cases fuel utf8 x h destinationName payloadlen payload qos retained response e).2.2.2.1
      hc hu hq e (assignMsgId_exhausted fuel h e hs1 hs2 hall hfuel)

/-! ## How an outbound message leaves the list -/

theorem list_map_set_getD {α β : Type} (f : α → β) (l : List α) (i : Nat) (d m' : α)
    (hf : f m' = f (l.getD i d)) : (l.set i m').map f = l.map f := by
  induction l generalizing i with
  | nil => rfl
  | cons b l ih =>
    cases i with
    | zero =>
      simp only [List.set_cons_zero, List.map_cons]
      rw [hf]
      rfl
    | succ i =>
      simp only [List.set_cons_succ, List.map_cons]
      rw [ih i (by simpa using hf)]

theorem handlePubrecs_ids (x : ExtCalls) (h : Nat) (msgId : Int) (e : Engine) :
    ((MQTTProtocol_handlePubrecs x h msgId e).2.clients h).c.outboundMsgs.map (fun m => m.msgid) =
      (e.clients h).c.outboundMsgs.map (fun m => m.msgid) := by
  unfold MQTTProtocol_handlePubrecs
  dsimp only
  split
  · rfl
  · split
    · rfl
    · split
      · rfl
      · simp only [Engine.setC_same]
        exact list_map_set_getD _ _ _ {} _ rfl

theorem retries_keeps_messages (y : RetryCalls) (now h : Nat) (regardless : Bool) (e : Engine) :
    ((MQTTProtocol_retries y now h regardless e).clients h).c.outboundMsgs.map
        (fun m => { m with lastTouch := 0 }) =
      (e.clients h).c.outboundMsgs.map (fun m => { m with lastTouch := 0 }) := by
  unfold MQTTProtocol_retries
  split
  · rfl
  · obtain ⟨_, _, h2, _⟩ := retries_loop_scan y now h regardless (e.clients h).c.outboundMsgs.length 0 e
    exact h2

/-- C30, the claim as stated fails: an outbound message leaves the list without any ACK when the session is purged. First run: client 0, connected with clean session, publishes with qos 1 and disconnects; after the dispatch of the PUBLISH the outbound message 1 exists, and after the dispatch of the DISCONNECT it is gone, while the only packets of the trace are the ones sent. Second run: a client that waits for the CONNACK of a connection with clean session holds the outbound message 1 of the session before; the CONNACK empties the list. -/
theorem outbound_purged_without_ack :
    engine_published.map (fun e => (e.clients 0).c.outboundMsgs.map (fun m => (m.msgid, m.qos))) =
      some [(1, 1)] ∧
    engine_published_closed.map (fun e => ((e.clients 0).c.outboundMsgs.map (fun m => (m.msgid, m.qos)),
      e.trace)) =
        some ([], [Event.sendPublish 0 1 0 1, Event.sendDisconnect 0, Event.socketClose 3]) ∧
    (engine_awaiting_connack_clean.clients 0).c.outboundMsgs.map (fun m => (m.msgid, m.qos)) = [(1, 1)] ∧
    ((MQTTAsync_completeConnection {} 0 [0] 0 MQTTCODE_SUCCESS engine_awaiting_connack_clean).2.clients
      0).c.outboundMsgs = [] := by
  decide

/-- C30, amended: an outbound message leaves the list on its final ACK or by a purge of the session. Both ACK handlers look at the first outbound message with the acknowledged id: `MQTTProtocol_handlePubacks` removes it when it has qos 1 and otherwise leaves the engine unchanged, `MQTTProtocol_handlePubcomps` removes it when it has qos 2 and awaits the PUBCOMP and otherwise leaves the engine unchanged; a removal takes out that one message and keeps the rest in order, and in every case the outbound messages with another id are the same, in the same order. `MQTTAsync_cleanSession` empties the list, whatever it holds. The handler of PUBREC, the retry scan, `MQTTAsync_closeOnly` and `MQTTProtocol_startPublish` remove nothing: the first two keep the messages in order (changing `nextMessageType` or `lastTouch` only), the third leaves the list as it is and the last only adds at the end. -/
theorem outbound_leaves_on_ack_or_purge (x : ExtCalls) (h : Nat) (msgId : Int) (e : Engine) :
    ((∀ m, (e.clients h).c.outboundMsgs.find? (fun m => decide (m.msgid = msgId)) = some m → m.qos = 1 →
        ∃ pre post, (e.clients h).c.outboundMsgs = pre ++ m :: post ∧ (∀ a ∈ pre, a.msgid ≠ msgId) ∧
          ((MQTTProtocol_handlePubacks x h msgId e).2.clients h).c.outboundMsgs = pre ++ post) ∧
      ((∀ m, (e.clients h).c.outboundMsgs.find? (fun m => decide (m.msgid = msgId)) = some m → m.qos ≠ 1) →
        (MQTTProtocol_handlePubacks x h msgId e).2 = e) ∧
      (((MQTTProtocol_handlePubacks x h msgId e).2.clients h).c.outboundMsgs.filter
          (fun a => decide (a.msgid ≠ msgId)) =
        (e.clients h).c.outboundMsgs.filter (fun a => decide (a.msgid ≠ msgId)))) ∧
    ((∀ m, (e.clients h).c.outboundMsgs.find? (fun m => decide (m.msgid = msgId)) = some m →
        m.qos = 2 → m.nextMessageType = PUBCOMP →
        ∃ pre post, (e.clients h).c.outboundMsgs = pre ++ m :: post ∧ (∀ a ∈ pre, a.msgid ≠ msgId) ∧
          ((MQTTProtocol_handlePubcomps x h msgId e).2.clients h).c.outboundMsgs = pre ++ post) ∧
      ((∀ m, (e.clients h).c.outboundMsgs.find? (fun m => decide (m.msgid = msgId)) = some m →
          ¬ (m.qos = 2 ∧ m.nextMessageType = PUBCOMP)) →
        (MQTTProtocol_handlePubcomps x h msgId e).2 = e) ∧
      (((MQTTProtocol_handlePubcomps x h msgId e).2.clients h).c.outboundMsgs.filter
          (fun a => decide (a.msgid ≠ msgId)) =
        (e.clients h).c.outboundMsgs.filter (fun a => decide (a.msgid ≠ msgId)))) ∧
    ((MQTTAsync_cleanSession h e).clients h).c.outboundMsgs = [] ∧
    (((MQTTProtocol_handlePubrecs x h msgId e).2.clients h).c.outboundMsgs.map (fun m => m.msgid) =
      (e.clients h).c.outboundMsgs.map (fun m => m.msgid)) ∧
    (∀ (y : RetryCalls) (now : Nat) (regardless : Bool),
      ((MQTTProtocol_retries y now h regardless e).clients h).c.outboundMsgs.map
          (fun m => { m with lastTouch := 0 }) =
        (e.clients h).c.outboundMsgs.map (fun m => { m with lastTouch := 0 })) ∧
    ((MQTTAsync_closeOnly h e).clients h).c.outboundMsgs = (e.clients h).c.outboundMsgs ∧
    (∀ (publish : Publish) (qos retained : Int),
      ∃ l, ((MQTTProtocol_startPublish x h publish qos retained e).2.clients h).c.outboundMsgs =
        (e.clients h).c.outboundMsgs ++ l) := by
  refine ⟨handlePubacks_removes x h msgId e, handlePubcomps_removes x h msgId e, ?_,
    handlePubrecs_ids x h msgId e, fun y now regardless => retries_keeps_messages y now h regardless e,
    (closeOnly_state h e).2.2.2.2.2.2.1, ?_⟩
  · rw [cleanSession_client]
  · intro publish qos retained
    unfold MQTTProtocol_startPublish
    dsimp only
    split
    · exact ⟨[MQTTProtocol_createMessage x publish qos retained], by simp⟩
    · exact ⟨[], by simp⟩
